import Mathlib

/-!
Transient-CW window marginalisation (`transientCW_utils.c`).

A shallow embedding of `lalapps/src/pulsar/transientCW_utils.c` (namespace `TransientCW`),
of the statistics dependency map of `lalapps/src/pulsar/Weave/Statistics.c` (namespace
`Weave`) and of `XLALPSpinFinalMassSpin`, `XLALPSpinGenerateQNMFreq` and
`XLALPSpinInspiralAttachRingdownWave` of `lalinspiral/src/LALPSpinInspiralRingdownWave.c`
(namespace `PSpin`).

Conventions of the embedding:

* `REAL8` values live in an arbitrary linearly ordered field `K` with a floor function
  (`ℚ` for evaluation, `ℝ` for the analytic statements).  Arithmetic is therefore exact;
  IEEE rounding, infinities and NaN are not represented.  A division by zero, which the C
  code turns into `inf`/`NaN`, is visible in the model through the operands (for instance
  the determinant `Ad * Bd - Cd * Cd` of a grid cell); the quotient itself has no meaning
  in the model.  The predicate `FiniteCell` says that the statistic of a grid cell is
  computed without such a division.
* `exp` and `log` of the C library and the constants of `transientCW_utils.h` that are not
  part of the translated file are fields of an environment `Env K`.
* `UINT4` values are natural numbers; every `UINT4` operation of the source is followed by
  an explicit reduction modulo `2^32`.  A conversion of a `REAL8` value to `UINT4` truncates
  and is undefined for values outside the range of `UINT4`.
* A C function returning an XLAL status becomes a function into `Res`, whose third
  alternative marks executions that leave the model: C undefined behaviour (reading outside
  an array, dereferencing NULL, integer division by zero) and unchecked failed callees.
-/

set_option linter.unusedSectionVars false

namespace TransientCW

/-! ## Machine integers -/

/-- Reduction of a natural number to the range of `UINT4`. -/
@[irreducible] def u32 (n : Nat) : Nat := n % 4294967296

/-- Subtraction `a - b` of two `UINT4` values, wrapping modulo `2^32`. -/
@[irreducible] def u32sub (a b : Nat) : Nat :=
  if b % 4294967296 ≤ a % 4294967296 then a % 4294967296 - b % 4294967296
  else a % 4294967296 + (4294967296 - b % 4294967296)

/-- Conversion of a `UINT4` value to `INT4` (two's complement). -/
@[irreducible] def toINT4 (v : Nat) : Int :=
  if v % 4294967296 < 2147483648 then ((v % 4294967296 : Nat) : Int)
  else ((v % 4294967296 : Nat) : Int) - 4294967296

/-- The constant `LAL_INT4_MAX` defined at the top of the translated file. -/
@[reducible] def LAL_INT4_MAX : Nat := 2147483647

/-! ## Status values -/

/-- The XLAL error numbers raised by the translated functions. -/
inductive XlalErrno where
  | XLAL_EINVAL
  | XLAL_EDOM
  | XLAL_EFUNC
  | XLAL_ENOMEM
  | XLAL_ERANGE
  | XLAL_EFAULT
  | XLAL_EFAILED
  deriving DecidableEq, Repr

/-- Outcome of a translated C function: a value (`XLAL_SUCCESS`), an XLAL error, or an
execution that leaves the model (C undefined behaviour, or a callee failure that the caller
does not check). -/
inductive Res (α : Type) where
  | ok (a : α)
  | fail (e : XlalErrno)
  | undefined
  deriving DecidableEq

/-- Sequencing of two fallible computations. -/
def Res.bind {α β : Type} (r : Res α) (f : α → Res β) : Res β :=
  match r with
  | .ok a => f a
  | .fail e => .fail e
  | .undefined => .undefined

/-- A `for (i = start; i < start + count; i ++)` loop whose body may fail; the loop stops at
the first failing iteration. -/
def forRange {σ : Type} (body : Nat → σ → Res σ) : Nat → Nat → σ → Res σ
  | 0, _, s => .ok s
  | count + 1, i, s =>
    match body i s with
    | .ok s1 => forRange body count (i + 1) s1
    | .fail e => .fail e
    | .undefined => .undefined

/-! ## Data model -/

/-- The libm functions and header constants the translated file relies on. -/
structure Env (K : Type) where
  /-- The function `exp` of `math.h`. -/
  exp : K → K
  /-- The function `log` of `math.h`. -/
  log : K → K
  /-- The macro `TRANSIENT_EXP_EFOLDING` of `transientCW_utils.h`. -/
  TRANSIENT_EXP_EFOLDING : K
  /-- The global `lalDebugLevel`. -/
  lalDebugLevel : Nat

/-- A complex number as a pair of reals (`COMPLEX8`). -/
structure COMPLEX8 (K : Type) where
  re : K
  im : K
  deriving DecidableEq

/-- One F-statistic atom (`FstatAtom`). -/
structure FstatAtom (K : Type) where
  timestamp : Nat
  a2_alpha : K
  b2_alpha : K
  ab_alpha : K
  Fa_alpha : COMPLEX8 K
  Fb_alpha : COMPLEX8 K
  deriving DecidableEq

/-- A vector of atoms with its cadence (`FstatAtomVector`); the field `length` of the C
struct is the length of `data`. -/
structure FstatAtomVector (K : Type) where
  TAtom : Nat
  data : List (FstatAtom K)
  deriving DecidableEq

/-- The array `data[0 .. length)` of per-detector atom vectors (`MultiFstatAtomVector`);
an entry `none` is a NULL pointer. -/
abbrev MultiFstatAtomVector (K : Type) := List (Option (FstatAtomVector K))

/-- Window type tags (`transientWindowType_t`). -/
@[reducible] def TRANSIENT_NONE : Nat := 0

/-- Rectangular window tag. -/
@[reducible] def TRANSIENT_RECTANGULAR : Nat := 1

/-- Exponential window tag. -/
@[reducible] def TRANSIENT_EXPONENTIAL : Nat := 2

/-- End marker of the window type enumeration. -/
@[reducible] def TRANSIENT_LAST : Nat := 3

/-- One transient window (`transientWindow_t`). -/
structure transientWindow_t where
  type : Nat
  t0 : Nat
  tau : Nat

/-- A `gsl_matrix` of `size1` rows and `size2` columns. -/
structure gsl_matrix (K : Type) where
  size1 : Nat
  size2 : Nat
  data : Nat → Nat → K

/-- A transient window range (`transientWindowRange_t`); all times are `UINT4`. -/
structure transientWindowRange_t (K : Type) where
  type : Nat
  t0 : Nat
  t0Band : Nat
  dt0 : Nat
  tau : Nat
  tauBand : Nat
  dtau : Nat
  exp_buffer : Option (gsl_matrix K)

/-- Doppler parameters carried by a candidate (`PulsarDopplerParams`, the fields the
translated file reads). -/
structure PulsarDopplerParams (K : Type) where
  Alpha : K
  Delta : K
  fkdot : List K
  deriving DecidableEq

/-- A transient candidate (`TransientCandidate_t`). -/
structure TransientCandidate_t (K : Type) where
  doppler : PulsarDopplerParams K
  twoFtotal : K
  maxTwoF : K
  logBstat : K
  t0offs_maxF : Nat
  tau_maxF : Nat
  deriving DecidableEq

/-- The lookup table for `e^(-x)` (`expLUT_t`); the field `length` is stored next to the
array as in the C struct. -/
structure expLUT_t (K : Type) where
  xmax : K
  length : Nat
  data : List K
  deriving DecidableEq

variable {K : Type} [LinearOrderedField K] [FloorRing K]

/-- The zero-initialised candidate (`empty_TransientCandidate`). -/
def empty_TransientCandidate : TransientCandidate_t K :=
  { doppler := { Alpha := 0, Delta := 0, fkdot := [0, 0, 0, 0] }
    twoFtotal := 0, maxTwoF := 0, logBstat := 0, t0offs_maxF := 0, tau_maxF := 0 }

/-- The zero atom produced by `XLALCreateFstatAtomVector`. -/
def zeroAtom : FstatAtom K :=
  { timestamp := 0, a2_alpha := 0, b2_alpha := 0, ab_alpha := 0
    Fa_alpha := ⟨0, 0⟩, Fb_alpha := ⟨0, 0⟩ }

/-- The macro `SQ`. -/
def SQ (x : K) : K := x * x

/-! ## GSL matrices -/

/-- The call `gsl_matrix_calloc (n1, n2)`: a zero matrix; GSL rejects a zero dimension and
returns NULL (`none`). -/
def gsl_matrix_calloc (n1 n2 : Nat) : Option (gsl_matrix K) :=
  if n1 = 0 ∨ n2 = 0 then none
  else some { size1 := n1, size2 := n2, data := fun _ _ => 0 }

/-- The call `gsl_matrix_get (M, i, j)`; an index out of range leaves the model. -/
def gsl_matrix_get (M : gsl_matrix K) (i j : Nat) : Res K :=
  if i < M.size1 ∧ j < M.size2 then .ok (M.data i j) else .undefined

/-- The call `gsl_matrix_set (M, i, j, x)`; an index out of range leaves the model. -/
def gsl_matrix_set (M : gsl_matrix K) (i j : Nat) (x : K) : Res (gsl_matrix K) :=
  if i < M.size1 ∧ j < M.size2 then
    .ok { M with data := fun a b => if a = i ∧ b = j then x else M.data a b }
  else .undefined

/-! ## Window timespan and window values -/

/-- The function `XLALGetTransientWindowTimespan`: the pair `(t0, t1)` of the window.  The
conversion of `win_t0 + TRANSIENT_EXP_EFOLDING * win_tau + 0.5` to `UINT4` truncates; it is
undefined for values outside the range of `UINT4`. -/
def XLALGetTransientWindowTimespan (env : Env K) (transientWindow : transientWindow_t) :
    Res (Nat × Nat) :=
  let win_t0 := transientWindow.t0
  let win_tau := transientWindow.tau
  if transientWindow.type = TRANSIENT_NONE then
    .ok (0, LAL_INT4_MAX)
  else if transientWindow.type = TRANSIENT_EXPONENTIAL then
    let v := (win_t0 : K) + env.TRANSIENT_EXP_EFOLDING * (win_tau : K) + 1 / 2
    if v ≤ -1 ∨ 4294967296 ≤ v then .undefined
    else .ok (win_t0, ⌊v⌋₊)
  else if transientWindow.type = TRANSIENT_RECTANGULAR then
    .ok (win_t0, u32 (win_t0 + win_tau))
  else
    .fail .XLAL_EINVAL

/-- Modelled from the spec: the inline function `XLALGetExponentialTransientWindowValue` of
`transientCW_utils.h`, which is not among the translated sources.  Section 4.3: the weight
is 0 for `t < t0` or `t ≥ t1` and `exp (-(t - t0) / tau)` otherwise. -/
def XLALGetExponentialTransientWindowValue (env : Env K) (timestamp t0 t1 tau : Nat) : K :=
  if timestamp < t0 ∨ t1 ≤ timestamp then 0
  else env.exp (-(((timestamp : K) - (t0 : K)) / (tau : K)))

/-- Modelled from the spec: the inline function `XLALGetRectangularTransientWindowValue` of
`transientCW_utils.h`.  Section 4.3: 1 if `t0 ≤ t < t1`, else 0. -/
def XLALGetRectangularTransientWindowValue (timestamp t0 t1 : Nat) : K :=
  if t0 ≤ timestamp ∧ timestamp < t1 then 1 else 0

/-! ## The buffer of exponential window values -/

/-- The inner loop of `XLALFillExpWindowBuffer` over the columns `i < N_ti` of row `n`:
`gsl_matrix_set ( exp_buffer, n, i, win_n_i )` with `t_i = t0 + i * dt0` and
`tau_n = tau + n * dtau`. -/
def fillExpWindowRow (env : Env K) (windowRange : transientWindowRange_t K) (t0 t1 N_ti : Nat)
    (n : Nat) (exp_buffer : gsl_matrix K) : Res (gsl_matrix K) :=
  forRange (fun i buf =>
      let t_i := u32 (t0 + i * windowRange.dt0)
      let tau_n := u32 (windowRange.tau + n * windowRange.dtau)
      let win_n_i := XLALGetExponentialTransientWindowValue env t_i t0 t1 tau_n
      gsl_matrix_set buf n i win_n_i)
    N_ti 0 exp_buffer

/-- The function `XLALFillExpWindowBuffer`: the window range with its new buffer; `none` is a
NULL `windowRange`.  The sizes `N_ti = ceil (1.0 * t1 / dt0)` and
`N_tau = ceil (1.0 * tauMax / dtau)` are `REAL8` quotients converted to `UINT4`, which is
undefined for a zero step. -/
def XLALFillExpWindowBuffer (env : Env K) (windowRange : Option (transientWindowRange_t K)) :
    Res (transientWindowRange_t K) :=
  match windowRange with
  | none => .fail .XLAL_EINVAL
  | some windowRange =>
    if windowRange.type ≠ TRANSIENT_EXPONENTIAL then .fail .XLAL_EINVAL
    else if windowRange.exp_buffer.isSome then .fail .XLAL_EINVAL
    else
      let tauMax := u32 (windowRange.tau + windowRange.tauBand)
      match XLALGetTransientWindowTimespan env
          { type := TRANSIENT_EXPONENTIAL, t0 := 0, tau := tauMax } with
      | .fail _ => .fail .XLAL_EFUNC
      | .undefined => .undefined
      | .ok (t0, t1) =>
        if windowRange.dt0 = 0 ∨ windowRange.dtau = 0 then .undefined
        else
          let N_ti := ⌈(t1 : K) / (windowRange.dt0 : K)⌉₊
          let N_tau := ⌈(tauMax : K) / (windowRange.dtau : K)⌉₊
          match gsl_matrix_calloc N_tau N_ti with
          | none => .fail .XLAL_ENOMEM
          | some buf0 =>
            match forRange (fillExpWindowRow env windowRange t0 t1 N_ti) N_tau 0 buf0 with
            | .fail e => .fail e
            | .undefined => .undefined
            | .ok buf => .ok { windowRange with exp_buffer := some buf }

/-! ## The lookup table for `e^(-x)` -/

/-- The function `XLALCreateExpLUT`: `length` samples `exp (-(i * dx))`, `dx = xmax / length`.
The byte count `len = length * sizeof(*ret->data)` of the table is a `UINT4` (a `REAL8` has
8 bytes); when `length * 8` does not fit `UINT4`, the table is allocated with fewer bytes
than the loop fills, and the model is left. -/
def XLALCreateExpLUT (env : Env K) (xmax : K) (length : Nat) : Res (expLUT_t K) :=
  if xmax ≤ 0 then .fail .XLAL_EDOM
  else if length = 0 then .fail .XLAL_EDOM
  else if u32 (length * 8) ≠ length * 8 then .undefined
  else
    let dx := xmax / (length : K)
    .ok { xmax := xmax, length := length
          data := (List.range length).map (fun (i : Nat) => env.exp (-((i : K) * dx))) }

/-- The function `XLALFastNegExp`: table lookup of `e^(-mx)`.  The conversion of
`mx * dxInv + 0.5` to `UINT4` truncates; it is undefined for values outside the range of
`UINT4`, and so is a read past the end of the table. -/
def XLALFastNegExp (env : Env K) (mx : K) (lut : Option (expLUT_t K)) : Res K :=
  if 0 < env.lalDebugLevel ∧ lut.isNone then .fail .XLAL_EINVAL
  else if 0 < env.lalDebugLevel ∧ mx < 0 then .fail .XLAL_EDOM
  else
    match lut with
    | none => .undefined
    | some lut =>
      if mx > lut.xmax then .ok 0
      else
        let dxInv := (lut.length : K) / lut.xmax
        let v := mx * dxInv + 1 / 2
        if v ≤ -1 ∨ 4294967296 ≤ v then .undefined
        else
          let i0 := ⌊v⌋₊
          if i0 < lut.length then
            match lut.data[i0]? with
            | some y => .ok y
            | none => .undefined
          else .undefined

/-! ## Merging the per-detector atoms -/

/-- The check `multiAtoms->data[X]->TAtom != TAtom` for all detectors `X`. -/
def checkTAtoms (TAtom : Nat) : List (Option (FstatAtomVector K)) → Res Unit
  | [] => .ok ()
  | none :: _ => .undefined
  | some v :: rest => if v.TAtom ≠ TAtom then .fail .XLAL_EINVAL else checkTAtoms TAtom rest

/-- The loop that finds the earliest and latest timestamps `(tMin, tMax)`: it compares the
first atom of each detector with `tMin` and the last one with `tMax`. -/
def minMaxTimestamps : List (Option (FstatAtomVector K)) → Nat × Nat → Res (Nat × Nat)
  | [], acc => .ok acc
  | none :: _, _ => .undefined
  | some v :: rest, (tMin, tMax) =>
    match v.data.head?, v.data.getLast? with
    | some first, some last =>
      let tMin1 := if first.timestamp < tMin then first.timestamp else tMin
      let tMax1 := if last.timestamp > tMax then last.timestamp else tMax
      minMaxTimestamps rest (tMin1, tMax1)
    | _, _ => .undefined

/-- Adds the atom `atom_X_i` into the bin `destAtom` and sets the bin's timestamp. -/
def addToBin (destAtom atom_X_i : FstatAtom K) (timestamp : Nat) : FstatAtom K :=
  { timestamp := timestamp
    a2_alpha := destAtom.a2_alpha + atom_X_i.a2_alpha
    b2_alpha := destAtom.b2_alpha + atom_X_i.b2_alpha
    ab_alpha := destAtom.ab_alpha + atom_X_i.ab_alpha
    Fa_alpha := ⟨destAtom.Fa_alpha.re + atom_X_i.Fa_alpha.re,
                 destAtom.Fa_alpha.im + atom_X_i.Fa_alpha.im⟩
    Fb_alpha := ⟨destAtom.Fb_alpha.re + atom_X_i.Fb_alpha.re,
                 destAtom.Fb_alpha.im + atom_X_i.Fb_alpha.im⟩ }

/-- The inner loop over the atoms `i` of one detector: atom `i` goes to bin
`j = floor ((t_X_i - tMin) / deltaT)`, whose timestamp is set to `tMin + i * deltaT`. -/
def binAtoms (tMin deltaT : Nat) :
    List (FstatAtom K) → Nat → List (FstatAtom K) → Res (List (FstatAtom K))
  | [], _, atomsOut => .ok atomsOut
  | atom_X_i :: rest, i, atomsOut =>
    let t_X_i := atom_X_i.timestamp
    let j := u32 (u32sub t_X_i tMin / deltaT)
    match atomsOut[j]? with
    | some destAtom =>
      binAtoms tMin deltaT rest (i + 1)
        (atomsOut.set j (addToBin destAtom atom_X_i (u32 (tMin + i * deltaT))))
    | none => .undefined

/-- The outer loop over the detectors `X` of the summation into bins. -/
def binDetectors (tMin deltaT : Nat) :
    List (Option (FstatAtomVector K)) → List (FstatAtom K) → Res (List (FstatAtom K))
  | [], atomsOut => .ok atomsOut
  | none :: _, _ => .undefined
  | some v :: rest, atomsOut =>
    match binAtoms tMin deltaT v.data 0 atomsOut with
    | .ok out1 => binDetectors tMin deltaT rest out1
    | .fail e => .fail e
    | .undefined => .undefined

/-- The function `XLALmergeMultiFstatAtomsBinned`; `none` is a NULL `multiAtoms`. -/
def XLALmergeMultiFstatAtomsBinned (multiAtoms : Option (MultiFstatAtomVector K))
    (deltaT : Nat) : Res (FstatAtomVector K) :=
  match multiAtoms with
  | none => .fail .XLAL_EINVAL
  | some [] => .fail .XLAL_EINVAL
  | some (none :: _) => .fail .XLAL_EINVAL
  | some (some first :: rest) =>
    if deltaT = 0 then .fail .XLAL_EINVAL
    else
      let TAtom := first.TAtom
      match checkTAtoms TAtom (some first :: rest) with
      | .fail e => .fail e
      | .undefined => .undefined
      | .ok _ =>
        match minMaxTimestamps (some first :: rest) (LAL_INT4_MAX - 1, 0) with
        | .fail e => .fail e
        | .undefined => .undefined
        | .ok (tMin, tMax) =>
          let NBinnedAtoms := u32 (u32sub tMax tMin / deltaT + 1)
          match binDetectors tMin deltaT (some first :: rest)
              (List.replicate NBinnedAtoms zeroAtom) with
          | .fail e => .fail e
          | .undefined => .undefined
          | .ok out => .ok { TAtom := deltaT, data := out }

/-! ## The transient B-statistic -/

/-- The running sums `Ad, Bd, Cd, Fa_re, Fa_im, Fb_re, Fb_im` of the inner loop. -/
structure Accum (K : Type) where
  Ad : K
  Bd : K
  Cd : K
  Fa_re : K
  Fa_im : K
  Fb_re : K
  Fb_im : K
  deriving DecidableEq

/-- Ghost record of one processed grid cell `{m, n}`: the window, the atom index range and
the values of the running sums and of `F` at the moment `F` is stored.  It is not part of
the C state; it names the intermediate values the statements below speak about. -/
structure CellRecord (K : Type) where
  m : Nat
  n : Nat
  window_t0 : Nat
  window_tau : Nat
  t0 : Nat
  t1 : Nat
  i_t0 : Nat
  i_t1 : Nat
  acc : Accum K
  F : K
  deriving DecidableEq

/-- The variables modified by the double loop over `{m, n}`. -/
structure ScanState (K : Type) where
  acc : Accum K
  i_t1_last : Nat
  maxF : K
  ret : TransientCandidate_t K
  F_mn : gsl_matrix K
  /-- Ghost: the cells processed so far, in scan order. -/
  trace : List (CellRecord K)

/-- What `XLALComputeTransientBstat` has computed when it reaches its `return XLAL_SUCCESS`. -/
structure EngineResult (K : Type) where
  ret : TransientCandidate_t K
  atoms : FstatAtomVector K
  windowRange : transientWindowRange_t K
  N_t0Range : Nat
  N_tauRange : Nat
  maxF : K
  F_mn : gsl_matrix K
  sum_eB : K
  trace : List (CellRecord K)

/-- The reset `Ad=0; Bd=0; Cd=0; Fa_re=0; Fa_im=0; Fb_re=0; Fb_im=0`. -/
def zeroAccum : Accum K :=
  { Ad := 0, Bd := 0, Cd := 0, Fa_re := 0, Fa_im := 0, Fb_re := 0, Fb_im := 0 }

/-- One pass through the body of the rectangular summation loop: `thisAtom_i` is added,
unweighted, on top of the running sums. -/
def accAddAtom (s : Accum K) (thisAtom_i : FstatAtom K) : Accum K :=
  { Ad := s.Ad + thisAtom_i.a2_alpha
    Bd := s.Bd + thisAtom_i.b2_alpha
    Cd := s.Cd + thisAtom_i.ab_alpha
    Fa_re := s.Fa_re + thisAtom_i.Fa_alpha.re
    Fa_im := s.Fa_im + thisAtom_i.Fa_alpha.im
    Fb_re := s.Fb_re + thisAtom_i.Fb_alpha.re
    Fb_im := s.Fb_im + thisAtom_i.Fb_alpha.im }

/-- Body of the rectangular summation loop at index `i`: reads `atoms->data[i]` and adds it. -/
def addAtomRect (atoms : List (FstatAtom K)) (i : Nat) (s : Accum K) : Res (Accum K) :=
  match atoms[i]? with
  | none => .undefined
  | some thisAtom_i => .ok (accAddAtom s thisAtom_i)

/-- One pass through the body of the exponential summation loop: `thisAtom_i` is added with
weight `win_i` on `Fa`, `Fb` and `win_i * win_i` on `A`, `B`, `C`. -/
def accAddWeighted (s : Accum K) (thisAtom_i : FstatAtom K) (win_i : K) : Accum K :=
  let win2_i := win_i * win_i
  { Ad := s.Ad + thisAtom_i.a2_alpha * win2_i
    Bd := s.Bd + thisAtom_i.b2_alpha * win2_i
    Cd := s.Cd + thisAtom_i.ab_alpha * win2_i
    Fa_re := s.Fa_re + thisAtom_i.Fa_alpha.re * win_i
    Fa_im := s.Fa_im + thisAtom_i.Fa_alpha.im * win_i
    Fb_re := s.Fb_re + thisAtom_i.Fb_alpha.re * win_i
    Fb_im := s.Fb_im + thisAtom_i.Fb_alpha.im * win_i }

/-- The window weight `win_i` of atom `i` in the exponential summation loop: read from
`exp_buffer` when the range carries one, computed otherwise. -/
def expWeight (env : Env K) (exp_buffer : Option (gsl_matrix K)) (n t0 t1 tau : Nat)
    (i t_i : Nat) : Res K :=
  match exp_buffer with
  | some buf => gsl_matrix_get buf n i
  | none => .ok (XLALGetExponentialTransientWindowValue env t_i t0 t1 tau)

/-- Body of the exponential summation loop at index `i`: reads `atoms->data[i]`, obtains its
window weight and adds the weighted atom. -/
def addAtomExp (env : Env K) (atoms : List (FstatAtom K)) (exp_buffer : Option (gsl_matrix K))
    (n t0 t1 tau : Nat) (i : Nat) (s : Accum K) : Res (Accum K) :=
  match atoms[i]? with
  | none => .undefined
  | some thisAtom_i =>
    let t_i := thisAtom_i.timestamp
    match expWeight env exp_buffer n t0 t1 tau i t_i with
    | .fail e => .fail e
    | .undefined => .undefined
    | .ok win_i => .ok (accAddWeighted s thisAtom_i win_i)

/-- The "generic F-stat calculation from A,B,C, Fa, Fb" of the inner loop, with the
optional regularisation `F += log (DdInv)`.  For a zero determinant `Ad * Bd - Cd * Cd` the
C code computes `DdInv = 1.0 / 0 = inf` and `F` is `inf` or `NaN` (and with the
regularisation `log (DdInv)` is `NaN` for a negative determinant); the field `K` holds no
such value, and the number this definition gives there is not the value of the C code.
Statements about the value of `F` therefore carry the hypothesis `FiniteCell`. -/
def FstatOfAccum (env : Env K) (useFReg : Bool) (s : Accum K) : K :=
  let DdInv := 1 / (s.Ad * s.Bd - s.Cd * s.Cd)
  let F := DdInv * (s.Bd * (SQ s.Fa_re + SQ s.Fa_im) + s.Ad * (SQ s.Fb_re + SQ s.Fb_im)
                    - 2 * s.Cd * (s.Fa_re * s.Fb_re + s.Fa_im * s.Fb_im))
  if useFReg then F + env.log DdInv else F

/-- The sums of a cell for which the statistic of the C code is a finite number, which
`FstatOfAccum` then gives exactly: the determinant `Ad * Bd - Cd * Cd`, by which the code
divides, is not zero, and it is positive when the regularisation takes the logarithm of its
inverse. -/
def FiniteCell (useFReg : Bool) (s : Accum K) : Prop :=
  if useFReg then 0 < s.Ad * s.Bd - s.Cd * s.Cd else s.Ad * s.Bd - s.Cd * s.Cd ≠ 0

instance (useFReg : Bool) (s : Accum K) : Decidable (FiniteCell useFReg s) := by
  unfold FiniteCell
  infer_instance

/-- The two clamps `if ( i_tmp < 0 ) i_tmp = 0;` and `if ( i >= numAtoms ) i = numAtoms - 1;`
applied to the `INT4` value `i_tmp`. -/
def clampIndex (i_tmp : Int) (numAtoms : Nat) : Nat :=
  let i_tmp1 : Int := if i_tmp < 0 then 0 else i_tmp
  let i := i_tmp1.toNat
  if i ≥ numAtoms then u32sub numAtoms 1 else i

/-- The start index `i_t0` of a window starting at `window_t0`:
`( window.t0 - t0_data + TAtomHalf ) / TAtom` in `UINT4`, converted to `INT4` and clamped. -/
def startIndex (window_t0 t0_data TAtom numAtoms : Nat) : Nat :=
  clampIndex (toINT4 (u32 (u32sub window_t0 t0_data + TAtom / 2) / TAtom)) numAtoms

/-- The end index `i_t1` of a window ending at `t1`:
`( t1 - t0_data + TAtomHalf ) / TAtom - 1` in `UINT4`, converted to `INT4` and clamped. -/
def endIndex (t1 t0_data TAtom numAtoms : Nat) : Nat :=
  clampIndex (toINT4 (u32sub (u32 (u32sub t1 t0_data + TAtom / 2) / TAtom) 1)) numAtoms

/-- The summation over atoms of one grid cell, by window type: the new running sums and the
new value of `i_t1_last`. -/
def sumCell (env : Env K) (atoms : FstatAtomVector K) (windowRange : transientWindowRange_t K)
    (n t0 t1 window_tau i_t0 i_t1 : Nat) (s : ScanState K) : Res (Accum K × Nat) :=
  if windowRange.type = TRANSIENT_RECTANGULAR then
    match forRange (addAtomRect atoms.data) (i_t1 + 1 - s.i_t1_last) s.i_t1_last s.acc with
    | .ok acc => .ok (acc, u32 (i_t1 + 1))
    | .fail e => .fail e
    | .undefined => .undefined
  else if windowRange.type = TRANSIENT_EXPONENTIAL then
    match forRange (addAtomExp env atoms.data windowRange.exp_buffer n t0 t1 window_tau)
        (i_t1 + 1 - i_t0) i_t0 zeroAccum with
    | .ok acc => .ok (acc, s.i_t1_last)
    | .fail e => .fail e
    | .undefined => .undefined
  else .fail .XLAL_EINVAL

/-- Body of the inner loop over the duration index `n`, for the row `m` whose window starts
at `window_t0` with atom index `i_t0`. -/
def innerBody (env : Env K) (atoms : FstatAtomVector K) (windowRange : transientWindowRange_t K)
    (useFReg : Bool) (t0_data TAtom : Nat) (m window_t0 i_t0 : Nat) (n : Nat)
    (s : ScanState K) : Res (ScanState K) :=
  let numAtoms := atoms.data.length
  let window_tau := u32 (windowRange.tau + n * windowRange.dtau)
  match XLALGetTransientWindowTimespan env
      { type := windowRange.type, t0 := window_t0, tau := window_tau } with
  | .fail _ => .fail .XLAL_EFUNC
  | .undefined => .undefined
  | .ok (t0, t1) =>
    let i_t1 := endIndex t1 t0_data TAtom numAtoms
    if i_t1 = i_t0 then .fail .XLAL_EDOM
    else
      match sumCell env atoms windowRange n t0 t1 window_tau i_t0 i_t1 s with
      | .fail e => .fail e
      | .undefined => .undefined
      | .ok (acc, i_t1_last) =>
        let F := FstatOfAccum env useFReg acc
        let maxF := if F > s.maxF then F else s.maxF
        let ret := if F > s.maxF then
            { s.ret with t0offs_maxF := u32sub window_t0 windowRange.t0, tau_maxF := window_tau }
          else s.ret
        match gsl_matrix_set s.F_mn m n F with
        | .fail e => .fail e
        | .undefined => .undefined
        | .ok F_mn =>
          .ok { acc := acc, i_t1_last := i_t1_last, maxF := maxF, ret := ret, F_mn := F_mn
                trace := s.trace ++ [{ m := m, n := n, window_t0 := window_t0
                                       window_tau := window_tau, t0 := t0, t1 := t1
                                       i_t0 := i_t0, i_t1 := i_t1, acc := acc, F := F }] }

/-- Body of the outer loop over the start-time index `m`. -/
def outerBody (env : Env K) (atoms : FstatAtomVector K) (windowRange : transientWindowRange_t K)
    (useFReg : Bool) (t0_data TAtom N_tauRange : Nat) (m : Nat) (s : ScanState K) :
    Res (ScanState K) :=
  let numAtoms := atoms.data.length
  let window_t0 := u32 (windowRange.t0 + m * windowRange.dt0)
  let i_t0 := startIndex window_t0 t0_data TAtom numAtoms
  forRange (innerBody env atoms windowRange useFReg t0_data TAtom m window_t0 i_t0)
    N_tauRange 0 { s with acc := zeroAccum, i_t1_last := i_t0 }

/-- Body of the inner reduction loop: `sum_eB += XLALFastNegExp ( DeltaF, expLUT )` with
`DeltaF = maxF - F_mn[m][n]`.  The value returned by `XLALFastNegExp` is used unchecked, so a
failed lookup leaves the model. -/
def reduceCell (env : Env K) (expLUT : expLUT_t K) (maxF : K) (F_mn : gsl_matrix K) (m : Nat)
    (n : Nat) (sum_eB : K) : Res K :=
  match gsl_matrix_get F_mn m n with
  | .fail e => .fail e
  | .undefined => .undefined
  | .ok Fmn =>
    let DeltaF := maxF - Fmn
    match XLALFastNegExp env DeltaF (some expLUT) with
    | .ok y => .ok (sum_eB + y)
    | .fail _ => .undefined
    | .undefined => .undefined

/-- The reduction `sum_eB = sum_{m,n} e^{-(maxF - F_mn)}` over the whole grid. -/
def reduceGrid (env : Env K) (expLUT : expLUT_t K) (maxF : K) (F_mn : gsl_matrix K)
    (N_t0Range N_tauRange : Nat) : Res K :=
  forRange (fun m sum_eB => forRange (reduceCell env expLUT maxF F_mn m) N_tauRange 0 sum_eB)
    N_t0Range 0 0

/-- The special treatment of `TRANSIENT_NONE`: a rectangular window spanning all the data. -/
def substituteNone (windowRange : transientWindowRange_t K) (t0_data numAtoms TAtom : Nat) :
    transientWindowRange_t K :=
  if windowRange.type = TRANSIENT_NONE then
    { windowRange with
      type := TRANSIENT_RECTANGULAR
      t0 := t0_data
      t0Band := 0
      dt0 := TAtom
      tau := u32 (numAtoms * TAtom)
      tauBand := 0
      dtau := TAtom }
  else windowRange

/-- The double loop of `XLALComputeTransientBstat` over the grid `{m, n}`, started with
`maxF = 0`, the candidate `ret` and the zero matrix `F_mn0`. -/
def scanGrid (env : Env K) (atoms : FstatAtomVector K) (windowRange : transientWindowRange_t K)
    (useFReg : Bool) (t0_data TAtom N_t0Range N_tauRange : Nat) (ret : TransientCandidate_t K)
    (F_mn0 : gsl_matrix K) : Res (ScanState K) :=
  forRange (outerBody env atoms windowRange useFReg t0_data TAtom N_tauRange) N_t0Range 0
    { acc := zeroAccum, i_t1_last := 0, maxF := 0, ret := ret, F_mn := F_mn0, trace := [] }

/-- The end of `XLALComputeTransientBstat`, after the double loop has left the state `s`:
`maxTwoF`, the reduction over the grid and the normalisation of `logBstat`. -/
def finishBstat (env : Env K) (expLUT : expLUT_t K) (atoms : FstatAtomVector K)
    (windowRange : transientWindowRange_t K) (TAtom N_t0Range N_tauRange : Nat)
    (s : ScanState K) : Res (EngineResult K) :=
  let ret1 := { s.ret with maxTwoF := 2 * s.maxF }
  match reduceGrid env expLUT s.maxF s.F_mn N_t0Range N_tauRange with
  | .fail e => .fail e
  | .undefined => .undefined
  | .ok sum_eB =>
    let logBhat := s.maxF + env.log sum_eB
    let normBh := 70 / ((u32 (N_t0Range * N_tauRange * TAtom * TAtom) : Nat) : K)
    .ok { ret := { ret1 with logBstat := env.log normBh + logBhat }
          atoms := atoms, windowRange := windowRange
          N_t0Range := N_t0Range, N_tauRange := N_tauRange
          maxF := s.maxF, F_mn := s.F_mn, sum_eB := sum_eB, trace := s.trace }

/-- The part of `XLALComputeTransientBstat` from the grid allocation to the final
normalisation, on the merged atoms.  The grid sizes divide by the steps `dt0` and `dtau` in
`UINT4`, which is undefined for a zero step. -/
def scanAndReduce (env : Env K) (atoms : FstatAtomVector K)
    (windowRange : transientWindowRange_t K) (useFReg : Bool) (TAtom t0_data : Nat)
    (ret : TransientCandidate_t K) : Res (EngineResult K) :=
  if windowRange.dt0 = 0 ∨ windowRange.dtau = 0 then .undefined
  else
    let N_t0Range := u32 (windowRange.t0Band / windowRange.dt0 + 1)
    let N_tauRange := u32 (windowRange.tauBand / windowRange.dtau + 1)
    match gsl_matrix_calloc N_t0Range N_tauRange with
    | none => .fail .XLAL_ENOMEM
    | some F_mn0 =>
      match XLALCreateExpLUT env 20 2000 with
      | .fail _ => .fail .XLAL_EFUNC
      | .undefined => .undefined
      | .ok expLUT =>
        match scanGrid env atoms windowRange useFReg t0_data TAtom N_t0Range N_tauRange ret
            F_mn0 with
        | .fail e => .fail e
        | .undefined => .undefined
        | .ok s => finishBstat env expLUT atoms windowRange TAtom N_t0Range N_tauRange s

/-- The body of `XLALComputeTransientBstat` after the initialisation of `*cand`: input
checks, merging of the atoms, substitution of the window `none`, scan and reduction.
A NULL `multiFstatAtoms` (or NULL `data`) is `none`. -/
def computeTransientBstat (env : Env K) (multiFstatAtoms : Option (MultiFstatAtomVector K))
    (windowRange : transientWindowRange_t K) (useFReg : Bool)
    (ret : TransientCandidate_t K) : Res (EngineResult K) :=
  match multiFstatAtoms with
  | none => .fail .XLAL_EINVAL
  | some [] => .undefined
  | some (none :: _) => .fail .XLAL_EINVAL
  | some (some first :: rest) =>
    if windowRange.type ≥ TRANSIENT_LAST then .fail .XLAL_EINVAL
    else
      let TAtom := first.TAtom
      match XLALmergeMultiFstatAtomsBinned (some (some first :: rest)) TAtom with
      | .fail _ => .fail .XLAL_EFUNC
      | .undefined => .undefined
      | .ok atoms =>
        let numAtoms := atoms.data.length
        match atoms.data.head? with
        | none => .undefined
        | some atom0 =>
          let t0_data := atom0.timestamp
          scanAndReduce env atoms (substituteNone windowRange t0_data numAtoms TAtom)
            useFReg TAtom t0_data ret

/-- The function `XLALComputeTransientBstat`: the returned status and the final content of
the caller's `*cand`, which held `cand` on entry. -/
def XLALComputeTransientBstat (env : Env K) (cand : TransientCandidate_t K)
    (multiFstatAtoms : Option (MultiFstatAtomVector K))
    (windowRange : transientWindowRange_t K) (useFReg : Bool) :
    Res Unit × TransientCandidate_t K :=
  let ret : TransientCandidate_t K := empty_TransientCandidate
  let cand1 : TransientCandidate_t K := (fun _ => ret) cand
  match computeTransientBstat env multiFstatAtoms windowRange useFReg ret with
  | .fail e => (.fail e, cand1)
  | .undefined => (.undefined, cand1)
  | .ok r => (.ok (), r.ret)

/-! ## Specification-level notions used in the statements -/

/-- The per-cell statistic in the words of the specification:
`F = (1/D) [B |Fa|^2 + A |Fb|^2 - 2 C Re (Fa conj Fb)]` with `D = A B - C^2`, written as one
quotient. -/
def specFstat (A B C : K) (Fa Fb : COMPLEX8 K) : K :=
  (B * (Fa.re ^ 2 + Fa.im ^ 2) + A * (Fb.re ^ 2 + Fb.im ^ 2)
    - 2 * C * (Fa.re * Fb.re + Fa.im * Fb.im)) / (A * B - C ^ 2)

/-- The statistic in the words of the specification, of the five sums of a cell. -/
def specFstatOfSums (s : Accum K) : K :=
  specFstat s.Ad s.Bd s.Cd ⟨s.Fa_re, s.Fa_im⟩ ⟨s.Fb_re, s.Fb_im⟩

/-- One step of the running maximum kept by the scan: the triple
`(maxF, t0offs_maxF, tau_maxF)` after the cell `c` has been processed. -/
def peakStep (windowRange : transientWindowRange_t K) (p : K × Nat × Nat) (c : CellRecord K) :
    K × Nat × Nat :=
  if c.F > p.1 then (c.F, u32sub c.window_t0 windowRange.t0, c.window_tau) else p

/-- The unweighted sums of all components over a list of atoms. -/
def sumAtoms (atoms : List (FstatAtom K)) : Accum K :=
  atoms.foldl accAddAtom zeroAccum

/-- What the scan establishes for the `k`-th processed cell `c` (counting in scan order, with
`N_tauRange` cells per row): its grid position, its window, its atom indices, and that the
stored `F` is the statistic of the running sums at that moment. -/
def CellOK (env : Env K) (atoms : FstatAtomVector K) (windowRange : transientWindowRange_t K)
    (useFReg : Bool) (t0_data TAtom N_tauRange : Nat) (k : Nat) (c : CellRecord K) : Prop :=
  c.m = k / N_tauRange ∧ c.n = k % N_tauRange ∧
  c.window_t0 = u32 (windowRange.t0 + c.m * windowRange.dt0) ∧
  c.window_tau = u32 (windowRange.tau + c.n * windowRange.dtau) ∧
  XLALGetTransientWindowTimespan env
    { type := windowRange.type, t0 := c.window_t0, tau := c.window_tau } = .ok (c.t0, c.t1) ∧
  c.i_t0 = startIndex c.window_t0 t0_data TAtom atoms.data.length ∧
  c.i_t1 = endIndex c.t1 t0_data TAtom atoms.data.length ∧
  c.i_t1 ≠ c.i_t0 ∧
  c.F = FstatOfAccum env useFReg c.acc

/-- The invariant of the double loop: every processed cell is as `CellOK` says and its `F`
is what the matrix holds at its position; the running maximum and the peak location are the
fold of `peakStep` over the processed cells; the other fields of `ret` are untouched. -/
def ScanInv (env : Env K) (atoms : FstatAtomVector K) (windowRange : transientWindowRange_t K)
    (useFReg : Bool) (t0_data TAtom N_tauRange : Nat) (ret0 : TransientCandidate_t K)
    (s : ScanState K) : Prop :=
  (∀ k c, s.trace[k]? = some c →
    CellOK env atoms windowRange useFReg t0_data TAtom N_tauRange k c ∧
      s.F_mn.data c.m c.n = c.F) ∧
  (s.maxF, s.ret.t0offs_maxF, s.ret.tau_maxF) =
    s.trace.foldl (peakStep windowRange) (0, ret0.t0offs_maxF, ret0.tau_maxF) ∧
  s.ret.doppler = ret0.doppler ∧ s.ret.twoFtotal = ret0.twoFtotal ∧
  s.ret.maxTwoF = ret0.maxTwoF ∧ s.ret.logBstat = ret0.logBstat

/-- The table that `XLALComputeTransientBstat` builds with `XLALCreateExpLUT ( 20.0, 2000 )`. -/
def defaultExpLUT (env : Env K) : expLUT_t K :=
  { xmax := 20, length := 2000
    data := (List.range 2000).map (fun (i : Nat) => env.exp (-((i : K) * (20 / ((2000 : Nat) : K))))) }

/-- A computable environment over `ℚ`, used to run the model on concrete inputs.  Its `exp`
and `log` are the first-order stand-ins `1 + x` and `x - 1` (exact at `exp 0 = 1` and
`log 1 = 0`); the e-folding constant is 3 and the debug level 0. -/
def ratEnv : Env ℚ :=
  { exp := fun x => 1 + x, log := fun x => x - 1, TRANSIENT_EXP_EFOLDING := 3
    lalDebugLevel := 0 }

/-! ## Concrete inputs used in the statements -/

/-- An atom with `A = B = 2`, `C = 0`, `Fa = Fb = 1 + 0i` at time `t`. -/
def unitAtom (t : Nat) : FstatAtom K :=
  { timestamp := t, a2_alpha := 2, b2_alpha := 2, ab_alpha := 0
    Fa_alpha := ⟨1, 0⟩, Fb_alpha := ⟨1, 0⟩ }

/-- One detector with 8 atoms of cadence 1 at the times 0, 1, ..., 7. -/
def eightAtoms : FstatAtomVector K :=
  { TAtom := 1
    data := [unitAtom 0, unitAtom 1, unitAtom 2, unitAtom 3, unitAtom 4, unitAtom 5,
             unitAtom 6, unitAtom 7] }

/-- A rectangular window range with the single cell `[0, 8)`, which spans exactly the data
of `eightAtoms`. -/
def spanningRange : transientWindowRange_t K :=
  { type := TRANSIENT_RECTANGULAR, t0 := 0, t0Band := 0, dt0 := 1
    tau := 8, tauBand := 0, dtau := 1, exp_buffer := none }

/-- An atom without signal: `A = B = 50000`, `C = 0`, `Fa = Fb = 0`, at time `t`. -/
def quietAtom (t : Nat) : FstatAtom K :=
  { timestamp := t, a2_alpha := 50000, b2_alpha := 50000, ab_alpha := 0
    Fa_alpha := ⟨0, 0⟩, Fb_alpha := ⟨0, 0⟩ }

/-- One detector with two quiet atoms of cadence 1 at the times 0 and 1. -/
def quietAtoms : FstatAtomVector K :=
  { TAtom := 1, data := [quietAtom 0, quietAtom 1] }

/-- A window range of type `none`; the code ignores its other fields. -/
def noneRange : transientWindowRange_t K :=
  { type := TRANSIENT_NONE, t0 := 0, t0Band := 0, dt0 := 0, tau := 0, tauBand := 0, dtau := 0
    exp_buffer := none }

/-- A rectangular window range on `eightAtoms` with two start times (0 and 1) and three
durations (2, 3 and 4): the largest `F` is attained in the last column of both rows. -/
def tieRange : transientWindowRange_t K :=
  { type := TRANSIENT_RECTANGULAR, t0 := 0, t0Band := 1, dt0 := 1
    tau := 2, tauBand := 2, dtau := 1, exp_buffer := none }

/-- The scan reaches the cell `{m, n}`: starting from `s0`, all rows before `m` and, in row
`m`, all cells before `n` are processed without error. -/
def cellReached (env : Env K) (atoms : FstatAtomVector K)
    (windowRange : transientWindowRange_t K) (useFReg : Bool) (t0_data TAtom N_tauRange : Nat)
    (s0 : ScanState K) (m n : Nat) : Prop :=
  ∃ s1 s2,
    forRange (outerBody env atoms windowRange useFReg t0_data TAtom N_tauRange) m 0 s0 = .ok s1 ∧
    forRange (innerBody env atoms windowRange useFReg t0_data TAtom m
        (u32 (windowRange.t0 + m * windowRange.dt0))
        (startIndex (u32 (windowRange.t0 + m * windowRange.dt0)) t0_data TAtom
          atoms.data.length)) n 0
      { s1 with acc := zeroAccum
                i_t1_last := startIndex (u32 (windowRange.t0 + m * windowRange.dt0)) t0_data
                  TAtom atoms.data.length } = .ok s2

/-- A rectangular window range on `eightAtoms` with the start times 0 and 7 and the duration
4: the first row covers the atoms 0..3, the second row starts at the last atom. -/
def lateStartRange : transientWindowRange_t K :=
  { type := TRANSIENT_RECTANGULAR, t0 := 0, t0Band := 7, dt0 := 7
    tau := 4, tauBand := 0, dtau := 1, exp_buffer := none }

/-- A rectangular window range on `eightAtoms` with the single cell of start time 1 and
duration 0. -/
def zeroTauRange : transientWindowRange_t K :=
  { type := TRANSIENT_RECTANGULAR, t0 := 1, t0Band := 0, dt0 := 1
    tau := 0, tauBand := 0, dtau := 1, exp_buffer := none }

/-- The range `spanningRange` with the start-time step `dt0` set to 0. -/
def zeroStepRange : transientWindowRange_t K :=
  { type := TRANSIENT_RECTANGULAR, t0 := 0, t0Band := 0, dt0 := 0
    tau := 8, tauBand := 0, dtau := 1, exp_buffer := none }

/-- The range `spanningRange` with the duration step `dtau` set to 0 and the exponential
window type. -/
def zeroTauStepRange : transientWindowRange_t K :=
  { type := TRANSIENT_EXPONENTIAL, t0 := 0, t0Band := 0, dt0 := 1
    tau := 8, tauBand := 0, dtau := 0, exp_buffer := none }

/-- A candidate left over from an earlier call. -/
def staleCandidate : TransientCandidate_t K :=
  { doppler := { Alpha := 1, Delta := 2, fkdot := [100, 0, 0, 0] }
    twoFtotal := 40, maxTwoF := 30, logBstat := 12, t0offs_maxF := 3600, tau_maxF := 7200 }

/-- All input atoms of all detectors, in the order in which the merge visits them. -/
def allAtoms : List (Option (FstatAtomVector K)) → List (FstatAtom K)
  | [] => []
  | none :: rest => allAtoms rest
  | some v :: rest => v.data ++ allAtoms rest

/-- The target bin of an atom in the words of the specification:
`floor ((t - tMin) / deltaT)`. -/
def specBin (tMin deltaT : Nat) (a : FstatAtom K) : Nat :=
  (a.timestamp - tMin) / deltaT

/-- The target bin of an atom as the code computes it, in `UINT4`. -/
def codeBin (tMin deltaT : Nat) (a : FstatAtom K) : Nat :=
  u32 (u32sub a.timestamp tMin / deltaT)

/-- The sum of the component `f` over the atoms of `atoms` that the specification assigns
to bin `j`. -/
def specBinSum (tMin deltaT : Nat) (atoms : List (FstatAtom K)) (f : FstatAtom K → K)
    (j : Nat) : K :=
  ((atoms.filter (fun a => specBin tMin deltaT a = j)).map f).sum

/-- A numeric component of an atom that the merge accumulates: it vanishes on the zero atom
and is added up by `addToBin`. -/
def IsAccumulated (f : FstatAtom K → K) : Prop :=
  f zeroAtom = 0 ∧ ∀ (d a : FstatAtom K) (t : Nat), f (addToBin d a t) = f d + f a

/-- The atoms of a detector are time-ordered. -/
def TimeOrdered (v : FstatAtomVector K) : Prop :=
  v.data.Pairwise (fun a b => a.timestamp ≤ b.timestamp)

/-- One detector of cadence 1 with a single unit atom at GPS second `2147483647`
(`LAL_INT4_MAX`). -/
def lastSecondAtoms : FstatAtomVector K :=
  { TAtom := 1, data := [unitAtom 2147483647] }

/-- One detector of cadence 1 with unit atoms at the first and the last `UINT4` second. -/
def fullSpanAtoms : FstatAtomVector K :=
  { TAtom := 1, data := [unitAtom 0, unitAtom 4294967295] }

/-- A detector of cadence 1 with unit atoms at the times 0, 1 and 5 (a gap from 2 to 4). -/
def gapDetectorA : FstatAtomVector K :=
  { TAtom := 1, data := [unitAtom 0, unitAtom 1, unitAtom 5] }

/-- A second detector of cadence 1 with quiet atoms at the times 1 and 2. -/
def gapDetectorB : FstatAtomVector K :=
  { TAtom := 1, data := [quietAtom 1, quietAtom 2] }

/-- One detector of cadence `2147483646` s with unit atoms at the times 0 and `2147483646`. -/
def wideAtoms : FstatAtomVector K :=
  { TAtom := 2147483646, data := [unitAtom 0, unitAtom 2147483646] }

/-- One detector of cadence 1 whose atoms are not time-ordered: times 1, 5, 3. -/
def unorderedAtoms : FstatAtomVector K :=
  { TAtom := 1, data := [unitAtom 1, unitAtom 5, unitAtom 3] }

/-- A detector of cadence 1 without atoms (`length = 0`). -/
def emptyDetector : FstatAtomVector K :=
  { TAtom := 1, data := [] }

/-- One detector of cadence 2 with 8 unit atoms at the times 10, 12, ..., 24. -/
def cadenceTwoAtoms : FstatAtomVector K :=
  { TAtom := 2
    data := [unitAtom 10, unitAtom 12, unitAtom 14, unitAtom 16, unitAtom 18, unitAtom 20,
             unitAtom 22, unitAtom 24] }

/-- A rectangular window range on `cadenceTwoAtoms` whose single start time 8 lies one
cadence before the first atom, with the durations 6 and 8. -/
def earlyStartRange : transientWindowRange_t K :=
  { type := TRANSIENT_RECTANGULAR, t0 := 8, t0Band := 0, dt0 := 2
    tau := 6, tauBand := 2, dtau := 2, exp_buffer := none }

/-- The sums of the specification for an exponential cell, over the pairs of an atom and its
window weight `w`: `A = sum w^2 a2`, `B = sum w^2 b2`, `C = sum w^2 ab`, `Fa = sum w Fa`,
`Fb = sum w Fb`. -/
def weightedSums (l : List (FstatAtom K × K)) : Accum K :=
  { Ad := (l.map (fun p => p.2 ^ 2 * p.1.a2_alpha)).sum
    Bd := (l.map (fun p => p.2 ^ 2 * p.1.b2_alpha)).sum
    Cd := (l.map (fun p => p.2 ^ 2 * p.1.ab_alpha)).sum
    Fa_re := (l.map (fun p => p.2 * p.1.Fa_alpha.re)).sum
    Fa_im := (l.map (fun p => p.2 * p.1.Fa_alpha.im)).sum
    Fb_re := (l.map (fun p => p.2 * p.1.Fb_alpha.re)).sum
    Fb_im := (l.map (fun p => p.2 * p.1.Fb_alpha.im)).sum }

/-- The direct, from-scratch sums of the atoms with index in `[i_t0, i_t1]` (empty when
`i_t1 < i_t0`). -/
def directSum (data : List (FstatAtom K)) (i_t0 i_t1 : Nat) : Accum K :=
  sumAtoms ((data.drop i_t0).take (i_t1 + 1 - i_t0))

/-- The start index of row `m` of a rectangular window range. -/
def rowStartIndex (windowRange : transientWindowRange_t K) (t0_data TAtom numAtoms m : Nat) :
    Nat :=
  startIndex (u32 (windowRange.t0 + m * windowRange.dt0)) t0_data TAtom numAtoms

/-- The end index of the cell `{m, n}` of a rectangular window range. -/
def rectEndIndex (windowRange : transientWindowRange_t K) (t0_data TAtom numAtoms m n : Nat) :
    Nat :=
  endIndex (u32 (u32 (windowRange.t0 + m * windowRange.dt0)
    + u32 (windowRange.tau + n * windowRange.dtau))) t0_data TAtom numAtoms

/-- Row `m` of a rectangular window range is regular through the cell `{m, n}`: its
first end index is not below `i_t0 - 1` and the end indices do not decrease from one duration
step to the next. -/
def RowRegular (windowRange : transientWindowRange_t K) (t0_data TAtom numAtoms m n : Nat) :
    Prop :=
  rowStartIndex windowRange t0_data TAtom numAtoms m
      ≤ rectEndIndex windowRange t0_data TAtom numAtoms m 0 + 1 ∧
    ∀ k, k < n → rectEndIndex windowRange t0_data TAtom numAtoms m k
      ≤ rectEndIndex windowRange t0_data TAtom numAtoms m (k + 1)

instance (windowRange : transientWindowRange_t K) (t0_data TAtom numAtoms m n : Nat) :
    Decidable (RowRegular windowRange t0_data TAtom numAtoms m n) := by
  unfold RowRegular
  infer_instance

/-- An exponential window range on `eightAtoms` with the start times 0 and 1 and the decay
scales 1 and 2, without buffer. -/
def expRange : transientWindowRange_t K :=
  { type := TRANSIENT_EXPONENTIAL, t0 := 0, t0Band := 1, dt0 := 1
    tau := 1, tauBand := 1, dtau := 1, exp_buffer := none }

/-- An exponential window range on `eightAtoms` with the single start time 1 and the single
decay scale 3, without buffer. -/
def lateExpRange : transientWindowRange_t K :=
  { type := TRANSIENT_EXPONENTIAL, t0 := 1, t0Band := 0, dt0 := 1
    tau := 3, tauBand := 0, dtau := 1, exp_buffer := none }

/-- One detector with the cadence `TAtom = 65536` and two unit atoms, at the times 0 and
65536. -/
def longCadenceAtoms : FstatAtomVector K :=
  { TAtom := 65536, data := [unitAtom 0, unitAtom 65536] }

end TransientCW

/-! ## The statistics dependency map of Weave (`Statistics.c`) -/

namespace Weave

open TransientCW

/-- The enumerator `WEAVE_STATISTIC_NONE`. -/
@[reducible] def WEAVE_STATISTIC_NONE : Nat := 0

/-- The enumerator `WEAVE_STATISTIC_COH2F = BIT(0)`. -/
@[reducible] def WEAVE_STATISTIC_COH2F : Nat := 1 <<< 0

/-- The enumerator `WEAVE_STATISTIC_COH2F_DET = BIT(1)`. -/
@[reducible] def WEAVE_STATISTIC_COH2F_DET : Nat := 1 <<< 1

/-- The enumerator `WEAVE_STATISTIC_MAX2F = BIT(2)`. -/
@[reducible] def WEAVE_STATISTIC_MAX2F : Nat := 1 <<< 2

/-- The enumerator `WEAVE_STATISTIC_MAX2F_DET = BIT(3)`. -/
@[reducible] def WEAVE_STATISTIC_MAX2F_DET : Nat := 1 <<< 3

/-- The enumerator `WEAVE_STATISTIC_SUM2F = BIT(4)`. -/
@[reducible] def WEAVE_STATISTIC_SUM2F : Nat := 1 <<< 4

/-- The enumerator `WEAVE_STATISTIC_SUM2F_DET = BIT(5)`. -/
@[reducible] def WEAVE_STATISTIC_SUM2F_DET : Nat := 1 <<< 5

/-- The enumerator `WEAVE_STATISTIC_MEAN2F = BIT(6)`. -/
@[reducible] def WEAVE_STATISTIC_MEAN2F : Nat := 1 <<< 6

/-- The enumerator `WEAVE_STATISTIC_MEAN2F_DET = BIT(7)`. -/
@[reducible] def WEAVE_STATISTIC_MEAN2F_DET : Nat := 1 <<< 7

/-- The enumerator `WEAVE_STATISTIC_BSGL = BIT(8)`. -/
@[reducible] def WEAVE_STATISTIC_BSGL : Nat := 1 <<< 8

/-- The enumerator `WEAVE_STATISTIC_BSGLtL = BIT(9)`. -/
@[reducible] def WEAVE_STATISTIC_BSGLtL : Nat := 1 <<< 9

/-- The enumerator `WEAVE_STATISTIC_BtSGLtL = BIT(10)`. -/
@[reducible] def WEAVE_STATISTIC_BtSGLtL : Nat := 1 <<< 10

/-- The enumerator `WEAVE_STATISTIC_NCOUNT = BIT(11)`. -/
@[reducible] def WEAVE_STATISTIC_NCOUNT : Nat := 1 <<< 11

/-- The enumerator `WEAVE_STATISTIC_NCOUNT_DET = BIT(12)`. -/
@[reducible] def WEAVE_STATISTIC_NCOUNT_DET : Nat := 1 <<< 12

/-- The enumerator `WEAVE_STATISTIC_MAX = BIT(13)`. -/
@[reducible] def WEAVE_STATISTIC_MAX : Nat := 1 <<< 13

/-- The operator `~` on a 32-bit set of flags. -/
@[irreducible] def bitNot32 (x : Nat) : Nat := 4294967295 ^^^ (x % 4294967296)

/-- One entry of the statistics map (`WeaveStatisticMap`): flag, name and set of direct
dependencies; the help string is left out. -/
structure WeaveStatisticMap where
  val : Nat
  name : String
  dependencies : Nat

/-- The array `statistic_map`, with its thirteen entries in the order of the source. -/
def statistic_map : List WeaveStatisticMap :=
  [ { val := WEAVE_STATISTIC_COH2F, name := "coh2F", dependencies := 0 },
    { val := WEAVE_STATISTIC_COH2F_DET, name := "coh2F_det", dependencies := 0 },
    { val := WEAVE_STATISTIC_MAX2F, name := "max2F", dependencies := WEAVE_STATISTIC_COH2F },
    { val := WEAVE_STATISTIC_MAX2F_DET, name := "max2F_det"
      dependencies := WEAVE_STATISTIC_COH2F_DET },
    { val := WEAVE_STATISTIC_SUM2F, name := "sum2F", dependencies := WEAVE_STATISTIC_COH2F },
    { val := WEAVE_STATISTIC_SUM2F_DET, name := "sum2F_det"
      dependencies := WEAVE_STATISTIC_COH2F_DET },
    { val := WEAVE_STATISTIC_MEAN2F, name := "mean2F", dependencies := WEAVE_STATISTIC_SUM2F },
    { val := WEAVE_STATISTIC_MEAN2F_DET, name := "mean2F_det"
      dependencies := WEAVE_STATISTIC_SUM2F_DET },
    { val := WEAVE_STATISTIC_BSGL, name := "B_S/GL"
      dependencies := WEAVE_STATISTIC_SUM2F ||| WEAVE_STATISTIC_SUM2F_DET },
    { val := WEAVE_STATISTIC_BSGLtL, name := "B_S/GLtL"
      dependencies :=
        WEAVE_STATISTIC_SUM2F ||| WEAVE_STATISTIC_SUM2F_DET ||| WEAVE_STATISTIC_MAX2F_DET },
    { val := WEAVE_STATISTIC_BtSGLtL, name := "B_tS/GLtL"
      dependencies :=
        WEAVE_STATISTIC_MAX2F ||| WEAVE_STATISTIC_SUM2F_DET ||| WEAVE_STATISTIC_MAX2F_DET },
    { val := WEAVE_STATISTIC_NCOUNT, name := "ncount", dependencies := WEAVE_STATISTIC_COH2F },
    { val := WEAVE_STATISTIC_NCOUNT_DET, name := "ncount_det"
      dependencies := WEAVE_STATISTIC_COH2F_DET } ]

/-- The set `SUPPORTED_STATISTICS`. -/
def SUPPORTED_STATISTICS : Nat :=
  0 ||| WEAVE_STATISTIC_COH2F ||| WEAVE_STATISTIC_COH2F_DET ||| WEAVE_STATISTIC_SUM2F
    ||| WEAVE_STATISTIC_SUM2F_DET ||| WEAVE_STATISTIC_MEAN2F ||| WEAVE_STATISTIC_MEAN2F_DET
    ||| WEAVE_STATISTIC_BSGL

/-- The set `SUPPORTED_TOPLISTS`. -/
def SUPPORTED_TOPLISTS : Nat :=
  0 ||| WEAVE_STATISTIC_MEAN2F ||| WEAVE_STATISTIC_SUM2F ||| WEAVE_STATISTIC_BSGL

/-- The function `XLALWeaveStatisticsSetDirectDependencies`: the new value of `*deps`, which
is the old value joined with the direct dependencies of all statistics of `stats`. -/
def XLALWeaveStatisticsSetDirectDependencies (deps stats : Nat) : Res Nat :=
  if stats &&& bitNot32 SUPPORTED_STATISTICS ≠ 0 then .fail .XLAL_EINVAL
  else
    let tmp := statistic_map.foldl
      (fun tmp entry => if stats &&& entry.val ≠ 0 then tmp ||| entry.dependencies else tmp) 0
    .ok (deps ||| tmp)

/-- A call of `XLALWeaveStatisticsSetDirectDependencies ( &deps, stats )` whose status is
not looked at: when the callee fails, `deps` keeps its value. -/
def setDirectDependenciesUnchecked (deps stats : Nat) : Nat :=
  match XLALWeaveStatisticsSetDirectDependencies deps stats with
  | .ok d => d
  | _ => deps

/-- The `do ... while` loop of `XLALWeaveStatisticsParamsSetDependencyMap` on the pair
`(stats_to_compute, mainloop_stats)`; the first argument bounds the number of passes, and
`none` is a loop that has not stopped within this bound. -/
def expandDependencies : Nat → Nat → Nat → Option (Nat × Nat)
  | 0, _, _ => none
  | fuel + 1, stats_to_compute, mainloop_stats =>
    let prev_stats_to_compute := stats_to_compute
    let prev_mainloop_stats := mainloop_stats
    let stats_to_compute1 := setDirectDependenciesUnchecked stats_to_compute stats_to_compute
    let mainloop_stats1 := setDirectDependenciesUnchecked mainloop_stats mainloop_stats
    if prev_stats_to_compute ≠ stats_to_compute1 ∧ prev_mainloop_stats ≠ mainloop_stats1 then
      expandDependencies fuel stats_to_compute1 mainloop_stats1
    else some (stats_to_compute1, mainloop_stats1)

/-- The statistics dependency map of `WeaveStatisticsParams`, with the field names that
`Statistics.c` assigns; the other fields of the struct are not touched by the function. -/
structure WeaveStatisticsParams where
  toplist_statistics : Nat
  statistics_to_output : Nat
  statistics_to_compute : Nat
  mainloop_statistics : Nat
  mainloop_statistics_to_keep : Nat
  completionloop_statistics : Nat
  deriving DecidableEq

/-- The function `XLALWeaveStatisticsParamsSetDependencyMap`; `statistics_params = none` is
the NULL pointer.  The first argument bounds the number of passes of the `do ... while`
loop, and the result is `none` when the loop has not stopped within this bound. -/
def XLALWeaveStatisticsParamsSetDependencyMap (fuel : Nat)
    (statistics_params : Option WeaveStatisticsParams)
    (toplist_stats extra_output_stats : Nat) : Option (Res WeaveStatisticsParams) :=
  match statistics_params with
  | none => some (.fail .XLAL_EFAULT)
  | some _ =>
    if toplist_stats &&& bitNot32 SUPPORTED_TOPLISTS ≠ 0 then some (.fail .XLAL_EINVAL)
    else if extra_output_stats &&& bitNot32 SUPPORTED_STATISTICS ≠ 0 then
      some (.fail .XLAL_EINVAL)
    else
      let stats_to_output := toplist_stats ||| extra_output_stats
      match expandDependencies fuel stats_to_output toplist_stats with
      | none => none
      | some (stats_to_compute, mainloop_stats0) =>
        let mainloop_stats1 :=
          if stats_to_compute &&& WEAVE_STATISTIC_COH2F ≠ 0 then
            mainloop_stats0 ||| WEAVE_STATISTIC_COH2F
          else mainloop_stats0
        let mainloop_stats :=
          if stats_to_compute &&& WEAVE_STATISTIC_COH2F_DET ≠ 0 then
            mainloop_stats1 ||| WEAVE_STATISTIC_COH2F_DET
          else mainloop_stats1
        let completionloop_stats := stats_to_compute &&& bitNot32 mainloop_stats
        let mainloop_stats_to_keep0 := 0 ||| (mainloop_stats &&& stats_to_output)
        let completionloop_deps := setDirectDependenciesUnchecked 0 completionloop_stats
        let mainloop_stats_to_keep :=
          mainloop_stats_to_keep0 ||| (mainloop_stats &&& completionloop_deps)
        some (.ok
          { toplist_statistics := toplist_stats
            statistics_to_output := stats_to_output
            statistics_to_compute := stats_to_compute
            mainloop_statistics := mainloop_stats
            mainloop_statistics_to_keep := mainloop_stats_to_keep
            completionloop_statistics := completionloop_stats })

/-- A set of statistics is closed under direct dependencies when, for every entry of
`statistic_map` whose flag is in the set, all dependencies of the entry are in the set. -/
def DepClosed (stats : Nat) : Prop :=
  ∀ entry ∈ statistic_map, stats &&& entry.val ≠ 0 →
    stats &&& entry.dependencies = entry.dependencies

instance (stats : Nat) : Decidable (DepClosed stats) := by
  unfold DepClosed
  infer_instance

/-- The union of the direct dependencies of the statistics in `stats`, in the words of the
documentation: the dependencies of every entry of `statistic_map` whose flag is set in
`stats`, joined. -/
def dependencyUnion (stats : Nat) : Nat :=
  ((statistic_map.filter (fun entry => stats &&& entry.val ≠ 0)).map
    (fun entry => entry.dependencies)).foldl (fun acc d => acc ||| d) 0

end Weave

/-! ## The final mass and spin estimate (`LALPSpinInspiralRingdownWave.c`) -/

namespace PSpin

open TransientCW

/-- The fields of `InspiralTemplate` that the translated functions read and that enter their
results. -/
structure InspiralTemplate (K : Type) where
  mass1 : K
  mass2 : K
  eta : K
  totalMass : K
  tSampling : K
  spin1 : Fin 3 → K
  spin2 : Fin 3 → K

/-- The value that `XLALPSpinFinalMassSpin` computes for `*finalSpin` before its range
check: the statements of the function body from the constants `t0 .. t2` down to the
expression `sqrt( a12 + 2.*ll*qq*a12l + ll*ll*qq*qq)/(1.+qq)/(1.+qq)`; `sqrt` is the
function of `math.h`. -/
def finalSpinEstimate {K : Type} [LinearOrderedField K] (sqrt : K → K)
    (params : InspiralTemplate K) (LNhx LNhy LNhz : K) : K :=
  let t0 : K := -(29 / 10)
  let t3 : K := 26 / 10
  let s4 : K := -(123 / 1000)
  let s5 : K := 45 / 100
  let t2 : K := 16 * (6865 / 10000 - t3 / 64 - sqrt 3 / 2)
  let qq := params.mass2 / params.mass1
  let ma1 := sqrt (params.spin1 0 * params.spin1 0 + params.spin1 1 * params.spin1 1
    + params.spin1 2 * params.spin1 2)
  let ma2 := sqrt (params.spin2 0 * params.spin2 0 + params.spin2 1 * params.spin2 1
    + params.spin2 2 * params.spin2 2)
  let cosa12 : K :=
    if 0 < ma1 ∧ 0 < ma2 then
      (params.spin1 0 * params.spin2 0 + params.spin1 1 * params.spin2 1
        + params.spin1 2 * params.spin2 2) / ma1 / ma2
    else 0
  let cosa1 : K :=
    if 0 < ma1 ∧ 0 < ma2 then
      if 0 < ma1 then
        (params.spin1 0 * LNhx + params.spin1 1 * LNhy + params.spin1 2 * LNhz) / ma1
      else 1
    else 0
  let cosa2 : K :=
    if 0 < ma1 ∧ 0 < ma2 then
      if 0 < ma2 then
        (params.spin2 0 * LNhx + params.spin2 1 * LNhy + params.spin2 2 * LNhz) / ma2
      else 1
    else 0
  let a12 := ma1 * ma1 + ma2 * ma2 * qq * qq * qq * qq + 2 * ma1 * ma2 * qq * qq * cosa12
  let a12l := ma1 * cosa1 + ma2 * cosa2 * qq * qq
  let ll := 2 * sqrt 3 + t2 * params.eta + t3 * params.eta * params.eta
    + s4 * a12 / (1 + qq * qq) / (1 + qq * qq)
    + (s5 * params.eta + t0 + 2) / (1 + qq * qq) * a12l
  sqrt (a12 + 2 * ll * qq * a12l + ll * ll * qq * qq) / (1 + qq) / (1 + qq)

/-- The function `XLALPSpinFinalMassSpin`.  The result is the status together with the
contents of `*finalMass` and `*finalSpin` after the call; the argument `finalSpin` is the
content of `*finalSpin` before the call, while `*finalMass` is written on every path (both
pointers and `params` are taken to be valid, the code does not check them).  `XLAL_ERROR`
returns from the function, so the assignment `*finalMass = 1.;` that follows it in the
source is never executed and has no counterpart here. -/
def XLALPSpinFinalMassSpin {K : Type} [LinearOrderedField K] (sqrt : K → K)
    (finalSpin : K) (params : InspiralTemplate K)
    (energy LNhx LNhy LNhz : K) : Res Unit × K × K :=
  let finalMass1 := 1 + energy
  if finalMass1 < 0 then (.fail .XLAL_ERANGE, finalMass1, finalSpin)
  else
    let finalSpin1 := finalSpinEstimate sqrt params LNhx LNhy LNhz
    if finalSpin1 > 1 ∨ finalSpin1 < 0 then (.fail .XLAL_ERANGE, finalMass1, 0)
    else (.ok (), finalMass1, finalSpin1)

/-- Stand-in for `sqrt` on the rationals, used to evaluate the model: the identity. -/
def ratSqrt (x : ℚ) : ℚ := x

/-- Equal masses, no spins, `eta = 1/4`. -/
def equalMasses {K : Type} [LinearOrderedField K] : InspiralTemplate K :=
  { mass1 := 1, mass2 := 1, eta := 1 / 4, totalMass := 2, tSampling := 4096
    spin1 := fun _ => 0, spin2 := fun _ => 0 }

/-- A first body of mass 1 with the spin vector `(0, 0, 2)` and a second body of mass 0
without spin. -/
def spinningPrimary {K : Type} [LinearOrderedField K] : InspiralTemplate K :=
  { mass1 := 1, mass2 := 0, eta := 0, totalMass := 1, tSampling := 4096
    spin1 := fun i => if i = 2 then 2 else 0, spin2 := fun _ => 0 }

/-! ### The final-spin estimate written as a formula -/

/-- Spec-level: the mass ratio `qq = m2 / m1`. -/
def massRatio {K : Type} [LinearOrderedField K] (params : InspiralTemplate K) : K :=
  params.mass2 / params.mass1

/-- Spec-level: the magnitude `|S|` of a spin vector, `sqrt (Sx^2 + Sy^2 + Sz^2)`. -/
def spinNorm {K : Type} [LinearOrderedField K] (sqrt : K → K) (s : Fin 3 → K) : K :=
  sqrt (s 0 ^ 2 + s 1 ^ 2 + s 2 ^ 2)

/-- Spec-level: the quantity `a12 = |S1|^2 + |S2|^2 qq^4 + 2 |S1| |S2| qq^2 cos α`, where
`cos α = S1 · S2 / (|S1| |S2|)` when both spins have a positive magnitude and `cos α = 0`
otherwise. -/
def spinSquareSum {K : Type} [LinearOrderedField K] (sqrt : K → K)
    (params : InspiralTemplate K) : K :=
  spinNorm sqrt params.spin1 ^ 2 + spinNorm sqrt params.spin2 ^ 2 * massRatio params ^ 4
    + 2 * spinNorm sqrt params.spin1 * spinNorm sqrt params.spin2 * massRatio params ^ 2
      * (if 0 < spinNorm sqrt params.spin1 ∧ 0 < spinNorm sqrt params.spin2 then
          (params.spin1 0 * params.spin2 0 + params.spin1 1 * params.spin2 1
            + params.spin1 2 * params.spin2 2)
            / (spinNorm sqrt params.spin1 * spinNorm sqrt params.spin2)
        else 0)

/-- Spec-level: the quantity `a12l = |S1| cos β + |S2| qq^2 cos γ`, where
`cos β = S1 · LNh / |S1|` and `cos γ = S2 · LNh / |S2|` when both spins have a positive
magnitude and both cosines are 0 otherwise. -/
def spinAlongOrbit {K : Type} [LinearOrderedField K] (sqrt : K → K)
    (params : InspiralTemplate K) (LNhx LNhy LNhz : K) : K :=
  spinNorm sqrt params.spin1
      * (if 0 < spinNorm sqrt params.spin1 ∧ 0 < spinNorm sqrt params.spin2 then
          (params.spin1 0 * LNhx + params.spin1 1 * LNhy + params.spin1 2 * LNhz)
            / spinNorm sqrt params.spin1
        else 0)
    + spinNorm sqrt params.spin2 * massRatio params ^ 2
      * (if 0 < spinNorm sqrt params.spin1 ∧ 0 < spinNorm sqrt params.spin2 then
          (params.spin2 0 * LNhx + params.spin2 1 * LNhy + params.spin2 2 * LNhz)
            / spinNorm sqrt params.spin2
        else 0)

/-- Spec-level: the quantity
`ll = 2 sqrt 3 + t2 eta + t3 eta^2 + s4 a12 / (1 + qq^2)^2 + (s5 eta + t0 + 2) / (1 + qq^2) a12l`
with `t0 = -2.9`, `t3 = 2.6`, `s4 = -0.123`, `s5 = 0.45` and
`t2 = 16 (0.6865 - t3 / 64 - sqrt 3 / 2)`. -/
def orbitalTerm {K : Type} [LinearOrderedField K] (sqrt : K → K)
    (params : InspiralTemplate K) (LNhx LNhy LNhz : K) : K :=
  2 * sqrt 3 + 16 * (6865 / 10000 - 26 / 10 / 64 - sqrt 3 / 2) * params.eta
    + 26 / 10 * params.eta ^ 2
    + -(123 / 1000) * spinSquareSum sqrt params / (1 + massRatio params ^ 2) ^ 2
    + (45 / 100 * params.eta + -(29 / 10) + 2) / (1 + massRatio params ^ 2)
      * spinAlongOrbit sqrt params LNhx LNhy LNhz

/-! ### Ringdown frequencies and attachment of the ringdown -/

/-- What `XLALPSpinGenerateQNMFreq` and `XLALPSpinInspiralAttachRingdownWave` take from
outside the translated code: `sqrt` and `pow` of `math.h`, the constant `LAL_MTSUN_SI` of
`LALConstants.h`, the vector factories of `AVFactories.h` (`none` is a failed allocation;
the contents of a new vector are whatever the allocator left there), and the two functions
of the same file that rest on the GSL spline and LU routines,
`XLALPSpinGenerateWaveDerivative ( dwave, wave, params )` and
`XLALPSpinInspiralRingdownWave ( rdwave, params, allinspwave, modefreqs, nmodes )`, each
given by its status together with the new contents of its output vector. -/
structure RingdownEnv (K : Type) where
  sqrt : K → K
  pow : K → K → K
  LAL_MTSUN_SI : K
  XLALCreateCOMPLEX8Vector : Nat → Option (List (COMPLEX8 K))
  XLALCreateREAL4Vector : Nat → Option (List K)
  XLALPSpinGenerateWaveDerivative : List K → List K → InspiralTemplate K → Res (List K)
  XLALPSpinInspiralRingdownWave :
    List K → InspiralTemplate K → List K → List (COMPLEX8 K) → Nat → Res (List K)

/-- A read `v->data[i]`; an index outside the vector leaves the model. -/
def vecGet {α : Type} (v : List α) (i : Nat) : Res α :=
  match v[i]? with
  | some x => .ok x
  | none => .undefined

/-- A write `v->data[i] = x`; an index outside the vector leaves the model. -/
def vecSet {α : Type} (v : List α) (i : Nat) (x : α) : Res (List α) :=
  if i < v.length then .ok (v.set i x) else .undefined

/-- The fitting coefficients `BCW22re`. -/
def BCW22re {K : Type} [LinearOrderedField K] : List (K × K × K) :=
  [(15251 / 10000, -(11568 / 10000), 1292 / 10000),
   (13673 / 10000, -(10260 / 10000), 1628 / 10000),
   (13223 / 10000, -(10257 / 10000), 1860 / 10000)]

/-- The fitting coefficients `BCW22im`. -/
def BCW22im {K : Type} [LinearOrderedField K] : List (K × K × K) :=
  [(7000 / 10000, 14187 / 10000, -(4990 / 10000)),
   (1000 / 10000, 5436 / 10000, -(4731 / 10000)),
   (-(1000 / 10000), 4206 / 10000, -(4256 / 10000))]

/-- The fitting coefficients `BCW2m2re`. -/
def BCW2m2re {K : Type} [LinearOrderedField K] : List (K × K × K) :=
  [(2938 / 10000, 782 / 10000, 13546 / 10000),
   (2528 / 10000, 921 / 10000, 13344 / 10000),
   (1873 / 10000, 1117 / 10000, 13322 / 10000)]

/-- The fitting coefficients `BCW2m2im`. -/
def BCW2m2im {K : Type} [LinearOrderedField K] : List (K × K × K) :=
  [(16700 / 10000, 4192 / 10000, 14700 / 10000),
   (4550 / 10000, 1729 / 10000, 13617 / 10000),
   (1850 / 10000, 1266 / 10000, 13661 / 10000)]

/-- The fitting coefficients `BCW21re`. -/
def BCW21re {K : Type} [LinearOrderedField K] : List (K × K × K) :=
  [(6000 / 10000, -(2339 / 10000), 4175 / 10000),
   (5800 / 10000, -(2416 / 10000), 4708 / 10000),
   (5660 / 10000, -(2740 / 10000), 4960 / 10000)]

/-- The fitting coefficients `BCW21im`. -/
def BCW21im {K : Type} [LinearOrderedField K] : List (K × K × K) :=
  [(-(3000 / 10000), 23561 / 10000, -(2277 / 10000)),
   (-(3300 / 10000), 9501 / 10000, -(2072 / 10000)),
   (-(1000 / 10000), 4173 / 10000, -(2774 / 10000))]

/-- The fitting coefficients `BCW2m1re`. -/
def BCW2m1re {K : Type} [LinearOrderedField K] : List (K × K × K) :=
  [(3441 / 10000, 293 / 10000, 20010 / 10000),
   (3165 / 10000, 301 / 10000, 23415 / 10000),
   (2696 / 10000, 315 / 10000, 27755 / 10000)]

/-- The fitting coefficients `BCW2m1im`. -/
def BCW2m1im {K : Type} [LinearOrderedField K] : List (K × K × K) :=
  [(20000 / 10000, 1078 / 10000, 50069 / 10000),
   (6100 / 10000, 276 / 10000, 131683 / 10000),
   (2900 / 10000, 276 / 10000, 64715 / 10000)]

/-- The fitting coefficients `BCW20re`. -/
def BCW20re {K : Type} [LinearOrderedField K] : List (K × K × K) :=
  [(4437 / 10000, -(739 / 10000), 3350 / 10000),
   (4185 / 10000, -(768 / 10000), 4355 / 10000),
   (3734 / 10000, -(794 / 10000), 6306 / 10000)]

/-- The fitting coefficients `BCW20im`. -/
def BCW20im {K : Type} [LinearOrderedField K] : List (K × K × K) :=
  [(40000 / 10000, -(19550 / 10000), 1420 / 10000),
   (12500 / 10000, -(6359 / 10000), 1614 / 10000),
   (5600 / 10000, -(2589 / 10000), -(3034 / 10000))]

/-- One pass of a loop `for (i = 0; i < nmodes; i++)` of `XLALPSpinGenerateQNMFreq` over the
coefficient tables `re_tab` and `im_tab`.  The branch `m == 2` and `m == -2` scales by
`*= 1./ finalMass / (totalMass * LAL_MTSUN_SI)` (`multiply` set), the other branches by
`/= finalMass * totalMass * LAL_MTSUN_SI`.  A row `i ≥ 3` of a table and an entry
`i ≥ modefreqs->length` do not exist. -/
def qnmStep {K : Type} [LinearOrderedField K] (env : RingdownEnv K)
    (re_tab im_tab : List (K × K × K)) (multiply : Bool) (finalMass finalSpin totalMass : K)
    (i : Nat) (modefreqs : List (COMPLEX8 K)) : Res (List (COMPLEX8 K)) :=
  match re_tab[i]?, im_tab[i]? with
  | some (r0, r1, r2), some (i0, i1, i2) =>
    let re := r0 + r1 * env.pow (1 - finalSpin) r2
    let im := re / 2 / (i0 + i1 * env.pow (1 - finalSpin) i2)
    let re1 := if multiply then re * (1 / finalMass / (totalMass * env.LAL_MTSUN_SI))
      else re / (finalMass * totalMass * env.LAL_MTSUN_SI)
    let im1 := if multiply then im * (1 / finalMass / (totalMass * env.LAL_MTSUN_SI))
      else im / (finalMass * totalMass * env.LAL_MTSUN_SI)
    vecSet modefreqs i { re := re1, im := im1 }
  | _, _ => .undefined

/-- The function `XLALPSpinGenerateQNMFreq`: the contents of `modefreqs` after a successful
call, or the error.  The local `finalSpin` is not initialised before its address is passed
to `XLALPSpinFinalMassSpin`; the callee leaves it unwritten only on a path on which it
fails, and then this function returns at once, so the initial content (0 here) is never
used. -/
def XLALPSpinGenerateQNMFreq {K : Type} [LinearOrderedField K] (env : RingdownEnv K)
    (modefreqs : List (COMPLEX8 K)) (params : InspiralTemplate K) (energy : K)
    (l : Nat) (m : Int) (nmodes : Nat) (LNhx LNhy LNhz : K) : Res (List (COMPLEX8 K)) :=
  let totalMass := params.totalMass
  match XLALPSpinFinalMassSpin env.sqrt 0 params energy LNhx LNhy LNhz with
  | (.undefined, _, _) => .undefined
  | (.fail _, _, _) => .fail .XLAL_EFUNC
  | (.ok _, finalMass, finalSpin) =>
    if l ≠ 2 then .ok modefreqs
    else if m = 2 then
      forRange (qnmStep env BCW22re BCW22im true finalMass finalSpin totalMass) nmodes 0
        modefreqs
    else if m = -2 then
      forRange (qnmStep env BCW2m2re BCW2m2im true finalMass finalSpin totalMass) nmodes 0
        modefreqs
    else if m = 0 then
      forRange (qnmStep env BCW20re BCW20im false finalMass finalSpin totalMass) nmodes 0
        modefreqs
    else if m = 1 then
      forRange (qnmStep env BCW21re BCW21im false finalMass finalSpin totalMass) nmodes 0
        modefreqs
    else if m = -1 then
      forRange (qnmStep env BCW2m1re BCW2m1im false finalMass finalSpin totalMass) nmodes 0
        modefreqs
    else .fail .XLAL_EDOM

/-- The patch length `Npatch = 11` of `XLALPSpinInspiralAttachRingdownWave`. -/
@[reducible] def Npatch : Nat := 11

/-- The index `2*(atpos - Npatch + j)` of the first read of `sigl` in the patch loop, in
`UINT4` arithmetic; the second read is at this index plus 1. -/
def readIndex (atpos j : Nat) : Nat := u32 (2 * u32 (u32sub atpos Npatch + j))

/-- The index `j + 2*atpos - 2` of the write to `sigl` in the stitching loop, in `UINT4`
arithmetic. -/
def writeIndex (atpos j : Nat) : Nat := u32sub (u32 (j + u32 (2 * atpos))) 2

/-- The conversion `(INT4) v` of a `REAL8` stored into a `UINT4` variable: truncation
towards zero, undefined outside the range of `INT4`, then reduction modulo `2^32`. -/
def truncToUINT4 {K : Type} [LinearOrderedField K] [FloorRing K] (v : K) : Res Nat :=
  if v ≤ -2147483649 ∨ 2147483648 ≤ v then .undefined
  else if 0 ≤ v then .ok ⌊v⌋₊
  else .ok (u32 (4294967296 - ⌊-v⌋₊))

/-- Body of the patch loop: `inspwave1->data[j] = sigl->data[2*(atpos - Npatch + j)]` and
`inspwave2->data[j] = sigl->data[2*(atpos - Npatch + j) + 1]`, on the pair
`(inspwave1, inspwave2)`. -/
def copyPatch {K : Type} (sigl : List K) (atpos : Nat) (j : Nat) (w : List K × List K) :
    Res (List K × List K) :=
  (vecGet sigl (readIndex atpos j)).bind fun x1 =>
  (vecSet w.1 j x1).bind fun w1 =>
  (vecGet sigl (u32 (readIndex atpos j + 1))).bind fun x2 =>
  (vecSet w.2 j x2).bind fun w2 => .ok (w1, w2)

/-- The work vectors of the loop over the modes. -/
structure ModeState (K : Type) where
  allinspwave : List K
  inspwave1 : List K
  dinspwave1 : List K
  inspwave2 : List K
  dinspwave2 : List K

/-- Body of the loop `for (j=0; j<Npatch; j++)` that copies the derivatives back. -/
def copyDerivative {K : Type} (j : Nat) (s : ModeState K) : Res (ModeState K) :=
  (vecGet s.dinspwave1 j).bind fun d1 =>
  (vecSet s.inspwave1 j d1).bind fun w1 =>
  (vecGet s.dinspwave2 j).bind fun d2 =>
  (vecSet s.inspwave2 j d2).bind fun w2 => .ok { s with inspwave1 := w1, inspwave2 := w2 }

/-- Body of the loop `for (k=0;k<nmodes;k++)`: the last patch values go to `allinspwave`,
and for all but the last mode the patches are replaced by their time derivatives.  Both
derivative calls are made before their status is checked. -/
def modeStep {K : Type} (env : RingdownEnv K) (params : InspiralTemplate K) (nmodes : Nat)
    (k : Nat) (s : ModeState K) : Res (ModeState K) :=
  (vecGet s.inspwave1 (Npatch - 1)).bind fun a =>
  (vecSet s.allinspwave k a).bind fun all1 =>
  (vecGet s.inspwave2 (Npatch - 1)).bind fun b =>
  (vecSet all1 (u32 (k + nmodes)) b).bind fun all2 =>
  if 1 < nmodes ∧ u32 (k + 1) < nmodes then
    match env.XLALPSpinGenerateWaveDerivative s.dinspwave1 s.inspwave1 params with
    | .undefined => .undefined
    | r1 =>
      match env.XLALPSpinGenerateWaveDerivative s.dinspwave2 s.inspwave2 params with
      | .undefined => .undefined
      | r2 =>
        match r1, r2 with
        | .ok d1, .ok d2 =>
          forRange copyDerivative Npatch 0
            { s with allinspwave := all2, dinspwave1 := d1, dinspwave2 := d2 }
        | _, _ => .fail .XLAL_EFUNC
  else .ok { s with allinspwave := all2 }

/-- Body of the stitching loop: `sigl->data[j + 2*atpos - 2] = rdwave->data[j]`. -/
def stitch {K : Type} (rdwave : List K) (atpos : Nat) (j : Nat) (sigl : List K) :
    Res (List K) :=
  (vecGet rdwave j).bind fun x => vecSet sigl (writeIndex atpos j) x

/-- The function `XLALPSpinInspiralAttachRingdownWave`: on success, the contents of `sigl`
and of `*attpos` after the call (`attpos` is the content of `*attpos` before it).  The
ringdown length divides by `modefreqs->data[0].im`; for a zero divisor the quotient is
infinite and its conversion to `INT4` undefined. -/
def XLALPSpinInspiralAttachRingdownWave {K : Type} [LinearOrderedField K] [FloorRing K]
    (env : RingdownEnv K) (sigl : List K) (params : InspiralTemplate K) (energy : K)
    (attpos : Nat) (nmodes l : Nat) (m : Int) (LNhx LNhy LNhz : K) : Res (List K × Nat) :=
  let dt := 1 / params.tSampling
  let atpos := attpos
  match env.XLALCreateCOMPLEX8Vector nmodes with
  | none => .fail .XLAL_ENOMEM
  | some modefreqs0 =>
    match XLALPSpinGenerateQNMFreq env modefreqs0 params energy l m nmodes LNhx LNhy LNhz with
    | .undefined => .undefined
    | .fail _ => .fail .XLAL_EFUNC
    | .ok modefreqs =>
      (vecGet modefreqs 0).bind fun f0 =>
      if f0.im = 0 then .undefined
      else
        (truncToUINT4 (10 / f0.im / dt)).bind fun Nrdwave =>
        let attpos1 := u32 (attpos + Nrdwave)
        if atpos < Npatch ∨ u32 (atpos + Npatch) ≥ sigl.length then .fail .XLAL_EFAILED
        else
          match env.XLALCreateREAL4Vector (u32 (2 * Nrdwave)),
              env.XLALCreateREAL4Vector Npatch, env.XLALCreateREAL4Vector Npatch,
              env.XLALCreateREAL4Vector Npatch, env.XLALCreateREAL4Vector Npatch,
              env.XLALCreateREAL4Vector (u32 (2 * nmodes)) with
          | some rdwave0, some inspwave1, some dinspwave1, some inspwave2, some dinspwave2,
              some allinspwave =>
            (forRange (copyPatch sigl atpos) Npatch 0 (inspwave1, inspwave2)).bind fun w =>
            (forRange (modeStep env params nmodes) nmodes 0
              { allinspwave := allinspwave, inspwave1 := w.1, dinspwave1 := dinspwave1
                inspwave2 := w.2, dinspwave2 := dinspwave2 }).bind fun s =>
            match env.XLALPSpinInspiralRingdownWave rdwave0 params s.allinspwave modefreqs
                nmodes with
            | .undefined => .undefined
            | .fail _ => .fail .XLAL_EFUNC
            | .ok rdwave =>
              (forRange (stitch rdwave atpos) (u32 (2 * Nrdwave)) 0 sigl).bind fun sigl1 =>
              .ok (sigl1, attpos1)
          | _, _, _, _, _, _ => .fail .XLAL_ENOMEM

/-- A computable environment over `ℚ`, used to run the model on concrete inputs: `sqrt` is
the stand-in `ratSqrt`, `pow` is constantly 1, `LAL_MTSUN_SI` is 1, allocations succeed and
give vectors of zeros, the derivative of a wave is the zero wave and the ringdown wave is
constantly 1. -/
def ratRingdownEnv : RingdownEnv ℚ :=
  { sqrt := ratSqrt
    pow := fun _ _ => 1
    LAL_MTSUN_SI := 1
    XLALCreateCOMPLEX8Vector := fun n => some (List.replicate n ⟨0, 0⟩)
    XLALCreateREAL4Vector := fun n => some (List.replicate n 0)
    XLALPSpinGenerateWaveDerivative := fun dwave _ _ => .ok (List.replicate dwave.length 0)
    XLALPSpinInspiralRingdownWave := fun rdwave _ _ _ _ =>
      .ok (List.replicate rdwave.length 1) }

/-- Mass ratio `1/10`, no spins, `eta = 10/121`, `totalMass = 1`, `tSampling = 1/4`. -/
def unequalMasses : InspiralTemplate ℚ :=
  { mass1 := 10, mass2 := 1, eta := 10 / 121, totalMass := 1, tSampling := 1 / 4
    spin1 := fun _ => 0, spin2 := fun _ => 0 }

end PSpin

namespace TransientCW

variable {K : Type} [LinearOrderedField K] [FloorRing K]

/-! ## Basic facts on machine integers and loops -/

theorem u32_eq (n : Nat) : u32 n = n % 4294967296 := by
  unfold u32; rfl

theorem u32_lt (n : Nat) : u32 n < 4294967296 := by
  rw [u32_eq]; omega

theorem u32_of_lt {n : Nat} (h : n < 4294967296) : u32 n = n := by
  rw [u32_eq]; omega

theorem u32sub_eq (a b : Nat) :
    u32sub a b = (a % 4294967296 + 4294967296 - b % 4294967296) % 4294967296 := by
  unfold u32sub
  split <;> omega

theorem u32sub_lt (a b : Nat) : u32sub a b < 4294967296 := by
  rw [u32sub_eq]; omega

theorem u32sub_of_le {a b : Nat} (h : b ≤ a) (ha : a < 4294967296) : u32sub a b = a - b := by
  rw [u32sub_eq]; omega

theorem toINT4_eq (v : Nat) :
    toINT4 v = if v % 4294967296 < 2147483648 then ((v % 4294967296 : Nat) : Int)
      else ((v % 4294967296 : Nat) : Int) - 4294967296 := by
  unfold toINT4; rfl

theorem forRange_zero {σ : Type} (body : Nat → σ → Res σ) (i : Nat) (s : σ) :
    forRange body 0 i s = .ok s := rfl

theorem forRange_succ_ok {σ : Type} {body : Nat → σ → Res σ} {i : Nat} {s s1 : σ}
    (h : body i s = .ok s1) (count : Nat) :
    forRange body (count + 1) i s = forRange body count (i + 1) s1 := by
  simp only [forRange, h]

theorem forRange_succ_fail {σ : Type} {body : Nat → σ → Res σ} {i : Nat} {s : σ}
    {e : XlalErrno} (h : body i s = .fail e) (count : Nat) :
    forRange body (count + 1) i s = .fail e := by
  simp only [forRange, h]

theorem forRange_succ_undefined {σ : Type} {body : Nat → σ → Res σ} {i : Nat} {s : σ}
    (h : body i s = .undefined) (count : Nat) :
    forRange body (count + 1) i s = .undefined := by
  simp only [forRange, h]

/-- Splitting a loop: `a + b` iterations are `a` iterations followed by `b` more. -/
theorem forRange_add {σ : Type} (body : Nat → σ → Res σ) (a b : Nat) :
    ∀ (start : Nat) (s : σ), forRange body (a + b) start s =
      (forRange body a start s).bind (fun s1 => forRange body b (start + a) s1) := by
  induction a with
  | zero => intro start s; simp [forRange, Res.bind]
  | succ a ih =>
    intro start s
    have e : a + 1 + b = (a + b) + 1 := by omega
    rw [e]
    cases hb : body start s with
    | ok s1 =>
      rw [forRange_succ_ok hb, forRange_succ_ok hb, ih (start + 1) s1]
      have e2 : start + 1 + a = start + (a + 1) := by omega
      rw [e2]
    | fail err => rw [forRange_succ_fail hb, forRange_succ_fail hb]; rfl
    | undefined => rw [forRange_succ_undefined hb, forRange_succ_undefined hb]; rfl

/-- Invariant rule for a successful loop. -/
theorem forRange_inv {σ : Type} (body : Nat → σ → Res σ) (P : Nat → σ → Prop) :
    ∀ (count start : Nat) (s s1 : σ), P start s →
      (∀ i t t1, start ≤ i → i < start + count → P i t → body i t = .ok t1 → P (i + 1) t1) →
      forRange body count start s = .ok s1 → P (start + count) s1 := by
  intro count
  induction count with
  | zero =>
    intro start s s1 h0 _ h
    simp only [forRange] at h
    cases h
    simpa using h0
  | succ count ih =>
    intro start s s1 h0 hstep h
    cases hb : body start s with
    | ok t =>
      rw [forRange_succ_ok hb] at h
      have h1 : P (start + 1) t := hstep start s t (le_refl _) (by omega) h0 hb
      have := ih (start + 1) t s1 h1
        (fun i u u1 hi hi2 hp hbody => hstep i u u1 (by omega) (by omega) hp hbody) h
      have e : start + 1 + count = start + (count + 1) := by omega
      rw [e] at this
      exact this
    | fail err => rw [forRange_succ_fail hb] at h; cases h
    | undefined => rw [forRange_succ_undefined hb] at h; cases h

/-- A loop whose first `a` iterations succeed and whose next iteration raises `e` raises `e`. -/
theorem forRange_fail_at {σ : Type} (body : Nat → σ → Res σ) (a b start : Nat) (s s1 : σ)
    (e : XlalErrno) (hpre : forRange body a start s = .ok s1)
    (hfail : body (start + a) s1 = .fail e) :
    forRange body (a + (b + 1)) start s = .fail e := by
  rw [forRange_add, hpre]
  simp only [Res.bind]
  exact forRange_succ_fail hfail b

/-- Inversion of a successful pass through the body of the inner loop. -/
theorem innerBody_ok {env : Env K} {atoms : FstatAtomVector K}
    {windowRange : transientWindowRange_t K} {useFReg : Bool}
    {t0_data TAtom m window_t0 i_t0 n : Nat} {s s1 : ScanState K}
    (h : innerBody env atoms windowRange useFReg t0_data TAtom m window_t0 i_t0 n s = .ok s1) :
    ∃ t0 t1 acc L,
      XLALGetTransientWindowTimespan env
        { type := windowRange.type, t0 := window_t0
          tau := u32 (windowRange.tau + n * windowRange.dtau) } = .ok (t0, t1) ∧
      endIndex t1 t0_data TAtom atoms.data.length ≠ i_t0 ∧
      sumCell env atoms windowRange n t0 t1 (u32 (windowRange.tau + n * windowRange.dtau)) i_t0
        (endIndex t1 t0_data TAtom atoms.data.length) s = .ok (acc, L) ∧
      m < s.F_mn.size1 ∧ n < s.F_mn.size2 ∧
      s1.acc = acc ∧ s1.i_t1_last = L ∧
      s1.maxF = (if FstatOfAccum env useFReg acc > s.maxF then FstatOfAccum env useFReg acc
                 else s.maxF) ∧
      s1.ret = (if FstatOfAccum env useFReg acc > s.maxF then
                  { s.ret with t0offs_maxF := u32sub window_t0 windowRange.t0
                               tau_maxF := u32 (windowRange.tau + n * windowRange.dtau) }
                else s.ret) ∧
      s1.F_mn.size1 = s.F_mn.size1 ∧ s1.F_mn.size2 = s.F_mn.size2 ∧
      (∀ a b, s1.F_mn.data a b =
        if a = m ∧ b = n then FstatOfAccum env useFReg acc else s.F_mn.data a b) ∧
      s1.trace = s.trace ++
        [{ m := m, n := n, window_t0 := window_t0
           window_tau := u32 (windowRange.tau + n * windowRange.dtau), t0 := t0, t1 := t1
           i_t0 := i_t0, i_t1 := endIndex t1 t0_data TAtom atoms.data.length, acc := acc
           F := FstatOfAccum env useFReg acc }] := by
  unfold innerBody at h
  simp only at h
  split at h
  · cases h
  · cases h
  · rename_i t0 t1 hspan
    split at h
    · cases h
    · rename_i hne
      split at h
      · cases h
      · cases h
      · rename_i acc L hsum
        split at h
        · cases h
        · cases h
        · rename_i F_mn hset
          unfold gsl_matrix_set at hset
          split at hset
          · rename_i hsz
            cases hset
            cases h
            exact ⟨t0, t1, acc, L, hspan, hne, hsum, hsz.1, hsz.2, rfl, rfl, rfl, rfl, rfl, rfl,
              fun _ _ => rfl, rfl⟩
          · cases hset

theorem cell_div {m N n : Nat} (hn : n < N) : (m * N + n) / N = m := by
  have hN : 0 < N := by omega
  rw [Nat.add_comm, Nat.add_mul_div_right _ _ hN, Nat.div_eq_of_lt hn, Nat.zero_add]

theorem cell_mod {m N n : Nat} (hn : n < N) : (m * N + n) % N = n := by
  rw [Nat.add_comm, Nat.add_mul_mod_self_right, Nat.mod_eq_of_lt hn]

theorem cell_index_unique {k m N n : Nat} (h1 : k / N = m) (h2 : k % N = n) :
    k = m * N + n := by
  have := Nat.div_add_mod k N
  rw [h1, h2, Nat.mul_comm] at this
  exact this.symm

/-- One pass through the inner loop body preserves the scan invariant. -/
theorem innerBody_inv {env : Env K} {atoms : FstatAtomVector K}
    {windowRange : transientWindowRange_t K} {useFReg : Bool}
    {t0_data TAtom N_tauRange m n : Nat} {ret0 : TransientCandidate_t K} {s s1 : ScanState K}
    (hn : n < N_tauRange)
    (hinv : ScanInv env atoms windowRange useFReg t0_data TAtom N_tauRange ret0 s)
    (hlen : s.trace.length = m * N_tauRange + n)
    (h : innerBody env atoms windowRange useFReg t0_data TAtom m
      (u32 (windowRange.t0 + m * windowRange.dt0))
      (startIndex (u32 (windowRange.t0 + m * windowRange.dt0)) t0_data TAtom atoms.data.length)
      n s = .ok s1) :
    ScanInv env atoms windowRange useFReg t0_data TAtom N_tauRange ret0 s1 ∧
      s1.trace.length = m * N_tauRange + (n + 1) := by
  obtain ⟨t0, t1, acc, L, hspan, hne, _, _, _, _, _, hmax, hret, _, _, hdata, htrace⟩ :=
    innerBody_ok h
  obtain ⟨hcells, hpeak, hd, htw, hmt, hlb⟩ := hinv
  refine ⟨⟨?_, ?_, ?_, ?_, ?_, ?_⟩, ?_⟩
  · intro k c hk
    rw [htrace] at hk
    by_cases hlt : k < s.trace.length
    · rw [List.getElem?_append_left hlt] at hk
      obtain ⟨hc, hF⟩ := hcells k c hk
      refine ⟨hc, ?_⟩
      rw [hdata]
      have hneq : ¬ (c.m = m ∧ c.n = n) := by
        rintro ⟨e1, e2⟩
        have := cell_index_unique (hc.1.symm.trans e1) (hc.2.1.symm.trans e2)
        omega
      rw [if_neg hneq]
      exact hF
    · have hge : s.trace.length ≤ k := by omega
      rw [List.getElem?_append_right hge] at hk
      have hk0 : k - s.trace.length = 0 := by
        by_contra hne0
        have : 1 ≤ k - s.trace.length := by omega
        rw [List.getElem?_eq_none (by simpa using this)] at hk
        cases hk
      rw [hk0] at hk
      simp only [List.getElem?_cons_zero, Option.some.injEq] at hk
      have hkeq : k = m * N_tauRange + n := by omega
      subst hk
      refine ⟨⟨?_, ?_, rfl, rfl, hspan, rfl, rfl, hne, rfl⟩, ?_⟩
      · simp only [hkeq, cell_div hn]
      · simp only [hkeq, cell_mod hn]
      · rw [hdata]; simp
  · rw [htrace, List.foldl_append, ← hpeak]
    simp only [List.foldl_cons, List.foldl_nil, peakStep, hmax, hret]
    split <;> rfl
  · rw [hret]; split <;> simp [hd]
  · rw [hret]; split <;> simp [htw]
  · rw [hret]; split <;> simp [hmt]
  · rw [hret]; split <;> simp [hlb]
  · rw [htrace, List.length_append, hlen]; simp; omega


/-- One pass through the outer loop body (a whole row) preserves the scan invariant. -/
theorem outerBody_inv {env : Env K} {atoms : FstatAtomVector K}
    {windowRange : transientWindowRange_t K} {useFReg : Bool}
    {t0_data TAtom N_tauRange m : Nat} {ret0 : TransientCandidate_t K} {s s1 : ScanState K}
    (hinv : ScanInv env atoms windowRange useFReg t0_data TAtom N_tauRange ret0 s)
    (hlen : s.trace.length = m * N_tauRange)
    (h : outerBody env atoms windowRange useFReg t0_data TAtom N_tauRange m s = .ok s1) :
    ScanInv env atoms windowRange useFReg t0_data TAtom N_tauRange ret0 s1 ∧
      s1.trace.length = (m + 1) * N_tauRange := by
  unfold outerBody at h
  simp only at h
  have key := forRange_inv _
    (fun n (t : ScanState K) =>
      ScanInv env atoms windowRange useFReg t0_data TAtom N_tauRange ret0 t ∧
        t.trace.length = m * N_tauRange + n)
    N_tauRange 0
    { s with acc := zeroAccum
             i_t1_last := startIndex (u32 (windowRange.t0 + m * windowRange.dt0)) t0_data TAtom
               atoms.data.length }
    s1 ⟨hinv, by simpa using hlen⟩
    (fun i t t1 _ hi hp hb => innerBody_inv (by omega) hp.1 hp.2 hb) h
  refine ⟨key.1, ?_⟩
  rw [key.2, Nat.add_mul]; omega

/-- The scan invariant holds when the double loop has run to its end, and every cell of the
grid has then been processed. -/
theorem scanGrid_inv {env : Env K} {atoms : FstatAtomVector K}
    {windowRange : transientWindowRange_t K} {useFReg : Bool}
    {t0_data TAtom N_t0Range N_tauRange : Nat} {ret0 : TransientCandidate_t K}
    {F_mn0 : gsl_matrix K} {s : ScanState K}
    (h : scanGrid env atoms windowRange useFReg t0_data TAtom N_t0Range N_tauRange ret0 F_mn0
      = .ok s) :
    ScanInv env atoms windowRange useFReg t0_data TAtom N_tauRange ret0 s ∧
      s.trace.length = N_t0Range * N_tauRange := by
  unfold scanGrid at h
  have key := forRange_inv _
    (fun m (t : ScanState K) =>
      ScanInv env atoms windowRange useFReg t0_data TAtom N_tauRange ret0 t ∧
        t.trace.length = m * N_tauRange)
    N_t0Range 0 _ s
    ⟨⟨by intro k c hk; simp at hk, rfl, rfl, rfl, rfl, rfl⟩, by simp⟩
    (fun i t t1 _ _ hp hb => outerBody_inv hp.1 hp.2 hb) h
  simpa using key


/-- Inversion of a successful run of the scan-and-reduce part. -/
theorem scanAndReduce_ok {env : Env K} {atoms : FstatAtomVector K}
    {windowRange : transientWindowRange_t K} {useFReg : Bool} {TAtom t0_data : Nat}
    {ret : TransientCandidate_t K} {r : EngineResult K}
    (h : scanAndReduce env atoms windowRange useFReg TAtom t0_data ret = .ok r) :
    ∃ F_mn0 expLUT s,
      windowRange.dt0 ≠ 0 ∧ windowRange.dtau ≠ 0 ∧
      r.N_t0Range = u32 (windowRange.t0Band / windowRange.dt0 + 1) ∧
      r.N_tauRange = u32 (windowRange.tauBand / windowRange.dtau + 1) ∧
      gsl_matrix_calloc r.N_t0Range r.N_tauRange = some F_mn0 ∧
      XLALCreateExpLUT env 20 2000 = .ok expLUT ∧
      scanGrid env atoms windowRange useFReg t0_data TAtom r.N_t0Range r.N_tauRange ret F_mn0
        = .ok s ∧
      reduceGrid env expLUT s.maxF s.F_mn r.N_t0Range r.N_tauRange = .ok r.sum_eB ∧
      r.atoms = atoms ∧ r.windowRange = windowRange ∧ r.maxF = s.maxF ∧ r.F_mn = s.F_mn ∧
      r.trace = s.trace ∧
      r.ret = { s.ret with
        maxTwoF := 2 * s.maxF
        logBstat := env.log (70 / ((u32 (r.N_t0Range * r.N_tauRange * TAtom * TAtom) : Nat) : K))
          + (s.maxF + env.log r.sum_eB) } := by
  unfold scanAndReduce at h
  split at h
  · cases h
  · rename_i hsteps
    simp only at h
    split at h
    · cases h
    · rename_i F_mn0 hcalloc
      split at h
      · cases h
      · cases h
      · rename_i expLUT hlut
        split at h
        · cases h
        · cases h
        · rename_i s hscan
          unfold finishBstat at h
          simp only at h
          split at h
          · cases h
          · cases h
          · rename_i sum_eB hred
            cases h
            refine ⟨F_mn0, expLUT, s, ?_, ?_, rfl, rfl, hcalloc, hlut, hscan, hred, rfl, rfl, rfl,
              rfl, rfl, rfl⟩
            · intro h0; exact hsteps (Or.inl h0)
            · intro h0; exact hsteps (Or.inr h0)

/-- Inversion of a successful run of the whole computation. -/
theorem computeTransientBstat_ok {env : Env K} {multiFstatAtoms : Option (MultiFstatAtomVector K)}
    {windowRange : transientWindowRange_t K} {useFReg : Bool}
    {ret : TransientCandidate_t K} {r : EngineResult K}
    (h : computeTransientBstat env multiFstatAtoms windowRange useFReg ret = .ok r) :
    ∃ first rest atoms atom0,
      multiFstatAtoms = some (some first :: rest) ∧ windowRange.type < TRANSIENT_LAST ∧
      XLALmergeMultiFstatAtomsBinned (some (some first :: rest)) first.TAtom = .ok atoms ∧
      atoms.data.head? = some atom0 ∧
      scanAndReduce env atoms
        (substituteNone windowRange atom0.timestamp atoms.data.length first.TAtom)
        useFReg first.TAtom atom0.timestamp ret = .ok r := by
  unfold computeTransientBstat at h
  split at h
  · cases h
  · cases h
  · cases h
  · rename_i first rest
    split at h
    · cases h
    · rename_i htype
      simp only at h
      split at h
      · cases h
      · cases h
      · rename_i atoms hmerge
        split at h
        · cases h
        · rename_i atom0 hhead
          exact ⟨first, rest, atoms, atom0, rfl, by omega, hmerge, hhead, h⟩


/-- The statistic computed by the code is the quotient of the specification. -/
theorem FstatOfAccum_eq_spec (env : Env K) (s : Accum K) :
    FstatOfAccum env false s =
      specFstat s.Ad s.Bd s.Cd ⟨s.Fa_re, s.Fa_im⟩ ⟨s.Fb_re, s.Fb_im⟩ := by
  simp only [FstatOfAccum, specFstat, SQ, Bool.false_eq_true, if_false]
  rw [one_div, mul_comm, div_eq_mul_inv]
  congr 1
  · ring
  · ring_nf

/-- The facts about the cell at grid position `{m, n}` after a successful scan. -/
theorem scanGrid_cell {env : Env K} {atoms : FstatAtomVector K}
    {windowRange : transientWindowRange_t K} {useFReg : Bool}
    {t0_data TAtom N_t0Range N_tauRange : Nat} {ret0 : TransientCandidate_t K}
    {F_mn0 : gsl_matrix K} {s : ScanState K}
    (h : scanGrid env atoms windowRange useFReg t0_data TAtom N_t0Range N_tauRange ret0 F_mn0
      = .ok s) {m n : Nat} (hm : m < N_t0Range) (hn : n < N_tauRange) :
    ∃ c, s.trace[m * N_tauRange + n]? = some c ∧ c.m = m ∧ c.n = n ∧
      CellOK env atoms windowRange useFReg t0_data TAtom N_tauRange (m * N_tauRange + n) c ∧
      s.F_mn.data m n = c.F := by
  obtain ⟨hinv, hlen⟩ := scanGrid_inv h
  have hk : m * N_tauRange + n < s.trace.length := by
    rw [hlen]
    calc m * N_tauRange + n < m * N_tauRange + N_tauRange := by omega
      _ = (m + 1) * N_tauRange := by rw [Nat.add_mul]; omega
      _ ≤ N_t0Range * N_tauRange := Nat.mul_le_mul_right _ (by omega)
  have hget : s.trace[m * N_tauRange + n]? = some (s.trace[m * N_tauRange + n]) :=
    List.getElem?_eq_getElem hk
  obtain ⟨hc, hF⟩ := hinv.1 _ _ hget
  have e1 : (s.trace[m * N_tauRange + n]).m = m := by rw [hc.1, cell_div hn]
  have e2 : (s.trace[m * N_tauRange + n]).n = n := by rw [hc.2.1, cell_mod hn]
  refine ⟨_, hget, e1, e2, hc, ?_⟩
  rw [← hF, e1, e2]


theorem XLALCreateExpLUT_default (env : Env K) :
    XLALCreateExpLUT env 20 2000 = .ok (defaultExpLUT env) := by
  unfold XLALCreateExpLUT defaultExpLUT
  rw [if_neg (by norm_num), if_neg (by norm_num),
    if_neg (by rw [u32_of_lt (by decide)]; exact fun h => h rfl)]

theorem defaultExpLUT_get (env : Env K) {i : Nat} (h : i < 2000) :
    (defaultExpLUT env).data[i]? = some (env.exp (-((i : K) * (20 / ((2000 : Nat) : K))))) := by
  unfold defaultExpLUT
  simp only [List.getElem?_map, List.getElem?_range h, Option.map_some']

/-- Looking up `e^(-0)` returns the first sample of the table. -/
theorem XLALFastNegExp_zero (env : Env K) :
    XLALFastNegExp env 0 (some (defaultExpLUT env)) = .ok (env.exp 0) := by
  have hfl : ⌊((0 : K) * (((2000 : Nat) : K) / 20) + 1 / 2)⌋₊ = 0 := by
    rw [Nat.floor_eq_zero]; norm_num
  unfold XLALFastNegExp
  simp only [Option.isNone_some, Bool.false_eq_true, and_false, if_false, lt_self_iff_false]
  have hx : (defaultExpLUT env).xmax = 20 := rfl
  have hl : (defaultExpLUT env).length = 2000 := rfl
  rw [hx, hl, if_neg (by norm_num), if_neg (by norm_num), hfl, if_pos (by norm_num),
    defaultExpLUT_get env (by norm_num)]
  simp

/-- Beyond `xmax = 20` the lookup returns 0. -/
theorem XLALFastNegExp_beyond (env : Env K) {x : K} (h : 20 < x) :
    XLALFastNegExp env x (some (defaultExpLUT env)) = .ok 0 := by
  unfold XLALFastNegExp
  have hx : (defaultExpLUT env).xmax = 20 := rfl
  have h0 : ¬ x < 0 := by linarith
  simp only [Option.isNone_some, Bool.false_eq_true, and_false, if_false, h0, hx, gt_iff_lt, h,
    if_true]

theorem merge_eightAtoms :
    XLALmergeMultiFstatAtomsBinned (K := K) (some [some eightAtoms]) 1 = .ok eightAtoms := by
  simp [XLALmergeMultiFstatAtomsBinned, checkTAtoms, minMaxTimestamps, binDetectors, binAtoms,
    zeroAtom, addToBin, List.replicate, u32, u32sub, eightAtoms, unitAtom]

/-! ## The scenario of 8 atoms and one cell -/

/-- The status and candidate returned by the C function after a successful computation. -/
theorem XLALComputeTransientBstat_of_ok {env : Env K} {cand : TransientCandidate_t K}
    {multiFstatAtoms : Option (MultiFstatAtomVector K)} {windowRange : transientWindowRange_t K}
    {useFReg : Bool} {r : EngineResult K}
    (h : computeTransientBstat env multiFstatAtoms windowRange useFReg empty_TransientCandidate
      = .ok r) :
    XLALComputeTransientBstat env cand multiFstatAtoms windowRange useFReg = (.ok (), r.ret) := by
  simp only [XLALComputeTransientBstat, h]

/-- The run on the scenario of 8 unit atoms and one rectangular cell spanning the data. -/
theorem run_eightAtoms (env : Env K) (ret : TransientCandidate_t K) :
    ∃ r, computeTransientBstat env (some [some eightAtoms]) spanningRange false ret = .ok r ∧
      r.N_t0Range = 1 ∧ r.N_tauRange = 1 ∧ r.F_mn.data 0 0 = 8 ∧ r.ret.maxTwoF = 16 ∧
      r.sum_eB = env.exp 0 ∧
      r.trace.map (fun c => (c.i_t0, c.i_t1, c.acc)) =
        [(0, 7, { Ad := 16, Bd := 16, Cd := 0, Fa_re := 8, Fa_im := 0, Fb_re := 8, Fb_im := 0 })] := by
  have hm := merge_eightAtoms (K := K)
  have hd : (eightAtoms (K := K)).TAtom = 1 := rfl
  simp only [computeTransientBstat, hd, hm]
  norm_num [scanAndReduce, finishBstat, substituteNone, gsl_matrix_calloc,
    XLALCreateExpLUT_default, scanGrid, forRange, outerBody, innerBody, startIndex, endIndex, clampIndex, toINT4, u32, u32sub,
    XLALGetTransientWindowTimespan, sumCell, addAtomRect, accAddAtom, zeroAccum, FstatOfAccum, SQ,
    gsl_matrix_set, eightAtoms, unitAtom, spanningRange, reduceGrid, reduceCell, gsl_matrix_get,
    XLALFastNegExp_zero]
  rfl

/-! ## The running maximum starts at 0 (C2, C3) -/

theorem merge_quietAtoms :
    XLALmergeMultiFstatAtomsBinned (K := K) (some [some quietAtoms]) 1 = .ok quietAtoms := by
  simp [XLALmergeMultiFstatAtomsBinned, checkTAtoms, minMaxTimestamps, binDetectors, binAtoms,
    zeroAtom, addToBin, List.replicate, u32, u32sub, quietAtoms, quietAtom]

/-- The regularised run on two quiet atoms with the window `none`, for a libm whose
`log (1/10^10)` is below `-20` (the real logarithm is about `-23.03`). -/
theorem run_quietAtoms (env : Env K) (ret : TransientCandidate_t K)
    (h : env.log (1 / 10000000000) < -20) :
    ∃ r, computeTransientBstat env (some [some quietAtoms]) noneRange true ret = .ok r ∧
      r.N_t0Range = 1 ∧ r.N_tauRange = 1 ∧ r.F_mn.data 0 0 = env.log (1 / 10000000000) ∧
      r.maxF = 0 ∧ r.ret.maxTwoF = 0 ∧ r.sum_eB = 0 ∧
      r.ret.logBstat = env.log 70 + (0 + env.log 0) := by
  have hm := merge_quietAtoms (K := K)
  have hd : (quietAtoms (K := K)).TAtom = 1 := rfl
  have hneg : ¬ (0 < env.log (1 / 10000000000)) := by linarith
  have hbig : (20 : K) < 0 - env.log (1 / 10000000000) := by linarith
  have hbig2 : (20 : K) < -env.log (1 / 10000000000) := by linarith
  have hl1 := XLALFastNegExp_beyond env hbig
  have hl2 := XLALFastNegExp_beyond env hbig2
  simp only [computeTransientBstat, hd, hm]
  norm_num [scanAndReduce, finishBstat, substituteNone, gsl_matrix_calloc,
    XLALCreateExpLUT_default, scanGrid, forRange, outerBody, innerBody, startIndex, endIndex,
    clampIndex, toINT4, u32, u32sub, XLALGetTransientWindowTimespan, sumCell, addAtomRect,
    accAddAtom, zeroAccum, FstatOfAccum, SQ, gsl_matrix_set, quietAtoms, quietAtom, noneRange,
    reduceGrid, reduceCell, gsl_matrix_get, hneg, hl1, hl2]

/-- The real logarithm of `10^(-10)` is below `-20`. -/
theorem real_log_quiet : Real.log (1 / 10000000000) < -20 := by
  have h10 : (2 : ℝ) < Real.log 10 := by
    rw [Real.lt_log_iff_exp_lt (by norm_num)]
    have h1 := Real.exp_one_lt_d9
    have h0 : (0 : ℝ) < Real.exp 1 := Real.exp_pos 1
    have h2 : Real.exp 2 = Real.exp 1 * Real.exp 1 := by
      rw [← Real.exp_add]; norm_num
    rw [h2]
    nlinarith
  have e : (1 / 10000000000 : ℝ) = (10 ^ 10)⁻¹ := by norm_num
  rw [e, Real.log_inv, Real.log_pow]
  push_cast
  linarith

/-- C2 (failing input): the regularised run (`useFReg` set) on two quiet atoms with the window
`none` succeeds on a 1x1 grid whose only cell holds `F = log (1/10^10) < 0`, but reports
`maxTwoF = 0` instead of twice that grid maximum: the running maximum starts at 0 and is
never updated. -/
theorem C2_maxTwoF_misses_negative_maximum (env : Env K) (cand : TransientCandidate_t K)
    (h : env.log (1 / 10000000000) < -20) :
    ∃ r, computeTransientBstat env (some [some quietAtoms]) noneRange true
        empty_TransientCandidate = .ok r ∧
      XLALComputeTransientBstat env cand (some [some quietAtoms]) noneRange true
        = (.ok (), r.ret) ∧
      r.N_t0Range = 1 ∧ r.N_tauRange = 1 ∧
      r.F_mn.data 0 0 = env.log (1 / 10000000000) ∧
      r.ret.maxTwoF = 0 ∧ r.ret.maxTwoF ≠ 2 * r.F_mn.data 0 0 := by
  obtain ⟨r, hrun, h1, h2, hF, -, hmax, -, -⟩ := run_quietAtoms env empty_TransientCandidate h
  refine ⟨r, hrun, XLALComputeTransientBstat_of_ok hrun, h1, h2, hF, hmax, ?_⟩
  rw [hmax, hF]
  intro h0
  linarith

/-- Witness of C2 over the reals, with the real exponential and logarithm. -/
theorem C2_maxTwoF_misses_negative_maximum_witness :
    Real.log (1 / 10000000000) < -20 ∧
    ∃ r, computeTransientBstat (⟨Real.exp, Real.log, 3, 0⟩ : Env ℝ) (some [some quietAtoms])
        noneRange true empty_TransientCandidate = .ok r ∧
      XLALComputeTransientBstat (⟨Real.exp, Real.log, 3, 0⟩ : Env ℝ) empty_TransientCandidate
        (some [some quietAtoms]) noneRange true = (.ok (), r.ret) ∧
      r.N_t0Range = 1 ∧ r.N_tauRange = 1 ∧
      r.F_mn.data 0 0 = Real.log (1 / 10000000000) ∧
      r.ret.maxTwoF = 0 ∧ r.ret.maxTwoF ≠ 2 * r.F_mn.data 0 0 :=
  ⟨real_log_quiet,
    C2_maxTwoF_misses_negative_maximum ⟨Real.exp, Real.log, 3, 0⟩ empty_TransientCandidate
      real_log_quiet⟩

/-- C3 (failing input): the same run yields a 1x1 grid with `F = log (1/10^10) < -20`; the
running maximum stays at `maxF = 0`, the lookup of `e^(-(maxF - F))` is beyond the table and
returns 0, so the sum over the grid is `sum_eB = 0` and not `e^0 = 1`, and
`logBstat = log 70 + (0 + log 0)` instead of `F + log (70 / TAtom^2)`. -/
theorem C3_single_cell_sum_is_not_one (env : Env K) (cand : TransientCandidate_t K)
    (h : env.log (1 / 10000000000) < -20) :
    ∃ r, computeTransientBstat env (some [some quietAtoms]) noneRange true
        empty_TransientCandidate = .ok r ∧
      XLALComputeTransientBstat env cand (some [some quietAtoms]) noneRange true
        = (.ok (), r.ret) ∧
      r.N_t0Range = 1 ∧ r.N_tauRange = 1 ∧
      r.F_mn.data 0 0 = env.log (1 / 10000000000) ∧
      r.maxF = 0 ∧ r.sum_eB = 0 ∧ r.sum_eB ≠ 1 ∧
      r.ret.logBstat = env.log 70 + (0 + env.log 0) := by
  obtain ⟨r, hrun, h1, h2, hF, hmaxF, -, hsum, hlog⟩ :=
    run_quietAtoms env empty_TransientCandidate h
  refine ⟨r, hrun, XLALComputeTransientBstat_of_ok hrun, h1, h2, hF, hmaxF, hsum, ?_, hlog⟩
  rw [hsum]
  exact zero_ne_one

/-- Witness of C3 over the reals, with the real exponential and logarithm. -/
theorem C3_single_cell_sum_is_not_one_witness :
    Real.log (1 / 10000000000) < -20 ∧
    ∃ r, computeTransientBstat (⟨Real.exp, Real.log, 3, 0⟩ : Env ℝ) (some [some quietAtoms])
        noneRange true empty_TransientCandidate = .ok r ∧
      XLALComputeTransientBstat (⟨Real.exp, Real.log, 3, 0⟩ : Env ℝ) empty_TransientCandidate
        (some [some quietAtoms]) noneRange true = (.ok (), r.ret) ∧
      r.N_t0Range = 1 ∧ r.N_tauRange = 1 ∧
      r.F_mn.data 0 0 = Real.log (1 / 10000000000) ∧
      r.maxF = 0 ∧ r.sum_eB = 0 ∧ r.sum_eB ≠ 1 ∧
      r.ret.logBstat = Real.log 70 + (0 + Real.log 0) :=
  ⟨real_log_quiet,
    C3_single_cell_sum_is_not_one ⟨Real.exp, Real.log, 3, 0⟩ empty_TransientCandidate
      real_log_quiet⟩


/-! ## The peak location (C4) -/

/-- A running maximum that already dominates all remaining cells does not change. -/
theorem peak_foldl_noop (windowRange : transientWindowRange_t K) :
    ∀ (l : List (CellRecord K)) (p : K × Nat × Nat), (∀ c ∈ l, c.F ≤ p.1) →
      l.foldl (peakStep windowRange) p = p := by
  intro l
  induction l with
  | nil => intro p _; rfl
  | cons a l ih =>
    intro p h
    have ha : ¬ (a.F > p.1) := not_lt.mpr (h a (List.mem_cons_self a l))
    rw [List.foldl_cons]
    have e : peakStep windowRange p a = p := by
      unfold peakStep; rw [if_neg ha]
    rw [e]
    exact ih p (fun c hc => h c (List.mem_cons_of_mem a hc))

/-- The running maximum ends at the first cell, in scan order, that attains the largest `F`,
provided this `F` exceeds the initial value. -/
theorem peak_foldl_first (windowRange : transientWindowRange_t K) :
    ∀ (l : List (CellRecord K)) (p0 : K × Nat × Nat) (k : Nat) (c : CellRecord K),
      l[k]? = some c → p0.1 < c.F →
      (∀ (j : Nat) (c1 : CellRecord K), l[j]? = some c1 → c1.F ≤ c.F) →
      (∀ (j : Nat) (c1 : CellRecord K), j < k → l[j]? = some c1 → c1.F ≠ c.F) →
      l.foldl (peakStep windowRange) p0 =
        (c.F, u32sub c.window_t0 windowRange.t0, c.window_tau) := by
  intro l
  induction l with
  | nil => intro p0 k c hk; simp at hk
  | cons a l ih =>
    intro p0 k c hk hgt hmax hfirst
    rw [List.foldl_cons]
    cases k with
    | zero =>
      simp only [List.getElem?_cons_zero, Option.some.injEq] at hk
      subst hk
      have e : peakStep windowRange p0 a = (a.F, u32sub a.window_t0 windowRange.t0, a.window_tau) := by
        unfold peakStep; rw [if_pos hgt]
      rw [e]
      apply peak_foldl_noop
      intro c1 hc1
      obtain ⟨j, hj, hjc⟩ := List.getElem_of_mem hc1
      have : (a :: l)[j + 1]? = some c1 := by
        rw [List.getElem?_cons_succ, List.getElem?_eq_getElem hj, hjc]
      exact hmax (j + 1) c1 this
    | succ k =>
      rw [List.getElem?_cons_succ] at hk
      have ha_le : a.F ≤ c.F := hmax 0 a (by simp)
      have ha_ne : a.F ≠ c.F := hfirst 0 a (by omega) (by simp)
      have ha_lt : a.F < c.F := lt_of_le_of_ne ha_le ha_ne
      apply ih (peakStep windowRange p0 a) k c hk
      · unfold peakStep
        split
        · exact ha_lt
        · exact hgt
      · intro j c1 hj
        exact hmax (j + 1) c1 (by rw [List.getElem?_cons_succ]; exact hj)
      · intro j c1 hjk hj
        exact hfirst (j + 1) c1 (by omega) (by rw [List.getElem?_cons_succ]; exact hj)


/-- The offset `window.t0 - windowRange.t0` of row `m` is `m * dt0`, without wrap-around,
because `m * dt0` does not exceed `t0Band`. -/
theorem t0offs_exact {t0 t0Band dt0 m : Nat} (ht0 : t0 < 4294967296)
    (hband : t0Band < 4294967296) (hdt0 : dt0 ≠ 0) (hm : m < u32 (t0Band / dt0 + 1)) :
    u32sub (u32 (t0 + m * dt0)) t0 = m * dt0 := by
  have hle : m ≤ t0Band / dt0 := by
    rw [u32_eq] at hm
    have : (t0Band / dt0 + 1) % 4294967296 ≤ t0Band / dt0 + 1 := Nat.mod_le _ _
    omega
  have hmul : m * dt0 ≤ t0Band := (Nat.le_div_iff_mul_le (Nat.pos_of_ne_zero hdt0)).mp hle
  rw [u32_eq, u32sub_eq]
  omega

/-- C4: after a successful run in which the statistic of every cell is a finite number
(`FiniteCell`: no determinant `Ad * Bd - Cd * Cd` by which the code divides is zero; this
delimits the runs in which `F_mn` holds the numbers the C code stores), if the cell `{m, n}`
holds the largest `F` of the grid, this `F` is positive and no cell before `{m, n}` in
row-major order (start index outer, duration index inner) holds the same value, then the
reported peak is that cell: `t0offs_maxF = m * dt0` and `tau_maxF = tau + n * dtau` (a
`UINT4` sum, exact when `tau + tauBand < 2^32`), and `maxTwoF` is twice its `F`.  The range
is the one the scan uses, which is the given range unless its type is `none`. -/
theorem C4_peak_is_first_maximiser (env : Env K)
    (multiFstatAtoms : Option (MultiFstatAtomVector K)) (windowRange : transientWindowRange_t K)
    (useFReg : Bool) (ret : TransientCandidate_t K) (r : EngineResult K)
    (h : computeTransientBstat env multiFstatAtoms windowRange useFReg ret = .ok r)
    (ht0 : r.windowRange.t0 < 4294967296) (hband : r.windowRange.t0Band < 4294967296)
    (m n : Nat) (hm : m < r.N_t0Range) (hn : n < r.N_tauRange)
    (hpos : 0 < r.F_mn.data m n)
    (hmax : ∀ m1 n1, m1 < r.N_t0Range → n1 < r.N_tauRange →
      r.F_mn.data m1 n1 ≤ r.F_mn.data m n)
    (hfirst : ∀ m1 n1, m1 < r.N_t0Range → n1 < r.N_tauRange →
      (m1 < m ∨ (m1 = m ∧ n1 < n)) → r.F_mn.data m1 n1 ≠ r.F_mn.data m n) :
    (∀ c ∈ r.trace, FiniteCell useFReg c.acc) →
    (windowRange.type ≠ TRANSIENT_NONE → r.windowRange = windowRange) ∧
    r.ret.maxTwoF = 2 * r.F_mn.data m n ∧
    r.ret.t0offs_maxF = m * r.windowRange.dt0 ∧
    r.ret.tau_maxF = u32 (r.windowRange.tau + n * r.windowRange.dtau) ∧
    (r.windowRange.tau + r.windowRange.tauBand < 4294967296 → r.windowRange.tauBand < 4294967296 →
      r.ret.tau_maxF = r.windowRange.tau + n * r.windowRange.dtau) := by
  intro _
  obtain ⟨first, rest, atoms, atom0, -, -, -, -, hsr⟩ := computeTransientBstat_ok h
  obtain ⟨F_mn0, expLUT, s, hdt0, hdtau, hN1, hN2, -, -, hscan, -, -, hrng, -, hF, -, hret⟩ :=
    scanAndReduce_ok hsr
  rw [← hrng] at hdt0 hdtau hN1 hN2 hscan
  obtain ⟨hinv, hlen⟩ := scanGrid_inv hscan
  obtain ⟨c, hget, e1, e2, hok, hval⟩ := scanGrid_cell hscan hm hn
  have hNpos : 0 < r.N_tauRange := by omega
  rw [hF] at hpos hmax hfirst
  have hcell : ∀ (j : Nat) (c1 : CellRecord K), s.trace[j]? = some c1 →
      c1.m = j / r.N_tauRange ∧ c1.n = j % r.N_tauRange ∧ j / r.N_tauRange < r.N_t0Range ∧
        j % r.N_tauRange < r.N_tauRange ∧ s.F_mn.data c1.m c1.n = c1.F := by
    intro j c1 hj
    obtain ⟨hc1, hF1⟩ := hinv.1 j c1 hj
    have hjlt : j < s.trace.length := by
      by_contra hcon
      rw [List.getElem?_eq_none (by omega)] at hj
      cases hj
    refine ⟨hc1.1, hc1.2.1, ?_, Nat.mod_lt _ hNpos, hF1⟩
    apply Nat.div_lt_of_lt_mul
    rw [Nat.mul_comm, ← hlen]
    exact hjlt
  have hpeak := peak_foldl_first r.windowRange s.trace (0, ret.t0offs_maxF, ret.tau_maxF)
    (m * r.N_tauRange + n) c hget (by rw [← hval]; exact hpos)
    (by
      intro j c1 hj
      obtain ⟨a1, a2, a3, a4, a5⟩ := hcell j c1 hj
      rw [← a5, ← hval, a1, a2]
      exact hmax _ _ a3 a4)
    (by
      intro j c1 hjk hj
      obtain ⟨a1, a2, a3, a4, a5⟩ := hcell j c1 hj
      rw [← a5, ← hval, a1, a2]
      apply hfirst _ _ a3 a4
      have hdm := Nat.div_add_mod j r.N_tauRange
      have hle : j / r.N_tauRange ≤ m := by
        have := Nat.div_le_div_right (c := r.N_tauRange) (Nat.le_of_lt hjk)
        rw [cell_div hn] at this
        exact this
      rcases Nat.lt_or_eq_of_le hle with hlt | heq
      · exact Or.inl hlt
      · right
        refine ⟨heq, ?_⟩
        rw [heq, Nat.mul_comm] at hdm
        omega)
  have hinv2 := hinv.2.1
  rw [hpeak] at hinv2
  simp only [Prod.mk.injEq] at hinv2
  obtain ⟨hmaxF, htoffs, htau⟩ := hinv2
  have hwt0 := hok.2.2.1
  have hwtau := hok.2.2.2.1
  rw [e1] at hwt0
  rw [e2] at hwtau
  have htau' : r.ret.tau_maxF = u32 (r.windowRange.tau + n * r.windowRange.dtau) := by
    rw [hret]; simp only; rw [htau, hwtau]
  refine ⟨?_, ?_, ?_, htau', ?_⟩
  · intro hne
    rw [hrng]
    unfold substituteNone
    rw [if_neg hne]
  · rw [hret, hF, hval]; simp only; rw [hmaxF]
  · rw [hret]; simp only
    rw [htoffs, hwt0]
    exact t0offs_exact ht0 hband hdt0 (by rw [← hN1]; exact hm)
  · intro hsum hb
    rw [htau']
    apply u32_of_lt
    have hle : n ≤ r.windowRange.tauBand / r.windowRange.dtau := by
      have hn' := hn
      rw [hN2, u32_eq] at hn'
      have : (r.windowRange.tauBand / r.windowRange.dtau + 1) % 4294967296 ≤
          r.windowRange.tauBand / r.windowRange.dtau + 1 := Nat.mod_le _ _
      omega
    have hmul : n * r.windowRange.dtau ≤ r.windowRange.tauBand :=
      (Nat.le_div_iff_mul_le (Nat.pos_of_ne_zero hdtau)).mp hle
    omega


/-- Witness of C4: on `eightAtoms` with `tieRange` no cell has a zero determinant, the
largest `F` is attained by the cells `{0, 2}` and `{1, 2}`, and the hypotheses hold for the
first of them. -/
theorem C4_peak_is_first_maximiser_witness :
    ∃ r, computeTransientBstat ratEnv (some [some eightAtoms]) tieRange false
        empty_TransientCandidate = .ok r ∧
      (∀ c ∈ r.trace, FiniteCell false c.acc) ∧
      r.F_mn.data 0 2 = r.F_mn.data 1 2 ∧
      ((tieRange (K := ℚ)).type ≠ TRANSIENT_NONE → r.windowRange = tieRange) ∧
      r.ret.maxTwoF = 2 * r.F_mn.data 0 2 ∧
      r.ret.t0offs_maxF = 0 * r.windowRange.dt0 ∧
      r.ret.tau_maxF = u32 (r.windowRange.tau + 2 * r.windowRange.dtau) ∧
      (r.windowRange.tau + r.windowRange.tauBand < 4294967296 →
        r.windowRange.tauBand < 4294967296 →
        r.ret.tau_maxF = r.windowRange.tau + 2 * r.windowRange.dtau) := by
  have hev : (match computeTransientBstat ratEnv (some [some eightAtoms]) tieRange false
      empty_TransientCandidate with
    | .ok r => decide ((∀ c ∈ r.trace, FiniteCell false c.acc) ∧
        r.F_mn.data 0 2 = r.F_mn.data 1 2 ∧
        r.windowRange.t0 < 4294967296 ∧ r.windowRange.t0Band < 4294967296 ∧
        0 < r.N_t0Range ∧ 2 < r.N_tauRange ∧ 0 < r.F_mn.data 0 2 ∧
        (∀ m1 < r.N_t0Range, ∀ n1 < r.N_tauRange, r.F_mn.data m1 n1 ≤ r.F_mn.data 0 2) ∧
        (∀ m1 < r.N_t0Range, ∀ n1 < r.N_tauRange,
          (m1 < 0 ∨ (m1 = 0 ∧ n1 < 2)) → r.F_mn.data m1 n1 ≠ r.F_mn.data 0 2))
    | _ => false) = true := by decide!
  cases hrun : computeTransientBstat ratEnv (some [some eightAtoms]) tieRange false
      empty_TransientCandidate with
  | ok r =>
    rw [hrun] at hev
    obtain ⟨hfin, htie, ht0, hband, hm, hn, hpos, hmax, hfirst⟩ := of_decide_eq_true hev
    exact ⟨r, rfl, hfin, htie,
      C4_peak_is_first_maximiser ratEnv _ _ _ _ r hrun ht0 hband 0 2 hm hn hpos
        (fun m1 n1 h1 h2 => hmax m1 h1 n1 h2) (fun m1 n1 h1 h2 => hfirst m1 h1 n1 h2) hfin⟩
  | fail e => rw [hrun] at hev; cases hev
  | undefined => rw [hrun] at hev; cases hev

/-! ## The single-atom window (C5) -/

/-- A cell whose end index equals its start index makes the inner loop body raise
`XLAL_EDOM`. -/
theorem innerBody_single_atom {env : Env K} {atoms : FstatAtomVector K}
    {windowRange : transientWindowRange_t K} {useFReg : Bool}
    {t0_data TAtom m window_t0 i_t0 n t0 t1 : Nat} (s : ScanState K)
    (hspan : XLALGetTransientWindowTimespan env
      { type := windowRange.type, t0 := window_t0
        tau := u32 (windowRange.tau + n * windowRange.dtau) } = .ok (t0, t1))
    (hsingle : endIndex t1 t0_data TAtom atoms.data.length = i_t0) :
    innerBody env atoms windowRange useFReg t0_data TAtom m window_t0 i_t0 n s
      = .fail .XLAL_EDOM := by
  unfold innerBody
  simp only [hspan, hsingle, if_true]

/-- The double loop raises `XLAL_EDOM` when it reaches a single-atom cell. -/
theorem scanGrid_single_atom {env : Env K} {atoms : FstatAtomVector K}
    {windowRange : transientWindowRange_t K} {useFReg : Bool}
    {t0_data TAtom N_t0Range N_tauRange m n t0 t1 : Nat} {ret : TransientCandidate_t K}
    {F_mn0 : gsl_matrix K} (hm : m < N_t0Range) (hn : n < N_tauRange)
    (hreach : cellReached env atoms windowRange useFReg t0_data TAtom N_tauRange
      { acc := zeroAccum, i_t1_last := 0, maxF := 0, ret := ret, F_mn := F_mn0, trace := [] }
      m n)
    (hspan : XLALGetTransientWindowTimespan env
      { type := windowRange.type, t0 := u32 (windowRange.t0 + m * windowRange.dt0)
        tau := u32 (windowRange.tau + n * windowRange.dtau) } = .ok (t0, t1))
    (hsingle : endIndex t1 t0_data TAtom atoms.data.length =
      startIndex (u32 (windowRange.t0 + m * windowRange.dt0)) t0_data TAtom atoms.data.length) :
    scanGrid env atoms windowRange useFReg t0_data TAtom N_t0Range N_tauRange ret F_mn0
      = .fail .XLAL_EDOM := by
  obtain ⟨s1, s2, hrows, hcells⟩ := hreach
  unfold scanGrid
  have e1 : N_t0Range = m + ((N_t0Range - m - 1) + 1) := by omega
  have e2 : N_tauRange = n + ((N_tauRange - n - 1) + 1) := by omega
  rw [e1]
  apply forRange_fail_at _ _ _ _ _ s1 _ hrows
  unfold outerBody
  simp only [Nat.zero_add]
  rw [e2]
  apply forRange_fail_at _ _ _ _ _ s2 _ hcells
  simp only [Nat.zero_add]
  exact innerBody_single_atom s2 hspan hsingle

/-- C5: if the scan of `XLALComputeTransientBstat` reaches a grid cell `{m, n}` whose end atom
index equals its start atom index (`i_t1 == i_t0`), the call returns the failure `XLAL_EDOM`.
The hypotheses before `hreach` say that the call gets as far as the scan: the input is not
NULL, the window type is known, the merge succeeds and the steps are not 0. -/
theorem C5_single_atom_cell_fails (env : Env K) (cand : TransientCandidate_t K)
    (first : FstatAtomVector K) (rest : List (Option (FstatAtomVector K)))
    (windowRange : transientWindowRange_t K) (useFReg : Bool)
    (atoms : FstatAtomVector K) (atom0 : FstatAtom K) (rng : transientWindowRange_t K)
    (m n t0 t1 : Nat)
    (htype : windowRange.type < TRANSIENT_LAST)
    (hmerge : XLALmergeMultiFstatAtomsBinned (some (some first :: rest)) first.TAtom = .ok atoms)
    (hhead : atoms.data.head? = some atom0)
    (hrng : rng = substituteNone windowRange atom0.timestamp atoms.data.length first.TAtom)
    (hdt0 : rng.dt0 ≠ 0) (hdtau : rng.dtau ≠ 0)
    (hm : m < u32 (rng.t0Band / rng.dt0 + 1)) (hn : n < u32 (rng.tauBand / rng.dtau + 1))
    (hreach : cellReached env atoms rng useFReg atom0.timestamp first.TAtom
      (u32 (rng.tauBand / rng.dtau + 1))
      { acc := zeroAccum, i_t1_last := 0, maxF := 0, ret := empty_TransientCandidate
        F_mn := { size1 := u32 (rng.t0Band / rng.dt0 + 1)
                  size2 := u32 (rng.tauBand / rng.dtau + 1), data := fun _ _ => 0 }
        trace := [] } m n)
    (hspan : XLALGetTransientWindowTimespan env
      { type := rng.type, t0 := u32 (rng.t0 + m * rng.dt0)
        tau := u32 (rng.tau + n * rng.dtau) } = .ok (t0, t1))
    (hsingle : endIndex t1 atom0.timestamp first.TAtom atoms.data.length =
      startIndex (u32 (rng.t0 + m * rng.dt0)) atom0.timestamp first.TAtom atoms.data.length) :
    XLALComputeTransientBstat env cand (some (some first :: rest)) windowRange useFReg
      = (.fail .XLAL_EDOM, empty_TransientCandidate) := by
  have hscan := scanGrid_single_atom hm hn hreach hspan hsingle
  have hN1 : ¬ (u32 (rng.t0Band / rng.dt0 + 1) = 0 ∨ u32 (rng.tauBand / rng.dtau + 1) = 0) := by
    omega
  have hsteps : ¬ (rng.dt0 = 0 ∨ rng.dtau = 0) := by
    rintro (h0 | h0)
    · exact hdt0 h0
    · exact hdtau h0
  have hty : ¬ (windowRange.type ≥ TRANSIENT_LAST) := by omega
  subst hrng
  simp only [XLALComputeTransientBstat, computeTransientBstat, hty, if_false, hmerge, hhead,
    scanAndReduce, hsteps, gsl_matrix_calloc, hN1, XLALCreateExpLUT_default, hscan]


/-- Witness of C5: on `eightAtoms` with `lateStartRange` the first row is scanned, and the
cell `{1, 0}` starts and ends at the last atom (index 7). -/
theorem C5_single_atom_cell_fails_witness :
    endIndex 11 0 1 8 = startIndex 7 0 1 8 ∧
    XLALComputeTransientBstat ratEnv empty_TransientCandidate (some [some eightAtoms])
      lateStartRange false = (.fail .XLAL_EDOM, empty_TransientCandidate) := by
  have hreach : cellReached ratEnv eightAtoms lateStartRange false
      (unitAtom (K := ℚ) 0).timestamp (eightAtoms (K := ℚ)).TAtom
      (u32 ((lateStartRange (K := ℚ)).tauBand / (lateStartRange (K := ℚ)).dtau + 1))
      { acc := zeroAccum, i_t1_last := 0, maxF := 0, ret := empty_TransientCandidate
        F_mn := { size1 := u32 ((lateStartRange (K := ℚ)).t0Band /
                    (lateStartRange (K := ℚ)).dt0 + 1)
                  size2 := u32 ((lateStartRange (K := ℚ)).tauBand /
                    (lateStartRange (K := ℚ)).dtau + 1), data := fun _ _ => 0 }
        trace := [] } 1 0 := by
    unfold cellReached
    have hev : (match forRange (outerBody ratEnv eightAtoms lateStartRange false
        (unitAtom (K := ℚ) 0).timestamp (eightAtoms (K := ℚ)).TAtom
        (u32 ((lateStartRange (K := ℚ)).tauBand / (lateStartRange (K := ℚ)).dtau + 1))) 1 0
        { acc := zeroAccum, i_t1_last := 0, maxF := 0, ret := empty_TransientCandidate
          F_mn := { size1 := u32 ((lateStartRange (K := ℚ)).t0Band /
                      (lateStartRange (K := ℚ)).dt0 + 1)
                    size2 := u32 ((lateStartRange (K := ℚ)).tauBand /
                      (lateStartRange (K := ℚ)).dtau + 1), data := fun _ _ => 0 }
          trace := [] } with
      | .ok _ => true
      | _ => false) = true := by decide!
    split at hev
    · rename_i s1 h1
      exact ⟨s1, _, h1, rfl⟩
    · cases hev
  refine ⟨by decide!, ?_⟩
  exact C5_single_atom_cell_fails ratEnv empty_TransientCandidate eightAtoms [] lateStartRange
    false eightAtoms (unitAtom 0) lateStartRange 1 0 7 11 (by decide) (by decide!) (by decide!)
    (by unfold substituteNone; rfl) (by decide) (by decide) (by decide!) (by decide!) hreach
    (by decide!) (by decide!)

/-! ## The degenerate window of duration 0 (C6) -/

/-- C6 (failing input): on `eightAtoms` with a rectangular window of start time 1 and
duration 0 the call succeeds although its only cell has `i_t0 = 1` and `i_t1 = 0`: the check
`i_t1 == i_t0` lets it pass, no atom is summed, and the determinant `Ad * Bd - Cd * Cd` by
which the code divides is 0. -/
theorem C6_zero_duration_window_divides_by_zero (env : Env K) (cand : TransientCandidate_t K) :
    ∃ r, computeTransientBstat env (some [some eightAtoms]) zeroTauRange false
        empty_TransientCandidate = .ok r ∧
      XLALComputeTransientBstat env cand (some [some eightAtoms]) zeroTauRange false
        = (.ok (), r.ret) ∧
      r.N_t0Range = 1 ∧ r.N_tauRange = 1 ∧
      r.trace.map (fun c => (c.i_t0, c.i_t1, c.acc)) =
        [(1, 0, { Ad := 0, Bd := 0, Cd := 0, Fa_re := 0, Fa_im := 0, Fb_re := 0, Fb_im := 0 })] ∧
      (∀ c ∈ r.trace, c.i_t1 < c.i_t0 ∧ c.acc.Ad * c.acc.Bd - c.acc.Cd * c.acc.Cd = 0) := by
  have hm := merge_eightAtoms (K := K)
  have hd : (eightAtoms (K := K)).TAtom = 1 := rfl
  have hrun : ∃ r, computeTransientBstat env (some [some eightAtoms]) zeroTauRange false
        empty_TransientCandidate = .ok r ∧
      r.N_t0Range = 1 ∧ r.N_tauRange = 1 ∧
      r.trace.map (fun c => (c.i_t0, c.i_t1, c.acc)) =
        [(1, 0, { Ad := 0, Bd := 0, Cd := 0, Fa_re := 0, Fa_im := 0, Fb_re := 0, Fb_im := 0 })] ∧
      (∀ c ∈ r.trace, c.i_t1 < c.i_t0 ∧ c.acc.Ad * c.acc.Bd - c.acc.Cd * c.acc.Cd = 0) := by
    simp only [computeTransientBstat, hd, hm]
    norm_num [scanAndReduce, finishBstat, substituteNone, gsl_matrix_calloc,
      XLALCreateExpLUT_default, scanGrid, forRange, outerBody, innerBody, startIndex, endIndex,
      clampIndex, toINT4, u32, u32sub, XLALGetTransientWindowTimespan, sumCell, addAtomRect,
      accAddAtom, zeroAccum, FstatOfAccum, SQ, gsl_matrix_set, eightAtoms, unitAtom,
      zeroTauRange, reduceGrid, reduceCell, gsl_matrix_get, XLALFastNegExp_zero]
  obtain ⟨r, h, h1, h2, h3, h4⟩ := hrun
  exact ⟨r, h, XLALComputeTransientBstat_of_ok h, h1, h2, h3, h4⟩

/-! ## Steps of size zero (C8) -/

/-- A zero step leaves the model at the division that computes the grid size. -/
theorem scanAndReduce_zero_step (env : Env K) (atoms : FstatAtomVector K)
    (windowRange : transientWindowRange_t K) (useFReg : Bool) (TAtom t0_data : Nat)
    (ret : TransientCandidate_t K) (h : windowRange.dt0 = 0 ∨ windowRange.dtau = 0) :
    scanAndReduce env atoms windowRange useFReg TAtom t0_data ret = .undefined := by
  unfold scanAndReduce
  rw [if_pos h]

/-- C8 (failing input): on `eightAtoms`, a rectangular range with `dt0 = 0` and an exponential
range with `dtau = 0` do not make `XLALComputeTransientBstat` return `XLAL_EINVAL`: the call
reaches the `UINT4` division `t0Band / dt0` (or `tauBand / dtau`) by the zero step, which is
undefined behaviour. -/
theorem C8_zero_step_is_not_rejected (env : Env K) (cand : TransientCandidate_t K) :
    (zeroStepRange (K := K)).dt0 = 0 ∧ (zeroTauStepRange (K := K)).dtau = 0 ∧
    XLALComputeTransientBstat env cand (some [some eightAtoms]) zeroStepRange false
      = (.undefined, empty_TransientCandidate) ∧
    XLALComputeTransientBstat env cand (some [some eightAtoms]) zeroTauStepRange false
      = (.undefined, empty_TransientCandidate) := by
  have hm := merge_eightAtoms (K := K)
  have hd : (eightAtoms (K := K)).TAtom = 1 := rfl
  refine ⟨rfl, rfl, ?_, ?_⟩
  · simp only [XLALComputeTransientBstat, computeTransientBstat, hd, hm]
    simp [substituteNone, zeroStepRange, eightAtoms, scanAndReduce_zero_step]
  · simp only [XLALComputeTransientBstat, computeTransientBstat, hd, hm]
    simp [substituteNone, zeroTauStepRange, eightAtoms, scanAndReduce_zero_step, TRANSIENT_LAST,
      TRANSIENT_EXPONENTIAL]

/-! ## No partial output on failure (C7) -/

/-- C7: whenever `XLALComputeTransientBstat` returns an error, the caller's candidate is the
empty (all-zero) candidate, whatever it held before the call and however far the scan got. -/
theorem C7_error_leaves_empty_candidate (env : Env K) (cand : TransientCandidate_t K)
    (multiFstatAtoms : Option (MultiFstatAtomVector K)) (windowRange : transientWindowRange_t K)
    (useFReg : Bool) (e : XlalErrno)
    (h : (XLALComputeTransientBstat env cand multiFstatAtoms windowRange useFReg).1 = .fail e) :
    (XLALComputeTransientBstat env cand multiFstatAtoms windowRange useFReg).2
      = empty_TransientCandidate := by
  unfold XLALComputeTransientBstat at h ⊢
  simp only at h ⊢
  split
  · rfl
  · rfl
  · rename_i r hr
    rw [hr] at h
    simp at h


/-- Witness of C7: on `eightAtoms` with `lateStartRange` the first row is scanned and has a
positive peak before the second row raises `XLAL_EDOM`; the caller's stale candidate is
replaced by the empty one. -/
theorem C7_error_leaves_empty_candidate_witness :
    (XLALComputeTransientBstat ratEnv staleCandidate (some [some eightAtoms]) lateStartRange
      false).1 = .fail .XLAL_EDOM ∧
    (XLALComputeTransientBstat ratEnv staleCandidate (some [some eightAtoms]) lateStartRange
      false).2 = empty_TransientCandidate :=
  ⟨by decide!,
    C7_error_leaves_empty_candidate ratEnv staleCandidate (some [some eightAtoms])
      lateStartRange false .XLAL_EDOM (by decide!)⟩

/-! ## Merging the atoms -/

theorem binAtoms_nil (tMin deltaT i : Nat) (out : List (FstatAtom K)) :
    binAtoms tMin deltaT [] i out = .ok out := rfl

theorem binAtoms_cons_some {tMin deltaT : Nat} {a : FstatAtom K} {out : List (FstatAtom K)}
    {d : FstatAtom K} (h : out[codeBin tMin deltaT a]? = some d) (rest : List (FstatAtom K))
    (i : Nat) :
    binAtoms tMin deltaT (a :: rest) i out =
      binAtoms tMin deltaT rest (i + 1)
        (out.set (codeBin tMin deltaT a) (addToBin d a (u32 (tMin + i * deltaT)))) := by
  unfold codeBin at h
  rw [binAtoms]
  simp only [h]
  rfl

/-- The inner loop of the merge succeeds when every atom has its bin inside the output array;
it keeps the number of bins, leaves a bin that no atom maps to untouched and adds to each
bin the components of the atoms that map to it. -/
theorem binAtoms_spec (tMin deltaT : Nat) :
    ∀ (l : List (FstatAtom K)) (i : Nat) (out : List (FstatAtom K)),
      (∀ a ∈ l, codeBin tMin deltaT a < out.length) →
      ∃ out1, binAtoms tMin deltaT l i out = .ok out1 ∧ out1.length = out.length ∧
        (∀ j, (∀ a ∈ l, codeBin tMin deltaT a ≠ j) → out1[j]? = out[j]?) ∧
        (∀ f : FstatAtom K → K, IsAccumulated f → ∀ (j : Nat) (d : FstatAtom K),
          out[j]? = some d → ∃ d1, out1[j]? = some d1 ∧
            f d1 = f d + ((l.filter (fun a => codeBin tMin deltaT a = j)).map f).sum) := by
  intro l
  induction l with
  | nil =>
    intro i out _
    exact ⟨out, rfl, rfl, fun _ _ => rfl, fun f _ j d hd => ⟨d, hd, by simp⟩⟩
  | cons a l ih =>
    intro i out hb
    have ha : codeBin tMin deltaT a < out.length := hb a (List.mem_cons_self a l)
    have hget : out[codeBin tMin deltaT a]? = some (out[codeBin tMin deltaT a]) :=
      List.getElem?_eq_getElem ha
    rw [binAtoms_cons_some hget]
    obtain ⟨out1, hrun, hlen, hkeep, hsum⟩ := ih (i + 1)
      (out.set (codeBin tMin deltaT a)
        (addToBin (out[codeBin tMin deltaT a]) a (u32 (tMin + i * deltaT))))
      (by
        intro b hbl
        rw [List.length_set]
        exact hb b (List.mem_cons_of_mem a hbl))
    refine ⟨out1, hrun, by rw [hlen, List.length_set], ?_, ?_⟩
    · intro j hj
      have hja : codeBin tMin deltaT a ≠ j := hj a (List.mem_cons_self a l)
      rw [hkeep j (fun b hbl => hj b (List.mem_cons_of_mem a hbl)),
        List.getElem?_set_ne hja]
    · intro f hf j d hd
      by_cases hja : codeBin tMin deltaT a = j
      · have hset : (out.set (codeBin tMin deltaT a)
            (addToBin (out[codeBin tMin deltaT a]) a (u32 (tMin + i * deltaT))))[j]? =
            some (addToBin d a (u32 (tMin + i * deltaT))) := by
          subst hja
          rw [List.getElem?_set_self ha]
          rw [hget] at hd
          cases hd
          rfl
        obtain ⟨d1, hd1, hval⟩ := hsum f hf j _ hset
        refine ⟨d1, hd1, ?_⟩
        rw [hval, hf.2, List.filter_cons_of_pos (by simpa using hja)]
        simp only [List.map_cons, List.sum_cons]
        ring
      · have hset : (out.set (codeBin tMin deltaT a)
            (addToBin (out[codeBin tMin deltaT a]) a (u32 (tMin + i * deltaT))))[j]? = some d := by
          rw [List.getElem?_set_ne hja]; exact hd
        obtain ⟨d1, hd1, hval⟩ := hsum f hf j _ hset
        refine ⟨d1, hd1, ?_⟩
        rw [hval, List.filter_cons_of_neg (by simpa using hja)]


/-- The outer loop of the merge succeeds when no detector pointer is NULL and every atom has
its bin inside the output array; each bin receives the components of all atoms, of all
detectors, that map to it. -/
theorem binDetectors_spec (tMin deltaT : Nat) :
    ∀ (multi : List (Option (FstatAtomVector K))) (out : List (FstatAtom K)),
      (∀ o ∈ multi, o ≠ none) →
      (∀ a ∈ allAtoms multi, codeBin tMin deltaT a < out.length) →
      ∃ out1, binDetectors tMin deltaT multi out = .ok out1 ∧ out1.length = out.length ∧
        (∀ j, (∀ a ∈ allAtoms multi, codeBin tMin deltaT a ≠ j) → out1[j]? = out[j]?) ∧
        (∀ f : FstatAtom K → K, IsAccumulated f → ∀ (j : Nat) (d : FstatAtom K),
          out[j]? = some d → ∃ d1, out1[j]? = some d1 ∧
            f d1 = f d +
              (((allAtoms multi).filter (fun a => codeBin tMin deltaT a = j)).map f).sum) := by
  intro multi
  induction multi with
  | nil =>
    intro out _ _
    exact ⟨out, rfl, rfl, fun _ _ => rfl, fun f _ j d hd => ⟨d, hd, by simp [allAtoms]⟩⟩
  | cons o rest ih =>
    intro out hnn hb
    cases o with
    | none => exact absurd rfl (hnn none (List.mem_cons_self _ _))
    | some v =>
      simp only [allAtoms, List.mem_append] at hb
      obtain ⟨out1, hrun1, hlen1, hkeep1, hsum1⟩ :=
        binAtoms_spec tMin deltaT v.data 0 out (fun a ha => hb a (Or.inl ha))
      obtain ⟨out2, hrun2, hlen2, hkeep2, hsum2⟩ := ih out1
        (fun o ho => hnn o (List.mem_cons_of_mem _ ho))
        (fun a ha => by rw [hlen1]; exact hb a (Or.inr ha))
      refine ⟨out2, ?_, by rw [hlen2, hlen1], ?_, ?_⟩
      · simp only [binDetectors, hrun1, hrun2]
      · intro j hj
        simp only [allAtoms, List.mem_append] at hj
        rw [hkeep2 j (fun a ha => hj a (Or.inr ha)), hkeep1 j (fun a ha => hj a (Or.inl ha))]
      · intro f hf j d hd
        obtain ⟨d1, hd1, hv1⟩ := hsum1 f hf j d hd
        obtain ⟨d2, hd2, hv2⟩ := hsum2 f hf j d1 hd1
        refine ⟨d2, hd2, ?_⟩
        rw [hv2, hv1]
        simp only [allAtoms, List.filter_append, List.map_append, List.sum_append]
        ring

/-- The cadence check passes when no detector pointer is NULL and all cadences agree. -/
theorem checkTAtoms_ok (TAtom : Nat) :
    ∀ (multi : List (Option (FstatAtomVector K))),
      (∀ o ∈ multi, ∃ v, o = some v ∧ v.TAtom = TAtom) → checkTAtoms TAtom multi = .ok () := by
  intro multi
  induction multi with
  | nil => intro _; rfl
  | cons o rest ih =>
    intro h
    obtain ⟨v, hv, hT⟩ := h o (List.mem_cons_self _ _)
    subst hv
    simp only [checkTAtoms, hT, ne_eq, not_true_eq_false, if_false]
    exact ih (fun o ho => h o (List.mem_cons_of_mem _ ho))

/-- In a time-ordered, non-empty detector the first atom is the earliest and the last atom
the latest. -/
theorem timeOrdered_bounds {v : FstatAtomVector K} (hne : v.data ≠ []) (hs : TimeOrdered v) :
    ∃ first last, v.data.head? = some first ∧ v.data.getLast? = some last ∧
      first ∈ v.data ∧ last ∈ v.data ∧
      ∀ a ∈ v.data, first.timestamp ≤ a.timestamp ∧ a.timestamp ≤ last.timestamp := by
  unfold TimeOrdered at hs
  cases hd : v.data with
  | nil => exact absurd hd hne
  | cons first tail =>
    rw [hd] at hs
    have hne2 : first :: tail ≠ [] := by simp
    refine ⟨first, (first :: tail).getLast hne2, rfl, List.getLast?_eq_getLast _ hne2,
      List.mem_cons_self _ _, List.getLast_mem hne2, ?_⟩
    intro a ha
    constructor
    · rcases List.mem_cons.mp ha with h | h
      · rw [h]
      · exact List.rel_of_pairwise_cons hs h
    · have hsplit := List.dropLast_append_getLast hne2
      rw [← hsplit] at hs ha
      rcases List.mem_append.mp ha with h | h
      · exact (List.pairwise_append.mp hs).2.2 a h _ (by simp)
      · simp only [List.mem_singleton] at h
        rw [h]


/-- The search for the earliest and latest timestamps succeeds on non-empty, time-ordered
detectors: starting from `(lo, hi)` it returns the least of `lo` and all timestamps and the
largest of `hi` and all timestamps. -/
theorem minMaxTimestamps_spec :
    ∀ (multi : List (Option (FstatAtomVector K))) (lo hi : Nat),
      (∀ o ∈ multi, ∃ v, o = some v ∧ v.data ≠ [] ∧ TimeOrdered v) →
      ∃ tMin tMax, minMaxTimestamps multi (lo, hi) = .ok (tMin, tMax) ∧
        tMin ≤ lo ∧ hi ≤ tMax ∧
        (∀ a ∈ allAtoms multi, tMin ≤ a.timestamp ∧ a.timestamp ≤ tMax) ∧
        (tMin = lo ∨ ∃ a ∈ allAtoms multi, a.timestamp = tMin) ∧
        (tMax = hi ∨ ∃ a ∈ allAtoms multi, a.timestamp = tMax) := by
  intro multi
  induction multi with
  | nil =>
    intro lo hi _
    exact ⟨lo, hi, rfl, le_refl _, le_refl _, by simp [allAtoms], Or.inl rfl, Or.inl rfl⟩
  | cons o rest ih =>
    intro lo hi h
    obtain ⟨v, hv, hne, hs⟩ := h o (List.mem_cons_self _ _)
    subst hv
    obtain ⟨first, last, hhead, hlast, hfm, hlm, hbd⟩ := timeOrdered_bounds hne hs
    obtain ⟨tMin, tMax, hrun, hlo, hhi, hall, hmin, hmax⟩ :=
      ih (if first.timestamp < lo then first.timestamp else lo)
        (if last.timestamp > hi then last.timestamp else hi)
        (fun o ho => h o (List.mem_cons_of_mem _ ho))
    refine ⟨tMin, tMax, ?_, ?_, ?_, ?_, ?_, ?_⟩
    · simp only [minMaxTimestamps, hhead, hlast]
      exact hrun
    · split at hlo <;> omega
    · split at hhi <;> omega
    · intro a ha
      simp only [allAtoms, List.mem_append] at ha
      rcases ha with ha | ha
      · have := hbd a ha
        constructor
        · split at hlo <;> omega
        · split at hhi <;> omega
      · exact hall a ha
    · rcases hmin with hmin | ⟨a, ha, hta⟩
      · by_cases hc : first.timestamp < lo
        · right
          rw [if_pos hc] at hmin
          exact ⟨first, by simp only [allAtoms, List.mem_append]; exact Or.inl hfm, hmin.symm⟩
        · left
          rw [if_neg hc] at hmin
          exact hmin
      · right
        exact ⟨a, by simp only [allAtoms, List.mem_append]; exact Or.inr ha, hta⟩
    · rcases hmax with hmax | ⟨a, ha, hta⟩
      · by_cases hc : last.timestamp > hi
        · right
          rw [if_pos hc] at hmax
          exact ⟨last, by simp only [allAtoms, List.mem_append]; exact Or.inl hlm, hmax.symm⟩
        · left
          rw [if_neg hc] at hmax
          exact hmax
      · right
        exact ⟨a, by simp only [allAtoms, List.mem_append]; exact Or.inr ha, hta⟩

/-- For a timestamp between `tMin` and `tMax` the code's bin is the bin of the specification
and lies inside an array of `(tMax - tMin) / deltaT + 1` bins. -/
theorem codeBin_eq_specBin {tMin tMax deltaT : Nat} {a : FstatAtom K}
    (h1 : tMin ≤ a.timestamp) (h2 : a.timestamp ≤ tMax) (h3 : a.timestamp < 4294967296) :
    codeBin tMin deltaT a = specBin tMin deltaT a ∧
      specBin tMin deltaT a < (tMax - tMin) / deltaT + 1 := by
  unfold codeBin specBin
  rw [u32sub_of_le h1 h3]
  have hle : (a.timestamp - tMin) / deltaT ≤ a.timestamp - tMin := Nat.div_le_self _ _
  have hmono : (a.timestamp - tMin) / deltaT ≤ (tMax - tMin) / deltaT :=
    Nat.div_le_div_right (by omega)
  refine ⟨u32_of_lt (by omega), by omega⟩


/-- The merge on well-formed input: non-NULL, non-empty, time-ordered detectors with one
cadence and `UINT4` timestamps, `deltaT > 0`, an earliest timestamp `tMin` not above the
initial value `LAL_INT4_MAX - 1` of the search, and a bin count that fits `UINT4`.  The
output has `(tMax - tMin) / deltaT + 1` bins of cadence `deltaT`; bin `j` holds in every
accumulated component the sum over the atoms of all detectors with
`floor ((t - tMin) / deltaT) = j`, and it is the zero atom when there is no such atom. -/
theorem merge_spec (first : FstatAtomVector K) (rest : List (Option (FstatAtomVector K)))
    (deltaT tMin tMax : Nat)
    (hdet : ∀ o ∈ some first :: rest, ∃ v, o = some v ∧ v.data ≠ [] ∧ TimeOrdered v ∧
      v.TAtom = first.TAtom ∧ ∀ a ∈ v.data, a.timestamp < 4294967296)
    (hdT : deltaT ≠ 0)
    (hmin : (∀ a ∈ allAtoms (some first :: rest), tMin ≤ a.timestamp) ∧
      ∃ a ∈ allAtoms (some first :: rest), a.timestamp = tMin)
    (hmax : (∀ a ∈ allAtoms (some first :: rest), a.timestamp ≤ tMax) ∧
      ∃ a ∈ allAtoms (some first :: rest), a.timestamp = tMax)
    (hlo : tMin ≤ 2147483646) (hN : (tMax - tMin) / deltaT + 1 < 4294967296) :
    ∃ out, XLALmergeMultiFstatAtomsBinned (some (some first :: rest)) deltaT = .ok out ∧
      out.TAtom = deltaT ∧ out.data.length = (tMax - tMin) / deltaT + 1 ∧
      ∀ j, j < (tMax - tMin) / deltaT + 1 → ∃ d, out.data[j]? = some d ∧
        (∀ f : FstatAtom K → K, IsAccumulated f →
          f d = specBinSum tMin deltaT (allAtoms (some first :: rest)) f j) ∧
        ((∀ a ∈ allAtoms (some first :: rest), specBin tMin deltaT a ≠ j) → d = zeroAtom) := by
  have hts : ∀ a ∈ allAtoms (some first :: rest), a.timestamp < 4294967296 := by
    have key : ∀ (multi : List (Option (FstatAtomVector K))),
        (∀ o ∈ multi, ∃ v, o = some v ∧ ∀ a ∈ v.data, a.timestamp < 4294967296) →
        ∀ a ∈ allAtoms multi, a.timestamp < 4294967296 := by
      intro multi
      induction multi with
      | nil => intro _ a ha; simp [allAtoms] at ha
      | cons o tl ih =>
        intro h a ha
        obtain ⟨v, hv, hvt⟩ := h o (List.mem_cons_self _ _)
        subst hv
        simp only [allAtoms, List.mem_append] at ha
        rcases ha with ha | ha
        · exact hvt a ha
        · exact ih (fun o ho => h o (List.mem_cons_of_mem _ ho)) a ha
    exact key _ (fun o ho => by
      obtain ⟨v, hv, _, _, _, hvt⟩ := hdet o ho
      exact ⟨v, hv, hvt⟩)
  have hck := checkTAtoms_ok first.TAtom (some first :: rest) (fun o ho => by
    obtain ⟨v, hv, _, _, hT, _⟩ := hdet o ho
    exact ⟨v, hv, hT⟩)
  obtain ⟨tMin1, tMax1, hmm, hle1, _, hall, hminc, hmaxc⟩ :=
    minMaxTimestamps_spec (some first :: rest) (LAL_INT4_MAX - 1) 0 (fun o ho => by
      obtain ⟨v, hv, hne, hs, _, _⟩ := hdet o ho
      exact ⟨v, hv, hne, hs⟩)
  obtain ⟨amin, hamin, hamin2⟩ := hmin.2
  obtain ⟨amax, hamax, hamax2⟩ := hmax.2
  have e1 : tMin1 = tMin := by
    have h1 : tMin1 ≤ tMin := by rw [← hamin2]; exact (hall amin hamin).1
    rcases hminc with h | ⟨a, ha, hta⟩
    · have : LAL_INT4_MAX - 1 = 2147483646 := rfl
      omega
    · have := hmin.1 a ha
      omega
  have e2 : tMax1 = tMax := by
    have h1 : tMax ≤ tMax1 := by rw [← hamax2]; exact (hall amax hamax).2
    rcases hmaxc with h | ⟨a, ha, hta⟩
    · omega
    · have := hmax.1 a ha
      omega
  subst e1 e2
  have hmm_le : tMin1 ≤ tMax1 := by
    have := hall amin hamin
    omega
  have htmax : tMax1 < 4294967296 := by rw [← hamax2]; exact hts amax hamax
  have hNB : u32 (u32sub tMax1 tMin1 / deltaT + 1) = (tMax1 - tMin1) / deltaT + 1 := by
    rw [u32sub_of_le hmm_le htmax, u32_of_lt hN]
  have hbin : ∀ a ∈ allAtoms (some first :: rest),
      codeBin tMin1 deltaT a = specBin tMin1 deltaT a ∧
        specBin tMin1 deltaT a < (tMax1 - tMin1) / deltaT + 1 :=
    fun a ha => codeBin_eq_specBin (hall a ha).1 (hall a ha).2 (hts a ha)
  obtain ⟨out1, hrun, hlen, hkeep, hsum⟩ := binDetectors_spec tMin1 deltaT (some first :: rest)
    (List.replicate ((tMax1 - tMin1) / deltaT + 1) zeroAtom)
    (fun o ho => by
      obtain ⟨v, hv, _⟩ := hdet o ho
      rw [hv]; simp)
    (fun a ha => by
      rw [List.length_replicate, (hbin a ha).1]
      exact (hbin a ha).2)
  rw [List.length_replicate] at hlen
  refine ⟨{ TAtom := deltaT, data := out1 }, ?_, rfl, hlen, ?_⟩
  · simp only [XLALmergeMultiFstatAtomsBinned, hdT, if_false, hck, hmm, hNB, hrun]
  · intro j hj
    have hz : (List.replicate ((tMax1 - tMin1) / deltaT + 1) (zeroAtom (K := K)))[j]? =
        some zeroAtom := by
      rw [List.getElem?_replicate, if_pos hj]
    have hfil : ∀ g : FstatAtom K → K,
        (((allAtoms (some first :: rest)).filter
          (fun a => codeBin tMin1 deltaT a = j)).map g).sum =
        specBinSum tMin1 deltaT (allAtoms (some first :: rest)) g j := by
      intro g
      unfold specBinSum
      congr 2
      apply List.filter_congr
      intro a ha
      rw [(hbin a ha).1]
    obtain ⟨d, hd, _⟩ := hsum (fun _ => 0) ⟨rfl, fun _ _ _ => by simp⟩ j zeroAtom hz
    refine ⟨d, hd, ?_, ?_⟩
    · intro f hf
      obtain ⟨d1, hd1, hv⟩ := hsum f hf j zeroAtom hz
      rw [hd] at hd1
      cases hd1
      rw [hv, hf.1, zero_add, hfil]
    · intro hnone
      have := hkeep j (fun a ha => by rw [(hbin a ha).1]; exact hnone a ha)
      rw [hd, hz] at this
      cases this
      rfl


/-- The rectangular summation loop over the indices `start .. start + count - 1`, all inside
the array, adds exactly the atoms at these indices, each once. -/
theorem forRange_addAtomRect (data : List (FstatAtom K)) :
    ∀ (count start : Nat) (acc : Accum K), start + count ≤ data.length →
      forRange (addAtomRect data) count start acc =
        .ok (((data.drop start).take count).foldl accAddAtom acc) := by
  intro count
  induction count with
  | zero => intro start acc _; simp [forRange]
  | succ count ih =>
    intro start acc h
    have hlt : start < data.length := by omega
    have hget : data[start]? = some (data[start]) := List.getElem?_eq_getElem hlt
    have hbody : addAtomRect data start acc = .ok (accAddAtom acc (data[start])) := by
      simp only [addAtomRect, hget]
    rw [forRange_succ_ok hbody, ih (start + 1) _ (by omega)]
    have hdrop : data.drop start = data[start] :: data.drop (start + 1) :=
      List.drop_eq_getElem_cons hlt
    rw [hdrop, List.take_succ_cons, List.foldl_cons]

/-- The components of a running sum after adding a list of atoms. -/
theorem foldl_accAddAtom (l : List (FstatAtom K)) :
    ∀ acc : Accum K,
      (l.foldl accAddAtom acc).Ad = acc.Ad + (l.map (fun a => a.a2_alpha)).sum ∧
      (l.foldl accAddAtom acc).Bd = acc.Bd + (l.map (fun a => a.b2_alpha)).sum ∧
      (l.foldl accAddAtom acc).Cd = acc.Cd + (l.map (fun a => a.ab_alpha)).sum ∧
      (l.foldl accAddAtom acc).Fa_re = acc.Fa_re + (l.map (fun a => a.Fa_alpha.re)).sum ∧
      (l.foldl accAddAtom acc).Fa_im = acc.Fa_im + (l.map (fun a => a.Fa_alpha.im)).sum ∧
      (l.foldl accAddAtom acc).Fb_re = acc.Fb_re + (l.map (fun a => a.Fb_alpha.re)).sum ∧
      (l.foldl accAddAtom acc).Fb_im = acc.Fb_im + (l.map (fun a => a.Fb_alpha.im)).sum := by
  induction l with
  | nil => intro acc; simp
  | cons a l ih =>
    intro acc
    obtain ⟨h1, h2, h3, h4, h5, h6, h7⟩ := ih (accAddAtom acc a)
    simp only [List.foldl_cons, List.map_cons, List.sum_cons]
    rw [h1, h2, h3, h4, h5, h6, h7]
    simp only [accAddAtom]
    refine ⟨?_, ?_, ?_, ?_, ?_, ?_, ?_⟩ <;> ring

/-- The components of `sumAtoms` are the plain sums over the atoms. -/
theorem sumAtoms_components (l : List (FstatAtom K)) :
    (sumAtoms l).Ad = (l.map (fun a => a.a2_alpha)).sum ∧
    (sumAtoms l).Bd = (l.map (fun a => a.b2_alpha)).sum ∧
    (sumAtoms l).Cd = (l.map (fun a => a.ab_alpha)).sum ∧
    (sumAtoms l).Fa_re = (l.map (fun a => a.Fa_alpha.re)).sum ∧
    (sumAtoms l).Fa_im = (l.map (fun a => a.Fa_alpha.im)).sum ∧
    (sumAtoms l).Fb_re = (l.map (fun a => a.Fb_alpha.re)).sum ∧
    (sumAtoms l).Fb_im = (l.map (fun a => a.Fb_alpha.im)).sum := by
  obtain ⟨h1, h2, h3, h4, h5, h6, h7⟩ := foldl_accAddAtom l zeroAccum
  unfold sumAtoms
  rw [h1, h2, h3, h4, h5, h6, h7]
  simp only [zeroAccum, zero_add, and_self]


/-- Replacing one element of a list changes the total of `g` by the difference. -/
theorem list_sum_set (g : FstatAtom K → K) :
    ∀ (l : List (FstatAtom K)) (j : Nat) (d x : FstatAtom K), l[j]? = some d →
      ((l.set j x).map g).sum = (l.map g).sum - g d + g x := by
  intro l
  induction l with
  | nil => intro j d x h; simp at h
  | cons a l ih =>
    intro j d x h
    cases j with
    | zero =>
      simp only [List.getElem?_cons_zero, Option.some.injEq] at h
      subst h
      simp only [List.set_cons_zero, List.map_cons, List.sum_cons]
      ring
    | succ j =>
      rw [List.getElem?_cons_succ] at h
      simp only [List.set_cons_succ, List.map_cons, List.sum_cons, ih j d x h]
      ring

/-- Conservation in the inner loop of the merge: a successful pass raises the total of every
accumulated component over the bins by its total over the processed atoms. -/
theorem binAtoms_total (tMin deltaT : Nat) (f : FstatAtom K → K) (hf : IsAccumulated f) :
    ∀ (l : List (FstatAtom K)) (i : Nat) (out out1 : List (FstatAtom K)),
      binAtoms tMin deltaT l i out = .ok out1 →
      (out1.map f).sum = (out.map f).sum + (l.map f).sum := by
  intro l
  induction l with
  | nil =>
    intro i out out1 h
    rw [binAtoms_nil] at h
    cases h
    simp
  | cons a l ih =>
    intro i out out1 h
    cases hget : out[codeBin tMin deltaT a]? with
    | none =>
      unfold codeBin at hget
      rw [binAtoms] at h
      simp only [hget] at h
      cases h
    | some d =>
      rw [binAtoms_cons_some hget] at h
      rw [ih _ _ _ h, list_sum_set f out _ d _ hget, hf.2]
      simp only [List.map_cons, List.sum_cons]
      ring

/-- Conservation in the outer loop of the merge. -/
theorem binDetectors_total (tMin deltaT : Nat) (f : FstatAtom K → K) (hf : IsAccumulated f) :
    ∀ (multi : List (Option (FstatAtomVector K))) (out out1 : List (FstatAtom K)),
      binDetectors tMin deltaT multi out = .ok out1 →
      (out1.map f).sum = (out.map f).sum + ((allAtoms multi).map f).sum := by
  intro multi
  induction multi with
  | nil =>
    intro out out1 h
    simp only [binDetectors] at h
    cases h
    simp [allAtoms]
  | cons o rest ih =>
    intro out out1 h
    cases o with
    | none => simp only [binDetectors] at h; cases h
    | some v =>
      simp only [binDetectors] at h
      split at h
      · rename_i out2 h2
        rw [ih _ _ h, binAtoms_total tMin deltaT f hf _ _ _ _ h2]
        simp only [allAtoms, List.map_append, List.sum_append]
        ring
      · cases h
      · cases h

/-- Conservation law of the merge: when `XLALmergeMultiFstatAtomsBinned` returns a sequence,
the total of every accumulated component over its bins is the total over all input atoms of
all detectors. -/
theorem merge_total {multi : List (Option (FstatAtomVector K))} {deltaT : Nat}
    {out : FstatAtomVector K}
    (h : XLALmergeMultiFstatAtomsBinned (some multi) deltaT = .ok out)
    (f : FstatAtom K → K) (hf : IsAccumulated f) :
    (out.data.map f).sum = ((allAtoms multi).map f).sum := by
  unfold XLALmergeMultiFstatAtomsBinned at h
  split at h
  · cases h
  · cases h
  · cases h
  · rename_i first rest heq
    simp only [Option.some.injEq] at heq
    subst heq
    split at h
    · cases h
    · simp only at h
      split at h
      · cases h
      · cases h
      · split at h
        · cases h
        · cases h
        · rename_i tMin tMax _
          split at h
          · cases h
          · cases h
          · rename_i out1 hbin
            cases h
            rw [binDetectors_total tMin deltaT f hf _ _ _ hbin]
            simp [List.map_replicate, List.sum_replicate, hf.1]

/-- A successful merge was called with a non-zero `deltaT`. -/
theorem merge_deltaT_ne_zero {multi : Option (MultiFstatAtomVector K)} {deltaT : Nat}
    {out : FstatAtomVector K}
    (h : XLALmergeMultiFstatAtomsBinned multi deltaT = .ok out) : deltaT ≠ 0 := by
  unfold XLALmergeMultiFstatAtomsBinned at h
  split at h
  · cases h
  · cases h
  · cases h
  · split at h
    · cases h
    · assumption


/-! ## The window type none (C9) -/

theorem clampIndex_of_lt {i n : Nat} (h : i < n) : clampIndex (i : Int) n = i := by
  unfold clampIndex
  have h1 : ¬ ((i : Int) < 0) := by omega
  simp only [h1, if_false, Int.toNat_ofNat, ge_iff_le]
  rw [if_neg (by omega)]

theorem toINT4_of_lt {v : Nat} (h : v < 2147483648) : toINT4 v = (v : Int) := by
  rw [toINT4_eq]
  have : v % 4294967296 = v := by omega
  rw [this, if_pos h]

/-- A window that starts at the first timestamp of the data starts at atom 0. -/
theorem startIndex_data_start (t TAtom numAtoms : Nat) (hT : TAtom ≠ 0) (hN : 0 < numAtoms) :
    startIndex (u32 (t + 0 * TAtom)) t TAtom numAtoms = 0 := by
  unfold startIndex
  have h0 : u32sub (u32 (t + 0 * TAtom)) t = 0 := by
    rw [u32sub_eq, u32_eq]
    simp only [Nat.zero_mul, Nat.add_zero]
    omega
  have h1 : u32 (0 + TAtom / 2) / TAtom = 0 := by
    have hle : u32 (0 + TAtom / 2) ≤ TAtom / 2 := by
      rw [u32_eq, Nat.zero_add]; exact Nat.mod_le _ _
    apply Nat.div_eq_of_lt
    have : TAtom / 2 < TAtom := Nat.div_lt_self (Nat.pos_of_ne_zero hT) (by decide)
    omega
  rw [h0, h1, toINT4_of_lt (by decide)]
  exact clampIndex_of_lt hN

/-- A rectangular window of duration `numAtoms * TAtom` from the first timestamp ends at the
last atom, as long as the `UINT4` and `INT4` computations do not wrap. -/
theorem endIndex_data_end (t TAtom numAtoms : Nat) (hT : TAtom ≠ 0) (hN : 0 < numAtoms)
    (hwrap : numAtoms * TAtom + TAtom / 2 < 4294967296) (hidx : numAtoms ≤ 2147483648) :
    endIndex (u32 (u32 (t + 0 * TAtom) + u32 (u32 (numAtoms * TAtom) + 0 * TAtom))) t TAtom
      numAtoms = numAtoms - 1 := by
  unfold endIndex
  have hTpos : 0 < TAtom := Nat.pos_of_ne_zero hT
  have hhalf : TAtom / 2 < TAtom := Nat.div_lt_self hTpos (by decide)
  have h0 : u32sub (u32 (u32 (t + 0 * TAtom) + u32 (u32 (numAtoms * TAtom) + 0 * TAtom))) t
      = numAtoms * TAtom := by
    rw [u32sub_eq]
    simp only [u32_eq, Nat.zero_mul, Nat.add_zero]
    generalize numAtoms * TAtom = nT at hwrap ⊢
    omega
  have h1 : u32 (numAtoms * TAtom + TAtom / 2) / TAtom = numAtoms := by
    rw [u32_of_lt hwrap]
    apply Nat.div_eq_of_lt_le
    · omega
    · rw [Nat.add_mul, Nat.one_mul]; omega
  have hle : numAtoms ≤ numAtoms * TAtom := Nat.le_mul_of_pos_right _ hTpos
  rw [h0, h1, u32sub_of_le hN (by omega), toINT4_of_lt (by omega)]
  exact clampIndex_of_lt (by omega)


/-- A loop of one pass is its body. -/
theorem forRange_one {σ : Type} (body : Nat → σ → Res σ) (i : Nat) (s : σ) :
    forRange body 1 i s = body i s := by
  unfold forRange
  cases body i s <;> simp [forRange]

/-- The scan of the substituted range of the window type `none`: one cell, from atom 0 to
the last atom, holding the sums over all merged atoms. -/
theorem scanGrid_none (env : Env K) (atoms : FstatAtomVector K)
    (windowRange : transientWindowRange_t K) (useFReg : Bool) (t0_data TAtom : Nat)
    (ret : TransientCandidate_t K) (F_mn0 : gsl_matrix K)
    (hnone : windowRange.type = TRANSIENT_NONE) (hT : TAtom ≠ 0)
    (hbins : 2 ≤ atoms.data.length)
    (hwrap : atoms.data.length * TAtom + TAtom / 2 < 4294967296)
    (hidx : atoms.data.length ≤ 2147483648)
    (hM : 0 < F_mn0.size1 ∧ 0 < F_mn0.size2) :
    ∃ s c, scanGrid env atoms (substituteNone windowRange t0_data atoms.data.length TAtom)
        useFReg t0_data TAtom 1 1 ret F_mn0 = .ok s ∧
      s.trace = [c] ∧ c.m = 0 ∧ c.n = 0 ∧ c.i_t0 = 0 ∧ c.i_t1 = atoms.data.length - 1 ∧
      c.acc = sumAtoms atoms.data := by
  have hsub : substituteNone windowRange t0_data atoms.data.length TAtom =
      { windowRange with
        type := TRANSIENT_RECTANGULAR, t0 := t0_data, t0Band := 0, dt0 := TAtom
        tau := u32 (atoms.data.length * TAtom), tauBand := 0, dtau := TAtom } := by
    simp only [substituteNone, hnone, if_true]
  have hi0 := startIndex_data_start t0_data TAtom atoms.data.length hT (by omega)
  have hi1 := endIndex_data_end t0_data TAtom atoms.data.length hT (by omega) hwrap hidx
  have hne : ¬ (atoms.data.length - 1 = 0) := by omega
  have hcount : atoms.data.length - 1 + 1 - 0 = atoms.data.length := by omega
  have hsum := forRange_addAtomRect atoms.data atoms.data.length 0 zeroAccum (by omega)
  rw [List.drop_zero, List.take_length] at hsum
  simp only [Nat.zero_mul, Nat.add_zero] at hi0 hi1
  rw [hsub]
  simp only [scanGrid, forRange_one, outerBody, Nat.zero_mul, Nat.add_zero, hi0, innerBody, XLALGetTransientWindowTimespan,
    TRANSIENT_RECTANGULAR, TRANSIENT_NONE, TRANSIENT_EXPONENTIAL, hi1, hne, sumCell, hcount, hsum,
    gsl_matrix_set, hM, (by decide : ¬ ((1 : Nat) = 0)), (by decide : ¬ ((1 : Nat) = 2)),
    if_true, if_false, and_self]
  simp [sumAtoms]


/-- The merged atoms carry the same total sums as all input atoms of all detectors. -/
theorem sumAtoms_merge {multi : List (Option (FstatAtomVector K))} {deltaT : Nat}
    {out : FstatAtomVector K}
    (h : XLALmergeMultiFstatAtomsBinned (some multi) deltaT = .ok out) :
    sumAtoms out.data = sumAtoms (allAtoms multi) := by
  obtain ⟨a1, a2, a3, a4, a5, a6, a7⟩ := sumAtoms_components out.data
  obtain ⟨b1, b2, b3, b4, b5, b6, b7⟩ := sumAtoms_components (allAtoms multi)
  have e1 := merge_total h (fun a => a.a2_alpha) ⟨rfl, fun _ _ _ => rfl⟩
  have e2 := merge_total h (fun a => a.b2_alpha) ⟨rfl, fun _ _ _ => rfl⟩
  have e3 := merge_total h (fun a => a.ab_alpha) ⟨rfl, fun _ _ _ => rfl⟩
  have e4 := merge_total h (fun a => a.Fa_alpha.re) ⟨rfl, fun _ _ _ => rfl⟩
  have e5 := merge_total h (fun a => a.Fa_alpha.im) ⟨rfl, fun _ _ _ => rfl⟩
  have e6 := merge_total h (fun a => a.Fb_alpha.re) ⟨rfl, fun _ _ _ => rfl⟩
  have e7 := merge_total h (fun a => a.Fb_alpha.im) ⟨rfl, fun _ _ _ => rfl⟩
  cases hx : sumAtoms out.data
  cases hy : sumAtoms (allAtoms multi)
  rw [hx] at a1 a2 a3 a4 a5 a6 a7
  rw [hy] at b1 b2 b3 b4 b5 b6 b7
  simp only at a1 a2 a3 a4 a5 a6 a7 b1 b2 b3 b4 b5 b6 b7
  rw [a1, a2, a3, a4, a5, a6, a7, b1, b2, b3, b4, b5, b6, b7, e1, e2, e3, e4, e5, e6, e7]

/-- C9 (amended): for the window type `none`, when the merge (with `deltaT` the cadence of
the first detector) returns a sequence of `numAtoms ≥ 2` bins, `numAtoms ≤ 2^31` and
`numAtoms * TAtom + TAtom / 2 < 2^32`, the range is replaced by a rectangular one, the grid
is 1 x 1, and the scan processes the single cell `{0, 0}` with `i_t0 = 0`,
`i_t1 = numAtoms - 1` and running sums equal to the sums over all merged atoms, which are the
sums over all input atoms of all detectors; the function then continues with the
reduction over this one cell. -/
theorem C9_none_window_is_one_cell_over_all_atoms (env : Env K) (first : FstatAtomVector K)
    (rest : List (Option (FstatAtomVector K))) (windowRange : transientWindowRange_t K)
    (useFReg : Bool) (ret : TransientCandidate_t K) (atoms : FstatAtomVector K)
    (hnone : windowRange.type = TRANSIENT_NONE)
    (hmerge : XLALmergeMultiFstatAtomsBinned (some (some first :: rest)) first.TAtom = .ok atoms)
    (hbins : 2 ≤ atoms.data.length)
    (hwrap : atoms.data.length * first.TAtom + first.TAtom / 2 < 4294967296)
    (hidx : atoms.data.length ≤ 2147483648) :
    ∃ atom0 F_mn0 s c,
      atoms.data.head? = some atom0 ∧
      (substituteNone windowRange atom0.timestamp atoms.data.length first.TAtom).type
        = TRANSIENT_RECTANGULAR ∧
      gsl_matrix_calloc 1 1 = some F_mn0 ∧
      scanGrid env atoms
        (substituteNone windowRange atom0.timestamp atoms.data.length first.TAtom)
        useFReg atom0.timestamp first.TAtom 1 1 ret F_mn0 = .ok s ∧
      computeTransientBstat env (some (some first :: rest)) windowRange useFReg ret =
        finishBstat env (defaultExpLUT env) atoms
          (substituteNone windowRange atom0.timestamp atoms.data.length first.TAtom)
          first.TAtom 1 1 s ∧
      s.trace = [c] ∧ c.m = 0 ∧ c.n = 0 ∧ c.i_t0 = 0 ∧ c.i_t1 = atoms.data.length - 1 ∧
      c.acc = sumAtoms atoms.data ∧ c.acc = sumAtoms (allAtoms (some first :: rest)) := by
  have hT := merge_deltaT_ne_zero hmerge
  obtain ⟨atom0, hhead⟩ : ∃ a, atoms.data.head? = some a := by
    cases hd : atoms.data with
    | nil => rw [hd] at hbins; simp at hbins
    | cons a l => exact ⟨a, rfl⟩
  have hcalloc : gsl_matrix_calloc (K := K) 1 1
      = some { size1 := 1, size2 := 1, data := fun _ _ => 0 } := by
    simp [gsl_matrix_calloc]
  obtain ⟨s, c, hscan, htr, hm, hn, hi0, hi1, hacc⟩ :=
    scanGrid_none env atoms windowRange useFReg atom0.timestamp first.TAtom ret
      { size1 := 1, size2 := 1, data := fun _ _ => 0 } hnone hT hbins hwrap hidx
      ⟨Nat.one_pos, Nat.one_pos⟩
  have hsub : substituteNone windowRange atom0.timestamp atoms.data.length first.TAtom =
      { windowRange with
        type := TRANSIENT_RECTANGULAR, t0 := atom0.timestamp, t0Band := 0, dt0 := first.TAtom
        tau := u32 (atoms.data.length * first.TAtom), tauBand := 0, dtau := first.TAtom } := by
    simp only [substituteNone, hnone, if_true]
  refine ⟨atom0, _, s, c, hhead, by rw [hsub], hcalloc, hscan, ?_, htr, hm, hn, hi0, hi1, hacc,
    by rw [hacc, sumAtoms_merge hmerge]⟩
  have hge : ¬ (windowRange.type ≥ TRANSIENT_LAST) := by rw [hnone]; decide
  have hone : u32 1 = 1 := u32_of_lt (by decide)
  simp only [computeTransientBstat, hge, if_false, hmerge, hhead, scanAndReduce]
  rw [hsub] at hscan ⊢
  simp only [hT, or_self, if_false, Nat.zero_div, Nat.zero_add, hone, hcalloc,
    XLALCreateExpLUT_default, hscan]


/-- Witness of C9: two detectors over `ℚ`, one with a gap, merged into 6 bins and analysed
with the window type `none`. -/
theorem C9_none_window_is_one_cell_over_all_atoms_witness :
    ∃ atoms : FstatAtomVector ℚ,
      XLALmergeMultiFstatAtomsBinned (some [some gapDetectorA, some gapDetectorB])
        (gapDetectorA (K := ℚ)).TAtom = .ok atoms ∧
      2 ≤ atoms.data.length ∧
      ∃ atom0 F_mn0 s c,
        atoms.data.head? = some atom0 ∧
        (substituteNone (noneRange (K := ℚ)) atom0.timestamp atoms.data.length
          (gapDetectorA (K := ℚ)).TAtom).type = TRANSIENT_RECTANGULAR ∧
        gsl_matrix_calloc 1 1 = some F_mn0 ∧
        scanGrid ratEnv atoms
          (substituteNone noneRange atom0.timestamp atoms.data.length
            (gapDetectorA (K := ℚ)).TAtom)
          false atom0.timestamp (gapDetectorA (K := ℚ)).TAtom 1 1 empty_TransientCandidate F_mn0
          = .ok s ∧
        computeTransientBstat ratEnv (some [some gapDetectorA, some gapDetectorB]) noneRange
            false empty_TransientCandidate =
          finishBstat ratEnv (defaultExpLUT ratEnv) atoms
            (substituteNone noneRange atom0.timestamp atoms.data.length
              (gapDetectorA (K := ℚ)).TAtom)
            (gapDetectorA (K := ℚ)).TAtom 1 1 s ∧
        s.trace = [c] ∧ c.m = 0 ∧ c.n = 0 ∧ c.i_t0 = 0 ∧ c.i_t1 = atoms.data.length - 1 ∧
        c.acc = sumAtoms atoms.data ∧
        c.acc = sumAtoms (allAtoms [some gapDetectorA, some gapDetectorB]) := by
  have hev : (match XLALmergeMultiFstatAtomsBinned (K := ℚ)
      (some [some gapDetectorA, some gapDetectorB]) (gapDetectorA (K := ℚ)).TAtom with
    | .ok r => decide (2 ≤ r.data.length ∧
        r.data.length * (gapDetectorA (K := ℚ)).TAtom + (gapDetectorA (K := ℚ)).TAtom / 2
          < 4294967296 ∧ r.data.length ≤ 2147483648)
    | _ => false) = true := by decide!
  cases hrun : XLALmergeMultiFstatAtomsBinned (K := ℚ)
      (some [some gapDetectorA, some gapDetectorB]) (gapDetectorA (K := ℚ)).TAtom with
  | ok atoms =>
    rw [hrun] at hev
    have hN : 2 ≤ atoms.data.length ∧
        atoms.data.length * (gapDetectorA (K := ℚ)).TAtom + (gapDetectorA (K := ℚ)).TAtom / 2
          < 4294967296 ∧ atoms.data.length ≤ 2147483648 := by simpa using hev
    exact ⟨atoms, rfl, hN.1,
      C9_none_window_is_one_cell_over_all_atoms ratEnv gapDetectorA [some gapDetectorB]
        noneRange false empty_TransientCandidate atoms rfl hrun hN.1 hN.2.1 hN.2.2⟩
  | fail e => rw [hrun] at hev; cases hev
  | undefined => rw [hrun] at hev; cases hev

/-- C9 (counterexample): one detector of cadence `2147483646` s with atoms at 0 and
`2147483646` merges into two bins, but with the window type `none` the duration
`2 * 2147483646` wraps in the end-index computation, the end index is clamped to 0 and the
function fails with `XLAL_EDOM` instead of summing the atoms 0..1. -/
theorem C9_counterexample :
    XLALmergeMultiFstatAtomsBinned (K := ℚ) (some [some wideAtoms]) (wideAtoms (K := ℚ)).TAtom
      = .ok wideAtoms ∧
    (wideAtoms (K := ℚ)).data.length = 2 ∧
    (noneRange (K := ℚ)).type = TRANSIENT_NONE ∧
    endIndex (u32 (u32 (0 + 0 * 2147483646) + u32 (u32 (2 * 2147483646) + 0 * 2147483646))) 0
      2147483646 2 = 0 ∧
    XLALComputeTransientBstat ratEnv staleCandidate (some [some wideAtoms]) noneRange false
      = (.fail .XLAL_EDOM, empty_TransientCandidate) := by
  refine ⟨by decide!, rfl, rfl, by decide!, by decide!⟩


/-! ## The merged bins (C10) -/

/-- C10 (amended): for non-NULL, non-empty, time-ordered detector sequences with one cadence
and `UINT4` timestamps, and `deltaT > 0`, provided the earliest timestamp `tMin` is at most
`LAL_INT4_MAX - 1 = 2147483646` and the bin count `(tMax - tMin) / deltaT + 1` fits `UINT4`,
`XLALmergeMultiFstatAtomsBinned` returns that many bins, and bin `j` holds in each of
`a2, b2, ab, Re Fa, Im Fa, Re Fb, Im Fb` the sum of that component over all atoms of all
detectors with `floor ((t - tMin) / deltaT) = j`; a bin without such an atom is present and
is the zero atom. -/
theorem C10_merged_bins_hold_binned_sums (first : FstatAtomVector K)
    (rest : List (Option (FstatAtomVector K))) (deltaT tMin tMax : Nat)
    (hdet : ∀ o ∈ some first :: rest, ∃ v, o = some v ∧ v.data ≠ [] ∧ TimeOrdered v ∧
      v.TAtom = first.TAtom ∧ ∀ a ∈ v.data, a.timestamp < 4294967296)
    (hdT : 0 < deltaT)
    (hmin : (∀ a ∈ allAtoms (some first :: rest), tMin ≤ a.timestamp) ∧
      ∃ a ∈ allAtoms (some first :: rest), a.timestamp = tMin)
    (hmax : (∀ a ∈ allAtoms (some first :: rest), a.timestamp ≤ tMax) ∧
      ∃ a ∈ allAtoms (some first :: rest), a.timestamp = tMax)
    (hlo : tMin ≤ 2147483646) (hN : (tMax - tMin) / deltaT + 1 < 4294967296) :
    ∃ out, XLALmergeMultiFstatAtomsBinned (some (some first :: rest)) deltaT = .ok out ∧
      out.data.length = (tMax - tMin) / deltaT + 1 ∧
      ∀ j, j < (tMax - tMin) / deltaT + 1 → ∃ d, out.data[j]? = some d ∧
        d.a2_alpha = specBinSum tMin deltaT (allAtoms (some first :: rest))
          (fun a => a.a2_alpha) j ∧
        d.b2_alpha = specBinSum tMin deltaT (allAtoms (some first :: rest))
          (fun a => a.b2_alpha) j ∧
        d.ab_alpha = specBinSum tMin deltaT (allAtoms (some first :: rest))
          (fun a => a.ab_alpha) j ∧
        d.Fa_alpha.re = specBinSum tMin deltaT (allAtoms (some first :: rest))
          (fun a => a.Fa_alpha.re) j ∧
        d.Fa_alpha.im = specBinSum tMin deltaT (allAtoms (some first :: rest))
          (fun a => a.Fa_alpha.im) j ∧
        d.Fb_alpha.re = specBinSum tMin deltaT (allAtoms (some first :: rest))
          (fun a => a.Fb_alpha.re) j ∧
        d.Fb_alpha.im = specBinSum tMin deltaT (allAtoms (some first :: rest))
          (fun a => a.Fb_alpha.im) j ∧
        ((∀ a ∈ allAtoms (some first :: rest), specBin tMin deltaT a ≠ j) → d = zeroAtom) := by
  obtain ⟨out, hrun, -, hlen, hbins⟩ :=
    merge_spec first rest deltaT tMin tMax hdet (by omega) hmin hmax hlo hN
  refine ⟨out, hrun, hlen, ?_⟩
  intro j hj
  obtain ⟨d, hd, hsum, hzero⟩ := hbins j hj
  exact ⟨d, hd, hsum (fun a => a.a2_alpha) ⟨rfl, fun _ _ _ => rfl⟩,
    hsum (fun a => a.b2_alpha) ⟨rfl, fun _ _ _ => rfl⟩,
    hsum (fun a => a.ab_alpha) ⟨rfl, fun _ _ _ => rfl⟩,
    hsum (fun a => a.Fa_alpha.re) ⟨rfl, fun _ _ _ => rfl⟩,
    hsum (fun a => a.Fa_alpha.im) ⟨rfl, fun _ _ _ => rfl⟩,
    hsum (fun a => a.Fb_alpha.re) ⟨rfl, fun _ _ _ => rfl⟩,
    hsum (fun a => a.Fb_alpha.im) ⟨rfl, fun _ _ _ => rfl⟩, hzero⟩

/-- Witness of C10: two detectors over `ℚ`, one with a gap, merged with `deltaT = 1` into the
6 bins of the times 0..5. -/
theorem C10_merged_bins_hold_binned_sums_witness :
    ∃ out, XLALmergeMultiFstatAtomsBinned (K := ℚ)
        (some [some gapDetectorA, some gapDetectorB]) 1 = .ok out ∧
      out.data.length = (5 - 0) / 1 + 1 ∧
      ∀ j, j < (5 - 0) / 1 + 1 → ∃ d : FstatAtom ℚ, out.data[j]? = some d ∧
        d.a2_alpha = specBinSum 0 1 (allAtoms [some gapDetectorA, some gapDetectorB])
          (fun a => a.a2_alpha) j ∧
        d.b2_alpha = specBinSum 0 1 (allAtoms [some gapDetectorA, some gapDetectorB])
          (fun a => a.b2_alpha) j ∧
        d.ab_alpha = specBinSum 0 1 (allAtoms [some gapDetectorA, some gapDetectorB])
          (fun a => a.ab_alpha) j ∧
        d.Fa_alpha.re = specBinSum 0 1 (allAtoms [some gapDetectorA, some gapDetectorB])
          (fun a => a.Fa_alpha.re) j ∧
        d.Fa_alpha.im = specBinSum 0 1 (allAtoms [some gapDetectorA, some gapDetectorB])
          (fun a => a.Fa_alpha.im) j ∧
        d.Fb_alpha.re = specBinSum 0 1 (allAtoms [some gapDetectorA, some gapDetectorB])
          (fun a => a.Fb_alpha.re) j ∧
        d.Fb_alpha.im = specBinSum 0 1 (allAtoms [some gapDetectorA, some gapDetectorB])
          (fun a => a.Fb_alpha.im) j ∧
        ((∀ a ∈ allAtoms (K := ℚ) [some gapDetectorA, some gapDetectorB], specBin 0 1 a ≠ j) →
          d = zeroAtom) := by
  apply C10_merged_bins_hold_binned_sums gapDetectorA [some gapDetectorB] 1 0 5
  · intro o ho
    simp only [List.mem_cons, List.mem_singleton, List.not_mem_nil, or_false] at ho
    rcases ho with rfl | rfl
    · exact ⟨gapDetectorA, rfl, by decide!, by unfold TimeOrdered; decide!, rfl, by decide!⟩
    · exact ⟨gapDetectorB, rfl, by decide!, by unfold TimeOrdered; decide!, rfl, by decide!⟩
  · decide
  · exact ⟨by decide!, by decide!⟩
  · exact ⟨by decide!, by decide!⟩
  · decide
  · decide

/-- C10 (counterexample): a single unit atom at GPS second `2147483647` is the earliest
atom, so the claim puts it into bin 0; the merge, whose search for `tMin` starts at
`2147483646`, returns two bins with a zero bin 0.  And for atoms at the seconds 0 and
`4294967295` with `deltaT = 1` the bin count wraps to 0 and the merge returns no output. -/
theorem C10_counterexample :
    (∃ out, XLALmergeMultiFstatAtomsBinned (K := ℚ) (some [some lastSecondAtoms]) 1 = .ok out ∧
      out.data.length = 2 ∧
      (∀ a ∈ allAtoms [some (lastSecondAtoms (K := ℚ))], 2147483647 ≤ a.timestamp) ∧
      (∃ a ∈ allAtoms [some (lastSecondAtoms (K := ℚ))], a.timestamp = 2147483647) ∧
      ∃ d : FstatAtom ℚ, out.data[0]? = some d ∧ d.a2_alpha = 0 ∧
        specBinSum 2147483647 1 (allAtoms [some (lastSecondAtoms (K := ℚ))])
          (fun a => a.a2_alpha) 0 = 2) ∧
    XLALmergeMultiFstatAtomsBinned (K := ℚ) (some [some fullSpanAtoms]) 1 = .undefined := by
  refine ⟨⟨{ TAtom := 1, data := [zeroAtom, { unitAtom 2147483647 with timestamp := 2147483646 }] },
    by decide!, rfl, by decide!, by decide!, zeroAtom, rfl, rfl, by decide!⟩, by decide!⟩

/-! ## The window timespan (C19, C20) -/

/-- C19: for a rectangular window with `UINT4` start `t0` and duration `tau`,
`XLALGetTransientWindowTimespan` returns `t0_out = t0` and `t1_out = t0 + tau` in `UINT4`
arithmetic, and the `UINT4` difference `t1_out - t0_out` is exactly `tau`; when `t0 + tau`
fits `UINT4` these are the plain sum and difference. -/
theorem C19_rectangular_timespan (env : Env K) (t0 tau : Nat) (ht0 : t0 < 4294967296)
    (htau : tau < 4294967296) :
    ∃ t0_out t1_out,
      XLALGetTransientWindowTimespan env { type := TRANSIENT_RECTANGULAR, t0 := t0, tau := tau }
        = .ok (t0_out, t1_out) ∧
      t0_out = t0 ∧ t1_out = u32 (t0 + tau) ∧ u32sub t1_out t0_out = tau ∧
      (t0 + tau < 4294967296 → t1_out = t0 + tau ∧ t1_out - t0_out = tau) := by
  refine ⟨t0, u32 (t0 + tau), ?_, rfl, rfl, ?_, ?_⟩
  · simp [XLALGetTransientWindowTimespan]
  · rw [u32sub_eq, u32_eq]; omega
  · intro h
    rw [u32_of_lt h]
    omega

/-- Witness of C19: a window whose end time wraps around `2^32`. -/
theorem C19_rectangular_timespan_witness :
    ∃ t0_out t1_out,
      XLALGetTransientWindowTimespan ratEnv
          { type := TRANSIENT_RECTANGULAR, t0 := 4294967295, tau := 2 }
        = .ok (t0_out, t1_out) ∧
      t0_out = 4294967295 ∧ t1_out = u32 (4294967295 + 2) ∧ u32sub t1_out t0_out = 2 ∧
      (4294967295 + 2 < 4294967296 → t1_out = 4294967295 + 2 ∧ t1_out - t0_out = 2) :=
  C19_rectangular_timespan ratEnv 4294967295 2 (by decide) (by decide)

/-- Rounding to nearest (half up) agrees with the ceiling exactly on the values whose
fractional part is 0 or at least 1/2. -/
theorem floor_half_eq_ceil_iff {y : K} (hy : 0 ≤ y) :
    ⌊y + 1 / 2⌋₊ = ⌈y⌉₊ ↔ (Int.fract y = 0 ∨ 1 / 2 ≤ Int.fract y) := by
  have hfl : (⌊y⌋₊ : K) ≤ y := Nat.floor_le hy
  have hlt : y < (⌊y⌋₊ : K) + 1 := Nat.lt_floor_add_one y
  have hfr : Int.fract y = y - (⌊y⌋₊ : K) := by
    rw [← Int.self_sub_floor, natCast_floor_eq_intCast_floor hy]
  rw [hfr]
  have hy2 : 0 ≤ y + 1 / 2 := by linarith
  have hceil_pos : ∀ n : Nat, (n : K) < y → y ≤ (n : K) + 1 → ⌈y⌉₊ = n + 1 := by
    intro n h1 h2
    rw [Nat.ceil_eq_iff (Nat.succ_ne_zero n)]
    refine ⟨?_, ?_⟩
    · have e : n + 1 - 1 = n := by omega
      rw [e]; exact h1
    · push_cast; exact h2
  constructor
  · intro h
    by_contra hcon
    push_neg at hcon
    have hf0 : (⌊y⌋₊ : K) < y := lt_of_le_of_ne hfl (fun e => hcon.1 (sub_eq_zero.mpr e.symm))
    have h1 : ⌊y + 1 / 2⌋₊ = ⌊y⌋₊ := by
      rw [Nat.floor_eq_iff hy2]
      constructor <;> linarith [hcon.2]
    have h2 : ⌈y⌉₊ = ⌊y⌋₊ + 1 := hceil_pos _ hf0 (le_of_lt hlt)
    omega
  · rintro (h0 | h12)
    · have e : y = (⌊y⌋₊ : K) := by linarith
      have h1 : ⌊y + 1 / 2⌋₊ = ⌊y⌋₊ := by
        rw [Nat.floor_eq_iff hy2]
        constructor <;> linarith
      have h2 : ⌈y⌉₊ = ⌊y⌋₊ := by
        conv_lhs => rw [e]
        exact Nat.ceil_natCast _
      rw [h1, h2]
    · have h1 : ⌊y + 1 / 2⌋₊ = ⌊y⌋₊ + 1 := by
        rw [Nat.floor_eq_iff hy2]
        push_cast
        constructor <;> linarith
      have h2 : ⌈y⌉₊ = ⌊y⌋₊ + 1 := hceil_pos _ (by linarith) (le_of_lt hlt)
      rw [h1, h2]

/-- C20 (amended): for an exponential window with start `t0` and decay scale `tau`, a
non-negative truncation multiple `E = TRANSIENT_EXP_EFOLDING` and `t0 + E * tau + 1/2`
below `2^32`, `XLALGetTransientWindowTimespan` returns `t0_out = t0` and
`t1_out = floor (t0 + E * tau + 1/2) = t0 + floor (E * tau + 1/2)`: `E * tau` is rounded to
the nearest integer, half up.  This is `t0 + ceil (E * tau)` exactly when the fractional part
of `E * tau` is 0 or at least 1/2, in particular whenever `E * tau` is an integer. -/
theorem C20_exponential_timespan_rounds_to_nearest (env : Env K) (t0 tau : Nat)
    (hE : 0 ≤ env.TRANSIENT_EXP_EFOLDING)
    (hfit : (t0 : K) + env.TRANSIENT_EXP_EFOLDING * (tau : K) + 1 / 2 < 4294967296) :
    ∃ t1_out,
      XLALGetTransientWindowTimespan env { type := TRANSIENT_EXPONENTIAL, t0 := t0, tau := tau }
        = .ok (t0, t1_out) ∧
      t1_out = ⌊(t0 : K) + env.TRANSIENT_EXP_EFOLDING * (tau : K) + 1 / 2⌋₊ ∧
      t1_out = t0 + ⌊env.TRANSIENT_EXP_EFOLDING * (tau : K) + 1 / 2⌋₊ ∧
      (t1_out = t0 + ⌈env.TRANSIENT_EXP_EFOLDING * (tau : K)⌉₊ ↔
        (Int.fract (env.TRANSIENT_EXP_EFOLDING * (tau : K)) = 0 ∨
          1 / 2 ≤ Int.fract (env.TRANSIENT_EXP_EFOLDING * (tau : K)))) ∧
      (∀ k : Nat, env.TRANSIENT_EXP_EFOLDING * (tau : K) = (k : K) →
        t1_out = t0 + ⌈env.TRANSIENT_EXP_EFOLDING * (tau : K)⌉₊ ∧ t1_out = t0 + k) := by
  have hy : 0 ≤ env.TRANSIENT_EXP_EFOLDING * (tau : K) := mul_nonneg hE (Nat.cast_nonneg _)
  have ht : (0 : K) ≤ (t0 : K) := Nat.cast_nonneg _
  have hsplit : ⌊(t0 : K) + env.TRANSIENT_EXP_EFOLDING * (tau : K) + 1 / 2⌋₊ =
      t0 + ⌊env.TRANSIENT_EXP_EFOLDING * (tau : K) + 1 / 2⌋₊ := by
    have h2 : 0 ≤ env.TRANSIENT_EXP_EFOLDING * (tau : K) + 1 / 2 := by linarith
    rw [add_assoc, add_comm, Nat.floor_add_nat h2, add_comm]
  have hno : ¬ ((t0 : K) + env.TRANSIENT_EXP_EFOLDING * (tau : K) + 1 / 2 ≤ -1 ∨
      4294967296 ≤ (t0 : K) + env.TRANSIENT_EXP_EFOLDING * (tau : K) + 1 / 2) := by
    intro h
    rcases h with h | h <;> linarith
  have hiff := floor_half_eq_ceil_iff hy
  refine ⟨_, ?_, rfl, hsplit, ?_, ?_⟩
  · simp only [XLALGetTransientWindowTimespan, TRANSIENT_EXPONENTIAL, TRANSIENT_NONE,
      (by decide : ¬ ((2 : Nat) = 0)), if_true, if_false, hno]
  · rw [hsplit, ← hiff]
    omega
  · intro k hk
    have hc : t0 + ⌊env.TRANSIENT_EXP_EFOLDING * (tau : K) + 1 / 2⌋₊ =
        t0 + ⌈env.TRANSIENT_EXP_EFOLDING * (tau : K)⌉₊ := by
      rw [hiff.mpr (Or.inl (by rw [hk]; exact Int.fract_natCast k))]
    rw [hsplit]
    refine ⟨hc, ?_⟩
    rw [hc, hk, Nat.ceil_natCast]

/-- Witness of C20: `E = 3`, start 100 and decay scale 7 give the end time 121. -/
theorem C20_exponential_timespan_rounds_to_nearest_witness :
    ∃ t1_out,
      XLALGetTransientWindowTimespan ratEnv { type := TRANSIENT_EXPONENTIAL, t0 := 100, tau := 7 }
        = .ok (100, t1_out) ∧
      t1_out = ⌊((100 : Nat) : ℚ) + ratEnv.TRANSIENT_EXP_EFOLDING * ((7 : Nat) : ℚ) + 1 / 2⌋₊ ∧
      t1_out = 100 + ⌊ratEnv.TRANSIENT_EXP_EFOLDING * ((7 : Nat) : ℚ) + 1 / 2⌋₊ ∧
      (t1_out = 100 + ⌈ratEnv.TRANSIENT_EXP_EFOLDING * ((7 : Nat) : ℚ)⌉₊ ↔
        (Int.fract (ratEnv.TRANSIENT_EXP_EFOLDING * ((7 : Nat) : ℚ)) = 0 ∨
          1 / 2 ≤ Int.fract (ratEnv.TRANSIENT_EXP_EFOLDING * ((7 : Nat) : ℚ)))) ∧
      (∀ k : Nat, ratEnv.TRANSIENT_EXP_EFOLDING * ((7 : Nat) : ℚ) = (k : ℚ) →
        t1_out = 100 + ⌈ratEnv.TRANSIENT_EXP_EFOLDING * ((7 : Nat) : ℚ)⌉₊ ∧
          t1_out = 100 + k) :=
  C20_exponential_timespan_rounds_to_nearest ratEnv 100 7 (by decide!) (by decide!)

/-- C20 (counterexample): with the truncation multiple `E = 9/4`, start 0 and decay scale 1
the end time is `floor (2.25 + 0.5) = 2`, not `0 + ceil (2.25) = 3`; and with `E = 3`, start
`4294967295` and decay scale 1 the value `4294967298.5` is outside the range of `UINT4`, so
no end time `t0 + ceil (E * tau)` is returned. -/
theorem C20_counterexample :
    XLALGetTransientWindowTimespan
        ({ exp := fun x => 1 + x, log := fun x => x - 1, TRANSIENT_EXP_EFOLDING := 9 / 4
           lalDebugLevel := 0 } : Env ℚ)
        { type := TRANSIENT_EXPONENTIAL, t0 := 0, tau := 1 } = .ok (0, 2) ∧
    0 + ⌈(9 / 4 : ℚ) * ((1 : Nat) : ℚ)⌉₊ = 3 ∧
    XLALGetTransientWindowTimespan ratEnv
        { type := TRANSIENT_EXPONENTIAL, t0 := 4294967295, tau := 1 } = .undefined := by
  refine ⟨by decide!, by decide!, by decide!⟩

/-! ## The lookup table (C16, C17, C18) -/

/-- For `xmax > 0` and `0 < length < 2^29` the constructor returns the table of the samples
`exp (-(i * dx))`, `i < length`, `dx = xmax / length`. -/
theorem XLALCreateExpLUT_ok (env : Env K) {xmax : K} {length : Nat} (hx : 0 < xmax)
    (hl : 0 < length) (hl2 : length < 536870912) :
    XLALCreateExpLUT env xmax length =
      .ok { xmax := xmax, length := length
            data := (List.range length).map
              (fun (i : Nat) => env.exp (-((i : K) * (xmax / (length : K))))) } := by
  unfold XLALCreateExpLUT
  have h8 : u32 (length * 8) = length * 8 := u32_of_lt (by omega)
  rw [if_neg (not_le.mpr hx), if_neg (by omega), if_neg (fun h => h h8)]

/-- The lookup on a table built by `XLALCreateExpLUT`, for `x ≥ 0`, with
`i0 = floor (x * (length / xmax) + 1/2)`: it returns 0 beyond `xmax`, the sample `i0` when
`i0 < length`, and reads past the end of the table when `x ≤ xmax` and `i0 ≥ length`. -/
theorem XLALFastNegExp_created (env : Env K) {xmax : K} {length : Nat} (hxm : 0 < xmax)
    (hl : 0 < length) (hl2 : length < 536870912) {x : K} (hx : 0 ≤ x) :
    ∃ lut, XLALCreateExpLUT env xmax length = .ok lut ∧
      (xmax < x → XLALFastNegExp env x (some lut) = .ok 0) ∧
      (x ≤ xmax → ⌊x * ((length : K) / xmax) + 1 / 2⌋₊ < length →
        XLALFastNegExp env x (some lut) =
          .ok (env.exp (-((⌊x * ((length : K) / xmax) + 1 / 2⌋₊ : K) * (xmax / (length : K)))))) ∧
      (x ≤ xmax → length ≤ ⌊x * ((length : K) / xmax) + 1 / 2⌋₊ →
        XLALFastNegExp env x (some lut) = .undefined) := by
  refine ⟨_, XLALCreateExpLUT_ok env hxm hl hl2, ?_, ?_, ?_⟩
  · intro h
    unfold XLALFastNegExp
    have h0 : ¬ x < 0 := not_lt.mpr hx
    simp only [Option.isNone_some, Bool.false_eq_true, and_false, if_false, h0, gt_iff_lt, h,
      if_true]
  all_goals
    intro h hi
    have hlK : (0 : K) < (length : K) := Nat.cast_pos.mpr hl
    have hl2K : (length : K) < 536870912 := by
      have := (Nat.cast_lt (α := K)).mpr hl2
      simpa using this
    have hv0 : 0 ≤ x * ((length : K) / xmax) := mul_nonneg hx (le_of_lt (div_pos hlK hxm))
    have hv1 : x * ((length : K) / xmax) ≤ (length : K) := by
      rw [← mul_div_assoc, div_le_iff₀ hxm]
      nlinarith
    have hno : ¬ (x * ((length : K) / xmax) + 1 / 2 ≤ -1 ∨
        4294967296 ≤ x * ((length : K) / xmax) + 1 / 2) := by
      intro hh
      rcases hh with hh | hh <;> linarith
    unfold XLALFastNegExp
    have h0 : ¬ x < 0 := not_lt.mpr hx
    simp only [Option.isNone_some, Bool.false_eq_true, and_false, if_false, h0, gt_iff_lt,
      not_lt.mpr h, hno]
  · rw [if_pos hi]
    simp only [List.getElem?_map, List.getElem?_range hi, Option.map_some']
  · rw [if_neg (by omega)]

/-- Where the computed index `floor (x * length / xmax + 1/2)` falls: below `length` for
`x < xmax - dx/2`, and exactly on `length` for `xmax - dx/2 ≤ x ≤ xmax` (`dx = xmax / length`).
The code computes the same value as `x * (length / xmax) + 1/2`. -/
theorem lookup_index_region {xmax : K} {length : Nat} (hxm : 0 < xmax) (hl : 0 < length)
    {x : K} (hx : 0 ≤ x) :
    x * ((length : K) / xmax) = x * (length : K) / xmax ∧
    (x < xmax - xmax / (length : K) / 2 → ⌊x * (length : K) / xmax + 1 / 2⌋₊ < length) ∧
    (xmax - xmax / (length : K) / 2 ≤ x → x ≤ xmax →
      ⌊x * (length : K) / xmax + 1 / 2⌋₊ = length) := by
  have hlK : (0 : K) < (length : K) := Nat.cast_pos.mpr hl
  have hv0 : 0 ≤ x * (length : K) / xmax := div_nonneg (mul_nonneg hx (le_of_lt hlK)) (le_of_lt hxm)
  have key : x * (length : K) / xmax = (length : K) - (xmax - x) * ((length : K) / xmax) := by
    field_simp
    ring
  have hhalf : (xmax / (length : K) / 2) * ((length : K) / xmax) = 1 / 2 := by
    field_simp
    ring
  have hpos : 0 < (length : K) / xmax := div_pos hlK hxm
  refine ⟨(mul_div_assoc _ _ _).symm, ?_, ?_⟩
  · intro h
    rw [Nat.floor_lt (by linarith)]
    have : (xmax / (length : K) / 2) * ((length : K) / xmax) < (xmax - x) * ((length : K) / xmax) :=
      mul_lt_mul_of_pos_right (by linarith) hpos
    rw [key]
    linarith
  · intro h1 h2
    rw [Nat.floor_eq_iff (by linarith)]
    have hle : (xmax - x) * ((length : K) / xmax) ≤ (xmax / (length : K) / 2) * ((length : K) / xmax) :=
      mul_le_mul_of_nonneg_right (by linarith) (le_of_lt hpos)
    have hge : 0 ≤ (xmax - x) * ((length : K) / xmax) :=
      mul_nonneg (by linarith) (le_of_lt hpos)
    rw [key]
    constructor <;> linarith

/-- C16 (failing region): for a table built by `XLALCreateExpLUT` with `xmax > 0` and
`0 < length < 2^29` (samples `exp (-(i * dx))`, `i < length`, `dx = xmax / length`) and
`x ≥ 0`, `XLALFastNegExp` returns 0 for `x > xmax` and the sample of index
`floor (x * length / xmax + 1/2)` for `x < xmax - dx/2`; but for `xmax - dx/2 ≤ x ≤ xmax`
this index equals `length`, the table has no such sample, and the lookup reads past the end
of the table. -/
theorem C16_lookup_reads_past_table_near_xmax (env : Env K) (xmax : K) (length : Nat) (x : K)
    (hxm : 0 < xmax) (hl : 0 < length) (hl2 : length < 536870912) (hx : 0 ≤ x) :
    ∃ lut, XLALCreateExpLUT env xmax length = .ok lut ∧
      lut.xmax = xmax ∧ lut.length = length ∧ lut.data.length = length ∧
      (∀ i, i < length →
        lut.data[i]? = some (env.exp (-((i : K) * (xmax / (length : K)))))) ∧
      (xmax < x → XLALFastNegExp env x (some lut) = .ok 0) ∧
      (x < xmax - xmax / (length : K) / 2 →
        ⌊x * (length : K) / xmax + 1 / 2⌋₊ < length ∧
        XLALFastNegExp env x (some lut) =
          .ok (env.exp (-((⌊x * (length : K) / xmax + 1 / 2⌋₊ : K) * (xmax / (length : K)))))) ∧
      (xmax - xmax / (length : K) / 2 ≤ x → x ≤ xmax →
        ⌊x * (length : K) / xmax + 1 / 2⌋₊ = length ∧ lut.data[length]? = none ∧
        XLALFastNegExp env x (some lut) = .undefined) := by
  obtain ⟨lut, hlut, hbeyond, hin, hout⟩ := XLALFastNegExp_created env hxm hl hl2 hx
  obtain ⟨heq, hreg1, hreg2⟩ := lookup_index_region hxm hl hx
  have hval := XLALCreateExpLUT_ok env hxm hl hl2
  rw [hlut] at hval
  cases hval
  rw [heq] at hin hout
  have hlK : (0 : K) < (length : K) := Nat.cast_pos.mpr hl
  have hdx : 0 < xmax / (length : K) / 2 := by positivity
  refine ⟨_, hlut, rfl, rfl, by simp, ?_, hbeyond, ?_, ?_⟩
  · intro i hi
    simp only [List.getElem?_map, List.getElem?_range hi, Option.map_some']
  · intro h
    exact ⟨hreg1 h, hin (by linarith) (hreg1 h)⟩
  · intro h1 h2
    refine ⟨hreg2 h1 h2, ?_, hout h2 (le_of_eq (hreg2 h1 h2).symm)⟩
    simp

/-- Witness of C16: the table `XLALCreateExpLUT ( 20.0, 2000 )` and `x = 20`. -/
theorem C16_lookup_reads_past_table_near_xmax_witness :
    ∃ lut, XLALCreateExpLUT ratEnv 20 2000 = .ok lut ∧
      lut.xmax = 20 ∧ lut.length = 2000 ∧ lut.data.length = 2000 ∧
      (∀ i : Nat, i < 2000 →
        lut.data[i]? = some (ratEnv.exp (-((i : ℚ) * (20 / ((2000 : Nat) : ℚ)))))) ∧
      ((20 : ℚ) < 20 → XLALFastNegExp ratEnv 20 (some lut) = .ok 0) ∧
      ((20 : ℚ) < 20 - 20 / ((2000 : Nat) : ℚ) / 2 →
        ⌊(20 : ℚ) * ((2000 : Nat) : ℚ) / 20 + 1 / 2⌋₊ < 2000 ∧
        XLALFastNegExp ratEnv 20 (some lut) =
          .ok (ratEnv.exp (-((⌊(20 : ℚ) * ((2000 : Nat) : ℚ) / 20 + 1 / 2⌋₊ : ℚ)
            * (20 / ((2000 : Nat) : ℚ)))))) ∧
      ((20 : ℚ) - 20 / ((2000 : Nat) : ℚ) / 2 ≤ 20 → (20 : ℚ) ≤ 20 →
        ⌊(20 : ℚ) * ((2000 : Nat) : ℚ) / 20 + 1 / 2⌋₊ = 2000 ∧ lut.data[2000]? = none ∧
        XLALFastNegExp ratEnv 20 (some lut) = .undefined) :=
  C16_lookup_reads_past_table_near_xmax ratEnv 20 2000 20 (by norm_num) (by decide) (by decide)
    (by norm_num)

/-- C18 (amended): `XLALCreateExpLUT` fails exactly when `xmax ≤ 0` or `length = 0`, and the
error it raises is the domain error `XLAL_EDOM` (no other error is raised); for `xmax > 0`
and `0 < length < 2^29` it returns a table with the given `xmax` and `length`, holding the
`length` samples `exp (-(i * xmax / length))`. -/
theorem C18_table_construction_fails_with_EDOM (env : Env K) (xmax : K) (length : Nat) :
    (XLALCreateExpLUT env xmax length = .fail .XLAL_EDOM ↔ (xmax ≤ 0 ∨ length = 0)) ∧
    (∀ e, XLALCreateExpLUT env xmax length = .fail e → e = .XLAL_EDOM) ∧
    (0 < xmax → 0 < length → length < 536870912 →
      ∃ lut, XLALCreateExpLUT env xmax length = .ok lut ∧ lut.xmax = xmax ∧
        lut.length = length ∧ lut.data.length = length ∧
        ∀ i, i < length →
          lut.data[i]? = some (env.exp (-((i : K) * (xmax / (length : K)))))) := by
  refine ⟨⟨?_, ?_⟩, ?_, ?_⟩
  · intro h
    by_contra hcon
    push_neg at hcon
    unfold XLALCreateExpLUT at h
    rw [if_neg (not_le.mpr hcon.1), if_neg hcon.2] at h
    split at h <;> cases h
  · intro h
    unfold XLALCreateExpLUT
    by_cases hx : xmax ≤ 0
    · rw [if_pos hx]
    · rw [if_neg hx, if_pos (h.resolve_left hx)]
  · intro e h
    unfold XLALCreateExpLUT at h
    split at h
    · cases h; rfl
    · split at h
      · cases h; rfl
      · split at h <;> cases h
  · intro hx hl hl2
    refine ⟨_, XLALCreateExpLUT_ok env hx hl hl2, rfl, rfl, by simp, ?_⟩
    intro i hi
    simp only [List.getElem?_map, List.getElem?_range hi, Option.map_some']

/-- Witness of C18: the table `XLALCreateExpLUT ( 20.0, 2000 )`. -/
theorem C18_table_construction_fails_with_EDOM_witness :
    ∃ lut, XLALCreateExpLUT ratEnv 20 2000 = .ok lut ∧ lut.xmax = 20 ∧
      lut.length = 2000 ∧ lut.data.length = 2000 ∧
      ∀ i : Nat, i < 2000 →
        lut.data[i]? = some (ratEnv.exp (-((i : ℚ) * (20 / ((2000 : Nat) : ℚ))))) :=
  (C18_table_construction_fails_with_EDOM ratEnv 20 2000).2.2 (by norm_num) (by decide)
    (by decide)

/-- C18 (counterexample): for `xmax = 0` and for `length = 0` the error is `XLAL_EDOM`, not
the invalid-argument error `XLAL_EINVAL`; and for `xmax = 20`, `length = 2^29` the byte count
`length * 8` wraps to 0 in `UINT4`, so no table with that `length` is returned. -/
theorem C18_counterexample :
    XLALCreateExpLUT ratEnv 0 2000 = .fail .XLAL_EDOM ∧
    XLALCreateExpLUT ratEnv 0 2000 ≠ .fail .XLAL_EINVAL ∧
    XLALCreateExpLUT ratEnv 20 0 = .fail .XLAL_EDOM ∧
    XLALCreateExpLUT ratEnv 20 0 ≠ .fail .XLAL_EINVAL ∧
    u32 (536870912 * 8) = 0 ∧
    XLALCreateExpLUT ratEnv 20 536870912 = .undefined := by
  refine ⟨by decide!, by decide!, by decide!, by decide!, by decide!, by decide!⟩

/-- On the non-negative reals `x ↦ exp (-x)` changes by at most the distance of the
arguments. -/
theorem abs_exp_neg_sub_le {a b : ℝ} (ha : 0 ≤ a) (hb : 0 ≤ b) :
    |Real.exp (-a) - Real.exp (-b)| ≤ |a - b| := by
  have key : ∀ u v : ℝ, 0 ≤ u → u ≤ v →
      0 ≤ Real.exp (-u) - Real.exp (-v) ∧ Real.exp (-u) - Real.exp (-v) ≤ v - u := by
    intro u v hu huv
    have h1 : Real.exp (-v) = Real.exp (-u) * Real.exp (-(v - u)) := by
      rw [← Real.exp_add]; congr 1; ring
    have h2 : -(v - u) + 1 ≤ Real.exp (-(v - u)) := Real.add_one_le_exp _
    have h3 : Real.exp (-(v - u)) ≤ 1 := Real.exp_le_one_iff.mpr (by linarith)
    have h4 : Real.exp (-u) ≤ 1 := Real.exp_le_one_iff.mpr (by linarith)
    have h5 : 0 < Real.exp (-u) := Real.exp_pos _
    rw [h1]
    constructor
    · nlinarith
    · nlinarith
  rcases le_total a b with h | h
  · obtain ⟨k1, k2⟩ := key a b ha h
    rw [abs_of_nonneg k1, abs_of_nonpos (by linarith)]
    linarith
  · obtain ⟨k1, k2⟩ := key b a hb h
    rw [abs_of_nonpos (by linarith), abs_of_nonneg (by linarith)]
    linarith

/-- C17 (failing region): with the real exponential, for a table built by `XLALCreateExpLUT`
with `xmax > 0` and `0 < length < 2^29` and `dx = xmax / length`: for `0 ≤ x < xmax - dx/2`
the lookup returns a value within `dx/2 ≤ dx` of `exp (-x)` and for `x > xmax` it returns 0;
but for `xmax - dx/2 ≤ x ≤ xmax`, in particular at `x = xmax`, the lookup reads past the end
of the table and no bound holds. -/
theorem C17_lookup_bound_fails_at_xmax (env : Env ℝ) (hexp : env.exp = Real.exp) (xmax : ℝ)
    (length : Nat) (x : ℝ) (hxm : 0 < xmax) (hl : 0 < length) (hl2 : length < 536870912)
    (hx : 0 ≤ x) :
    ∃ lut, XLALCreateExpLUT env xmax length = .ok lut ∧
      (x < xmax - xmax / (length : ℝ) / 2 →
        ∃ y, XLALFastNegExp env x (some lut) = .ok y ∧
          |y - Real.exp (-x)| ≤ xmax / (length : ℝ) / 2 ∧
          |y - Real.exp (-x)| ≤ xmax / (length : ℝ)) ∧
      (xmax < x → XLALFastNegExp env x (some lut) = .ok 0) ∧
      (xmax - xmax / (length : ℝ) / 2 ≤ x → x ≤ xmax →
        XLALFastNegExp env x (some lut) = .undefined) ∧
      XLALFastNegExp env xmax (some lut) = .undefined := by
  obtain ⟨lut, hlut, hbeyond, hin, hout⟩ := XLALFastNegExp_created env hxm hl hl2 hx
  obtain ⟨heq, hreg1, hreg2⟩ := lookup_index_region hxm hl hx
  have hlK : (0 : ℝ) < (length : ℝ) := Nat.cast_pos.mpr hl
  have hdx : 0 < xmax / (length : ℝ) := div_pos hxm hlK
  refine ⟨lut, hlut, ?_, hbeyond, ?_, ?_⟩
  · intro h
    have hi := hreg1 h
    have hval := hin (by linarith) (by rw [heq]; exact hi)
    refine ⟨_, hval, ?_⟩
    rw [hexp, heq]
    have hv0 : 0 ≤ x * (length : ℝ) / xmax + 1 / 2 := by positivity
    have hfl : ((⌊x * (length : ℝ) / xmax + 1 / 2⌋₊ : ℝ)) ≤ x * (length : ℝ) / xmax + 1 / 2 :=
      Nat.floor_le hv0
    have hfl2 : x * (length : ℝ) / xmax + 1 / 2 < (⌊x * (length : ℝ) / xmax + 1 / 2⌋₊ : ℝ) + 1 :=
      Nat.lt_floor_add_one _
    have hxe : x * (length : ℝ) / xmax * (xmax / (length : ℝ)) = x := by
      field_simp
    have hi0 : 0 ≤ (⌊x * (length : ℝ) / xmax + 1 / 2⌋₊ : ℝ) * (xmax / (length : ℝ)) := by
      positivity
    have hdist : |(⌊x * (length : ℝ) / xmax + 1 / 2⌋₊ : ℝ) * (xmax / (length : ℝ)) - x|
        ≤ xmax / (length : ℝ) / 2 := by
      rw [abs_le]
      constructor
      · have := mul_le_mul_of_nonneg_right (le_of_lt hfl2) (le_of_lt hdx)
        nlinarith
      · have := mul_le_mul_of_nonneg_right hfl (le_of_lt hdx)
        nlinarith
    have hlip := abs_exp_neg_sub_le hi0 hx
    constructor
    · linarith
    · linarith
  · intro h1 h2
    exact hout h2 (by rw [heq]; exact le_of_eq (hreg2 h1 h2).symm)
  · obtain ⟨lut2, hlut2, -, -, hout2⟩ := XLALFastNegExp_created env hxm hl hl2 (le_of_lt hxm)
    obtain ⟨heq2, -, hreg3⟩ := lookup_index_region hxm hl (le_of_lt hxm)
    rw [hlut] at hlut2
    cases hlut2
    exact hout2 (le_refl _) (by rw [heq2]; exact le_of_eq (hreg3 (by linarith) (le_refl _)).symm)

/-- Witness of C17: the table `XLALCreateExpLUT ( 20.0, 2000 )` with the real exponential and
`x = 1`. -/
theorem C17_lookup_bound_fails_at_xmax_witness :
    ∃ lut, XLALCreateExpLUT (⟨Real.exp, Real.log, 3, 0⟩ : Env ℝ) 20 2000 = .ok lut ∧
      ((1 : ℝ) < 20 - 20 / ((2000 : Nat) : ℝ) / 2 →
        ∃ y, XLALFastNegExp (⟨Real.exp, Real.log, 3, 0⟩ : Env ℝ) 1 (some lut) = .ok y ∧
          |y - Real.exp (-1)| ≤ 20 / ((2000 : Nat) : ℝ) / 2 ∧
          |y - Real.exp (-1)| ≤ 20 / ((2000 : Nat) : ℝ)) ∧
      ((20 : ℝ) < 1 → XLALFastNegExp (⟨Real.exp, Real.log, 3, 0⟩ : Env ℝ) 1 (some lut) = .ok 0) ∧
      ((20 : ℝ) - 20 / ((2000 : Nat) : ℝ) / 2 ≤ 1 → (1 : ℝ) ≤ 20 →
        XLALFastNegExp (⟨Real.exp, Real.log, 3, 0⟩ : Env ℝ) 1 (some lut) = .undefined) ∧
      XLALFastNegExp (⟨Real.exp, Real.log, 3, 0⟩ : Env ℝ) 20 (some lut) = .undefined :=
  C17_lookup_bound_fails_at_xmax ⟨Real.exp, Real.log, 3, 0⟩ rfl 20 2000 1 (by norm_num)
    (by decide) (by decide) (by norm_num)

/-! ## The merged sequence as a whole (C11, C12, C13, C14, C15) -/

/-- Every atom of non-NULL detectors with `UINT4` timestamps has a `UINT4` timestamp. -/
theorem allAtoms_timestamp_lt (bound : Nat) :
    ∀ (multi : List (Option (FstatAtomVector K))),
      (∀ o ∈ multi, ∃ v, o = some v ∧ ∀ a ∈ v.data, a.timestamp < bound) →
      ∀ a ∈ allAtoms multi, a.timestamp < bound := by
  intro multi
  induction multi with
  | nil => intro _ a ha; simp [allAtoms] at ha
  | cons o tl ih =>
    intro h a ha
    obtain ⟨v, hv, hvt⟩ := h o (List.mem_cons_self _ _)
    subst hv
    simp only [allAtoms, List.mem_append] at ha
    rcases ha with ha | ha
    · exact hvt a ha
    · exact ih (fun o ho => h o (List.mem_cons_of_mem _ ho)) a ha

/-- The merge on non-NULL, non-empty, time-ordered detectors with one cadence and `UINT4`
timestamps, for `deltaT > 0`, in terms of the values `tMin1`, `tMax1` that the code finds:
`tMin1` is the least of `LAL_INT4_MAX - 1` and all timestamps, `tMax1` the latest timestamp.
If the bin count `(tMax1 - tMin1) / deltaT + 1` fits `UINT4` the merge returns that many
bins of cadence `deltaT`; otherwise the count wraps to 0 and the first atom is written
outside the (empty) output array. -/
theorem merge_returns (first : FstatAtomVector K) (rest : List (Option (FstatAtomVector K)))
    (deltaT : Nat)
    (hdet : ∀ o ∈ some first :: rest, ∃ v, o = some v ∧ v.data ≠ [] ∧ TimeOrdered v ∧
      v.TAtom = first.TAtom ∧ ∀ a ∈ v.data, a.timestamp < 4294967296)
    (hdT : deltaT ≠ 0) :
    ∃ tMin1 tMax1, tMin1 ≤ 2147483646 ∧ tMin1 ≤ tMax1 ∧ tMax1 < 4294967296 ∧
      (∀ a ∈ allAtoms (some first :: rest), tMin1 ≤ a.timestamp ∧ a.timestamp ≤ tMax1) ∧
      (tMin1 = 2147483646 ∨ ∃ a ∈ allAtoms (some first :: rest), a.timestamp = tMin1) ∧
      (∃ a ∈ allAtoms (some first :: rest), a.timestamp = tMax1) ∧
      ((tMax1 - tMin1) / deltaT + 1 < 4294967296 →
        ∃ out, XLALmergeMultiFstatAtomsBinned (some (some first :: rest)) deltaT = .ok out ∧
          out.TAtom = deltaT ∧ out.data.length = (tMax1 - tMin1) / deltaT + 1) ∧
      (4294967296 ≤ (tMax1 - tMin1) / deltaT + 1 →
        XLALmergeMultiFstatAtomsBinned (some (some first :: rest)) deltaT = .undefined) := by
  have hts : ∀ a ∈ allAtoms (some first :: rest), a.timestamp < 4294967296 :=
    allAtoms_timestamp_lt 4294967296 _ (fun o ho => by
      obtain ⟨v, hv, _, _, _, hvt⟩ := hdet o ho
      exact ⟨v, hv, hvt⟩)
  have hck := checkTAtoms_ok first.TAtom (some first :: rest) (fun o ho => by
    obtain ⟨v, hv, _, _, hT, _⟩ := hdet o ho
    exact ⟨v, hv, hT⟩)
  obtain ⟨tMin1, tMax1, hmm, hle1, _, hall, hminc, hmaxc⟩ :=
    minMaxTimestamps_spec (some first :: rest) (LAL_INT4_MAX - 1) 0 (fun o ho => by
      obtain ⟨v, hv, hne, hs, _, _⟩ := hdet o ho
      exact ⟨v, hv, hne, hs⟩)
  have hlo : LAL_INT4_MAX - 1 = 2147483646 := rfl
  rw [hlo] at hle1 hminc
  -- the first detector has an atom
  obtain ⟨v0, hv0, hne0, -, -, -⟩ := hdet (some first) (List.mem_cons_self _ _)
  cases hv0
  obtain ⟨a0, l0, hd0⟩ : ∃ a0 l0, first.data = a0 :: l0 := by
    cases hd : first.data with
    | nil => exact absurd hd hne0
    | cons a l => exact ⟨a, l, rfl⟩
  have ha0 : a0 ∈ allAtoms (some first :: rest) := by
    simp only [allAtoms, List.mem_append, hd0, List.mem_cons, true_or]
  have hmm_le : tMin1 ≤ tMax1 := by
    have := hall a0 ha0
    omega
  have hmax_att : ∃ a ∈ allAtoms (some first :: rest), a.timestamp = tMax1 := by
    rcases hmaxc with h | h
    · exact ⟨a0, ha0, by have := hall a0 ha0; omega⟩
    · exact h
  have htmax : tMax1 < 4294967296 := by
    obtain ⟨a, ha, hta⟩ := hmax_att
    rw [← hta]; exact hts a ha
  refine ⟨tMin1, tMax1, hle1, hmm_le, htmax, hall, hminc, hmax_att, ?_, ?_⟩
  · intro hN
    have hNB : u32 (u32sub tMax1 tMin1 / deltaT + 1) = (tMax1 - tMin1) / deltaT + 1 := by
      rw [u32sub_of_le hmm_le htmax, u32_of_lt hN]
    have hbin : ∀ a ∈ allAtoms (some first :: rest),
        codeBin tMin1 deltaT a = specBin tMin1 deltaT a ∧
          specBin tMin1 deltaT a < (tMax1 - tMin1) / deltaT + 1 :=
      fun a ha => codeBin_eq_specBin (hall a ha).1 (hall a ha).2 (hts a ha)
    obtain ⟨out1, hrun, hlen, -, -⟩ := binDetectors_spec tMin1 deltaT (some first :: rest)
      (List.replicate ((tMax1 - tMin1) / deltaT + 1) zeroAtom)
      (fun o ho => by
        obtain ⟨v, hv, _⟩ := hdet o ho
        rw [hv]; simp)
      (fun a ha => by
        rw [List.length_replicate, (hbin a ha).1]
        exact (hbin a ha).2)
    rw [List.length_replicate] at hlen
    refine ⟨{ TAtom := deltaT, data := out1 }, ?_, rfl, hlen⟩
    simp only [XLALmergeMultiFstatAtomsBinned, hdT, if_false, hck, hmm, hNB, hrun]
  · intro hN
    have hdiv : (tMax1 - tMin1) / deltaT ≤ tMax1 - tMin1 := Nat.div_le_self _ _
    have hNB : u32 (u32sub tMax1 tMin1 / deltaT + 1) = 0 := by
      rw [u32sub_of_le hmm_le htmax, u32_eq]
      omega
    have hbd : binDetectors tMin1 deltaT (some first :: rest) (List.replicate 0 zeroAtom)
        = .undefined := by
      simp only [binDetectors, hd0, binAtoms, List.replicate, List.getElem?_nil]
    simp only [XLALmergeMultiFstatAtomsBinned, hdT, if_false, hck, hmm, hNB, hbd]

/-- The bin count fits `UINT4` unless `deltaT = 1` and the values found by the code are
`tMin1 = 0` and `tMax1 = 2^32 - 1`. -/
theorem bin_count_fits {tMin1 tMax1 deltaT : Nat} (hdT : deltaT ≠ 0) (hmax : tMax1 < 4294967296)
    (h : ¬ (deltaT = 1 ∧ tMin1 = 0 ∧ tMax1 = 4294967295)) :
    (tMax1 - tMin1) / deltaT + 1 < 4294967296 := by
  by_cases h1 : deltaT = 1
  · subst h1
    rw [Nat.div_one]
    omega
  · have h2 : 2 ≤ deltaT := by omega
    have := Nat.div_le_div_left (a := tMax1 - tMin1) h2 (by decide)
    omega

/-- C11: whenever `XLALmergeMultiFstatAtomsBinned` returns a merged sequence, the sum of each
accumulator field (`a2`, `b2`, `ab`, `Re Fa`, `Im Fa`, `Re Fb`, `Im Fb`) over all its bins
equals the sum of that field over all input atoms of all detectors.  And it does return a
merged sequence for every set of non-NULL, non-empty, time-ordered detector sequences with
one cadence and `UINT4` timestamps and every `deltaT > 0`, the one exception being
`deltaT = 1` with atoms at both ends `0` and `2^32 - 1` of the `UINT4` range, where the bin
count does not fit `UINT4`. -/
theorem C11_merge_conserves_totals :
    (∀ (multi : List (Option (FstatAtomVector K))) (deltaT : Nat) (out : FstatAtomVector K),
      XLALmergeMultiFstatAtomsBinned (some multi) deltaT = .ok out →
        (out.data.map (fun a => a.a2_alpha)).sum
          = ((allAtoms multi).map (fun a => a.a2_alpha)).sum ∧
        (out.data.map (fun a => a.b2_alpha)).sum
          = ((allAtoms multi).map (fun a => a.b2_alpha)).sum ∧
        (out.data.map (fun a => a.ab_alpha)).sum
          = ((allAtoms multi).map (fun a => a.ab_alpha)).sum ∧
        (out.data.map (fun a => a.Fa_alpha.re)).sum
          = ((allAtoms multi).map (fun a => a.Fa_alpha.re)).sum ∧
        (out.data.map (fun a => a.Fa_alpha.im)).sum
          = ((allAtoms multi).map (fun a => a.Fa_alpha.im)).sum ∧
        (out.data.map (fun a => a.Fb_alpha.re)).sum
          = ((allAtoms multi).map (fun a => a.Fb_alpha.re)).sum ∧
        (out.data.map (fun a => a.Fb_alpha.im)).sum
          = ((allAtoms multi).map (fun a => a.Fb_alpha.im)).sum) ∧
    (∀ (first : FstatAtomVector K) (rest : List (Option (FstatAtomVector K))) (deltaT : Nat),
      (∀ o ∈ some first :: rest, ∃ v, o = some v ∧ v.data ≠ [] ∧ TimeOrdered v ∧
        v.TAtom = first.TAtom ∧ ∀ a ∈ v.data, a.timestamp < 4294967296) →
      0 < deltaT →
      ¬ (deltaT = 1 ∧ (∃ a ∈ allAtoms (some first :: rest), a.timestamp = 0) ∧
          ∃ a ∈ allAtoms (some first :: rest), a.timestamp = 4294967295) →
      ∃ out, XLALmergeMultiFstatAtomsBinned (some (some first :: rest)) deltaT = .ok out) := by
  constructor
  · intro multi deltaT out h
    exact ⟨merge_total h (fun a => a.a2_alpha) ⟨rfl, fun _ _ _ => rfl⟩,
      merge_total h (fun a => a.b2_alpha) ⟨rfl, fun _ _ _ => rfl⟩,
      merge_total h (fun a => a.ab_alpha) ⟨rfl, fun _ _ _ => rfl⟩,
      merge_total h (fun a => a.Fa_alpha.re) ⟨rfl, fun _ _ _ => rfl⟩,
      merge_total h (fun a => a.Fa_alpha.im) ⟨rfl, fun _ _ _ => rfl⟩,
      merge_total h (fun a => a.Fb_alpha.re) ⟨rfl, fun _ _ _ => rfl⟩,
      merge_total h (fun a => a.Fb_alpha.im) ⟨rfl, fun _ _ _ => rfl⟩⟩
  · intro first rest deltaT hdet hdT hspan
    obtain ⟨tMin1, tMax1, hle, -, hmax, -, hminc, hmaxc, hok, -⟩ :=
      merge_returns first rest deltaT hdet (by omega)
    have hfit : (tMax1 - tMin1) / deltaT + 1 < 4294967296 := by
      apply bin_count_fits (by omega) hmax
      rintro ⟨h1, h2, h3⟩
      apply hspan
      refine ⟨h1, ?_, ?_⟩
      · rcases hminc with h | h
        · omega
        · rw [h2] at h; exact h
      · rw [h3] at hmaxc; exact hmaxc
    obtain ⟨out, hrun, -, -⟩ := hok hfit
    exact ⟨out, hrun⟩

/-- Witness of C11: two detectors over `ℚ`, one with a gap, merged with `deltaT = 1`. -/
theorem C11_merge_conserves_totals_witness :
    ∃ out, XLALmergeMultiFstatAtomsBinned (K := ℚ)
        (some [some gapDetectorA, some gapDetectorB]) 1 = .ok out ∧
      (out.data.map (fun a => a.a2_alpha)).sum
        = ((allAtoms [some gapDetectorA, some gapDetectorB]).map (fun a => a.a2_alpha)).sum ∧
      (out.data.map (fun a => a.b2_alpha)).sum
        = ((allAtoms [some gapDetectorA, some gapDetectorB]).map (fun a => a.b2_alpha)).sum ∧
      (out.data.map (fun a => a.ab_alpha)).sum
        = ((allAtoms [some gapDetectorA, some gapDetectorB]).map (fun a => a.ab_alpha)).sum ∧
      (out.data.map (fun a => a.Fa_alpha.re)).sum
        = ((allAtoms [some gapDetectorA, some gapDetectorB]).map (fun a => a.Fa_alpha.re)).sum ∧
      (out.data.map (fun a => a.Fa_alpha.im)).sum
        = ((allAtoms [some gapDetectorA, some gapDetectorB]).map (fun a => a.Fa_alpha.im)).sum ∧
      (out.data.map (fun a => a.Fb_alpha.re)).sum
        = ((allAtoms [some gapDetectorA, some gapDetectorB]).map (fun a => a.Fb_alpha.re)).sum ∧
      (out.data.map (fun a => a.Fb_alpha.im)).sum
        = ((allAtoms [some gapDetectorA, some gapDetectorB]).map (fun a => a.Fb_alpha.im)).sum := by
  obtain ⟨out, hrun⟩ := (C11_merge_conserves_totals (K := ℚ)).2 gapDetectorA
    [some gapDetectorB] 1
    (by
      intro o ho
      simp only [List.mem_cons, List.mem_singleton, List.not_mem_nil, or_false] at ho
      rcases ho with rfl | rfl
      · exact ⟨gapDetectorA, rfl, by decide!, by unfold TimeOrdered; decide!, rfl, by decide!⟩
      · exact ⟨gapDetectorB, rfl, by decide!, by unfold TimeOrdered; decide!, rfl, by decide!⟩)
    (by decide)
    (by
      rintro ⟨-, -, a, ha, hta⟩
      revert a
      decide!)
  exact ⟨out, hrun, (C11_merge_conserves_totals (K := ℚ)).1 _ 1 out hrun⟩

/-- C12 (amended): for non-NULL, non-empty, time-ordered detector sequences with one cadence
and `UINT4` timestamps and `deltaT > 0`, with `tMin` and `tMax` the earliest and latest
timestamps of all input atoms: if the bin count fits `UINT4`, the merge returns a sequence of
cadence `deltaT` with `floor ((tMax - tMin0) / deltaT) + 1` bins, where
`tMin0 = min (tMin, LAL_INT4_MAX - 1)` is the earliest timestamp the code finds; for
`tMin ≤ 2147483646` this is `floor ((tMax - tMin) / deltaT) + 1`. -/
theorem C12_merged_bin_count (first : FstatAtomVector K)
    (rest : List (Option (FstatAtomVector K))) (deltaT tMin tMax : Nat)
    (hdet : ∀ o ∈ some first :: rest, ∃ v, o = some v ∧ v.data ≠ [] ∧ TimeOrdered v ∧
      v.TAtom = first.TAtom ∧ ∀ a ∈ v.data, a.timestamp < 4294967296)
    (hdT : 0 < deltaT)
    (hmin : (∀ a ∈ allAtoms (some first :: rest), tMin ≤ a.timestamp) ∧
      ∃ a ∈ allAtoms (some first :: rest), a.timestamp = tMin)
    (hmax : (∀ a ∈ allAtoms (some first :: rest), a.timestamp ≤ tMax) ∧
      ∃ a ∈ allAtoms (some first :: rest), a.timestamp = tMax)
    (hN : (tMax - min tMin 2147483646) / deltaT + 1 < 4294967296) :
    ∃ out, XLALmergeMultiFstatAtomsBinned (some (some first :: rest)) deltaT = .ok out ∧
      out.TAtom = deltaT ∧
      out.data.length = (tMax - min tMin 2147483646) / deltaT + 1 ∧
      (tMin ≤ 2147483646 → out.data.length = (tMax - tMin) / deltaT + 1) := by
  obtain ⟨tMin1, tMax1, hle, -, -, hall, hminc, hmaxc, hok, -⟩ :=
    merge_returns first rest deltaT hdet (by omega)
  obtain ⟨amin, hamin, hamin2⟩ := hmin.2
  obtain ⟨amax, hamax, hamax2⟩ := hmax.2
  have e1 : tMin1 = min tMin 2147483646 := by
    have h1 : tMin1 ≤ tMin := by rw [← hamin2]; exact (hall amin hamin).1
    rcases hminc with h | ⟨a, ha, hta⟩
    · omega
    · have := hmin.1 a ha
      omega
  have e2 : tMax1 = tMax := by
    have h1 : tMax ≤ tMax1 := by rw [← hamax2]; exact (hall amax hamax).2
    obtain ⟨a, ha, hta⟩ := hmaxc
    have := hmax.1 a ha
    omega
  rw [e1, e2] at hok
  obtain ⟨out, hrun, hT, hlen⟩ := hok hN
  refine ⟨out, hrun, hT, hlen, ?_⟩
  intro hlo
  rw [hlen, Nat.min_eq_left hlo]

/-- Witness of C12: two detectors over `ℚ`, one with a gap, merged with `deltaT = 1` into
the 6 bins of the times 0..5. -/
theorem C12_merged_bin_count_witness :
    ∃ out, XLALmergeMultiFstatAtomsBinned (K := ℚ)
        (some [some gapDetectorA, some gapDetectorB]) 1 = .ok out ∧
      out.TAtom = 1 ∧
      out.data.length = (5 - min 0 2147483646) / 1 + 1 ∧
      (0 ≤ 2147483646 → out.data.length = (5 - 0) / 1 + 1) := by
  apply C12_merged_bin_count gapDetectorA [some gapDetectorB] 1 0 5
  · intro o ho
    simp only [List.mem_cons, List.mem_singleton, List.not_mem_nil, or_false] at ho
    rcases ho with rfl | rfl
    · exact ⟨gapDetectorA, rfl, by decide!, by unfold TimeOrdered; decide!, rfl, by decide!⟩
    · exact ⟨gapDetectorB, rfl, by decide!, by unfold TimeOrdered; decide!, rfl, by decide!⟩
  · decide
  · exact ⟨by decide!, by decide!⟩
  · exact ⟨by decide!, by decide!⟩
  · decide

/-- C12 (counterexample): for a single atom at GPS second `2147483647` the earliest and the
latest timestamp coincide, so the claimed bin count is 1; the merge, whose search for `tMin`
starts at `2147483646`, returns 2 bins.  For atoms at the seconds 0 and `4294967295` and
`deltaT = 1` the claimed count `2^32` wraps to 0 and no sequence is returned. -/
theorem C12_counterexample :
    (∀ a ∈ allAtoms [some (lastSecondAtoms (K := ℚ))], a.timestamp = 2147483647) ∧
    (2147483647 - 2147483647) / 1 + 1 = 1 ∧
    (∃ out, XLALmergeMultiFstatAtomsBinned (K := ℚ) (some [some lastSecondAtoms]) 1 = .ok out ∧
      out.data.length = 2) ∧
    XLALmergeMultiFstatAtomsBinned (K := ℚ) (some [some fullSpanAtoms]) 1 = .undefined := by
  refine ⟨by decide!, by decide,
    ⟨{ TAtom := 1, data := [zeroAtom, { unitAtom 2147483647 with timestamp := 2147483646 }] },
      by decide!, rfl⟩, by decide!⟩

/-- C13 (failing input): one detector of cadence 1 with atoms at the times 0, 1 and 5.
Merged with `deltaT = 1` the six bins carry the timestamps 0, 1, 0, 0, 0, 2 instead of
0, 1, 2, 3, 4, 5: the bins without atom keep the timestamp 0 and bin 5 gets
`tMin + i * deltaT` for the atom index `i = 2`.  Merged with `deltaT = 2` (atoms 0 and 1 in
the same bin) the three bins carry 2, 0, 4 instead of 0, 2, 4.  In both cases the merged
timestamps are not increasing. -/
theorem C13_merged_timestamps_use_atom_index :
    (∃ out, XLALmergeMultiFstatAtomsBinned (K := ℚ) (some [some gapDetectorA]) 1 = .ok out ∧
      out.data.map (fun a => a.timestamp) = [0, 1, 0, 0, 0, 2]) ∧
    (∃ out, XLALmergeMultiFstatAtomsBinned (K := ℚ) (some [some gapDetectorA]) 2 = .ok out ∧
      out.data.map (fun a => a.timestamp) = [2, 0, 4]) := by
  have hev1 : (match XLALmergeMultiFstatAtomsBinned (K := ℚ) (some [some gapDetectorA]) 1 with
    | .ok r => decide (r.data.map (fun a => a.timestamp) = [0, 1, 0, 0, 0, 2])
    | _ => false) = true := by decide!
  have hev2 : (match XLALmergeMultiFstatAtomsBinned (K := ℚ) (some [some gapDetectorA]) 2 with
    | .ok r => decide (r.data.map (fun a => a.timestamp) = [2, 0, 4])
    | _ => false) = true := by decide!
  constructor
  · cases hrun : XLALmergeMultiFstatAtomsBinned (K := ℚ) (some [some gapDetectorA]) 1 with
    | ok r => rw [hrun] at hev1; exact ⟨r, rfl, by simpa using hev1⟩
    | fail e => rw [hrun] at hev1; cases hev1
    | undefined => rw [hrun] at hev1; cases hev1
  · cases hrun : XLALmergeMultiFstatAtomsBinned (K := ℚ) (some [some gapDetectorA]) 2 with
    | ok r => rw [hrun] at hev2; exact ⟨r, rfl, by simpa using hev2⟩
    | fail e => rw [hrun] at hev2; cases hev2
    | undefined => rw [hrun] at hev2; cases hev2

/-- The cadence check on non-NULL detectors either passes, and then all cadences agree, or
fails with `XLAL_EINVAL`, and then some detector has another cadence. -/
theorem checkTAtoms_cases (TAtom : Nat) :
    ∀ (multi : List (Option (FstatAtomVector K))), (∀ o ∈ multi, o ≠ none) →
      (checkTAtoms TAtom multi = .ok () ∧ ∀ v, some v ∈ multi → v.TAtom = TAtom) ∨
      (checkTAtoms TAtom multi = .fail .XLAL_EINVAL ∧ ∃ v, some v ∈ multi ∧ v.TAtom ≠ TAtom) := by
  intro multi
  induction multi with
  | nil => intro _; exact Or.inl ⟨rfl, fun v hv => by simp at hv⟩
  | cons o rest ih =>
    intro hnn
    cases o with
    | none => exact absurd rfl (hnn none (List.mem_cons_self _ _))
    | some v =>
      by_cases hv : v.TAtom = TAtom
      · rcases ih (fun o ho => hnn o (List.mem_cons_of_mem _ ho)) with ⟨h1, h2⟩ | ⟨h1, w, hw, hwT⟩
        · left
          refine ⟨by simp only [checkTAtoms, hv, ne_eq, not_true_eq_false, if_false]; exact h1, ?_⟩
          intro w hw
          rcases List.mem_cons.mp hw with h | h
          · cases h; exact hv
          · exact h2 w h
        · right
          exact ⟨by simp only [checkTAtoms, hv, ne_eq, not_true_eq_false, if_false]; exact h1,
            w, List.mem_cons_of_mem _ hw, hwT⟩
      · right
        exact ⟨by simp only [checkTAtoms, ne_eq, hv, not_false_eq_true, if_true],
          v, List.mem_cons_self _ _, hv⟩

/-- C14 (amended): for inputs whose detector sequences after the first are not NULL and whose
detector sequences are all non-empty and time-ordered with `UINT4` timestamps, excluding
`deltaT = 1` with atoms at both `0` and `2^32 - 1`: `XLALmergeMultiFstatAtomsBinned` fails
with `XLAL_EINVAL` if and only if the multi-sequence is NULL, has no detector, its first
detector sequence is NULL, `deltaT = 0`, or some detector's cadence differs from the first
detector's; otherwise it returns a merged sequence. -/
theorem C14_merge_fails_iff_invalid_input (multiAtoms : Option (MultiFstatAtomVector K))
    (deltaT : Nat)
    (hrest : ∀ first rest, multiAtoms = some (first :: rest) → ∀ o ∈ rest, o ≠ none)
    (hdet : ∀ multi v, multiAtoms = some multi → some v ∈ multi →
      v.data ≠ [] ∧ TimeOrdered v ∧ ∀ a ∈ v.data, a.timestamp < 4294967296)
    (hspan : ∀ multi, multiAtoms = some multi →
      ¬ (deltaT = 1 ∧ (∃ a ∈ allAtoms multi, a.timestamp = 0) ∧
          ∃ a ∈ allAtoms multi, a.timestamp = 4294967295)) :
    (XLALmergeMultiFstatAtomsBinned multiAtoms deltaT = .fail .XLAL_EINVAL ↔
      (multiAtoms = none ∨ multiAtoms = some [] ∨ (∃ rest, multiAtoms = some (none :: rest)) ∨
        deltaT = 0 ∨
        ∃ first rest v, multiAtoms = some (some first :: rest) ∧ some v ∈ rest ∧
          v.TAtom ≠ first.TAtom)) ∧
    (XLALmergeMultiFstatAtomsBinned multiAtoms deltaT ≠ .fail .XLAL_EINVAL →
      ∃ out, XLALmergeMultiFstatAtomsBinned multiAtoms deltaT = .ok out) := by
  cases multiAtoms with
  | none =>
    have h : XLALmergeMultiFstatAtomsBinned (K := K) none deltaT = .fail .XLAL_EINVAL := rfl
    exact ⟨⟨fun _ => Or.inl rfl, fun _ => h⟩, fun hne => absurd h hne⟩
  | some multi =>
    cases multi with
    | nil =>
      have h : XLALmergeMultiFstatAtomsBinned (K := K) (some []) deltaT = .fail .XLAL_EINVAL :=
        rfl
      exact ⟨⟨fun _ => Or.inr (Or.inl rfl), fun _ => h⟩, fun hne => absurd h hne⟩
    | cons o rest =>
      cases o with
      | none =>
        have h : XLALmergeMultiFstatAtomsBinned (K := K) (some (none :: rest)) deltaT
            = .fail .XLAL_EINVAL := rfl
        exact ⟨⟨fun _ => Or.inr (Or.inr (Or.inl ⟨rest, rfl⟩)), fun _ => h⟩,
          fun hne => absurd h hne⟩
      | some first =>
        by_cases hdT : deltaT = 0
        · have h : XLALmergeMultiFstatAtomsBinned (some (some first :: rest)) deltaT
              = .fail .XLAL_EINVAL := by
            simp only [XLALmergeMultiFstatAtomsBinned, hdT, if_true]
          exact ⟨⟨fun _ => Or.inr (Or.inr (Or.inr (Or.inl hdT))), fun _ => h⟩,
            fun hne => absurd h hne⟩
        · have hnn : ∀ o ∈ some first :: rest, o ≠ none := by
            intro o ho
            rcases List.mem_cons.mp ho with h | h
            · rw [h]; simp
            · exact hrest (some first) rest rfl o h
          rcases checkTAtoms_cases first.TAtom (some first :: rest) hnn with
            ⟨hck, hall⟩ | ⟨hck, v, hv, hvT⟩
          · have hdet2 : ∀ o ∈ some first :: rest, ∃ v, o = some v ∧ v.data ≠ [] ∧
                TimeOrdered v ∧ v.TAtom = first.TAtom ∧
                ∀ a ∈ v.data, a.timestamp < 4294967296 := by
              intro o ho
              cases o with
              | none => exact absurd rfl (hnn none ho)
              | some v =>
                obtain ⟨h1, h2, h3⟩ := hdet _ v rfl ho
                exact ⟨v, rfl, h1, h2, hall v ho, h3⟩
            obtain ⟨tMin1, tMax1, hle, -, hmax, -, hminc, hmaxc, hok, -⟩ :=
              merge_returns first rest deltaT hdet2 hdT
            have hfit : (tMax1 - tMin1) / deltaT + 1 < 4294967296 := by
              apply bin_count_fits hdT hmax
              rintro ⟨h1, h2, h3⟩
              apply hspan _ rfl
              refine ⟨h1, ?_, ?_⟩
              · rcases hminc with h | h
                · omega
                · rw [h2] at h; exact h
              · rw [h3] at hmaxc; exact hmaxc
            obtain ⟨out, hrun, -, -⟩ := hok hfit
            refine ⟨⟨fun h => ?_, fun h => ?_⟩, fun _ => ⟨out, hrun⟩⟩
            · rw [hrun] at h; cases h
            · rcases h with h | h | ⟨r, h⟩ | h | ⟨f, r, v, h, hv, hvT⟩
              · cases h
              · cases h
              · cases h
              · exact absurd h hdT
              · cases h
                exact absurd (hall v (List.mem_cons_of_mem _ hv)) hvT
          · have h : XLALmergeMultiFstatAtomsBinned (some (some first :: rest)) deltaT
                = .fail .XLAL_EINVAL := by
              simp only [XLALmergeMultiFstatAtomsBinned, hdT, if_false, hck]
            have hvr : some v ∈ rest := by
              rcases List.mem_cons.mp hv with h1 | h1
              · cases h1; exact absurd rfl hvT
              · exact h1
            exact ⟨⟨fun _ => Or.inr (Or.inr (Or.inr (Or.inr ⟨first, rest, v, rfl, hvr, hvT⟩))),
              fun _ => h⟩, fun hne => absurd h hne⟩

/-- Witness of C14: two non-empty, time-ordered detectors of one cadence, `deltaT = 1`. -/
theorem C14_merge_fails_iff_invalid_input_witness :
    (XLALmergeMultiFstatAtomsBinned (K := ℚ) (some [some gapDetectorA, some gapDetectorB]) 1
        = .fail .XLAL_EINVAL ↔
      ((some [some gapDetectorA, some gapDetectorB] : Option (MultiFstatAtomVector ℚ)) = none ∨
        (some [some gapDetectorA, some gapDetectorB] : Option (MultiFstatAtomVector ℚ))
          = some [] ∨
        (∃ rest, (some [some gapDetectorA, some gapDetectorB] : Option (MultiFstatAtomVector ℚ))
          = some (none :: rest)) ∨
        1 = 0 ∨
        ∃ first rest v,
          (some [some gapDetectorA, some gapDetectorB] : Option (MultiFstatAtomVector ℚ))
            = some (some first :: rest) ∧ some v ∈ rest ∧ v.TAtom ≠ first.TAtom)) ∧
    (XLALmergeMultiFstatAtomsBinned (K := ℚ) (some [some gapDetectorA, some gapDetectorB]) 1
        ≠ .fail .XLAL_EINVAL →
      ∃ out, XLALmergeMultiFstatAtomsBinned (K := ℚ)
        (some [some gapDetectorA, some gapDetectorB]) 1 = .ok out) :=
  C14_merge_fails_iff_invalid_input (some [some gapDetectorA, some gapDetectorB]) 1
    (by
      intro first rest h o ho
      cases h
      simp only [List.mem_singleton] at ho
      rw [ho]; simp)
    (by
      intro multi v h hv
      cases h
      simp only [List.mem_cons, List.mem_singleton, List.not_mem_nil, or_false,
        Option.some.injEq] at hv
      rcases hv with rfl | rfl
      · exact ⟨by decide!, by unfold TimeOrdered; decide!, by decide!⟩
      · exact ⟨by decide!, by unfold TimeOrdered; decide!, by decide!⟩)
    (by
      intro multi h
      cases h
      rintro ⟨-, -, a, ha, hta⟩
      revert a
      decide!)

/-- C14 (counterexample): a single non-empty detector of cadence 1 with atoms at the times
1, 5, 3 and `deltaT = 1`: none of the listed conditions holds, but the bins are sized from the
first and the last atom (3 bins) and the atom at time 5 is written outside the output array.
Likewise for time-ordered atoms at the seconds 0 and `4294967295` with `deltaT = 1`, where
the bin count wraps to 0.  Neither call fails with `XLAL_EINVAL` or returns a sequence. -/
theorem C14_counterexample :
    (unorderedAtoms (K := ℚ)).data ≠ [] ∧
    XLALmergeMultiFstatAtomsBinned (K := ℚ) (some [some unorderedAtoms]) 1 = .undefined ∧
    (fullSpanAtoms (K := ℚ)).data ≠ [] ∧ TimeOrdered (fullSpanAtoms (K := ℚ)) ∧
    XLALmergeMultiFstatAtomsBinned (K := ℚ) (some [some fullSpanAtoms]) 1 = .undefined := by
  refine ⟨by decide!, by decide!, by decide!, by unfold TimeOrdered; decide!, by decide!⟩

/-- The search for the earliest and latest timestamps reads the first and the last atom of
every detector; on a detector without atoms these reads are outside the array. -/
theorem minMaxTimestamps_empty :
    ∀ (multi : List (Option (FstatAtomVector K))) (acc : Nat × Nat),
      (∀ o ∈ multi, o ≠ none) → (∃ v, some v ∈ multi ∧ v.data = []) →
      minMaxTimestamps multi acc = .undefined := by
  intro multi
  induction multi with
  | nil => intro acc _ h; obtain ⟨v, hv, _⟩ := h; simp at hv
  | cons o rest ih =>
    intro acc hnn hex
    obtain ⟨lo, hi⟩ := acc
    cases o with
    | none => exact absurd rfl (hnn none (List.mem_cons_self _ _))
    | some w =>
      cases hd : w.data with
      | nil => simp only [minMaxTimestamps, hd, List.head?_nil]
      | cons a l =>
        have hne : a :: l ≠ [] := by simp
        have hlast : (a :: l).getLast? = some ((a :: l).getLast hne) :=
          List.getLast?_eq_getLast _ hne
        simp only [minMaxTimestamps, hd, List.head?_cons, hlast]
        apply ih _ (fun o ho => hnn o (List.mem_cons_of_mem _ ho))
        obtain ⟨v, hv, hve⟩ := hex
        rcases List.mem_cons.mp hv with h | h
        · cases h
          rw [hd] at hve
          cases hve
        · exact ⟨v, h, hve⟩

/-- C15 (failing inputs): when the first detector is not NULL, `deltaT > 0`, the other
detector pointers are not NULL and all cadences agree, a detector sequence of length 0 does
not make `XLALmergeMultiFstatAtomsBinned` fail with `XLAL_EINVAL`: the search for the
earliest and latest timestamps reads `data[0]` and `data[length - 1]` of that sequence,
outside the array. -/
theorem C15_empty_detector_is_read (first : FstatAtomVector K)
    (rest : List (Option (FstatAtomVector K))) (deltaT : Nat)
    (hnn : ∀ o ∈ rest, o ≠ none) (hT : ∀ v, some v ∈ rest → v.TAtom = first.TAtom)
    (hdT : 0 < deltaT) (hempty : ∃ v, some v ∈ some first :: rest ∧ v.data = []) :
    XLALmergeMultiFstatAtomsBinned (some (some first :: rest)) deltaT = .undefined := by
  have hnn2 : ∀ o ∈ some first :: rest, o ≠ none := by
    intro o ho
    rcases List.mem_cons.mp ho with h | h
    · rw [h]; simp
    · exact hnn o h
  have hck := checkTAtoms_ok first.TAtom (some first :: rest) (fun o ho => by
    cases o with
    | none => exact absurd rfl (hnn2 none ho)
    | some v =>
      rcases List.mem_cons.mp ho with h | h
      · cases h; exact ⟨_, rfl, rfl⟩
      · exact ⟨v, rfl, hT v h⟩)
  have hmm := minMaxTimestamps_empty (some first :: rest) (LAL_INT4_MAX - 1, 0) hnn2 hempty
  have hd : deltaT ≠ 0 := by omega
  simp only [XLALmergeMultiFstatAtomsBinned, hd, if_false, hck, hmm]

/-- Witness of C15: the detector `eightAtoms` followed by a detector without atoms, and a
detector without atoms alone. -/
theorem C15_empty_detector_is_read_witness :
    XLALmergeMultiFstatAtomsBinned (K := ℚ) (some [some eightAtoms, some emptyDetector]) 1
      = .undefined ∧
    XLALmergeMultiFstatAtomsBinned (K := ℚ) (some [some emptyDetector]) 1 = .undefined :=
  ⟨C15_empty_detector_is_read eightAtoms [some emptyDetector] 1
      (by intro o ho; simp only [List.mem_singleton] at ho; rw [ho]; simp)
      (by intro v hv; simp only [List.mem_singleton, Option.some.injEq] at hv; rw [hv]; rfl)
      (by decide) ⟨emptyDetector, by simp, rfl⟩,
    C15_empty_detector_is_read emptyDetector [] 1
      (by intro o ho; simp at ho) (by intro v hv; simp at hv)
      (by decide) ⟨emptyDetector, by simp, rfl⟩⟩

/-! ## The window timespan, continued (C21, C22, C23) -/

/-- The exponential timespan for a non-negative truncation multiple and a value inside the
range of `UINT4`: the end time is `t0 + floor (E * tau + 1/2)`. -/
theorem exponential_timespan_ok (env : Env K) (t0 tau : Nat)
    (hE : 0 ≤ env.TRANSIENT_EXP_EFOLDING)
    (hfit : (t0 : K) + env.TRANSIENT_EXP_EFOLDING * (tau : K) + 1 / 2 < 4294967296) :
    XLALGetTransientWindowTimespan env { type := TRANSIENT_EXPONENTIAL, t0 := t0, tau := tau }
      = .ok (t0, t0 + ⌊env.TRANSIENT_EXP_EFOLDING * (tau : K) + 1 / 2⌋₊) := by
  have hy : 0 ≤ env.TRANSIENT_EXP_EFOLDING * (tau : K) := mul_nonneg hE (Nat.cast_nonneg _)
  have ht : (0 : K) ≤ (t0 : K) := Nat.cast_nonneg _
  have hsplit : ⌊(t0 : K) + env.TRANSIENT_EXP_EFOLDING * (tau : K) + 1 / 2⌋₊ =
      t0 + ⌊env.TRANSIENT_EXP_EFOLDING * (tau : K) + 1 / 2⌋₊ := by
    have h2 : 0 ≤ env.TRANSIENT_EXP_EFOLDING * (tau : K) + 1 / 2 := by linarith
    rw [add_assoc, add_comm, Nat.floor_add_nat h2, add_comm]
  have hno : ¬ ((t0 : K) + env.TRANSIENT_EXP_EFOLDING * (tau : K) + 1 / 2 ≤ -1 ∨
      4294967296 ≤ (t0 : K) + env.TRANSIENT_EXP_EFOLDING * (tau : K) + 1 / 2) := by
    intro h
    rcases h with h | h <;> linarith
  simp only [XLALGetTransientWindowTimespan, TRANSIENT_EXPONENTIAL, TRANSIENT_NONE,
    (by decide : ¬ ((2 : Nat) = 0)), if_true, if_false, hno, hsplit]

/-- C21 (amended): for an exponential window with start `t0` and decay scale `tau`, a
non-negative truncation multiple `E` and `t0 + E * tau + 1/2 < 2^32`,
`XLALGetTransientWindowTimespan` returns `t0_out = t0` and an end time `t1_out ≥ t0_out`,
with `t1_out > t0_out` exactly when `E * tau ≥ 1/2`; for `tau = 0` the interval is empty,
`t1_out = t0_out`. -/
theorem C21_exponential_interval_empty_for_zero_tau (env : Env K) (t0 tau : Nat)
    (hE : 0 ≤ env.TRANSIENT_EXP_EFOLDING)
    (hfit : (t0 : K) + env.TRANSIENT_EXP_EFOLDING * (tau : K) + 1 / 2 < 4294967296) :
    ∃ t1_out,
      XLALGetTransientWindowTimespan env { type := TRANSIENT_EXPONENTIAL, t0 := t0, tau := tau }
        = .ok (t0, t1_out) ∧
      t0 ≤ t1_out ∧
      (t0 < t1_out ↔ 1 / 2 ≤ env.TRANSIENT_EXP_EFOLDING * (tau : K)) ∧
      (tau = 0 → t1_out = t0) := by
  have hy : 0 ≤ env.TRANSIENT_EXP_EFOLDING * (tau : K) := mul_nonneg hE (Nat.cast_nonneg _)
  have h2 : 0 ≤ env.TRANSIENT_EXP_EFOLDING * (tau : K) + 1 / 2 := by linarith
  have hpos : 0 < ⌊env.TRANSIENT_EXP_EFOLDING * (tau : K) + 1 / 2⌋₊ ↔
      1 / 2 ≤ env.TRANSIENT_EXP_EFOLDING * (tau : K) := by
    rw [Nat.floor_pos]
    constructor <;> intro h <;> linarith
  refine ⟨_, exponential_timespan_ok env t0 tau hE hfit, Nat.le_add_right _ _, ?_, ?_⟩
  · rw [← hpos]; omega
  · intro h0
    have hz : ⌊env.TRANSIENT_EXP_EFOLDING * (tau : K) + 1 / 2⌋₊ = 0 := by
      rw [h0, Nat.cast_zero, mul_zero, Nat.floor_eq_zero]
      norm_num
    omega

/-- Witness of C21: `E = 3`, start 100 and decay scale 0. -/
theorem C21_exponential_interval_empty_for_zero_tau_witness :
    ∃ t1_out,
      XLALGetTransientWindowTimespan ratEnv { type := TRANSIENT_EXPONENTIAL, t0 := 100, tau := 0 }
        = .ok (100, t1_out) ∧
      100 ≤ t1_out ∧
      (100 < t1_out ↔ 1 / 2 ≤ ratEnv.TRANSIENT_EXP_EFOLDING * ((0 : Nat) : ℚ)) ∧
      (0 = 0 → t1_out = 100) :=
  C21_exponential_interval_empty_for_zero_tau ratEnv 100 0 (by decide!) (by decide!)

/-- C21 (counterexample): for the decay scale `tau = 0` the end time is
`floor (t0 + 0.5) = t0`, so `t1_out > t0_out` fails, whatever the truncation multiple is
(here `E = 3`, start 100). -/
theorem C21_counterexample :
    XLALGetTransientWindowTimespan ratEnv { type := TRANSIENT_EXPONENTIAL, t0 := 100, tau := 0 }
      = .ok (100, 100) ∧ ¬ (100 < 100) := by
  refine ⟨by decide!, by decide⟩

/-- C22 (amended): for an exponential window with a non-negative truncation multiple `E`, a
fixed start `t0` and decay scales `tau ≤ tau'` with `t0 + E * tau' + 1/2 < 2^32`, both end
times are returned and `t1 (tau) ≤ t1 (tau')`. -/
theorem C22_exponential_end_time_monotone (env : Env K) (t0 tau tau' : Nat)
    (hE : 0 ≤ env.TRANSIENT_EXP_EFOLDING) (hle : tau ≤ tau')
    (hfit : (t0 : K) + env.TRANSIENT_EXP_EFOLDING * (tau' : K) + 1 / 2 < 4294967296) :
    ∃ t1 t1',
      XLALGetTransientWindowTimespan env { type := TRANSIENT_EXPONENTIAL, t0 := t0, tau := tau }
        = .ok (t0, t1) ∧
      XLALGetTransientWindowTimespan env { type := TRANSIENT_EXPONENTIAL, t0 := t0, tau := tau' }
        = .ok (t0, t1') ∧
      t1 ≤ t1' := by
  have hcast : (tau : K) ≤ (tau' : K) := Nat.cast_le.mpr hle
  have hmul : env.TRANSIENT_EXP_EFOLDING * (tau : K) ≤ env.TRANSIENT_EXP_EFOLDING * (tau' : K) :=
    mul_le_mul_of_nonneg_left hcast hE
  have hfit1 : (t0 : K) + env.TRANSIENT_EXP_EFOLDING * (tau : K) + 1 / 2 < 4294967296 := by
    linarith
  refine ⟨_, _, exponential_timespan_ok env t0 tau hE hfit1,
    exponential_timespan_ok env t0 tau' hE hfit, ?_⟩
  exact Nat.add_le_add_left (Nat.floor_mono (by linarith)) _

/-- Witness of C22: `E = 3`, start 100 and the decay scales 2 and 7. -/
theorem C22_exponential_end_time_monotone_witness :
    ∃ t1 t1',
      XLALGetTransientWindowTimespan ratEnv { type := TRANSIENT_EXPONENTIAL, t0 := 100, tau := 2 }
        = .ok (100, t1) ∧
      XLALGetTransientWindowTimespan ratEnv { type := TRANSIENT_EXPONENTIAL, t0 := 100, tau := 7 }
        = .ok (100, t1') ∧
      t1 ≤ t1' :=
  C22_exponential_end_time_monotone ratEnv 100 2 7 (by decide!) (by decide) (by decide!)

/-- C22 (counterexample): with `E = 3` and start `4294967295` the decay scale 0 gives the end
time `4294967295`, but for the larger decay scale 1 the value `4294967298.5` is outside the
range of `UINT4` and no end time `t1 (1) ≥ t1 (0)` is returned. -/
theorem C22_counterexample :
    XLALGetTransientWindowTimespan ratEnv
        { type := TRANSIENT_EXPONENTIAL, t0 := 4294967295, tau := 0 }
      = .ok (4294967295, 4294967295) ∧
    XLALGetTransientWindowTimespan ratEnv
        { type := TRANSIENT_EXPONENTIAL, t0 := 4294967295, tau := 1 } = .undefined := by
  refine ⟨by decide!, by decide!⟩

/-- C23: for a window whose type tag is none of `TRANSIENT_NONE`, `TRANSIENT_RECTANGULAR`,
`TRANSIENT_EXPONENTIAL`, `XLALGetTransientWindowTimespan` fails with `XLAL_EINVAL`; for the
type `TRANSIENT_NONE` it succeeds with `t0 = 0` and `t1 = 2147483647 = LAL_INT4_MAX`. -/
theorem C23_timespan_of_unknown_and_none_type (env : Env K) (transientWindow : transientWindow_t) :
    (transientWindow.type ≠ TRANSIENT_NONE → transientWindow.type ≠ TRANSIENT_RECTANGULAR →
      transientWindow.type ≠ TRANSIENT_EXPONENTIAL →
      XLALGetTransientWindowTimespan env transientWindow = .fail .XLAL_EINVAL) ∧
    (transientWindow.type = TRANSIENT_NONE →
      XLALGetTransientWindowTimespan env transientWindow = .ok (0, 2147483647)) := by
  constructor
  · intro h0 h1 h2
    simp only [XLALGetTransientWindowTimespan, h0, h1, h2, if_false]
  · intro h0
    simp only [XLALGetTransientWindowTimespan, h0, if_true]

/-- Witness of C23: the type tags 7 (unknown) and `TRANSIENT_NONE`. -/
theorem C23_timespan_of_unknown_and_none_type_witness :
    XLALGetTransientWindowTimespan ratEnv { type := 7, t0 := 100, tau := 5 }
      = .fail .XLAL_EINVAL ∧
    XLALGetTransientWindowTimespan ratEnv { type := TRANSIENT_NONE, t0 := 100, tau := 5 }
      = .ok (0, 2147483647) :=
  ⟨(C23_timespan_of_unknown_and_none_type ratEnv { type := 7, t0 := 100, tau := 5 }).1
      (by decide) (by decide) (by decide),
    (C23_timespan_of_unknown_and_none_type ratEnv
      { type := TRANSIENT_NONE, t0 := 100, tau := 5 }).2 rfl⟩

/-! ## The start index (C30) -/

/-- Clamping a non-negative index. -/
theorem clampIndex_natCast (v numAtoms : Nat) :
    clampIndex (v : Int) numAtoms = if numAtoms ≤ v then u32sub numAtoms 1 else v := by
  unfold clampIndex
  have h1 : ¬ ((v : Int) < 0) := by omega
  simp only [h1, if_false, Int.toNat_ofNat, ge_iff_le]

/-- Integer rounding `(x + T/2) / T` is `floor (x / T + 1/2)`. -/
theorem round_div_eq (x T : Nat) (hT : 0 < T) :
    ⌊((x : Nat) : ℚ) / (T : ℚ) + 1 / 2⌋₊ = (x + T / 2) / T := by
  have hTq : (0 : ℚ) < (T : ℚ) := Nat.cast_pos.mpr hT
  have h0 : (0 : ℚ) ≤ ((x : Nat) : ℚ) / (T : ℚ) + 1 / 2 := by positivity
  rw [Nat.floor_eq_iff h0]
  have hlo : (x + T / 2) / T * T ≤ x + T / 2 := Nat.div_mul_le_self _ _
  have hhi : x + T / 2 < ((x + T / 2) / T + 1) * T := by
    have := Nat.lt_div_mul_add hT (a := x + T / 2)
    rw [Nat.add_mul, Nat.one_mul]
    exact this
  have hhalf : 2 * (T / 2) ≤ T ∧ T ≤ 2 * (T / 2) + 1 := by omega
  have hloq : (((x + T / 2) / T * T : Nat) : ℚ) ≤ ((x + T / 2 : Nat) : ℚ) := Nat.cast_le.mpr hlo
  have hhiq : ((x + T / 2 + 1 : Nat) : ℚ) ≤ ((((x + T / 2) / T + 1) * T : Nat) : ℚ) :=
    Nat.cast_le.mpr hhi
  have hh1 : (2 : ℚ) * ((T / 2 : Nat) : ℚ) ≤ (T : ℚ) := by exact_mod_cast hhalf.1
  have hh2 : (T : ℚ) ≤ 2 * ((T / 2 : Nat) : ℚ) + 1 := by exact_mod_cast hhalf.2
  push_cast at hloq hhiq
  constructor
  · rw [← sub_nonneg]
    have : ((x : ℚ) / (T : ℚ) + 1 / 2 - (((x + T / 2) / T : Nat) : ℚ)) * (T : ℚ) =
        (x : ℚ) + (T : ℚ) / 2 - (((x + T / 2) / T : Nat) : ℚ) * (T : ℚ) := by
      field_simp
      ring
    have hnn : 0 ≤ ((x : ℚ) / (T : ℚ) + 1 / 2 - (((x + T / 2) / T : Nat) : ℚ)) * (T : ℚ) := by
      rw [this]; linarith
    exact nonneg_of_mul_nonneg_left hnn hTq
  · rw [← sub_pos]
    have : ((((x + T / 2) / T : Nat) : ℚ) + 1 - ((x : ℚ) / (T : ℚ) + 1 / 2)) * (T : ℚ) =
        ((((x + T / 2) / T : Nat) : ℚ) + 1) * (T : ℚ) - (x : ℚ) - (T : ℚ) / 2 := by
      field_simp
      ring
    have hpp : 0 < ((((x + T / 2) / T : Nat) : ℚ) + 1 - ((x : ℚ) / (T : ℚ) + 1 / 2)) * (T : ℚ) := by
      rw [this]; linarith
    exact pos_of_mul_pos_left hpp (le_of_lt hTq)

/-- The start index of a window starting at or after the first timestamp, when the `UINT4`
sum and the conversion to `INT4` do not wrap. -/
theorem startIndex_after_data_start {t t0_data TAtom numAtoms : Nat} (hN : 0 < numAtoms)
    (hN2 : numAtoms < 4294967296) (ht : t < 4294967296) (hle : t0_data ≤ t)
    (hsum : t - t0_data + TAtom / 2 < 4294967296)
    (hint : (t - t0_data + TAtom / 2) / TAtom < 2147483648) :
    startIndex t t0_data TAtom numAtoms = min ((t - t0_data + TAtom / 2) / TAtom) (numAtoms - 1) := by
  unfold startIndex
  rw [u32sub_of_le hle ht, u32_of_lt hsum, toINT4_of_lt hint, clampIndex_natCast,
    u32sub_of_le hN hN2]
  split <;> omega

/-- The start index of a window starting before the first timestamp: the `UINT4` difference
`t - t0_data` wraps to `2^32 - (t0_data - t)`. -/
theorem startIndex_before_data_start {t t0_data TAtom numAtoms : Nat} (hN : 0 < numAtoms)
    (hN2 : numAtoms < 4294967296) (ht0 : t0_data < 4294967296) (hlt : t < t0_data)
    (hsum : 4294967296 - (t0_data - t) + TAtom / 2 < 4294967296)
    (hint : (4294967296 - (t0_data - t) + TAtom / 2) / TAtom < 2147483648) :
    startIndex t t0_data TAtom numAtoms =
      min ((4294967296 - (t0_data - t) + TAtom / 2) / TAtom) (numAtoms - 1) := by
  unfold startIndex
  have hsub : u32sub t t0_data = 4294967296 - (t0_data - t) := by
    rw [u32sub_eq]; omega
  rw [hsub, u32_of_lt hsum, toINT4_of_lt hint, clampIndex_natCast, u32sub_of_le hN hN2]
  split <;> omega

/-- C30 (failing region): for `UINT4` values `t`, `t0_data`, a cadence `TAtom > 0` and
`0 < numAtoms < 2^32`, the start index computed by `XLALComputeTransientBstat` is
`clamp (floor ((t - t0_data) / TAtom + 1/2), 0, numAtoms - 1)` for start times
`t ≥ t0_data` (as long as the `UINT4` sum and the `INT4` conversion do not wrap), and it is 0
for `t < t0_data` when `TAtom = 1`.  But for `TAtom ≥ 2` and a start time at least one
cadence before the first atom the `UINT4` difference `t - t0_data` wraps, the index is
`min ((2^32 - (t0_data - t) + TAtom/2) / TAtom, numAtoms - 1)`, which is the last atom
`numAtoms - 1` for every realistic `numAtoms`, not 0. -/
theorem C30_start_index_wraps_before_data (t t0_data TAtom numAtoms : Nat) (hT : 0 < TAtom)
    (hN : 0 < numAtoms) (hN2 : numAtoms < 4294967296) (ht : t < 4294967296)
    (ht0 : t0_data < 4294967296) :
    (t0_data ≤ t → t - t0_data + TAtom / 2 < 4294967296 →
      (t - t0_data + TAtom / 2) / TAtom < 2147483648 →
      startIndex t t0_data TAtom numAtoms =
        min ⌊((t - t0_data : Nat) : ℚ) / (TAtom : ℚ) + 1 / 2⌋₊ (numAtoms - 1)) ∧
    (t < t0_data → TAtom = 1 → t0_data - t ≤ 2147483648 →
      startIndex t t0_data TAtom numAtoms = 0) ∧
    (t < t0_data → 2 ≤ TAtom → TAtom ≤ t0_data - t →
      startIndex t t0_data TAtom numAtoms =
        min ((4294967296 - (t0_data - t) + TAtom / 2) / TAtom) (numAtoms - 1) ∧
      (numAtoms ≤ (4294967296 - (t0_data - t) + TAtom / 2) / TAtom →
        startIndex t t0_data TAtom numAtoms = numAtoms - 1)) := by
  refine ⟨?_, ?_, ?_⟩
  · intro hle hsum hint
    rw [round_div_eq _ _ hT]
    exact startIndex_after_data_start hN hN2 ht hle hsum hint
  · intro hlt h1 hd
    subst h1
    unfold startIndex
    have hsub : u32sub t t0_data = 4294967296 - (t0_data - t) := by
      rw [u32sub_eq]; omega
    have hv : u32 (4294967296 - (t0_data - t) + 1 / 2) / 1 = 4294967296 - (t0_data - t) := by
      rw [Nat.div_one, u32_eq]; omega
    rw [hsub, hv, toINT4_eq]
    have hmod : (4294967296 - (t0_data - t)) % 4294967296 = 4294967296 - (t0_data - t) := by
      omega
    rw [hmod, if_neg (by omega)]
    unfold clampIndex
    have hneg : ((4294967296 - (t0_data - t) : Nat) : Int) - 4294967296 < 0 := by omega
    simp only [hneg, if_true, Int.toNat_zero, ge_iff_le]
    rw [if_neg (by omega)]
  · intro hlt h2 hd
    have hsum : 4294967296 - (t0_data - t) + TAtom / 2 < 4294967296 := by omega
    have hint : (4294967296 - (t0_data - t) + TAtom / 2) / TAtom < 2147483648 := by
      have h1 : (4294967296 - (t0_data - t) + TAtom / 2) / TAtom
          ≤ (4294967296 - (t0_data - t) + TAtom / 2) / 2 := Nat.div_le_div_left h2 (by decide)
      omega
    have h := startIndex_before_data_start hN hN2 ht0 hlt hsum hint
    refine ⟨h, ?_⟩
    intro hbig
    rw [h]
    omega

/-- Witness of C30: cadence 2, first timestamp 10, 8 atoms: the start time 8, one cadence
before the first atom, resolves to the last atom 7; the start times 13 and 30 resolve to the
atoms 2 and 7.  The run of the whole computation on `cadenceTwoAtoms` with `earlyStartRange`
uses the start index 7 for the start time 8 in both cells of its row. -/
theorem C30_start_index_wraps_before_data_witness :
    startIndex 8 10 2 8 = 8 - 1 ∧
    startIndex 13 10 2 8 = min ⌊((13 - 10 : Nat) : ℚ) / ((2 : Nat) : ℚ) + 1 / 2⌋₊ (8 - 1) ∧
    startIndex 30 10 2 8 = min ⌊((30 - 10 : Nat) : ℚ) / ((2 : Nat) : ℚ) + 1 / 2⌋₊ (8 - 1) ∧
    ∃ r, computeTransientBstat ratEnv (some [some cadenceTwoAtoms]) earlyStartRange false
        empty_TransientCandidate = .ok r ∧
      r.trace.map (fun c => (c.m, c.n, c.window_t0, c.i_t0)) = [(0, 0, 8, 7), (0, 1, 8, 7)] := by
  have hev : (match computeTransientBstat ratEnv (some [some cadenceTwoAtoms]) earlyStartRange
      false empty_TransientCandidate with
    | .ok r => decide (r.trace.map (fun c => (c.m, c.n, c.window_t0, c.i_t0))
        = [(0, 0, 8, 7), (0, 1, 8, 7)])
    | _ => false) = true := by decide!
  refine ⟨((C30_start_index_wraps_before_data 8 10 2 8 (by decide) (by decide) (by decide)
      (by decide) (by decide)).2.2 (by decide) (by decide) (by decide)).2 (by decide),
    (C30_start_index_wraps_before_data 13 10 2 8 (by decide) (by decide) (by decide) (by decide)
      (by decide)).1 (by decide) (by decide) (by decide),
    (C30_start_index_wraps_before_data 30 10 2 8 (by decide) (by decide) (by decide) (by decide)
      (by decide)).1 (by decide) (by decide) (by decide), ?_⟩
  cases hrun : computeTransientBstat ratEnv (some [some cadenceTwoAtoms]) earlyStartRange
      false empty_TransientCandidate with
  | ok r => rw [hrun] at hev; exact ⟨r, rfl, by simpa using hev⟩
  | fail e => rw [hrun] at hev; cases hev
  | undefined => rw [hrun] at hev; cases hev

/-! ## The summation loops (C28, C29) -/

/-- A trace invariant of the double loop.  `R m n acc last` describes the running sums and
`i_t1_last` in row `m` before the cell `{m, n}`; `Q` is what is recorded for each processed
cell.  If `R` holds at the start of each row and each pass through the inner body carries
`R` to the next cell and records a cell satisfying `Q`, then after a successful scan every
recorded cell satisfies `Q`. -/
theorem scanGrid_cells {env : Env K} {atoms : FstatAtomVector K}
    {windowRange : transientWindowRange_t K} {useFReg : Bool}
    {t0_data TAtom N_t0Range N_tauRange : Nat} {ret0 : TransientCandidate_t K}
    {F_mn0 : gsl_matrix K} {s : ScanState K}
    (Q : CellRecord K → Prop) (R : Nat → Nat → Accum K → Nat → Prop)
    (hbase : ∀ m, R m 0 zeroAccum
      (startIndex (u32 (windowRange.t0 + m * windowRange.dt0)) t0_data TAtom atoms.data.length))
    (hstep : ∀ (m n : Nat) (t t1 : ScanState K), R m n t.acc t.i_t1_last →
      innerBody env atoms windowRange useFReg t0_data TAtom m
        (u32 (windowRange.t0 + m * windowRange.dt0))
        (startIndex (u32 (windowRange.t0 + m * windowRange.dt0)) t0_data TAtom
          atoms.data.length) n t = .ok t1 →
      R m (n + 1) t1.acc t1.i_t1_last ∧ ∃ c, t1.trace = t.trace ++ [c] ∧ Q c)
    (h : scanGrid env atoms windowRange useFReg t0_data TAtom N_t0Range N_tauRange ret0 F_mn0
      = .ok s) :
    ∀ c ∈ s.trace, Q c := by
  unfold scanGrid at h
  have houter : ∀ (m : Nat) (t t1 : ScanState K), (∀ c ∈ t.trace, Q c) →
      outerBody env atoms windowRange useFReg t0_data TAtom N_tauRange m t = .ok t1 →
      ∀ c ∈ t1.trace, Q c := by
    intro m t t1 hQ hb
    unfold outerBody at hb
    simp only at hb
    have key := forRange_inv _
      (fun n (u : ScanState K) => (∀ c ∈ u.trace, Q c) ∧ R m n u.acc u.i_t1_last)
      N_tauRange 0
      { t with acc := zeroAccum
               i_t1_last := startIndex (u32 (windowRange.t0 + m * windowRange.dt0)) t0_data
                 TAtom atoms.data.length }
      t1 ⟨hQ, hbase m⟩
      (fun n u u1 _ _ hp hbody => by
        obtain ⟨hR, c, htr, hc⟩ := hstep m n u u1 hp.2 hbody
        refine ⟨?_, hR⟩
        intro c1 hc1
        rw [htr] at hc1
        rcases List.mem_append.mp hc1 with h1 | h1
        · exact hp.1 c1 h1
        · simp only [List.mem_singleton] at h1
          rw [h1]; exact hc) hb
    exact key.1
  have key := forRange_inv _ (fun _ (t : ScanState K) => ∀ c ∈ t.trace, Q c)
    N_t0Range 0 _ s (by intro c hc; simp at hc)
    (fun m t t1 _ _ hp hb => houter m t t1 hp hb) h
  exact key

/-- A successful exponential summation loop has read a weight for each of its atoms and
added the weighted atoms, in order, on top of the initial sums. -/
theorem forRange_addAtomExp_ok (env : Env K) (data : List (FstatAtom K))
    (exp_buffer : Option (gsl_matrix K)) (n t0 t1 tau : Nat) :
    ∀ (count start : Nat) (acc acc1 : Accum K),
      forRange (addAtomExp env data exp_buffer n t0 t1 tau) count start acc = .ok acc1 →
      ∃ ws : List K, ws.length = count ∧
        (∀ j, j < count → ∃ a w, data[start + j]? = some a ∧ ws[j]? = some w ∧
          expWeight env exp_buffer n t0 t1 tau (start + j) a.timestamp = .ok w) ∧
        acc1 = (((data.drop start).take count).zip ws).foldl
          (fun s p => accAddWeighted s p.1 p.2) acc := by
  intro count
  induction count with
  | zero =>
    intro start acc acc1 h
    simp only [forRange] at h
    cases h
    exact ⟨[], rfl, fun j hj => absurd hj (by omega), by simp⟩
  | succ count ih =>
    intro start acc acc1 h
    cases hb : addAtomExp env data exp_buffer n t0 t1 tau start acc with
    | fail e => rw [forRange_succ_fail hb] at h; cases h
    | undefined => rw [forRange_succ_undefined hb] at h; cases h
    | ok acc2 =>
      rw [forRange_succ_ok hb] at h
      obtain ⟨ws, hlen, hw, hacc⟩ := ih (start + 1) acc2 acc1 h
      unfold addAtomExp at hb
      split at hb
      · cases hb
      · rename_i a hget
        simp only at hb
        split at hb
        · cases hb
        · cases hb
        · rename_i w hwt
          cases hb
          have hlt : start < data.length := by
            by_contra hcon
            rw [List.getElem?_eq_none (by omega)] at hget
            cases hget
          have ha : data[start] = a := by
            rw [List.getElem?_eq_getElem hlt] at hget
            cases hget; rfl
          have hdrop : data.drop start = a :: data.drop (start + 1) := by
            rw [← ha]; exact List.drop_eq_getElem_cons hlt
          refine ⟨w :: ws, by simp [hlen], ?_, ?_⟩
          · intro j hj
            cases j with
            | zero => exact ⟨a, w, hget, by simp, hwt⟩
            | succ j =>
              obtain ⟨b, v, h1, h2, h3⟩ := hw j (by omega)
              have e : start + (j + 1) = start + 1 + j := by omega
              rw [e]
              exact ⟨b, v, h1, by simpa using h2, h3⟩
          · rw [hacc, hdrop, List.take_succ_cons, List.zip_cons_cons, List.foldl_cons]

/-- The components of the weighted running sums after adding a list of weighted atoms. -/
theorem foldl_accAddWeighted (l : List (FstatAtom K × K)) :
    ∀ acc : Accum K,
      l.foldl (fun s p => accAddWeighted s p.1 p.2) acc =
        { Ad := acc.Ad + (weightedSums l).Ad, Bd := acc.Bd + (weightedSums l).Bd
          Cd := acc.Cd + (weightedSums l).Cd
          Fa_re := acc.Fa_re + (weightedSums l).Fa_re
          Fa_im := acc.Fa_im + (weightedSums l).Fa_im
          Fb_re := acc.Fb_re + (weightedSums l).Fb_re
          Fb_im := acc.Fb_im + (weightedSums l).Fb_im } := by
  induction l with
  | nil => intro acc; simp [weightedSums]
  | cons p l ih =>
    intro acc
    rw [List.foldl_cons, ih]
    simp only [accAddWeighted, weightedSums, List.map_cons, List.sum_cons]
    congr 1 <;> ring

/-- The weighted running sums started from zero are the sums of the specification. -/
theorem foldl_accAddWeighted_zero (l : List (FstatAtom K × K)) :
    l.foldl (fun s p => accAddWeighted s p.1 p.2) zeroAccum = weightedSums l := by
  rw [foldl_accAddWeighted]
  simp [zeroAccum]

/-- What the scan records for a cell of an exponential window range: the running sums are
the result of the summation loop over `[i_t0, i_t1]` started from zero. -/
theorem scanGrid_exp_cells {env : Env K} {atoms : FstatAtomVector K}
    {windowRange : transientWindowRange_t K} {useFReg : Bool}
    {t0_data TAtom N_t0Range N_tauRange : Nat} {ret0 : TransientCandidate_t K}
    {F_mn0 : gsl_matrix K} {s : ScanState K}
    (htype : windowRange.type = TRANSIENT_EXPONENTIAL)
    (h : scanGrid env atoms windowRange useFReg t0_data TAtom N_t0Range N_tauRange ret0 F_mn0
      = .ok s) :
    ∀ c ∈ s.trace,
      forRange (addAtomExp env atoms.data windowRange.exp_buffer c.n c.t0 c.t1 c.window_tau)
        (c.i_t1 + 1 - c.i_t0) c.i_t0 zeroAccum = .ok c.acc := by
  refine scanGrid_cells
    (fun c => forRange
      (addAtomExp env atoms.data windowRange.exp_buffer c.n c.t0 c.t1 c.window_tau)
      (c.i_t1 + 1 - c.i_t0) c.i_t0 zeroAccum = .ok c.acc)
    (fun _ _ _ _ => True) (fun _ => trivial) ?_ h
  intro m n t t1 _ hb
  obtain ⟨t0, t1v, acc, L, -, -, hsum, -, -, -, -, -, -, -, -, -, htrace⟩ := innerBody_ok hb
  refine ⟨trivial, _, htrace, ?_⟩
  simp only
  unfold sumCell at hsum
  rw [htype, if_neg (by decide), if_pos rfl] at hsum
  split at hsum
  · cases hsum; assumption
  · cases hsum
  · cases hsum

/-- C29: after a successful run of `XLALComputeTransientBstat` on an exponential window
range, the running sums recorded for every grid cell `{m, n}` are the weighted sums over the
atoms `i` in `[i_t0, i_t1]`, started from zero for this cell:
`A = sum w_i^2 a2_i`, `B = sum w_i^2 b2_i`, `C = sum w_i^2 ab_i`, `Fa = sum w_i Fa_i`,
`Fb = sum w_i Fb_i`, where `w_i` is the window weight the code obtains for atom `i` in this
cell (the entry `[n][i]` of `exp_buffer` when the range carries a buffer, the value
`XLALGetExponentialTransientWindowValue (t_i, t0, t1, tau_n)` otherwise). -/
theorem C29_exponential_cells_are_weighted_sums (env : Env K)
    (multiFstatAtoms : Option (MultiFstatAtomVector K)) (windowRange : transientWindowRange_t K)
    (useFReg : Bool) (ret : TransientCandidate_t K) (r : EngineResult K)
    (h : computeTransientBstat env multiFstatAtoms windowRange useFReg ret = .ok r)
    (htype : windowRange.type = TRANSIENT_EXPONENTIAL)
    (m n : Nat) (hm : m < r.N_t0Range) (hn : n < r.N_tauRange) :
    ∃ c ws, r.trace[m * r.N_tauRange + n]? = some c ∧ c.m = m ∧ c.n = n ∧
      ws.length = c.i_t1 + 1 - c.i_t0 ∧
      (∀ j, j < c.i_t1 + 1 - c.i_t0 → ∃ a w,
        r.atoms.data[c.i_t0 + j]? = some a ∧ ws[j]? = some w ∧
        expWeight env windowRange.exp_buffer n c.t0 c.t1 c.window_tau (c.i_t0 + j) a.timestamp
          = .ok w ∧
        (windowRange.exp_buffer = none →
          w = XLALGetExponentialTransientWindowValue env a.timestamp c.t0 c.t1 c.window_tau)) ∧
      c.acc = weightedSums (((r.atoms.data.drop c.i_t0).take (c.i_t1 + 1 - c.i_t0)).zip ws) := by
  obtain ⟨first, rest, atoms, atom0, -, -, -, -, hsr⟩ := computeTransientBstat_ok h
  have hsub : substituteNone windowRange atom0.timestamp atoms.data.length first.TAtom
      = windowRange := by
    unfold substituteNone
    rw [htype, if_neg (by decide)]
  rw [hsub] at hsr
  obtain ⟨F_mn0, expLUT, s, -, -, -, -, -, -, hscan, -, hatoms, -, -, -, htr, -⟩ :=
    scanAndReduce_ok hsr
  obtain ⟨c, hc, e1, e2, -, -⟩ := scanGrid_cell hscan hm hn
  have hmem : c ∈ s.trace := List.getElem?_mem hc
  have hloop := scanGrid_exp_cells htype hscan c hmem
  obtain ⟨ws, hlen, hw, hacc⟩ := forRange_addAtomExp_ok env atoms.data windowRange.exp_buffer
    c.n c.t0 c.t1 c.window_tau _ _ _ _ hloop
  rw [foldl_accAddWeighted_zero] at hacc
  refine ⟨c, ws, by rw [htr]; exact hc, e1, e2, hlen, ?_, by rw [hatoms]; exact hacc⟩
  intro j hj
  obtain ⟨a, w, h1, h2, h3⟩ := hw j hj
  rw [e2] at h3
  refine ⟨a, w, by rw [hatoms]; exact h1, h2, h3, ?_⟩
  intro hnone
  rw [hnone] at h3
  simp only [expWeight] at h3
  cases h3
  rfl

/-- Witness of C29: the exponential range `expRange` on `eightAtoms`, run over `ℚ`. -/
theorem C29_exponential_cells_are_weighted_sums_witness :
    ∃ r, computeTransientBstat ratEnv (some [some eightAtoms]) expRange false
        empty_TransientCandidate = .ok r ∧ 1 < r.N_t0Range ∧ 1 < r.N_tauRange ∧
      ∃ c ws, r.trace[1 * r.N_tauRange + 1]? = some c ∧ c.m = 1 ∧ c.n = 1 ∧
        ws.length = c.i_t1 + 1 - c.i_t0 ∧
        (∀ j, j < c.i_t1 + 1 - c.i_t0 → ∃ a w,
          r.atoms.data[c.i_t0 + j]? = some a ∧ ws[j]? = some w ∧
          expWeight ratEnv (expRange (K := ℚ)).exp_buffer 1 c.t0 c.t1 c.window_tau (c.i_t0 + j)
            a.timestamp = .ok w ∧
          ((expRange (K := ℚ)).exp_buffer = none →
            w = XLALGetExponentialTransientWindowValue ratEnv a.timestamp c.t0 c.t1
              c.window_tau)) ∧
        c.acc = weightedSums (((r.atoms.data.drop c.i_t0).take (c.i_t1 + 1 - c.i_t0)).zip ws) := by
  have hev : (match computeTransientBstat ratEnv (some [some eightAtoms]) expRange false
      empty_TransientCandidate with
    | .ok r => decide (1 < r.N_t0Range ∧ 1 < r.N_tauRange)
    | _ => false) = true := by decide!
  cases hrun : computeTransientBstat ratEnv (some [some eightAtoms]) expRange false
      empty_TransientCandidate with
  | ok r =>
    rw [hrun] at hev
    have hN : 1 < r.N_t0Range ∧ 1 < r.N_tauRange := by simpa using hev
    exact ⟨r, rfl, hN.1, hN.2,
      C29_exponential_cells_are_weighted_sums ratEnv _ expRange false _ r hrun rfl 1 1
        hN.1 hN.2⟩
  | fail e => rw [hrun] at hev; cases hev
  | undefined => rw [hrun] at hev; cases hev

/-- A successful rectangular summation loop has added the atoms at its indices, in order, on
top of the initial sums. -/
theorem forRange_addAtomRect_ok (data : List (FstatAtom K)) :
    ∀ (count start : Nat) (acc acc1 : Accum K),
      forRange (addAtomRect data) count start acc = .ok acc1 →
      acc1 = ((data.drop start).take count).foldl accAddAtom acc := by
  intro count
  induction count with
  | zero =>
    intro start acc acc1 h
    simp only [forRange] at h
    cases h
    simp
  | succ count ih =>
    intro start acc acc1 h
    cases hb : addAtomRect data start acc with
    | fail e => rw [forRange_succ_fail hb] at h; cases h
    | undefined => rw [forRange_succ_undefined hb] at h; cases h
    | ok acc2 =>
      rw [forRange_succ_ok hb] at h
      have hacc := ih (start + 1) acc2 acc1 h
      unfold addAtomRect at hb
      split at hb
      · cases hb
      · rename_i a hget
        cases hb
        have hlt : start < data.length := by
          by_contra hcon
          rw [List.getElem?_eq_none (by omega)] at hget
          cases hget
        have ha : data[start] = a := by
          rw [List.getElem?_eq_getElem hlt] at hget
          cases hget; rfl
        have hdrop : data.drop start = a :: data.drop (start + 1) := by
          rw [← ha]; exact List.drop_eq_getElem_cons hlt
        rw [hacc, hdrop, List.take_succ_cons, List.foldl_cons]

/-- A clamped index lies inside the array. -/
theorem clampIndex_lt (i_tmp : Int) {numAtoms : Nat} (hN : 0 < numAtoms)
    (hN2 : numAtoms < 4294967296) : clampIndex i_tmp numAtoms < numAtoms := by
  unfold clampIndex
  simp only
  generalize (if i_tmp < 0 then (0 : Int) else i_tmp).toNat = i
  split
  · rw [u32sub_of_le hN hN2]; omega
  · omega

/-- In a regular row the end indices stay at or above the first one. -/
theorem RowRegular.first_le {windowRange : transientWindowRange_t K}
    {t0_data TAtom numAtoms m : Nat} :
    ∀ n, RowRegular windowRange t0_data TAtom numAtoms m n →
      rectEndIndex windowRange t0_data TAtom numAtoms m 0
        ≤ rectEndIndex windowRange t0_data TAtom numAtoms m n := by
  intro n
  induction n with
  | zero => intro _; exact le_refl _
  | succ n ih =>
    intro h
    have h1 := ih ⟨h.1, fun k hk => h.2 k (by omega)⟩
    have h2 := h.2 n (by omega)
    omega

/-- Appending the atoms `[a, b)` to the direct sum over `[i_t0, a)`. -/
theorem directSum_extend (data : List (FstatAtom K)) {i a b : Nat} (h1 : i ≤ a)
    (h2 : a ≤ b + 1) :
    ((data.drop a).take (b + 1 - a)).foldl accAddAtom
        (sumAtoms ((data.drop i).take (a - i)))
      = directSum data i b := by
  unfold directSum sumAtoms
  have e : b + 1 - i = (a - i) + (b + 1 - a) := by omega
  rw [e, List.take_add, List.foldl_append, List.drop_drop]
  have e2 : i + (a - i) = a := by omega
  rw [e2]

/-- What the scan records for a cell of a rectangular window range: its indices, and, when
its row is regular through this cell, running sums equal to the direct sums over
`[i_t0, i_t1]`. -/
theorem scanGrid_rect_cells {env : Env K} {atoms : FstatAtomVector K}
    {windowRange : transientWindowRange_t K} {useFReg : Bool}
    {t0_data TAtom N_t0Range N_tauRange : Nat} {ret0 : TransientCandidate_t K}
    {F_mn0 : gsl_matrix K} {s : ScanState K}
    (htype : windowRange.type = TRANSIENT_RECTANGULAR)
    (hN : 0 < atoms.data.length) (hN2 : atoms.data.length < 4294967296)
    (h : scanGrid env atoms windowRange useFReg t0_data TAtom N_t0Range N_tauRange ret0 F_mn0
      = .ok s) :
    ∀ c ∈ s.trace,
      c.i_t0 = rowStartIndex windowRange t0_data TAtom atoms.data.length c.m ∧
      c.i_t1 = rectEndIndex windowRange t0_data TAtom atoms.data.length c.m c.n ∧
      (RowRegular windowRange t0_data TAtom atoms.data.length c.m c.n →
        c.acc = directSum atoms.data c.i_t0 c.i_t1) := by
  refine scanGrid_cells
    (fun c => c.i_t0 = rowStartIndex windowRange t0_data TAtom atoms.data.length c.m ∧
      c.i_t1 = rectEndIndex windowRange t0_data TAtom atoms.data.length c.m c.n ∧
      (RowRegular windowRange t0_data TAtom atoms.data.length c.m c.n →
        c.acc = directSum atoms.data c.i_t0 c.i_t1))
    (fun m n acc last =>
      (n = 0 → acc = zeroAccum ∧
        last = rowStartIndex windowRange t0_data TAtom atoms.data.length m) ∧
      (∀ k, n = k + 1 → RowRegular windowRange t0_data TAtom atoms.data.length m k →
        acc = directSum atoms.data
          (rowStartIndex windowRange t0_data TAtom atoms.data.length m)
          (rectEndIndex windowRange t0_data TAtom atoms.data.length m k) ∧
        last = rectEndIndex windowRange t0_data TAtom atoms.data.length m k + 1))
    (fun m => ⟨fun _ => ⟨rfl, rfl⟩, fun k hk => absurd hk (by omega)⟩) ?_ h
  intro m n t t1 hR hb
  obtain ⟨t0, t1v, acc, L, hspan, -, hsum, -, -, hacc1, hL1, -, -, -, -, -, htrace⟩ :=
    innerBody_ok hb
  -- the window of a rectangular cell
  simp only [XLALGetTransientWindowTimespan, htype, TRANSIENT_RECTANGULAR, TRANSIENT_NONE,
    TRANSIENT_EXPONENTIAL, (by decide : ¬ ((1 : Nat) = 0)), (by decide : ¬ ((1 : Nat) = 2)),
    if_true, if_false, Res.ok.injEq, Prod.mk.injEq] at hspan
  obtain ⟨ht0, ht1⟩ := hspan
  have hE : endIndex t1v t0_data TAtom atoms.data.length
      = rectEndIndex windowRange t0_data TAtom atoms.data.length m n := by
    rw [← ht1]; rfl
  have hElt : rectEndIndex windowRange t0_data TAtom atoms.data.length m n
      < atoms.data.length := by
    unfold rectEndIndex endIndex
    exact clampIndex_lt _ hN hN2
  -- the summation of this cell
  unfold sumCell at hsum
  rw [htype, if_pos rfl] at hsum
  split at hsum
  · rename_i acc2 hloop
    cases hsum
    have hval := forRange_addAtomRect_ok atoms.data _ _ _ _ hloop
    rw [hE] at hval
    have hlast : u32 (endIndex t1v t0_data TAtom atoms.data.length + 1)
        = rectEndIndex windowRange t0_data TAtom atoms.data.length m n + 1 := by
      rw [hE, u32_of_lt (by omega)]
    -- the sums after this cell, when the row is regular through it
    have hcell : RowRegular windowRange t0_data TAtom atoms.data.length m n →
        acc = directSum atoms.data
          (rowStartIndex windowRange t0_data TAtom atoms.data.length m)
          (rectEndIndex windowRange t0_data TAtom atoms.data.length m n) := by
      intro hreg
      cases n with
      | zero =>
        obtain ⟨hz, hl⟩ := hR.1 rfl
        rw [hval, hz, hl]
        have := directSum_extend atoms.data (le_refl
          (rowStartIndex windowRange t0_data TAtom atoms.data.length m)) hreg.1
        rw [Nat.sub_self, List.take_zero] at this
        exact this
      | succ k =>
        have hregk : RowRegular windowRange t0_data TAtom atoms.data.length m k :=
          ⟨hreg.1, fun j hj => hreg.2 j (by omega)⟩
        obtain ⟨hz, hl⟩ := hR.2 k rfl hregk
        have hfirst := RowRegular.first_le k hregk
        have hstepk := hreg.2 k (by omega)
        rw [hval, hz, hl]
        have := directSum_extend atoms.data
          (i := rowStartIndex windowRange t0_data TAtom atoms.data.length m)
          (a := rectEndIndex windowRange t0_data TAtom atoms.data.length m k + 1)
          (b := rectEndIndex windowRange t0_data TAtom atoms.data.length m (k + 1))
          (by have := hreg.1; omega) (by omega)
        exact this
    refine ⟨⟨fun h0 => absurd h0 (by omega), ?_⟩, _, htrace, rfl, hE, ?_⟩
    · intro k hk hreg
      have hkn : n = k := by omega
      subst hkn
      rw [hacc1, hL1, hlast]
      exact ⟨hcell hreg, rfl⟩
    · intro hreg
      show acc = directSum atoms.data _ (endIndex t1v t0_data TAtom atoms.data.length)
      rw [hE]
      exact hcell hreg
  · cases hsum
  · cases hsum

/-- The inner loop of the merge keeps the number of bins. -/
theorem binAtoms_length (tMin deltaT : Nat) :
    ∀ (l : List (FstatAtom K)) (i : Nat) (out out1 : List (FstatAtom K)),
      binAtoms tMin deltaT l i out = .ok out1 → out1.length = out.length := by
  intro l
  induction l with
  | nil =>
    intro i out out1 h
    rw [binAtoms_nil] at h
    cases h; rfl
  | cons a l ih =>
    intro i out out1 h
    cases hget : out[codeBin tMin deltaT a]? with
    | none =>
      unfold codeBin at hget
      rw [binAtoms] at h
      simp only [hget] at h
      cases h
    | some d =>
      rw [binAtoms_cons_some hget] at h
      rw [ih _ _ _ h, List.length_set]

/-- The outer loop of the merge keeps the number of bins. -/
theorem binDetectors_length (tMin deltaT : Nat) :
    ∀ (multi : List (Option (FstatAtomVector K))) (out out1 : List (FstatAtom K)),
      binDetectors tMin deltaT multi out = .ok out1 → out1.length = out.length := by
  intro multi
  induction multi with
  | nil =>
    intro out out1 h
    simp only [binDetectors] at h
    cases h; rfl
  | cons o rest ih =>
    intro out out1 h
    cases o with
    | none => simp only [binDetectors] at h; cases h
    | some v =>
      simp only [binDetectors] at h
      split at h
      · rename_i out2 h2
        rw [ih _ _ h, binAtoms_length tMin deltaT _ _ _ _ h2]
      · cases h
      · cases h

/-- The number of bins of a merged sequence is a `UINT4` value. -/
theorem merge_length_lt {multi : Option (MultiFstatAtomVector K)} {deltaT : Nat}
    {out : FstatAtomVector K}
    (h : XLALmergeMultiFstatAtomsBinned multi deltaT = .ok out) :
    out.data.length < 4294967296 := by
  unfold XLALmergeMultiFstatAtomsBinned at h
  split at h
  · cases h
  · cases h
  · cases h
  · split at h
    · cases h
    · simp only at h
      split at h
      · cases h
      · cases h
      · split at h
        · cases h
        · cases h
        · split at h
          · cases h
          · cases h
          · rename_i out1 hbin
            cases h
            rw [binDetectors_length _ _ _ _ _ hbin, List.length_replicate]
            exact u32_lt _

/-- C28 (failing input): after a successful run of `XLALComputeTransientBstat` on a
rectangular window range (or on the range substituted for the type `none`), the cell
`{m, n}` has the indices `i_t0 = rowStartIndex m` and `i_t1 = rectEndIndex m n`, and its
running sums equal the direct sums over the atoms `[i_t0, i_t1]` whenever row `m` is regular
through `n`: `i_t0 ≤ i_t1 (m, 0) + 1` and the end indices do not decrease up to `n`.  This
fails on `cadenceTwoAtoms` with `earlyStartRange`: the start time before the data resolves
to `i_t0 = 7`, the cell `{0, 0}` has `i_t1 = 1` and sums nothing, and the cell `{0, 1}` with
`i_t1 = 2` holds the sums of atom 2 alone, which lies outside `[7, 2]`; the direct sums over
`[7, 2]` are zero. -/
theorem C28_incremental_sum_needs_regular_row :
    (∀ (env : Env K) (multiFstatAtoms : Option (MultiFstatAtomVector K))
        (windowRange : transientWindowRange_t K) (useFReg : Bool)
        (ret : TransientCandidate_t K) (r : EngineResult K),
        computeTransientBstat env multiFstatAtoms windowRange useFReg ret = .ok r →
        r.windowRange.type = TRANSIENT_RECTANGULAR →
        ∃ atom0, r.atoms.data.head? = some atom0 ∧
          ∀ m n, m < r.N_t0Range → n < r.N_tauRange →
            ∃ c, r.trace[m * r.N_tauRange + n]? = some c ∧ c.m = m ∧ c.n = n ∧
              c.i_t0 = rowStartIndex r.windowRange atom0.timestamp r.atoms.TAtom
                r.atoms.data.length m ∧
              c.i_t1 = rectEndIndex r.windowRange atom0.timestamp r.atoms.TAtom
                r.atoms.data.length m n ∧
              (RowRegular r.windowRange atom0.timestamp r.atoms.TAtom r.atoms.data.length m n →
                c.acc = directSum r.atoms.data c.i_t0 c.i_t1)) ∧
    (∃ r, computeTransientBstat ratEnv (some [some cadenceTwoAtoms]) earlyStartRange false
        empty_TransientCandidate = .ok r ∧
      r.trace.map (fun c => (c.m, c.n, c.i_t0, c.i_t1, c.acc)) =
        [(0, 0, 7, 1, (zeroAccum : Accum ℚ)),
         (0, 1, 7, 2, { Ad := 2, Bd := 2, Cd := 0, Fa_re := 1, Fa_im := 0
                        Fb_re := 1, Fb_im := 0 })] ∧
      directSum r.atoms.data 7 2 = zeroAccum) := by
  constructor
  · intro env multiFstatAtoms windowRange useFReg ret r h htype
    obtain ⟨first, rest, atoms, atom0, -, -, hmerge, hhead, hsr⟩ := computeTransientBstat_ok h
    obtain ⟨F_mn0, expLUT, s, -, -, -, -, -, -, hscan, -, hatoms, hrng, -, -, htr, -⟩ :=
      scanAndReduce_ok hsr
    have hT : atoms.TAtom = first.TAtom := by
      unfold XLALmergeMultiFstatAtomsBinned at hmerge
      simp only at hmerge
      split at hmerge
      · cases hmerge
      · split at hmerge
        · cases hmerge
        · cases hmerge
        · split at hmerge
          · cases hmerge
          · cases hmerge
          · split at hmerge
            · cases hmerge
            · cases hmerge
            · cases hmerge; rfl
    have hN2 := merge_length_lt hmerge
    have hN : 0 < atoms.data.length := by
      cases hd : atoms.data with
      | nil => rw [hd] at hhead; cases hhead
      | cons a l => simp
    rw [hrng] at htype
    have hcells := scanGrid_rect_cells htype hN hN2 hscan
    rw [hatoms, hrng]
    refine ⟨atom0, hhead, ?_⟩
    intro m n hm hn
    obtain ⟨c, hc, e1, e2, -, -⟩ := scanGrid_cell hscan hm hn
    obtain ⟨h1, h2, h3⟩ := hcells c (List.getElem?_mem hc)
    rw [e1] at h1 h2 h3
    rw [e2] at h2 h3
    rw [hT]
    exact ⟨c, by rw [htr]; exact hc, e1, e2, h1, h2, h3⟩
  · have hev : (match computeTransientBstat ratEnv (some [some cadenceTwoAtoms]) earlyStartRange
        false empty_TransientCandidate with
      | .ok r => decide (r.trace.map (fun c => (c.m, c.n, c.i_t0, c.i_t1, c.acc)) =
          [(0, 0, 7, 1, (zeroAccum : Accum ℚ)),
           (0, 1, 7, 2, { Ad := 2, Bd := 2, Cd := 0, Fa_re := 1, Fa_im := 0
                          Fb_re := 1, Fb_im := 0 })] ∧
          directSum r.atoms.data 7 2 = zeroAccum)
      | _ => false) = true := by decide!
    cases hrun : computeTransientBstat ratEnv (some [some cadenceTwoAtoms]) earlyStartRange
        false empty_TransientCandidate with
    | ok r => rw [hrun] at hev; exact ⟨r, rfl, by simpa using hev⟩
    | fail e => rw [hrun] at hev; cases hev
    | undefined => rw [hrun] at hev; cases hev

/-- Witness of C28: the rectangular range `tieRange` on `eightAtoms`, run over `ℚ`. -/
theorem C28_incremental_sum_needs_regular_row_witness :
    ∃ r, computeTransientBstat ratEnv (some [some eightAtoms]) tieRange false
        empty_TransientCandidate = .ok r ∧
      ∃ atom0, r.atoms.data.head? = some atom0 ∧
        ∀ m n, m < r.N_t0Range → n < r.N_tauRange →
          ∃ c, r.trace[m * r.N_tauRange + n]? = some c ∧ c.m = m ∧ c.n = n ∧
            c.i_t0 = rowStartIndex r.windowRange atom0.timestamp r.atoms.TAtom
              r.atoms.data.length m ∧
            c.i_t1 = rectEndIndex r.windowRange atom0.timestamp r.atoms.TAtom
              r.atoms.data.length m n ∧
            (RowRegular r.windowRange atom0.timestamp r.atoms.TAtom r.atoms.data.length m n →
              c.acc = directSum r.atoms.data c.i_t0 c.i_t1) := by
  have hev : (match computeTransientBstat ratEnv (some [some eightAtoms]) tieRange false
      empty_TransientCandidate with
    | .ok r => decide (r.windowRange.type = TRANSIENT_RECTANGULAR)
    | _ => false) = true := by decide!
  cases hrun : computeTransientBstat ratEnv (some [some eightAtoms]) tieRange false
      empty_TransientCandidate with
  | ok r =>
    rw [hrun] at hev
    exact ⟨r, rfl, C28_incremental_sum_needs_regular_row.1 ratEnv _ tieRange false _ r hrun
      (by simpa using hev)⟩
  | fail e => rw [hrun] at hev; cases hev
  | undefined => rw [hrun] at hev; cases hev

/-! ## The per-cell statistic (C1) -/

/-- C1 (failing input): with regularisation off, after a successful run of
`XLALComputeTransientBstat` the entry `F_mn[m][n]` equals
`(B |Fa|^2 + A |Fb|^2 - 2 C Re (Fa conj Fb)) / (A B - C^2)` for the sums `A, B, C, Fa, Fb`
over the atoms `i_t0 .. i_t1` of the cell `{m, n}`, provided the determinant `A B - C^2` of
these sums is not zero and, for a rectangular window range, row `m` is regular through `n`
(for an exponential range the sums carry the window weights of the code).  In the scenario
of 8 merged atoms with `A = B = 2`, `C = 0`, `Fa = Fb = 1 + 0i` and one rectangular cell
spanning exactly the data, the sums are `A = B = 16`, `C = 0`, `Fa = Fb = 8` over the atoms
0..7, `F = 8` and `maxTwoF = 16`.  Without the two conditions the statement fails: on
`cadenceTwoAtoms` with `earlyStartRange` the cell `{0, 1}` has `i_t0 = 7` and `i_t1 = 2`, the
sums over the atoms `7 .. 2` are zero (their determinant is 0), and the stored `F_mn[0][1]`
is 1, the statistic of atom 2 alone. -/
theorem C1_stored_F_is_formula_on_cell_sums :
    (∀ (env : Env K) (multiFstatAtoms : Option (MultiFstatAtomVector K))
        (windowRange : transientWindowRange_t K) (ret : TransientCandidate_t K)
        (r : EngineResult K),
        computeTransientBstat env multiFstatAtoms windowRange false ret = .ok r →
        ∃ atom0, r.atoms.data.head? = some atom0 ∧
          ∀ m n, m < r.N_t0Range → n < r.N_tauRange →
            ∃ c, r.trace[m * r.N_tauRange + n]? = some c ∧ c.m = m ∧ c.n = n ∧
              (r.windowRange.type = TRANSIENT_RECTANGULAR →
                RowRegular r.windowRange atom0.timestamp r.atoms.TAtom r.atoms.data.length m n →
                c.acc = directSum r.atoms.data c.i_t0 c.i_t1 ∧
                (FiniteCell false c.acc →
                  r.F_mn.data m n = specFstatOfSums (directSum r.atoms.data c.i_t0 c.i_t1))) ∧
              (r.windowRange.type = TRANSIENT_EXPONENTIAL →
                ∃ ws, ws.length = c.i_t1 + 1 - c.i_t0 ∧
                  (∀ j, j < c.i_t1 + 1 - c.i_t0 → ∃ a w,
                    r.atoms.data[c.i_t0 + j]? = some a ∧ ws[j]? = some w ∧
                    expWeight env r.windowRange.exp_buffer n c.t0 c.t1 c.window_tau
                      (c.i_t0 + j) a.timestamp = .ok w) ∧
                  c.acc = weightedSums
                    (((r.atoms.data.drop c.i_t0).take (c.i_t1 + 1 - c.i_t0)).zip ws) ∧
                  (FiniteCell false c.acc →
                    r.F_mn.data m n = specFstatOfSums (weightedSums
                      (((r.atoms.data.drop c.i_t0).take (c.i_t1 + 1 - c.i_t0)).zip ws))))) ∧
    (∀ (env : Env K) (cand : TransientCandidate_t K),
        ∃ r, computeTransientBstat env (some [some eightAtoms]) spanningRange false
            empty_TransientCandidate = .ok r ∧
          XLALComputeTransientBstat env cand (some [some eightAtoms]) spanningRange false
            = (.ok (), r.ret) ∧
          r.N_t0Range = 1 ∧ r.N_tauRange = 1 ∧
          r.trace.map (fun c => (c.i_t0, c.i_t1, c.acc)) =
            [(0, 7, { Ad := 16, Bd := 16, Cd := 0, Fa_re := 8, Fa_im := 0
                      Fb_re := 8, Fb_im := 0 })] ∧
          directSum r.atoms.data 0 7 = { Ad := 16, Bd := 16, Cd := 0, Fa_re := 8, Fa_im := 0
                                         Fb_re := 8, Fb_im := 0 } ∧
          r.F_mn.data 0 0 = 8 ∧ r.ret.maxTwoF = 16) ∧
    (∃ r, computeTransientBstat ratEnv (some [some cadenceTwoAtoms]) earlyStartRange false
        empty_TransientCandidate = .ok r ∧
      r.windowRange.type = TRANSIENT_RECTANGULAR ∧
      r.N_t0Range = 1 ∧ r.N_tauRange = 2 ∧
      r.trace.map (fun c => (c.m, c.n, c.i_t0, c.i_t1, c.acc)) =
        [(0, 0, 7, 1, (zeroAccum : Accum ℚ)),
         (0, 1, 7, 2, { Ad := 2, Bd := 2, Cd := 0, Fa_re := 1, Fa_im := 0
                        Fb_re := 1, Fb_im := 0 })] ∧
      directSum r.atoms.data 7 2 = zeroAccum ∧
      ¬ FiniteCell false (directSum r.atoms.data 7 2) ∧
      r.F_mn.data 0 1 = 1) := by
  refine ⟨?_, ?_, ?_⟩
  · intro env multiFstatAtoms windowRange ret r h
    obtain ⟨first, rest, atoms, atom0, -, -, hmerge, hhead, hsr⟩ := computeTransientBstat_ok h
    obtain ⟨F_mn0, expLUT, s, -, -, -, -, -, -, hscan, -, hatoms, hrng, -, hF, htr, -⟩ :=
      scanAndReduce_ok hsr
    have hT : atoms.TAtom = first.TAtom := by
      unfold XLALmergeMultiFstatAtomsBinned at hmerge
      simp only at hmerge
      split at hmerge
      · cases hmerge
      · split at hmerge
        · cases hmerge
        · cases hmerge
        · split at hmerge
          · cases hmerge
          · cases hmerge
          · split at hmerge
            · cases hmerge
            · cases hmerge
            · cases hmerge; rfl
    have hN2 := merge_length_lt hmerge
    have hN : 0 < atoms.data.length := by
      cases hd : atoms.data with
      | nil => rw [hd] at hhead; cases hhead
      | cons a l => simp
    rw [hatoms, hrng, hF, htr, hT]
    refine ⟨atom0, hhead, ?_⟩
    intro m n hm hn
    obtain ⟨c, hc, e1, e2, hok, hval⟩ := scanGrid_cell hscan hm hn
    have hFc : s.F_mn.data m n = specFstatOfSums c.acc := by
      rw [hval, hok.2.2.2.2.2.2.2.2, FstatOfAccum_eq_spec]
      rfl
    refine ⟨c, hc, e1, e2, ?_, ?_⟩
    · intro htype hreg
      obtain ⟨-, -, h3⟩ := scanGrid_rect_cells htype hN hN2 hscan c (List.getElem?_mem hc)
      rw [e1, e2] at h3
      refine ⟨h3 hreg, ?_⟩
      intro _
      rw [hFc, h3 hreg]
    · intro htype
      have hloop := scanGrid_exp_cells htype hscan c (List.getElem?_mem hc)
      obtain ⟨ws, hlen, hw, hacc⟩ := forRange_addAtomExp_ok env atoms.data
        (substituteNone windowRange atom0.timestamp atoms.data.length first.TAtom).exp_buffer
        c.n c.t0 c.t1 c.window_tau _ _ _ _ hloop
      rw [foldl_accAddWeighted_zero] at hacc
      refine ⟨ws, hlen, ?_, hacc, ?_⟩
      · intro j hj
        obtain ⟨a, w, h1, h2, h3⟩ := hw j hj
        rw [e2] at h3
        exact ⟨a, w, h1, h2, h3⟩
      · intro _
        rw [hFc, hacc]
  · intro env cand
    obtain ⟨r, hrun, h1, h2, hF, hmax, -, htr⟩ := run_eightAtoms env empty_TransientCandidate
    have hat : r.atoms = eightAtoms := by
      obtain ⟨first, rest, atoms, atom0, hfirst, -, hmerge, -, hsr⟩ :=
        computeTransientBstat_ok hrun
      obtain ⟨F_mn0, expLUT, s, -, -, -, -, -, -, -, -, hatoms, -, -, -, -, -⟩ :=
        scanAndReduce_ok hsr
      simp only [Option.some.injEq, List.cons.injEq] at hfirst
      obtain ⟨hf, hr⟩ := hfirst
      rw [← hr, ← hf] at hmerge
      have hd : (eightAtoms (K := K)).TAtom = 1 := rfl
      rw [hd, merge_eightAtoms] at hmerge
      cases hmerge
      exact hatoms
    refine ⟨r, hrun, XLALComputeTransientBstat_of_ok hrun, h1, h2, htr, ?_, hF, hmax⟩
    rw [hat]
    norm_num [directSum, sumAtoms, eightAtoms, unitAtom, accAddAtom, zeroAccum]
  · have hev : (match computeTransientBstat ratEnv (some [some cadenceTwoAtoms]) earlyStartRange
        false empty_TransientCandidate with
      | .ok r => decide (r.windowRange.type = TRANSIENT_RECTANGULAR ∧
          r.N_t0Range = 1 ∧ r.N_tauRange = 2 ∧
          r.trace.map (fun c => (c.m, c.n, c.i_t0, c.i_t1, c.acc)) =
          [(0, 0, 7, 1, (zeroAccum : Accum ℚ)),
           (0, 1, 7, 2, { Ad := 2, Bd := 2, Cd := 0, Fa_re := 1, Fa_im := 0
                          Fb_re := 1, Fb_im := 0 })] ∧
          directSum r.atoms.data 7 2 = zeroAccum ∧
          ¬ FiniteCell false (directSum r.atoms.data 7 2) ∧
          r.F_mn.data 0 1 = 1)
      | _ => false) = true := by decide!
    cases hrun : computeTransientBstat ratEnv (some [some cadenceTwoAtoms]) earlyStartRange
        false empty_TransientCandidate with
    | ok r => rw [hrun] at hev; exact ⟨r, rfl, of_decide_eq_true hev⟩
    | fail e => rw [hrun] at hev; cases hev
    | undefined => rw [hrun] at hev; cases hev

/-- Witness of C1, over `ℚ`: the cell `{1, 2}` of the run on `eightAtoms` with the rectangular
range `tieRange`, whose row is regular, and the cell `{1, 1}` of the run with the exponential
range `expRange`; both cells have a non-zero determinant. -/
theorem C1_stored_F_is_formula_on_cell_sums_witness :
    (∃ r, computeTransientBstat ratEnv (some [some eightAtoms]) tieRange false
        empty_TransientCandidate = .ok r ∧
      ∃ c, r.trace[1 * r.N_tauRange + 2]? = some c ∧ c.m = 1 ∧ c.n = 2 ∧
        FiniteCell false c.acc ∧ c.acc = directSum r.atoms.data c.i_t0 c.i_t1 ∧
        r.F_mn.data 1 2 = specFstatOfSums (directSum r.atoms.data c.i_t0 c.i_t1)) ∧
    (∃ r, computeTransientBstat ratEnv (some [some eightAtoms]) expRange false
        empty_TransientCandidate = .ok r ∧
      ∃ c ws, r.trace[1 * r.N_tauRange + 1]? = some c ∧ c.m = 1 ∧ c.n = 1 ∧
        FiniteCell false c.acc ∧
        c.acc = weightedSums
          (((r.atoms.data.drop c.i_t0).take (c.i_t1 + 1 - c.i_t0)).zip ws) ∧
        r.F_mn.data 1 1 = specFstatOfSums (weightedSums
          (((r.atoms.data.drop c.i_t0).take (c.i_t1 + 1 - c.i_t0)).zip ws))) := by
  constructor
  · have hev : (match computeTransientBstat ratEnv (some [some eightAtoms]) tieRange false
        empty_TransientCandidate with
      | .ok r => decide (r.windowRange.type = TRANSIENT_RECTANGULAR ∧
          1 < r.N_t0Range ∧ 2 < r.N_tauRange ∧
          (∀ a ∈ r.atoms.data.head?.toList,
            RowRegular r.windowRange a.timestamp r.atoms.TAtom r.atoms.data.length 1 2) ∧
          ∀ c ∈ r.trace, FiniteCell false c.acc)
      | _ => false) = true := by decide!
    cases hrun : computeTransientBstat ratEnv (some [some eightAtoms]) tieRange false
        empty_TransientCandidate with
    | ok r =>
      rw [hrun] at hev
      obtain ⟨htype, hN1, hN2, hrow, hfin⟩ := of_decide_eq_true hev
      obtain ⟨atom0, hhead, hall⟩ :=
        C1_stored_F_is_formula_on_cell_sums.1 ratEnv _ tieRange _ r hrun
      obtain ⟨c, hc, e1, e2, hrect, -⟩ := hall 1 2 hN1 hN2
      have hreg := hrow atom0 (by rw [hhead]; simp)
      have hfc := hfin c (List.getElem?_mem hc)
      exact ⟨r, rfl, c, hc, e1, e2, hfc, (hrect htype hreg).1, (hrect htype hreg).2 hfc⟩
    | fail e => rw [hrun] at hev; cases hev
    | undefined => rw [hrun] at hev; cases hev
  · have hev : (match computeTransientBstat ratEnv (some [some eightAtoms]) expRange false
        empty_TransientCandidate with
      | .ok r => decide (r.windowRange.type = TRANSIENT_EXPONENTIAL ∧
          1 < r.N_t0Range ∧ 1 < r.N_tauRange ∧
          ∀ c ∈ r.trace, FiniteCell false c.acc)
      | _ => false) = true := by decide!
    cases hrun : computeTransientBstat ratEnv (some [some eightAtoms]) expRange false
        empty_TransientCandidate with
    | ok r =>
      rw [hrun] at hev
      obtain ⟨htype, hN1, hN2, hfin⟩ := of_decide_eq_true hev
      obtain ⟨atom0, hhead, hall⟩ :=
        C1_stored_F_is_formula_on_cell_sums.1 ratEnv _ expRange _ r hrun
      obtain ⟨c, hc, e1, e2, -, hexp⟩ := hall 1 1 hN1 hN2
      obtain ⟨ws, -, -, hacc, hFv⟩ := hexp htype
      have hfc := hfin c (List.getElem?_mem hc)
      exact ⟨r, rfl, c, ws, hc, e1, e2, hfc, hacc, hFv hfc⟩
    | fail e => rw [hrun] at hev; cases hev
    | undefined => rw [hrun] at hev; cases hev

/-! ## The buffered exponential weights (C24) -/

/-- A loop whose body succeeds and re-establishes the invariant runs to its end. -/
theorem forRange_total {σ : Type} (body : Nat → σ → Res σ) (P : Nat → σ → Prop) :
    ∀ (count start : Nat) (s : σ), P start s →
      (∀ i t, start ≤ i → i < start + count → P i t → ∃ t1, body i t = .ok t1 ∧ P (i + 1) t1) →
      ∃ s1, forRange body count start s = .ok s1 ∧ P (start + count) s1 := by
  intro count
  induction count with
  | zero =>
    intro start s h0 _
    exact ⟨s, rfl, by simpa using h0⟩
  | succ count ih =>
    intro start s h0 hstep
    obtain ⟨t, hb, hP⟩ := hstep start s (le_refl _) (by omega) h0
    obtain ⟨s1, hrun, hP1⟩ := ih (start + 1) t hP
      (fun i u hi hi2 hp => hstep i u (by omega) (by omega) hp)
    refine ⟨s1, by rw [forRange_succ_ok hb]; exact hrun, ?_⟩
    have e : start + 1 + count = start + (count + 1) := by omega
    rw [← e]; exact hP1

/-- Filling row `n` of the buffer: the row receives the window values, the other rows and
the sizes are unchanged. -/
theorem fillExpWindowRow_spec (env : Env K) (windowRange : transientWindowRange_t K)
    (t0 t1 N_ti n : Nat) (buf : gsl_matrix K) (hn : n < buf.size1) (hi : buf.size2 = N_ti) :
    ∃ buf1, fillExpWindowRow env windowRange t0 t1 N_ti n buf = .ok buf1 ∧
      buf1.size1 = buf.size1 ∧ buf1.size2 = buf.size2 ∧
      (∀ a b, a ≠ n → buf1.data a b = buf.data a b) ∧
      (∀ i, i < N_ti → buf1.data n i =
        XLALGetExponentialTransientWindowValue env (u32 (t0 + i * windowRange.dt0)) t0 t1
          (u32 (windowRange.tau + n * windowRange.dtau))) := by
  unfold fillExpWindowRow
  have key := forRange_total
    (fun i (b : gsl_matrix K) =>
      gsl_matrix_set b n i
        (XLALGetExponentialTransientWindowValue env (u32 (t0 + i * windowRange.dt0)) t0 t1
          (u32 (windowRange.tau + n * windowRange.dtau))))
    (fun i (b : gsl_matrix K) => b.size1 = buf.size1 ∧ b.size2 = buf.size2 ∧
      (∀ a c, a ≠ n → b.data a c = buf.data a c) ∧
      (∀ j, j < i → b.data n j =
        XLALGetExponentialTransientWindowValue env (u32 (t0 + j * windowRange.dt0)) t0 t1
          (u32 (windowRange.tau + n * windowRange.dtau))))
    N_ti 0 buf ⟨rfl, rfl, fun _ _ _ => rfl, fun j hj => absurd hj (by omega)⟩
    (by
      intro i b _ hilt hP
      obtain ⟨h1, h2, h3, h4⟩ := hP
      have hin : n < b.size1 ∧ i < b.size2 := ⟨by rw [h1]; exact hn, by rw [h2, hi]; omega⟩
      show ∃ t1, gsl_matrix_set b n i _ = .ok t1 ∧ _
      rw [gsl_matrix_set, if_pos hin]
      refine ⟨_, rfl, h1, h2, ?_, ?_⟩
      · intro a c hne
        show (if a = n ∧ c = i then _ else b.data a c) = _
        rw [if_neg (fun h => hne h.1)]
        exact h3 a c hne
      · intro j hj
        show (if n = n ∧ j = i then _ else b.data n j) = _
        by_cases hji : j = i
        · subst hji
          rw [if_pos ⟨rfl, rfl⟩]
        · rw [if_neg (fun h => hji h.2)]
          exact h4 j (by omega))
  obtain ⟨buf1, hrun, h1, h2, h3, h4⟩ := key
  exact ⟨buf1, hrun, h1, h2, h3, fun i hi2 => h4 i (by omega)⟩


/-- The buffer built by `XLALFillExpWindowBuffer` for an exponential range without buffer and
with non-zero steps: with `(t0, t1)` the timespan of the window of start 0 and decay scale
`tauMax = tau + tauBand`, it has `ceil (tauMax / dtau)` rows and `ceil (t1 / dt0)` columns,
and its entry `[n][i]` is the window value at the time `t0 + i * dt0` of the window
`(t0, t1, tau + n * dtau)`. -/
theorem XLALFillExpWindowBuffer_spec (env : Env K) (windowRange : transientWindowRange_t K)
    (t0 t1 : Nat) (htype : windowRange.type = TRANSIENT_EXPONENTIAL)
    (hbuf : windowRange.exp_buffer = none)
    (hspan : XLALGetTransientWindowTimespan env
      { type := TRANSIENT_EXPONENTIAL, t0 := 0
        tau := u32 (windowRange.tau + windowRange.tauBand) } = .ok (t0, t1))
    (hdt0 : windowRange.dt0 ≠ 0) (hdtau : windowRange.dtau ≠ 0)
    (hNti : ⌈(t1 : K) / (windowRange.dt0 : K)⌉₊ ≠ 0)
    (hNtau : ⌈((u32 (windowRange.tau + windowRange.tauBand) : Nat) : K)
      / (windowRange.dtau : K)⌉₊ ≠ 0) :
    ∃ buf, XLALFillExpWindowBuffer env (some windowRange)
        = .ok { windowRange with exp_buffer := some buf } ∧
      buf.size1 = ⌈((u32 (windowRange.tau + windowRange.tauBand) : Nat) : K)
        / (windowRange.dtau : K)⌉₊ ∧
      buf.size2 = ⌈(t1 : K) / (windowRange.dt0 : K)⌉₊ ∧
      ∀ n i, n < buf.size1 → i < buf.size2 →
        buf.data n i =
          XLALGetExponentialTransientWindowValue env (u32 (t0 + i * windowRange.dt0)) t0 t1
            (u32 (windowRange.tau + n * windowRange.dtau)) := by
  have key := forRange_total
    (fillExpWindowRow env windowRange t0 t1 ⌈(t1 : K) / (windowRange.dt0 : K)⌉₊)
    (fun n (b : gsl_matrix K) =>
      b.size1 = ⌈((u32 (windowRange.tau + windowRange.tauBand) : Nat) : K)
        / (windowRange.dtau : K)⌉₊ ∧
      b.size2 = ⌈(t1 : K) / (windowRange.dt0 : K)⌉₊ ∧
      (∀ a i, a < n → i < ⌈(t1 : K) / (windowRange.dt0 : K)⌉₊ → b.data a i =
        XLALGetExponentialTransientWindowValue env (u32 (t0 + i * windowRange.dt0)) t0 t1
          (u32 (windowRange.tau + a * windowRange.dtau))))
    ⌈((u32 (windowRange.tau + windowRange.tauBand) : Nat) : K) / (windowRange.dtau : K)⌉₊ 0
    { size1 := ⌈((u32 (windowRange.tau + windowRange.tauBand) : Nat) : K)
        / (windowRange.dtau : K)⌉₊
      size2 := ⌈(t1 : K) / (windowRange.dt0 : K)⌉₊, data := fun _ _ => 0 }
    ⟨rfl, rfl, fun a i ha => absurd ha (by omega)⟩
    (by
      intro n b _ hnlt hP
      obtain ⟨h1, h2, h3⟩ := hP
      obtain ⟨b1, hrun, g1, g2, g3, g4⟩ := fillExpWindowRow_spec env windowRange t0 t1
        ⌈(t1 : K) / (windowRange.dt0 : K)⌉₊ n b (by rw [h1]; omega) h2
      refine ⟨b1, hrun, by rw [g1, h1], by rw [g2, h2], ?_⟩
      intro a i ha hi
      by_cases han : a = n
      · subst han
        exact g4 i hi
      · rw [g3 a i han]
        exact h3 a i (by omega) hi)
  obtain ⟨buf, hrun, h1, h2, h3⟩ := key
  refine ⟨buf, ?_, h1, h2, ?_⟩
  · have hcalloc : gsl_matrix_calloc (K := K)
        ⌈((u32 (windowRange.tau + windowRange.tauBand) : Nat) : K) / (windowRange.dtau : K)⌉₊
        ⌈(t1 : K) / (windowRange.dt0 : K)⌉₊
        = some { size1 := ⌈((u32 (windowRange.tau + windowRange.tauBand) : Nat) : K)
                   / (windowRange.dtau : K)⌉₊
                 size2 := ⌈(t1 : K) / (windowRange.dt0 : K)⌉₊, data := fun _ _ => 0 } := by
      simp only [gsl_matrix_calloc, hNti, hNtau, or_self, if_false]
    simp only [XLALFillExpWindowBuffer, htype, ne_eq, not_true_eq_false, if_false, hbuf,
      Option.isSome_none, Bool.false_eq_true, hspan, hdt0, hdtau, or_self, hcalloc, hrun]
  · intro n i hn hi
    rw [h1] at hn
    rw [h2] at hi
    have := h3 n i (by omega) hi
    simpa using this

/-- The buffer of `lateExpRange` over the reals with `TRANSIENT_EXP_EFOLDING = 3`: 3 rows and
9 columns, and the entry `[0][1]` is `exp (-1/3)`, the weight of the offset 1 from the
window start. -/
theorem lateExpRange_buffer_real :
    ∃ buf, XLALFillExpWindowBuffer (⟨Real.exp, Real.log, 3, 0⟩ : Env ℝ) (some lateExpRange)
        = .ok { (lateExpRange : transientWindowRange_t ℝ) with exp_buffer := some buf } ∧
      buf.size1 = 3 ∧ buf.size2 = 9 ∧ buf.data 0 1 = Real.exp (-(1 / 3)) := by
  have hu : u32 ((lateExpRange (K := ℝ)).tau + (lateExpRange (K := ℝ)).tauBand) = 3 := by
    show u32 (3 + 0) = 3
    rw [u32_of_lt (by norm_num)]
  have hfl : ⌊(3 : ℝ) * ((3 : ℕ) : ℝ) + 1 / 2⌋₊ = 9 := by
    rw [Nat.floor_eq_iff (by norm_num)]
    norm_num
  have hspan : XLALGetTransientWindowTimespan (⟨Real.exp, Real.log, 3, 0⟩ : Env ℝ)
      { type := TRANSIENT_EXPONENTIAL, t0 := 0
        tau := u32 ((lateExpRange (K := ℝ)).tau + (lateExpRange (K := ℝ)).tauBand) }
      = .ok (0, 9) := by
    rw [hu, exponential_timespan_ok _ 0 3 (by norm_num) (by norm_num)]
    show Res.ok (0, 0 + ⌊(3 : ℝ) * ((3 : ℕ) : ℝ) + 1 / 2⌋₊) = _
    rw [hfl]
  have hNti : ⌈((9 : ℕ) : ℝ) / (((lateExpRange (K := ℝ)).dt0 : ℕ) : ℝ)⌉₊ = 9 := by
    show ⌈((9 : ℕ) : ℝ) / ((1 : ℕ) : ℝ)⌉₊ = 9
    rw [Nat.ceil_eq_iff (by norm_num)]
    norm_num
  have hNtau : ⌈((u32 ((lateExpRange (K := ℝ)).tau + (lateExpRange (K := ℝ)).tauBand) : ℕ) : ℝ)
      / (((lateExpRange (K := ℝ)).dtau : ℕ) : ℝ)⌉₊ = 3 := by
    rw [hu]
    show ⌈((3 : ℕ) : ℝ) / ((1 : ℕ) : ℝ)⌉₊ = 3
    rw [Nat.ceil_eq_iff (by norm_num)]
    norm_num
  obtain ⟨buf, hrun, h1, h2, h3⟩ := XLALFillExpWindowBuffer_spec
    (⟨Real.exp, Real.log, 3, 0⟩ : Env ℝ) lateExpRange 0 9 rfl rfl hspan
    (by decide) (by decide) (by rw [hNti]; decide) (by rw [hNtau]; decide)
  rw [hNtau] at h1
  rw [hNti] at h2
  refine ⟨buf, hrun, h1, h2, ?_⟩
  rw [h3 0 1 (by rw [h1]; decide) (by rw [h2]; decide)]
  show XLALGetExponentialTransientWindowValue _ (u32 (0 + 1 * 1)) 0 9 (u32 (3 + 0 * 1)) = _
  rw [u32_of_lt (by norm_num), u32_of_lt (by norm_num)]
  simp [XLALGetExponentialTransientWindowValue]

/-- C24 (failing input): the buffer that `XLALFillExpWindowBuffer` builds holds, in entry
`[n][i]`, the weight of the offset `i * dt0` from a window start 0, while the summation loop
of `XLALComputeTransientBstat` reads `exp_buffer[n][i]` with the absolute atom index `i`.
For `lateExpRange` (start 1, decay scale 3) on `eightAtoms` (timestamps 0 to 7) and
`TRANSIENT_EXP_EFOLDING = 3`: over the reals the buffer has 3 rows and 9 columns and its
entry `[0][1]` is `exp (-1/3)`, whereas the direct weight of atom 1 (timestamp 1) in the
only cell (window `[1, 10)`, decay scale 3) is `exp 0 = 1`; and in the rational environment
both runs of the engine return, with `maxTwoF = 0` without the buffer and `maxTwoF = 14/5`
with it. -/
theorem C24_buffered_weights_differ_from_direct :
    (∃ buf, XLALFillExpWindowBuffer (⟨Real.exp, Real.log, 3, 0⟩ : Env ℝ) (some lateExpRange)
        = .ok { (lateExpRange : transientWindowRange_t ℝ) with exp_buffer := some buf } ∧
      buf.size1 = 3 ∧ buf.size2 = 9 ∧
      expWeight (⟨Real.exp, Real.log, 3, 0⟩ : Env ℝ) (some buf) 0 1 10 3 1 1
        = .ok (Real.exp (-(1 / 3))) ∧
      expWeight (⟨Real.exp, Real.log, 3, 0⟩ : Env ℝ) none 0 1 10 3 1 1 = .ok 1 ∧
      Real.exp (-(1 / 3)) ≠ 1) ∧
    (∃ rngB, XLALFillExpWindowBuffer ratEnv (some lateExpRange) = .ok rngB ∧
      (XLALComputeTransientBstat ratEnv staleCandidate (some [some eightAtoms]) lateExpRange
        false).1 = .ok () ∧
      (XLALComputeTransientBstat ratEnv staleCandidate (some [some eightAtoms]) rngB
        false).1 = .ok () ∧
      (XLALComputeTransientBstat ratEnv staleCandidate (some [some eightAtoms]) lateExpRange
        false).2.maxTwoF = 0 ∧
      (XLALComputeTransientBstat ratEnv staleCandidate (some [some eightAtoms]) rngB
        false).2.maxTwoF = 14 / 5) := by
  constructor
  · obtain ⟨buf, hrun, h1, h2, h3⟩ := lateExpRange_buffer_real
    refine ⟨buf, hrun, h1, h2, ?_, ?_, ?_⟩
    · simp only [expWeight, gsl_matrix_get, h1, h2, h3]
      norm_num
    · simp [expWeight, XLALGetExponentialTransientWindowValue]
    · intro h
      have : Real.exp (-(1 / 3)) < Real.exp 0 := Real.exp_lt_exp.mpr (by norm_num)
      rw [Real.exp_zero] at this
      linarith
  · have hev : (match XLALFillExpWindowBuffer ratEnv (some lateExpRange) with
        | .ok rngB => decide (
          (XLALComputeTransientBstat ratEnv staleCandidate (some [some eightAtoms]) lateExpRange
            false).1 = .ok () ∧
          (XLALComputeTransientBstat ratEnv staleCandidate (some [some eightAtoms]) rngB
            false).1 = .ok () ∧
          (XLALComputeTransientBstat ratEnv staleCandidate (some [some eightAtoms]) lateExpRange
            false).2.maxTwoF = 0 ∧
          (XLALComputeTransientBstat ratEnv staleCandidate (some [some eightAtoms]) rngB
            false).2.maxTwoF = 14 / 5)
        | _ => false) = true := by decide!
    cases hrun : XLALFillExpWindowBuffer ratEnv (some lateExpRange) with
    | ok r =>
      rw [hrun] at hev
      exact ⟨r, rfl, by simpa using hev⟩
    | fail e =>
      rw [hrun] at hev
      cases hev
    | undefined =>
      rw [hrun] at hev
      cases hev

/-! ## The reduction and the normalisation (C31, C36, C37, C38) -/

/-- The running maximum dominates its start value and every cell that has been folded in. -/
theorem peak_foldl_ge (windowRange : transientWindowRange_t K) :
    ∀ (l : List (CellRecord K)) (p : K × Nat × Nat),
      p.1 ≤ (l.foldl (peakStep windowRange) p).1 ∧
      ∀ c ∈ l, c.F ≤ (l.foldl (peakStep windowRange) p).1 := by
  intro l
  induction l with
  | nil => intro p; exact ⟨le_refl _, fun c hc => by cases hc⟩
  | cons a l ih =>
    intro p
    rw [List.foldl_cons]
    obtain ⟨h1, h2⟩ := ih (peakStep windowRange p a)
    have hstep : p.1 ≤ (peakStep windowRange p a).1 ∧ a.F ≤ (peakStep windowRange p a).1 := by
      unfold peakStep
      split
      · rename_i h
        exact ⟨le_of_lt h, le_refl _⟩
      · rename_i h
        exact ⟨le_refl _, not_lt.mp h⟩
    refine ⟨le_trans hstep.1 h1, ?_⟩
    intro c hc
    rcases List.mem_cons.mp hc with hca | hcl
    · rw [hca]; exact le_trans hstep.2 h1
    · exact h2 c hcl

/-- The run on the 8 unit atoms with the rectangular window of start time 1 and duration 0:
one cell, with no atom summed. -/
theorem run_zeroTauRange (env : Env K) :
    ∃ r, computeTransientBstat env (some [some eightAtoms]) zeroTauRange false
        empty_TransientCandidate = .ok r ∧
      r.N_t0Range = 1 ∧ r.N_tauRange = 1 ∧
      r.trace.map (fun c => (c.m, c.n, c.i_t0, c.i_t1, c.acc)) =
        [(0, 0, 1, 0, { Ad := 0, Bd := 0, Cd := 0, Fa_re := 0, Fa_im := 0
                        Fb_re := 0, Fb_im := 0 })] := by
  have hm := merge_eightAtoms (K := K)
  have hd : (eightAtoms (K := K)).TAtom = 1 := rfl
  simp only [computeTransientBstat, hd, hm]
  norm_num [scanAndReduce, finishBstat, substituteNone, gsl_matrix_calloc,
    XLALCreateExpLUT_default, scanGrid, forRange, outerBody, innerBody, startIndex, endIndex,
    clampIndex, toINT4, u32, u32sub, XLALGetTransientWindowTimespan, sumCell, addAtomRect,
    accAddAtom, zeroAccum, FstatOfAccum, SQ, gsl_matrix_set, eightAtoms, unitAtom,
    zeroTauRange, reduceGrid, reduceCell, gsl_matrix_get, XLALFastNegExp_zero]

/-- C31 (failing input): after a successful run of `XLALComputeTransientBstat`, with or
without the regularisation `useFReg`, in which the statistic of every cell is a finite
number (`FiniteCell`: the determinant `Ad * Bd - Cd * Cd` of its sums is not zero, and
positive with the regularisation), the running maximum is non-negative and, for every grid
cell `{m, n}`, the argument `DeltaF = maxF - F_mn[m][n]` that the reduction loop passes to
`XLALFastNegExp` is non-negative.  This fails without the condition on the determinants: on
`eightAtoms` with the rectangular window of start time 1 and duration 0 the call succeeds,
the only cell sums no atom, and both the determinant by which the code divides and the
numerator of its `F` are 0, so that the C code stores `0 * inf = NaN` in `F_mn[0][0]` and
`DeltaF = maxF - F_mn[0][0]` is `NaN`, not a number `≥ 0`. -/
theorem C31_reduction_argument_nonneg_needs_finite_cells :
    (∀ (env : Env K) (multiFstatAtoms : Option (MultiFstatAtomVector K))
        (windowRange : transientWindowRange_t K) (useFReg : Bool)
        (ret : TransientCandidate_t K) (r : EngineResult K),
        computeTransientBstat env multiFstatAtoms windowRange useFReg ret = .ok r →
        (∀ c ∈ r.trace, FiniteCell useFReg c.acc) →
        ∀ m n, m < r.N_t0Range → n < r.N_tauRange →
          0 ≤ r.maxF ∧ 0 ≤ r.maxF - r.F_mn.data m n) ∧
    (∀ (env : Env K) (cand : TransientCandidate_t K),
      ∃ r, computeTransientBstat env (some [some eightAtoms]) zeroTauRange false
          empty_TransientCandidate = .ok r ∧
        XLALComputeTransientBstat env cand (some [some eightAtoms]) zeroTauRange false
          = (.ok (), r.ret) ∧
        r.N_t0Range = 1 ∧ r.N_tauRange = 1 ∧
        ∃ c, r.trace = [c] ∧ c.m = 0 ∧ c.n = 0 ∧ c.i_t0 = 1 ∧ c.i_t1 = 0 ∧
          c.acc = zeroAccum ∧
          c.acc.Ad * c.acc.Bd - c.acc.Cd * c.acc.Cd = 0 ∧
          c.acc.Bd * (SQ c.acc.Fa_re + SQ c.acc.Fa_im)
            + c.acc.Ad * (SQ c.acc.Fb_re + SQ c.acc.Fb_im)
            - 2 * c.acc.Cd * (c.acc.Fa_re * c.acc.Fb_re + c.acc.Fa_im * c.acc.Fb_im) = 0 ∧
          ¬ FiniteCell false c.acc) := by
  constructor
  · intro env multiFstatAtoms windowRange useFReg ret r h _ m n hm hn
    obtain ⟨first, rest, atoms, atom0, -, -, -, -, hsr⟩ := computeTransientBstat_ok h
    obtain ⟨F_mn0, expLUT, s, -, -, -, -, -, -, hscan, -, -, -, hmaxF, hF, -, -⟩ :=
      scanAndReduce_ok hsr
    obtain ⟨hinv, -⟩ := scanGrid_inv hscan
    obtain ⟨c, hget, -, -, -, hval⟩ := scanGrid_cell hscan hm hn
    have hfold := congrArg Prod.fst hinv.2.1
    simp only at hfold
    obtain ⟨h0, hall⟩ := peak_foldl_ge
      (substituteNone windowRange atom0.timestamp atoms.data.length first.TAtom) s.trace
      (0, ret.t0offs_maxF, ret.tau_maxF)
    rw [← hfold] at h0 hall
    have hc := hall c (List.getElem?_mem hget)
    rw [hmaxF, hF, hval]
    exact ⟨h0, sub_nonneg.mpr hc⟩
  · intro env cand
    obtain ⟨r, hrun, h1, h2, htr⟩ := run_zeroTauRange env
    refine ⟨r, hrun, XLALComputeTransientBstat_of_ok hrun, h1, h2, ?_⟩
    cases hl : r.trace with
    | nil => rw [hl] at htr; cases htr
    | cons c l =>
      rw [hl] at htr
      simp only [List.map_cons, List.cons.injEq, Prod.mk.injEq, List.map_eq_nil_iff] at htr
      obtain ⟨⟨e1, e2, e3, e4, e5⟩, hnil⟩ := htr
      rw [hnil]
      refine ⟨c, rfl, e1, e2, e3, e4, e5, ?_, ?_, ?_⟩
      · rw [e5]; simp
      · rw [e5]; simp [SQ]
      · rw [e5]; simp [FiniteCell]

/-- Witness of C31: every cell of the run on `eightAtoms` with `tieRange`, over `ℚ`, has a
non-zero determinant, and the statement holds for its cell `{1, 2}`. -/
theorem C31_reduction_argument_nonneg_needs_finite_cells_witness :
    ∃ r, computeTransientBstat ratEnv (some [some eightAtoms]) tieRange false
        empty_TransientCandidate = .ok r ∧ 1 < r.N_t0Range ∧ 2 < r.N_tauRange ∧
      (∀ c ∈ r.trace, FiniteCell false c.acc) ∧
      0 ≤ r.maxF ∧ 0 ≤ r.maxF - r.F_mn.data 1 2 := by
  have hev : (match computeTransientBstat ratEnv (some [some eightAtoms]) tieRange false
      empty_TransientCandidate with
    | .ok r => decide (1 < r.N_t0Range ∧ 2 < r.N_tauRange ∧
        ∀ c ∈ r.trace, FiniteCell false c.acc)
    | _ => false) = true := by decide!
  cases hrun : computeTransientBstat ratEnv (some [some eightAtoms]) tieRange false
      empty_TransientCandidate with
  | ok r =>
    rw [hrun] at hev
    obtain ⟨hN1, hN2, hfin⟩ := of_decide_eq_true hev
    exact ⟨r, rfl, hN1, hN2, hfin,
      C31_reduction_argument_nonneg_needs_finite_cells.1 ratEnv _ tieRange false _ r hrun hfin
        1 2 hN1 hN2⟩
  | fail e => rw [hrun] at hev; cases hev
  | undefined => rw [hrun] at hev; cases hev

/-- C36 (failing region): for a table built by `XLALCreateExpLUT` with `xmax > 0` and
`0 < length < 2^29` and an argument `0 ≤ x ≤ xmax` (for which `XLALFastNegExp` does not
return 0), the index `i0 = floor (x * length / xmax + 1/2)` computed by `XLALFastNegExp` is
at most `length`, and it is inside the table, `i0 < length`, exactly when
`x < xmax - dx/2` (`dx = xmax / length`).  At `x = xmax` the index is `length`, one past the
`length` samples of the table, and the lookup leaves the table. -/
theorem C36_lookup_index_leaves_table (env : Env K) (xmax : K) (length : Nat) (x : K)
    (hxm : 0 < xmax) (hl : 0 < length) (hl2 : length < 536870912) (hx : 0 ≤ x)
    (hx2 : x ≤ xmax) :
    ∃ lut, XLALCreateExpLUT env xmax length = .ok lut ∧ lut.data.length = length ∧
      ⌊x * (length : K) / xmax + 1 / 2⌋₊ ≤ length ∧
      (⌊x * (length : K) / xmax + 1 / 2⌋₊ < length ↔ x < xmax - xmax / (length : K) / 2) ∧
      (⌊x * (length : K) / xmax + 1 / 2⌋₊ < length →
        ∃ y, XLALFastNegExp env x (some lut) = .ok y) ∧
      (¬ ⌊x * (length : K) / xmax + 1 / 2⌋₊ < length →
        XLALFastNegExp env x (some lut) = .undefined) ∧
      ⌊xmax * (length : K) / xmax + 1 / 2⌋₊ = length ∧
      XLALFastNegExp env xmax (some lut) = .undefined := by
  obtain ⟨lut, hlut, -, hin, hout⟩ := XLALFastNegExp_created env hxm hl hl2 hx
  obtain ⟨lut2, hlut2, -, -, hout2⟩ := XLALFastNegExp_created env hxm hl hl2 (le_of_lt hxm)
  rw [hlut] at hlut2
  cases hlut2
  obtain ⟨heq, hreg1, hreg2⟩ := lookup_index_region hxm hl hx
  obtain ⟨heqm, -, hregm⟩ := lookup_index_region hxm hl (le_of_lt hxm)
  have hval := XLALCreateExpLUT_ok env hxm hl hl2
  rw [hlut] at hval
  have hlen : lut.data.length = length := by
    cases hval
    simp
  have hlK : (0 : K) < (length : K) := Nat.cast_pos.mpr hl
  have hdx : 0 < xmax / (length : K) / 2 := by positivity
  rw [heq] at hin hout
  rw [heqm] at hout2
  have hmax : ⌊xmax * (length : K) / xmax + 1 / 2⌋₊ = length := hregm (by linarith) (le_refl _)
  have hcases : x < xmax - xmax / (length : K) / 2 ∨ xmax - xmax / (length : K) / 2 ≤ x :=
    lt_or_le _ _
  refine ⟨lut, hlut, hlen, ?_, ?_, ?_, ?_, hmax, hout2 (le_refl _) (le_of_eq hmax.symm)⟩
  · rcases hcases with hc | hc
    · exact le_of_lt (hreg1 hc)
    · exact le_of_eq (hreg2 hc hx2)
  · constructor
    · intro hi
      rcases hcases with hc | hc
      · exact hc
      · rw [hreg2 hc hx2] at hi
        exact absurd hi (lt_irrefl _)
    · exact hreg1
  · intro hi
    exact ⟨_, hin hx2 hi⟩
  · intro hi
    exact hout hx2 (not_lt.mp hi)

/-- Witness of C36: the table `XLALCreateExpLUT ( 20.0, 2000 )` and `x = 20`. -/
theorem C36_lookup_index_leaves_table_witness :
    ∃ lut, XLALCreateExpLUT ratEnv 20 2000 = .ok lut ∧ lut.data.length = 2000 ∧
      ⌊(20 : ℚ) * ((2000 : Nat) : ℚ) / 20 + 1 / 2⌋₊ ≤ 2000 ∧
      (⌊(20 : ℚ) * ((2000 : Nat) : ℚ) / 20 + 1 / 2⌋₊ < 2000 ↔
        (20 : ℚ) < 20 - 20 / ((2000 : Nat) : ℚ) / 2) ∧
      (⌊(20 : ℚ) * ((2000 : Nat) : ℚ) / 20 + 1 / 2⌋₊ < 2000 →
        ∃ y, XLALFastNegExp ratEnv 20 (some lut) = .ok y) ∧
      (¬ ⌊(20 : ℚ) * ((2000 : Nat) : ℚ) / 20 + 1 / 2⌋₊ < 2000 →
        XLALFastNegExp ratEnv 20 (some lut) = .undefined) ∧
      ⌊(20 : ℚ) * ((2000 : Nat) : ℚ) / 20 + 1 / 2⌋₊ = 2000 ∧
      XLALFastNegExp ratEnv 20 (some lut) = .undefined :=
  C36_lookup_index_leaves_table ratEnv 20 2000 20 (by norm_num) (by decide) (by decide)
    (by norm_num) (by norm_num)

/-- The running maximum is its start value or the `F` of a cell that has been folded in. -/
theorem peak_foldl_attained (windowRange : transientWindowRange_t K) :
    ∀ (l : List (CellRecord K)) (p : K × Nat × Nat),
      (l.foldl (peakStep windowRange) p).1 = p.1 ∨
      ∃ c ∈ l, c.F = (l.foldl (peakStep windowRange) p).1 := by
  intro l
  induction l with
  | nil => intro p; exact Or.inl rfl
  | cons a l ih =>
    intro p
    rw [List.foldl_cons]
    rcases ih (peakStep windowRange p a) with h | ⟨c, hc, hF⟩
    · have hstep : (peakStep windowRange p a).1 = p.1 ∨ (peakStep windowRange p a).1 = a.F := by
        unfold peakStep
        split
        · exact Or.inr rfl
        · exact Or.inl rfl
      rcases hstep with h1 | h1
      · exact Or.inl (by rw [h, h1])
      · exact Or.inr ⟨a, List.mem_cons_self a l, by rw [h, h1]⟩
    · exact Or.inr ⟨c, List.mem_cons_of_mem a hc, hF⟩

/-- The quadratic form of the statistic on positive-definite sums: `A` times the numerator is
a sum of squares. -/
theorem fstat_numerator_identity (A B C x1 x2 y1 y2 : K) :
    A * (B * (x1 * x1 + x2 * x2) + A * (y1 * y1 + y2 * y2) - 2 * C * (x1 * y1 + x2 * y2))
      = (A * y1 - C * x1) ^ 2 + (A * y2 - C * x2) ^ 2 + (A * B - C * C) * (x1 ^ 2 + x2 ^ 2) := by
  ring

/-- Non-negativity of the unregularised statistic on positive-definite sums, with equality
exactly for `Fa = Fb = 0`. -/
theorem FstatOfAccum_nonneg (env : Env K) (s : Accum K) (hA : 0 < s.Ad)
    (hD : 0 < s.Ad * s.Bd - s.Cd * s.Cd) :
    0 ≤ FstatOfAccum env false s ∧
    (FstatOfAccum env false s = 0 ↔
      s.Fa_re = 0 ∧ s.Fa_im = 0 ∧ s.Fb_re = 0 ∧ s.Fb_im = 0) := by
  have hid := fstat_numerator_identity s.Ad s.Bd s.Cd s.Fa_re s.Fa_im s.Fb_re s.Fb_im
  have hF : FstatOfAccum env false s =
      1 / (s.Ad * s.Bd - s.Cd * s.Cd) *
        (s.Bd * (s.Fa_re * s.Fa_re + s.Fa_im * s.Fa_im)
          + s.Ad * (s.Fb_re * s.Fb_re + s.Fb_im * s.Fb_im)
          - 2 * s.Cd * (s.Fa_re * s.Fb_re + s.Fa_im * s.Fb_im)) := by
    simp only [FstatOfAccum, SQ, Bool.false_eq_true, if_false]
  have hinv : 0 < 1 / (s.Ad * s.Bd - s.Cd * s.Cd) := one_div_pos.mpr hD
  have h1 := sq_nonneg (s.Ad * s.Fb_re - s.Cd * s.Fa_re)
  have h2 := sq_nonneg (s.Ad * s.Fb_im - s.Cd * s.Fa_im)
  have h3 := sq_nonneg s.Fa_re
  have h4 := sq_nonneg s.Fa_im
  have h5 : 0 ≤ (s.Ad * s.Bd - s.Cd * s.Cd) * (s.Fa_re ^ 2 + s.Fa_im ^ 2) :=
    mul_nonneg (le_of_lt hD) (by linarith)
  have hQ : 0 ≤ s.Bd * (s.Fa_re * s.Fa_re + s.Fa_im * s.Fa_im)
      + s.Ad * (s.Fb_re * s.Fb_re + s.Fb_im * s.Fb_im)
      - 2 * s.Cd * (s.Fa_re * s.Fb_re + s.Fa_im * s.Fb_im) := by
    by_contra hneg
    have hlt := mul_neg_of_pos_of_neg hA (not_le.mp hneg)
    rw [hid] at hlt
    linarith
  rw [hF]
  refine ⟨mul_nonneg (le_of_lt hinv) hQ, ?_⟩
  constructor
  · intro h0
    have hQ0 : s.Bd * (s.Fa_re * s.Fa_re + s.Fa_im * s.Fa_im)
        + s.Ad * (s.Fb_re * s.Fb_re + s.Fb_im * s.Fb_im)
        - 2 * s.Cd * (s.Fa_re * s.Fb_re + s.Fa_im * s.Fb_im) = 0 := by
      rcases mul_eq_zero.mp h0 with h | h
      · exact absurd h (ne_of_gt hinv)
      · exact h
    rw [hQ0, mul_zero] at hid
    have h5z : (s.Ad * s.Bd - s.Cd * s.Cd) * (s.Fa_re ^ 2 + s.Fa_im ^ 2) = 0 := by linarith
    have h1z : (s.Ad * s.Fb_re - s.Cd * s.Fa_re) ^ 2 = 0 := by linarith
    have h2z : (s.Ad * s.Fb_im - s.Cd * s.Fa_im) ^ 2 = 0 := by linarith
    have hsum : s.Fa_re ^ 2 + s.Fa_im ^ 2 = 0 := by
      rcases mul_eq_zero.mp h5z with h | h
      · exact absurd h (ne_of_gt hD)
      · exact h
    have hx1 : s.Fa_re = 0 := by
      have : s.Fa_re ^ 2 = 0 := by linarith
      exact pow_eq_zero_iff (by decide) |>.mp this
    have hx2 : s.Fa_im = 0 := by
      have : s.Fa_im ^ 2 = 0 := by linarith
      exact pow_eq_zero_iff (by decide) |>.mp this
    have hy1 : s.Ad * s.Fb_re = 0 := by
      have := pow_eq_zero_iff (by decide) |>.mp h1z
      rw [hx1, mul_zero, sub_zero] at this
      exact this
    have hy2 : s.Ad * s.Fb_im = 0 := by
      have := pow_eq_zero_iff (by decide) |>.mp h2z
      rw [hx2, mul_zero, sub_zero] at this
      exact this
    refine ⟨hx1, hx2, ?_, ?_⟩
    · rcases mul_eq_zero.mp hy1 with h | h
      · exact absurd h (ne_of_gt hA)
      · exact h
    · rcases mul_eq_zero.mp hy2 with h | h
      · exact absurd h (ne_of_gt hA)
      · exact h
  · rintro ⟨e1, e2, e3, e4⟩
    rw [e1, e2, e3, e4]
    simp

/-- C37: for sums with `A > 0` and `D = A B - C^2 > 0` and all `Fa`, `Fb`, the statistic
computed by `XLALComputeTransientBstat` without regularisation is the quotient
`(B |Fa|^2 + A |Fb|^2 - 2 C Re (Fa conj Fb)) / D`, it is non-negative, and it is zero exactly
when `Fa = Fb = 0`.  Hence after a successful run without regularisation in which the sums
of every cell are positive definite, every `F_mn` lies between 0 and the running maximum
`maxF` (started at 0), and `maxF` is attained by a cell of the grid: it is the grid
maximum. -/
theorem C37_statistic_nonneg_on_positive_definite (env : Env K) (s : Accum K)
    (hA : 0 < s.Ad) (hD : 0 < s.Ad * s.Bd - s.Cd * s.Cd) :
    FstatOfAccum env false s =
      specFstat s.Ad s.Bd s.Cd ⟨s.Fa_re, s.Fa_im⟩ ⟨s.Fb_re, s.Fb_im⟩ ∧
    0 ≤ FstatOfAccum env false s ∧
    (FstatOfAccum env false s = 0 ↔
      s.Fa_re = 0 ∧ s.Fa_im = 0 ∧ s.Fb_re = 0 ∧ s.Fb_im = 0) ∧
    (∀ (multiFstatAtoms : Option (MultiFstatAtomVector K))
        (windowRange : transientWindowRange_t K) (ret : TransientCandidate_t K)
        (r : EngineResult K),
      computeTransientBstat env multiFstatAtoms windowRange false ret = .ok r →
      (∀ c ∈ r.trace, 0 < c.acc.Ad ∧ 0 < c.acc.Ad * c.acc.Bd - c.acc.Cd * c.acc.Cd) →
      (∀ m n, m < r.N_t0Range → n < r.N_tauRange →
        0 ≤ r.F_mn.data m n ∧ r.F_mn.data m n ≤ r.maxF) ∧
      ∃ m n, m < r.N_t0Range ∧ n < r.N_tauRange ∧ r.F_mn.data m n = r.maxF) := by
  refine ⟨FstatOfAccum_eq_spec env s, (FstatOfAccum_nonneg env s hA hD).1,
    (FstatOfAccum_nonneg env s hA hD).2, ?_⟩
  intro multiFstatAtoms windowRange ret r h hpd
  obtain ⟨first, rest, atoms, atom0, -, -, -, -, hsr⟩ := computeTransientBstat_ok h
  obtain ⟨F_mn0, expLUT, s1, -, -, -, -, hcalloc, -, hscan, -, -, -, hmaxF, hF, htr, -⟩ :=
    scanAndReduce_ok hsr
  obtain ⟨hinv, hlen⟩ := scanGrid_inv hscan
  rw [htr] at hpd
  have hfold := congrArg Prod.fst hinv.2.1
  simp only at hfold
  obtain ⟨-, hall⟩ := peak_foldl_ge
    (substituteNone windowRange atom0.timestamp atoms.data.length first.TAtom) s1.trace
    (0, ret.t0offs_maxF, ret.tau_maxF)
  have hatt := peak_foldl_attained
    (substituteNone windowRange atom0.timestamp atoms.data.length first.TAtom) s1.trace
    (0, ret.t0offs_maxF, ret.tau_maxF)
  rw [← hfold] at hall hatt
  have hN : 0 < r.N_t0Range ∧ 0 < r.N_tauRange := by
    unfold gsl_matrix_calloc at hcalloc
    split at hcalloc
    · cases hcalloc
    · rename_i hne
      constructor <;> omega
  have hcellF : ∀ m n, m < r.N_t0Range → n < r.N_tauRange →
      0 ≤ s1.F_mn.data m n ∧ s1.F_mn.data m n ≤ s1.maxF := by
    intro m n hm hn
    obtain ⟨c, hget, -, -, hok, hval⟩ := scanGrid_cell hscan hm hn
    have hmem := List.getElem?_mem hget
    obtain ⟨hcA, hcD⟩ := hpd c hmem
    have hcF : c.F = FstatOfAccum env false c.acc := hok.2.2.2.2.2.2.2.2
    rw [hval]
    exact ⟨by rw [hcF]; exact (FstatOfAccum_nonneg env c.acc hcA hcD).1, hall c hmem⟩
  rw [hmaxF, hF]
  refine ⟨hcellF, ?_⟩
  rcases hatt with h0 | ⟨c, hc, hcF⟩
  · refine ⟨0, 0, hN.1, hN.2, ?_⟩
    have := hcellF 0 0 hN.1 hN.2
    simp only at h0
    rw [h0] at this ⊢
    exact le_antisymm this.2 this.1
  · obtain ⟨k, hk, hkc⟩ := List.getElem_of_mem hc
    have hget : s1.trace[k]? = some c := by rw [List.getElem?_eq_getElem hk, hkc]
    obtain ⟨hok, hval⟩ := hinv.1 k c hget
    rw [hlen] at hk
    refine ⟨c.m, c.n, ?_, ?_, by rw [hval, hcF]⟩
    · rw [hok.1]
      exact Nat.div_lt_of_lt_mul (by rw [Nat.mul_comm]; exact hk)
    · rw [hok.2.1]
      exact Nat.mod_lt _ hN.2

/-- Witness of C37: the sums `A = B = 2`, `C = 0`, `Fa = Fb = 1` over `ℚ`, and the run on
`eightAtoms` with `tieRange`, whose cells all have positive-definite sums. -/
theorem C37_statistic_nonneg_on_positive_definite_witness :
    FstatOfAccum ratEnv false
        { Ad := 2, Bd := 2, Cd := 0, Fa_re := 1, Fa_im := 0, Fb_re := 1, Fb_im := 0 } =
      specFstat 2 2 0 ⟨1, 0⟩ ⟨1, 0⟩ ∧
    0 ≤ FstatOfAccum ratEnv false
        { Ad := 2, Bd := 2, Cd := 0, Fa_re := 1, Fa_im := 0, Fb_re := 1, Fb_im := 0 } ∧
    (FstatOfAccum ratEnv false
        { Ad := 2, Bd := 2, Cd := 0, Fa_re := 1, Fa_im := 0, Fb_re := 1, Fb_im := 0 } = 0 ↔
      (1 : ℚ) = 0 ∧ (0 : ℚ) = 0 ∧ (1 : ℚ) = 0 ∧ (0 : ℚ) = 0) ∧
    ∃ r, computeTransientBstat ratEnv (some [some eightAtoms]) tieRange false
        empty_TransientCandidate = .ok r ∧
      (∀ c ∈ r.trace, 0 < c.acc.Ad ∧ 0 < c.acc.Ad * c.acc.Bd - c.acc.Cd * c.acc.Cd) ∧
      (∀ m n, m < r.N_t0Range → n < r.N_tauRange →
        0 ≤ r.F_mn.data m n ∧ r.F_mn.data m n ≤ r.maxF) ∧
      ∃ m n, m < r.N_t0Range ∧ n < r.N_tauRange ∧ r.F_mn.data m n = r.maxF := by
  have hthm := C37_statistic_nonneg_on_positive_definite ratEnv
    { Ad := 2, Bd := 2, Cd := 0, Fa_re := 1, Fa_im := 0, Fb_re := 1, Fb_im := 0 }
    (by decide!) (by decide!)
  refine ⟨hthm.1, hthm.2.1, hthm.2.2.1, ?_⟩
  have hev : (match computeTransientBstat ratEnv (some [some eightAtoms]) tieRange false
      empty_TransientCandidate with
    | .ok r => decide (∀ c ∈ r.trace,
        0 < c.acc.Ad ∧ 0 < c.acc.Ad * c.acc.Bd - c.acc.Cd * c.acc.Cd)
    | _ => false) = true := by decide!
  cases hrun : computeTransientBstat ratEnv (some [some eightAtoms]) tieRange false
      empty_TransientCandidate with
  | ok r =>
    rw [hrun] at hev
    have hpd := of_decide_eq_true hev
    exact ⟨r, rfl, hpd, hthm.2.2.2 _ _ _ r hrun hpd⟩
  | fail e => rw [hrun] at hev; cases hev
  | undefined => rw [hrun] at hev; cases hev

/-- C38 (failing input): after a successful run of `XLALComputeTransientBstat` the stored
`logBstat` is `log (70 / d) + (maxF + log sum_eB)` where the divisor `d` is the product
`N_t0Range * N_tauRange * TAtom * TAtom` reduced modulo `2^32` (`TAtom` is the cadence of
the first detector).  The product itself is positive, and `d` is the product when the
product is below `2^32`.  On `longCadenceAtoms` (`TAtom = 65536`) with the window `none`
the grid is `1 x 1`, the product is `2^32`, the divisor wraps to 0 and
`logBstat = log (70 / 0) + (maxF + log sum_eB)`. -/
theorem C38_normalisation_divisor_wraps (env : Env K) (first : FstatAtomVector K)
    (rest : MultiFstatAtomVector K) (windowRange : transientWindowRange_t K) (useFReg : Bool)
    (ret : TransientCandidate_t K) (r : EngineResult K)
    (h : computeTransientBstat env (some (some first :: rest)) windowRange useFReg ret = .ok r) :
    r.ret.logBstat =
      env.log (70 / ((u32 (r.N_t0Range * r.N_tauRange * first.TAtom * first.TAtom) : Nat) : K))
        + (r.maxF + env.log r.sum_eB) ∧
    0 < r.N_t0Range * r.N_tauRange * first.TAtom * first.TAtom ∧
    (r.N_t0Range * r.N_tauRange * first.TAtom * first.TAtom < 4294967296 →
      r.ret.logBstat =
        env.log (70 / ((r.N_t0Range * r.N_tauRange * first.TAtom * first.TAtom : Nat) : K))
          + (r.maxF + env.log r.sum_eB)) ∧
    (∃ r1, computeTransientBstat ratEnv (some [some longCadenceAtoms]) noneRange false
        empty_TransientCandidate = .ok r1 ∧
      r1.N_t0Range = 1 ∧ r1.N_tauRange = 1 ∧
      r1.N_t0Range * r1.N_tauRange * 65536 * 65536 = 4294967296 ∧
      u32 (r1.N_t0Range * r1.N_tauRange * 65536 * 65536) = 0 ∧
      r1.ret.logBstat = ratEnv.log (70 / 0) + (r1.maxF + ratEnv.log r1.sum_eB)) := by
  obtain ⟨first1, rest1, atoms, atom0, hin, -, hmerge, -, hsr⟩ := computeTransientBstat_ok h
  simp only [Option.some.injEq, List.cons.injEq] at hin
  obtain ⟨hf, -⟩ := hin
  subst hf
  have hT : first.TAtom ≠ 0 := merge_deltaT_ne_zero hmerge
  obtain ⟨F_mn0, expLUT, s, -, -, -, -, hcalloc, -, -, -, -, -, hmaxF, -, -, hret⟩ :=
    scanAndReduce_ok hsr
  have hN : 0 < r.N_t0Range ∧ 0 < r.N_tauRange := by
    unfold gsl_matrix_calloc at hcalloc
    split at hcalloc
    · cases hcalloc
    · rename_i hne
      constructor <;> omega
  have hlog : r.ret.logBstat =
      env.log (70 / ((u32 (r.N_t0Range * r.N_tauRange * first.TAtom * first.TAtom) : Nat) : K))
        + (r.maxF + env.log r.sum_eB) := by
    rw [hret, hmaxF]
  refine ⟨hlog, ?_, ?_, ?_⟩
  · exact Nat.mul_pos (Nat.mul_pos (Nat.mul_pos hN.1 hN.2) (Nat.pos_of_ne_zero hT))
      (Nat.pos_of_ne_zero hT)
  · intro hfit
    rw [hlog, u32_of_lt hfit]
  · have hev : (match computeTransientBstat ratEnv (some [some longCadenceAtoms]) noneRange
        false empty_TransientCandidate with
      | .ok r1 => decide (r1.N_t0Range = 1 ∧ r1.N_tauRange = 1 ∧
          r1.N_t0Range * r1.N_tauRange * 65536 * 65536 = 4294967296 ∧
          u32 (r1.N_t0Range * r1.N_tauRange * 65536 * 65536) = 0 ∧
          r1.ret.logBstat = ratEnv.log (70 / 0) + (r1.maxF + ratEnv.log r1.sum_eB))
      | _ => false) = true := by decide!
    cases hrun : computeTransientBstat ratEnv (some [some longCadenceAtoms]) noneRange false
        empty_TransientCandidate with
    | ok r1 =>
      rw [hrun] at hev
      exact ⟨r1, rfl, of_decide_eq_true hev⟩
    | fail e => rw [hrun] at hev; cases hev
    | undefined => rw [hrun] at hev; cases hev

/-- Witness of C38: the run on `eightAtoms` with `tieRange` over `ℚ`, whose divisor
`2 * 3 * 1 * 1` does not wrap. -/
theorem C38_normalisation_divisor_wraps_witness :
    ∃ r, computeTransientBstat ratEnv (some (some eightAtoms :: [])) tieRange false
        empty_TransientCandidate = .ok r ∧
      r.ret.logBstat =
        ratEnv.log (70 / ((u32 (r.N_t0Range * r.N_tauRange * (eightAtoms (K := ℚ)).TAtom
          * (eightAtoms (K := ℚ)).TAtom) : Nat) : ℚ)) + (r.maxF + ratEnv.log r.sum_eB) ∧
      0 < r.N_t0Range * r.N_tauRange * (eightAtoms (K := ℚ)).TAtom
        * (eightAtoms (K := ℚ)).TAtom ∧
      (r.N_t0Range * r.N_tauRange * (eightAtoms (K := ℚ)).TAtom * (eightAtoms (K := ℚ)).TAtom
          < 4294967296 →
        r.ret.logBstat =
          ratEnv.log (70 / ((r.N_t0Range * r.N_tauRange * (eightAtoms (K := ℚ)).TAtom
            * (eightAtoms (K := ℚ)).TAtom : Nat) : ℚ)) + (r.maxF + ratEnv.log r.sum_eB)) ∧
      (∃ r1, computeTransientBstat ratEnv (some [some longCadenceAtoms]) noneRange false
          empty_TransientCandidate = .ok r1 ∧
        r1.N_t0Range = 1 ∧ r1.N_tauRange = 1 ∧
        r1.N_t0Range * r1.N_tauRange * 65536 * 65536 = 4294967296 ∧
        u32 (r1.N_t0Range * r1.N_tauRange * 65536 * 65536) = 0 ∧
        r1.ret.logBstat = ratEnv.log (70 / 0) + (r1.maxF + ratEnv.log r1.sum_eB)) := by
  have hev : (match computeTransientBstat ratEnv (some (some eightAtoms :: [])) tieRange false
      empty_TransientCandidate with
    | .ok _ => true
    | _ => false) = true := by decide!
  cases hrun : computeTransientBstat ratEnv (some (some eightAtoms :: [])) tieRange false
      empty_TransientCandidate with
  | ok r =>
    exact ⟨r, rfl,
      C38_normalisation_divisor_wraps ratEnv eightAtoms [] tieRange false _ r hrun⟩
  | fail e => rw [hrun] at hev; cases hev
  | undefined => rw [hrun] at hev; cases hev

end TransientCW

/-! ## The statistics dependency map of Weave (C25) -/

namespace Weave

open TransientCW

theorem bitNot32_eq (x : Nat) : bitNot32 x = 4294967295 ^^^ (x % 4294967296) := by
  unfold bitNot32; rfl

/-- A 32-bit set `a` with `a & ~b == 0` is a subset of `b`. -/
theorem and_eq_of_and_bitNot32 {a b : Nat} (ha : a < 4294967296)
    (h : a &&& bitNot32 b = 0) : a &&& b = a := by
  have ha2 : a < 2 ^ 32 := ha
  apply Nat.eq_of_testBit_eq
  intro i
  have hi := congrArg (fun x => Nat.testBit x i) h
  simp only [Nat.testBit_and, Nat.zero_testBit, bitNot32_eq, Nat.testBit_xor] at hi
  rw [Nat.testBit_and]
  by_cases hlt : i < 32
  · have hM : Nat.testBit 4294967295 i = true := by
      have : (4294967295 : Nat) = 2 ^ 32 - 1 := by norm_num
      rw [this, Nat.testBit_two_pow_sub_one]
      simpa using hlt
    have hb : Nat.testBit (b % 4294967296) i = Nat.testBit b i := by
      have : (4294967296 : Nat) = 2 ^ 32 := by norm_num
      rw [this, Nat.testBit_mod_two_pow]
      simp [hlt]
    rw [hM, hb] at hi
    cases hA : Nat.testBit a i <;> cases hB : Nat.testBit b i <;> simp_all
  · have : Nat.testBit a i = false := by
      apply Nat.testBit_lt_two_pow
      calc a < 2 ^ 32 := ha2
        _ ≤ 2 ^ i := Nat.pow_le_pow_right (by decide) (by omega)
    rw [this]
    rfl

theorem and_bitNot32_of_and_eq {a b : Nat} (h : a &&& b = a) (hb : b < 4294967296) :
    a &&& bitNot32 b = 0 := by
  apply Nat.eq_of_testBit_eq
  intro i
  have hi := congrArg (fun x => Nat.testBit x i) h
  simp only [Nat.testBit_and] at hi
  simp only [Nat.testBit_and, Nat.zero_testBit, bitNot32_eq, Nat.testBit_xor]
  rw [Nat.mod_eq_of_lt hb]
  by_cases hlt : i < 32
  · have hM : Nat.testBit 4294967295 i = true := by
      have : (4294967295 : Nat) = 2 ^ 32 - 1 := by norm_num
      rw [this, Nat.testBit_two_pow_sub_one]
      simpa using hlt
    rw [hM]
    cases hA : Nat.testBit a i <;> cases hB : Nat.testBit b i <;> simp_all
  · have hbi : Nat.testBit b i = false := by
      apply Nat.testBit_lt_two_pow
      calc b < 2 ^ 32 := hb
        _ ≤ 2 ^ i := Nat.pow_le_pow_right (by decide) (by omega)
    have hai : Nat.testBit a i = false := by
      rw [← hi, hbi]; simp
    rw [hai]; rfl

/-- More passes do not change the result of a loop that has stopped. -/
theorem expandDependencies_add (k : Nat) :
    ∀ (n s m : Nat) (r : Nat × Nat), expandDependencies n s m = some r →
      expandDependencies (n + k) s m = some r := by
  intro n
  induction n with
  | zero =>
    intro s m r h
    simp [expandDependencies] at h
  | succ n ih =>
    intro s m r h
    have e : n + 1 + k = (n + k) + 1 := by omega
    rw [e]
    unfold expandDependencies at h ⊢
    simp only at h ⊢
    split
    · rename_i hc
      rw [if_pos hc] at h
      exact ih _ _ _ h
    · rename_i hc
      rw [if_neg hc] at h
      exact h

/-- The result does not depend on the contents of the struct that is passed in. -/
theorem setDependencyMap_params (fuel : Nat) (p q : WeaveStatisticsParams) (t e : Nat) :
    XLALWeaveStatisticsParamsSetDependencyMap fuel (some p) t e
      = XLALWeaveStatisticsParamsSetDependencyMap fuel (some q) t e := rfl

theorem setDependencyMap_add (k n : Nat) (p : Option WeaveStatisticsParams) (t e : Nat)
    (r : Res WeaveStatisticsParams)
    (h : XLALWeaveStatisticsParamsSetDependencyMap n p t e = some r) :
    XLALWeaveStatisticsParamsSetDependencyMap (n + k) p t e = some r := by
  unfold XLALWeaveStatisticsParamsSetDependencyMap at h ⊢
  cases p with
  | none => exact h
  | some p =>
    simp only at h ⊢
    split
    · rename_i hc
      rw [if_pos hc] at h
      exact h
    · rename_i hc
      rw [if_neg hc] at h
      split
      · rename_i hc2
        rw [if_pos hc2] at h
        exact h
      · rename_i hc2
        rw [if_neg hc2] at h
        cases hx : expandDependencies n (t ||| e) t with
        | none => rw [hx] at h; cases h
        | some r2 =>
          rw [hx] at h
          rw [expandDependencies_add k n _ _ r2 hx]
          exact h

set_option maxRecDepth 100000 in
/-- The sets of statistics within `SUPPORTED_TOPLISTS`. -/
theorem toplist_sets :
    ∀ t ∈ List.range 512, t &&& SUPPORTED_TOPLISTS = t →
      t ∈ [0, 16, 64, 80, 256, 272, 320, 336] := by
  decide!

set_option maxRecDepth 100000 in
/-- All supported requests, with three passes of the loop allowed: the call returns, the
set to compute contains the requested statistics, and it is closed under direct
dependencies when the toplist set is not empty. -/
theorem supported_requests_three_passes :
    ∀ t ∈ [0, 16, 64, 80, 256, 272, 320, 336], ∀ e ∈ List.range 512,
      e &&& SUPPORTED_STATISTICS = e →
      (match XLALWeaveStatisticsParamsSetDependencyMap 3 (some ⟨0, 0, 0, 0, 0, 0⟩) t e with
        | some (.ok p1) =>
          decide ((t ||| e) &&& p1.statistics_to_compute = t ||| e ∧
            (t ≠ 0 → DepClosed p1.statistics_to_compute))
        | _ => false) = true := by
  decide!

theorem lt_512_of_subset {a b : Nat} (h : a &&& b = a) (hb : b < 512) : a ∈ List.range 512 := by
  rw [List.mem_range]
  have : a &&& b ≤ b := Nat.and_le_right
  omega

/-- C25 (failing input): `XLALWeaveStatisticsParamsSetDependencyMap` leaves its
`do ... while` loop as soon as one of `stats_to_compute` and `mainloop_stats` has stopped
growing, so the set `statistics_to_compute` need not be closed under direct dependencies.
For every toplist set within `SUPPORTED_TOPLISTS` and every extra-output set within
`SUPPORTED_STATISTICS` the call returns (three passes of the loop are enough) and
`statistics_to_compute` contains `toplist | extra`; it is closed under the dependencies of
`statistic_map` when the toplist set is not empty.  For the empty toplist set and the extra
statistic `mean2F` the result is `mean2F | sum2F`: `sum2F` is in the set, its dependency
`coh2F` is not. -/
theorem C25_dependency_closure_stops_early (fuel : Nat) (p : WeaveStatisticsParams)
    (t e : Nat) (hfuel : 3 ≤ fuel) (ht : t < 4294967296) (he : e < 4294967296)
    (hts : t &&& bitNot32 SUPPORTED_TOPLISTS = 0)
    (hes : e &&& bitNot32 SUPPORTED_STATISTICS = 0) :
    (∃ p1, XLALWeaveStatisticsParamsSetDependencyMap fuel (some p) t e = some (.ok p1) ∧
      (t ||| e) &&& p1.statistics_to_compute = t ||| e ∧
      (t ≠ 0 → DepClosed p1.statistics_to_compute)) ∧
    (∃ p1, XLALWeaveStatisticsParamsSetDependencyMap fuel (some p) 0 WEAVE_STATISTIC_MEAN2F
        = some (.ok p1) ∧
      p1.statistics_to_compute = WEAVE_STATISTIC_MEAN2F ||| WEAVE_STATISTIC_SUM2F ∧
      p1.statistics_to_compute &&& WEAVE_STATISTIC_SUM2F ≠ 0 ∧
      p1.statistics_to_compute &&& WEAVE_STATISTIC_COH2F = 0 ∧
      ¬ DepClosed p1.statistics_to_compute) := by
  obtain ⟨k, rfl⟩ : ∃ k, fuel = 3 + k := ⟨fuel - 3, by omega⟩
  constructor
  · have h1 := and_eq_of_and_bitNot32 ht hts
    have h2 := and_eq_of_and_bitNot32 he hes
    have ht8 := toplist_sets t (lt_512_of_subset h1 (by decide)) h1
    have hev := supported_requests_three_passes t ht8 e (lt_512_of_subset h2 (by decide)) h2
    cases hrun : XLALWeaveStatisticsParamsSetDependencyMap 3 (some ⟨0, 0, 0, 0, 0, 0⟩) t e with
    | none => rw [hrun] at hev; cases hev
    | some r =>
      cases r with
      | ok p1 =>
        rw [hrun] at hev
        refine ⟨p1, ?_, of_decide_eq_true hev⟩
        rw [setDependencyMap_params (3 + k) p ⟨0, 0, 0, 0, 0, 0⟩]
        exact setDependencyMap_add k 3 _ t e _ hrun
      | fail x => rw [hrun] at hev; cases hev
      | undefined => rw [hrun] at hev; cases hev
  · have hrun : XLALWeaveStatisticsParamsSetDependencyMap 3 (some ⟨0, 0, 0, 0, 0, 0⟩) 0
        WEAVE_STATISTIC_MEAN2F = some (.ok ⟨0, 64, 80, 0, 0, 80⟩) := by decide!
    refine ⟨⟨0, 64, 80, 0, 0, 80⟩, ?_, by decide, by decide, by decide, by decide⟩
    rw [setDependencyMap_params (3 + k) p ⟨0, 0, 0, 0, 0, 0⟩]
    exact setDependencyMap_add k 3 _ _ _ _ hrun

/-- Witness of C25: the toplist `sum2F` with the extra statistic `mean2F`, three passes. -/
theorem C25_dependency_closure_stops_early_witness :
    (∃ p1, XLALWeaveStatisticsParamsSetDependencyMap 3 (some ⟨0, 0, 0, 0, 0, 0⟩)
        WEAVE_STATISTIC_SUM2F WEAVE_STATISTIC_MEAN2F = some (.ok p1) ∧
      (WEAVE_STATISTIC_SUM2F ||| WEAVE_STATISTIC_MEAN2F) &&& p1.statistics_to_compute
        = WEAVE_STATISTIC_SUM2F ||| WEAVE_STATISTIC_MEAN2F ∧
      (WEAVE_STATISTIC_SUM2F ≠ 0 → DepClosed p1.statistics_to_compute)) ∧
    (∃ p1, XLALWeaveStatisticsParamsSetDependencyMap 3 (some ⟨0, 0, 0, 0, 0, 0⟩) 0
        WEAVE_STATISTIC_MEAN2F = some (.ok p1) ∧
      p1.statistics_to_compute = WEAVE_STATISTIC_MEAN2F ||| WEAVE_STATISTIC_SUM2F ∧
      p1.statistics_to_compute &&& WEAVE_STATISTIC_SUM2F ≠ 0 ∧
      p1.statistics_to_compute &&& WEAVE_STATISTIC_COH2F = 0 ∧
      ¬ DepClosed p1.statistics_to_compute) :=
  C25_dependency_closure_stops_early 3 ⟨0, 0, 0, 0, 0, 0⟩ WEAVE_STATISTIC_SUM2F
    WEAVE_STATISTIC_MEAN2F (by decide) (by decide) (by decide) (by decide!) (by decide!)

/-! ## Direct dependencies and the loop partition (C32, C33, C34, C39) -/

/-- The loop of `XLALWeaveStatisticsSetDirectDependencies` joins the dependencies of the
selected entries. -/
theorem foldl_dependencies (stats : Nat) :
    ∀ (l : List WeaveStatisticMap) (a : Nat),
      l.foldl (fun tmp entry => if stats &&& entry.val ≠ 0 then tmp ||| entry.dependencies
        else tmp) a
      = ((l.filter (fun entry => stats &&& entry.val ≠ 0)).map
          (fun entry => entry.dependencies)).foldl (fun acc d => acc ||| d) a := by
  intro l
  induction l with
  | nil => intro a; rfl
  | cons e l ih =>
    intro a
    rw [List.foldl_cons, ih]
    by_cases hc : stats &&& e.val ≠ 0
    · rw [if_pos hc, List.filter_cons_of_pos (by simpa using hc), List.map_cons,
        List.foldl_cons]
    · rw [if_neg hc, List.filter_cons_of_neg (by simpa using hc)]

/-- A bit of a join of a list of sets is set exactly when it is set in the start value or in
a member of the list. -/
theorem testBit_foldl_or (i : Nat) :
    ∀ (l : List Nat) (a : Nat),
      (l.foldl (fun acc d => acc ||| d) a).testBit i = true ↔
        a.testBit i = true ∨ ∃ d ∈ l, d.testBit i = true := by
  intro l
  induction l with
  | nil => intro a; simp
  | cons d l ih =>
    intro a
    rw [List.foldl_cons, ih, Nat.testBit_or, Bool.or_eq_true]
    constructor
    · rintro ((h | h) | ⟨x, hx, hxi⟩)
      · exact Or.inl h
      · exact Or.inr ⟨d, List.mem_cons_self d l, h⟩
      · exact Or.inr ⟨x, List.mem_cons_of_mem d hx, hxi⟩
    · rintro (h | ⟨x, hx, hxi⟩)
      · exact Or.inl (Or.inl h)
      · rcases List.mem_cons.mp hx with hxd | hxl
        · rw [hxd] at hxi; exact Or.inl (Or.inr hxi)
        · exact Or.inr ⟨x, hxl, hxi⟩

theorem and_or_self_left (a b : Nat) : a &&& (a ||| b) = a := by
  apply Nat.eq_of_testBit_eq
  intro i
  rw [Nat.testBit_and, Nat.testBit_or]
  cases Nat.testBit a i <;> cases Nat.testBit b i <;> rfl

/-- C32: for a 32-bit set `stats`, `XLALWeaveStatisticsSetDirectDependencies` fails with
`XLAL_EINVAL` when `stats` has a bit outside `SUPPORTED_STATISTICS`, and `*deps` then keeps
its value; otherwise it succeeds and the new `*deps` is the old one joined with the union of
the `dependencies` of all entries of `statistic_map` whose flag is set in `stats`, so every
bit of the old `*deps` is still set. -/
theorem C32_direct_dependencies_are_joined (deps stats : Nat) (hstats : stats < 4294967296) :
    (stats &&& SUPPORTED_STATISTICS ≠ stats →
      XLALWeaveStatisticsSetDirectDependencies deps stats = .fail .XLAL_EINVAL ∧
      setDirectDependenciesUnchecked deps stats = deps) ∧
    (stats &&& SUPPORTED_STATISTICS = stats →
      XLALWeaveStatisticsSetDirectDependencies deps stats
        = .ok (deps ||| dependencyUnion stats) ∧
      deps &&& (deps ||| dependencyUnion stats) = deps ∧
      ∀ i, (dependencyUnion stats).testBit i = true ↔
        ∃ entry ∈ statistic_map, stats &&& entry.val ≠ 0 ∧
          entry.dependencies.testBit i = true) := by
  constructor
  · intro hout
    have hcheck : stats &&& bitNot32 SUPPORTED_STATISTICS ≠ 0 :=
      fun h0 => hout (and_eq_of_and_bitNot32 hstats h0)
    have hfail : XLALWeaveStatisticsSetDirectDependencies deps stats = .fail .XLAL_EINVAL := by
      unfold XLALWeaveStatisticsSetDirectDependencies
      rw [if_pos hcheck]
    refine ⟨hfail, ?_⟩
    unfold setDirectDependenciesUnchecked
    rw [hfail]
  · intro hin
    have hcheck : ¬ (stats &&& bitNot32 SUPPORTED_STATISTICS ≠ 0) :=
      fun h => h (and_bitNot32_of_and_eq hin (by decide))
    refine ⟨?_, and_or_self_left _ _, ?_⟩
    · unfold XLALWeaveStatisticsSetDirectDependencies
      rw [if_neg hcheck]
      simp only [foldl_dependencies]
      rfl
    · intro i
      unfold dependencyUnion
      rw [testBit_foldl_or]
      simp only [Nat.zero_testBit, Bool.false_eq_true, false_or, List.mem_map, List.mem_filter,
        decide_eq_true_eq]
      constructor
      · rintro ⟨d, ⟨entry, ⟨hmem, hsel⟩, rfl⟩, hbit⟩
        exact ⟨entry, hmem, hsel, hbit⟩
      · rintro ⟨entry, hmem, hsel, hbit⟩
        exact ⟨_, ⟨entry, ⟨hmem, hsel⟩, rfl⟩, hbit⟩

/-- Witness of C32: the unsupported statistic `max2F` fails and leaves `deps = 64`; the
supported set `mean2F | B_S/GL` adds `sum2F | sum2F_det` to `deps = 1`. -/
theorem C32_direct_dependencies_are_joined_witness :
    (XLALWeaveStatisticsSetDirectDependencies 64 WEAVE_STATISTIC_MAX2F = .fail .XLAL_EINVAL ∧
      setDirectDependenciesUnchecked 64 WEAVE_STATISTIC_MAX2F = 64) ∧
    (XLALWeaveStatisticsSetDirectDependencies 1
        (WEAVE_STATISTIC_MEAN2F ||| WEAVE_STATISTIC_BSGL)
        = .ok (1 ||| dependencyUnion (WEAVE_STATISTIC_MEAN2F ||| WEAVE_STATISTIC_BSGL)) ∧
      1 &&& (1 ||| dependencyUnion (WEAVE_STATISTIC_MEAN2F ||| WEAVE_STATISTIC_BSGL)) = 1 ∧
      (∀ i, (dependencyUnion (WEAVE_STATISTIC_MEAN2F ||| WEAVE_STATISTIC_BSGL)).testBit i = true ↔
        ∃ entry ∈ statistic_map, (WEAVE_STATISTIC_MEAN2F ||| WEAVE_STATISTIC_BSGL) &&& entry.val ≠ 0 ∧
          entry.dependencies.testBit i = true) ∧
      dependencyUnion (WEAVE_STATISTIC_MEAN2F ||| WEAVE_STATISTIC_BSGL)
        = WEAVE_STATISTIC_SUM2F ||| WEAVE_STATISTIC_SUM2F_DET) :=
  ⟨(C32_direct_dependencies_are_joined 64 WEAVE_STATISTIC_MAX2F (by decide)).1 (by decide),
    ((C32_direct_dependencies_are_joined 1 (WEAVE_STATISTIC_MEAN2F ||| WEAVE_STATISTIC_BSGL)
      (by decide)).2 (by decide)).1,
    ((C32_direct_dependencies_are_joined 1 (WEAVE_STATISTIC_MEAN2F ||| WEAVE_STATISTIC_BSGL)
      (by decide)).2 (by decide)).2.1,
    ((C32_direct_dependencies_are_joined 1 (WEAVE_STATISTIC_MEAN2F ||| WEAVE_STATISTIC_BSGL)
      (by decide)).2 (by decide)).2.2,
    by decide⟩

/-- A property of the result that holds, with three passes of the loop allowed, for all
toplist sets within `SUPPORTED_TOPLISTS` and all extra sets below 512 within
`SUPPORTED_STATISTICS`, holds for every valid request and every bound of at least three
passes. -/
theorem supported_request_run (P : Nat → Nat → WeaveStatisticsParams → Prop)
    [∀ t e p, Decidable (P t e p)]
    (hP : ∀ t ∈ [0, 16, 64, 80, 256, 272, 320, 336], ∀ e ∈ List.range 512,
      e &&& SUPPORTED_STATISTICS = e →
      (match XLALWeaveStatisticsParamsSetDependencyMap 3 (some ⟨0, 0, 0, 0, 0, 0⟩) t e with
        | some (.ok p1) => decide (P t e p1)
        | _ => false) = true)
    (fuel : Nat) (p : WeaveStatisticsParams) (t e : Nat) (hfuel : 3 ≤ fuel)
    (ht : t < 4294967296) (he : e < 4294967296)
    (hts : t &&& bitNot32 SUPPORTED_TOPLISTS = 0)
    (hes : e &&& bitNot32 SUPPORTED_STATISTICS = 0) :
    ∃ p1, XLALWeaveStatisticsParamsSetDependencyMap fuel (some p) t e = some (.ok p1) ∧
      P t e p1 := by
  obtain ⟨k, rfl⟩ : ∃ k, fuel = 3 + k := ⟨fuel - 3, by omega⟩
  have h1 := and_eq_of_and_bitNot32 ht hts
  have h2 := and_eq_of_and_bitNot32 he hes
  have ht8 := toplist_sets t (lt_512_of_subset h1 (by decide)) h1
  have hev := hP t ht8 e (lt_512_of_subset h2 (by decide)) h2
  cases hrun : XLALWeaveStatisticsParamsSetDependencyMap 3 (some ⟨0, 0, 0, 0, 0, 0⟩) t e with
  | none => rw [hrun] at hev; cases hev
  | some r =>
    cases r with
    | ok p1 =>
      rw [hrun] at hev
      refine ⟨p1, ?_, of_decide_eq_true hev⟩
      rw [setDependencyMap_params (3 + k) p ⟨0, 0, 0, 0, 0, 0⟩]
      exact setDependencyMap_add k 3 _ t e _ hrun
    | fail x => rw [hrun] at hev; cases hev
    | undefined => rw [hrun] at hev; cases hev

set_option maxRecDepth 100000 in
/-- C33: for every toplist set within `SUPPORTED_TOPLISTS` and every extra-output set within
`SUPPORTED_STATISTICS`, `XLALWeaveStatisticsParamsSetDependencyMap` returns, and `coh2F` and
`coh2F_det` are main-loop statistics only: each of them that is in `statistics_to_compute`
is in `mainloop_statistics`, and neither is in `completionloop_statistics`. -/
theorem C33_coherent_statistics_stay_in_main_loop (fuel : Nat) (p : WeaveStatisticsParams)
    (t e : Nat) (hfuel : 3 ≤ fuel) (ht : t < 4294967296) (he : e < 4294967296)
    (hts : t &&& bitNot32 SUPPORTED_TOPLISTS = 0)
    (hes : e &&& bitNot32 SUPPORTED_STATISTICS = 0) :
    ∃ p1, XLALWeaveStatisticsParamsSetDependencyMap fuel (some p) t e = some (.ok p1) ∧
      (p1.statistics_to_compute &&& WEAVE_STATISTIC_COH2F ≠ 0 →
        p1.mainloop_statistics &&& WEAVE_STATISTIC_COH2F ≠ 0) ∧
      (p1.statistics_to_compute &&& WEAVE_STATISTIC_COH2F_DET ≠ 0 →
        p1.mainloop_statistics &&& WEAVE_STATISTIC_COH2F_DET ≠ 0) ∧
      p1.completionloop_statistics &&& WEAVE_STATISTIC_COH2F = 0 ∧
      p1.completionloop_statistics &&& WEAVE_STATISTIC_COH2F_DET = 0 :=
  supported_request_run
    (fun _ _ p1 =>
      (p1.statistics_to_compute &&& WEAVE_STATISTIC_COH2F ≠ 0 →
        p1.mainloop_statistics &&& WEAVE_STATISTIC_COH2F ≠ 0) ∧
      (p1.statistics_to_compute &&& WEAVE_STATISTIC_COH2F_DET ≠ 0 →
        p1.mainloop_statistics &&& WEAVE_STATISTIC_COH2F_DET ≠ 0) ∧
      p1.completionloop_statistics &&& WEAVE_STATISTIC_COH2F = 0 ∧
      p1.completionloop_statistics &&& WEAVE_STATISTIC_COH2F_DET = 0)
    (by decide!) fuel p t e hfuel ht he hts hes

/-- Witness of C33: the toplist `B_S/GL` with the extra statistic `mean2F_det`. -/
theorem C33_coherent_statistics_stay_in_main_loop_witness :
    ∃ p1, XLALWeaveStatisticsParamsSetDependencyMap 3 (some ⟨0, 0, 0, 0, 0, 0⟩)
        WEAVE_STATISTIC_BSGL WEAVE_STATISTIC_MEAN2F_DET = some (.ok p1) ∧
      (p1.statistics_to_compute &&& WEAVE_STATISTIC_COH2F ≠ 0 →
        p1.mainloop_statistics &&& WEAVE_STATISTIC_COH2F ≠ 0) ∧
      (p1.statistics_to_compute &&& WEAVE_STATISTIC_COH2F_DET ≠ 0 →
        p1.mainloop_statistics &&& WEAVE_STATISTIC_COH2F_DET ≠ 0) ∧
      p1.completionloop_statistics &&& WEAVE_STATISTIC_COH2F = 0 ∧
      p1.completionloop_statistics &&& WEAVE_STATISTIC_COH2F_DET = 0 :=
  C33_coherent_statistics_stay_in_main_loop 3 ⟨0, 0, 0, 0, 0, 0⟩ WEAVE_STATISTIC_BSGL
    WEAVE_STATISTIC_MEAN2F_DET (by decide) (by decide) (by decide) (by decide!) (by decide!)

set_option maxRecDepth 100000 in
/-- C34: for every toplist set within `SUPPORTED_TOPLISTS` and every extra-output set within
`SUPPORTED_STATISTICS`, `XLALWeaveStatisticsParamsSetDependencyMap` returns with
`mainloop_statistics_to_keep = mainloop_statistics & (statistics_to_output | D)`, where `D`
is the union of the direct dependencies of the completion-loop statistics; hence it is a
subset of `mainloop_statistics` and contains the main-loop statistics that are requested for
output and those that a completion-loop statistic directly depends on. -/
theorem C34_main_loop_statistics_to_keep (fuel : Nat) (p : WeaveStatisticsParams)
    (t e : Nat) (hfuel : 3 ≤ fuel) (ht : t < 4294967296) (he : e < 4294967296)
    (hts : t &&& bitNot32 SUPPORTED_TOPLISTS = 0)
    (hes : e &&& bitNot32 SUPPORTED_STATISTICS = 0) :
    ∃ p1, XLALWeaveStatisticsParamsSetDependencyMap fuel (some p) t e = some (.ok p1) ∧
      p1.statistics_to_output = t ||| e ∧
      XLALWeaveStatisticsSetDirectDependencies 0 p1.completionloop_statistics
        = .ok (dependencyUnion p1.completionloop_statistics) ∧
      p1.mainloop_statistics_to_keep = p1.mainloop_statistics &&&
        (p1.statistics_to_output ||| dependencyUnion p1.completionloop_statistics) ∧
      p1.mainloop_statistics_to_keep &&& p1.mainloop_statistics
        = p1.mainloop_statistics_to_keep ∧
      (p1.mainloop_statistics &&& p1.statistics_to_output) &&& p1.mainloop_statistics_to_keep
        = p1.mainloop_statistics &&& p1.statistics_to_output ∧
      (p1.mainloop_statistics &&& dependencyUnion p1.completionloop_statistics)
          &&& p1.mainloop_statistics_to_keep
        = p1.mainloop_statistics &&& dependencyUnion p1.completionloop_statistics :=
  supported_request_run
    (fun t e p1 =>
      p1.statistics_to_output = t ||| e ∧
      XLALWeaveStatisticsSetDirectDependencies 0 p1.completionloop_statistics
        = .ok (dependencyUnion p1.completionloop_statistics) ∧
      p1.mainloop_statistics_to_keep = p1.mainloop_statistics &&&
        (p1.statistics_to_output ||| dependencyUnion p1.completionloop_statistics) ∧
      p1.mainloop_statistics_to_keep &&& p1.mainloop_statistics
        = p1.mainloop_statistics_to_keep ∧
      (p1.mainloop_statistics &&& p1.statistics_to_output) &&& p1.mainloop_statistics_to_keep
        = p1.mainloop_statistics &&& p1.statistics_to_output ∧
      (p1.mainloop_statistics &&& dependencyUnion p1.completionloop_statistics)
          &&& p1.mainloop_statistics_to_keep
        = p1.mainloop_statistics &&& dependencyUnion p1.completionloop_statistics)
    (by decide!) fuel p t e hfuel ht he hts hes

/-- Witness of C34: the toplist `sum2F` with the extra statistics `mean2F | B_S/GL`. -/
theorem C34_main_loop_statistics_to_keep_witness :
    ∃ p1, XLALWeaveStatisticsParamsSetDependencyMap 3 (some ⟨0, 0, 0, 0, 0, 0⟩)
        WEAVE_STATISTIC_SUM2F (WEAVE_STATISTIC_MEAN2F ||| WEAVE_STATISTIC_BSGL)
        = some (.ok p1) ∧
      p1.statistics_to_output
        = WEAVE_STATISTIC_SUM2F ||| (WEAVE_STATISTIC_MEAN2F ||| WEAVE_STATISTIC_BSGL) ∧
      XLALWeaveStatisticsSetDirectDependencies 0 p1.completionloop_statistics
        = .ok (dependencyUnion p1.completionloop_statistics) ∧
      p1.mainloop_statistics_to_keep = p1.mainloop_statistics &&&
        (p1.statistics_to_output ||| dependencyUnion p1.completionloop_statistics) ∧
      p1.mainloop_statistics_to_keep &&& p1.mainloop_statistics
        = p1.mainloop_statistics_to_keep ∧
      (p1.mainloop_statistics &&& p1.statistics_to_output) &&& p1.mainloop_statistics_to_keep
        = p1.mainloop_statistics &&& p1.statistics_to_output ∧
      (p1.mainloop_statistics &&& dependencyUnion p1.completionloop_statistics)
          &&& p1.mainloop_statistics_to_keep
        = p1.mainloop_statistics &&& dependencyUnion p1.completionloop_statistics :=
  C34_main_loop_statistics_to_keep 3 ⟨0, 0, 0, 0, 0, 0⟩ WEAVE_STATISTIC_SUM2F
    (WEAVE_STATISTIC_MEAN2F ||| WEAVE_STATISTIC_BSGL) (by decide) (by decide) (by decide)
    (by decide!) (by decide!)

set_option maxRecDepth 100000 in
/-- C39: for every toplist set within `SUPPORTED_TOPLISTS` and every extra-output set within
`SUPPORTED_STATISTICS`, `XLALWeaveStatisticsParamsSetDependencyMap` returns with
`toplist_statistics` equal to the toplist set and a subset of `mainloop_statistics`,
`mainloop_statistics` a subset of `statistics_to_compute`, and `mainloop_statistics` and
`completionloop_statistics` disjoint with union `statistics_to_compute`. -/
theorem C39_main_and_completion_loop_partition (fuel : Nat) (p : WeaveStatisticsParams)
    (t e : Nat) (hfuel : 3 ≤ fuel) (ht : t < 4294967296) (he : e < 4294967296)
    (hts : t &&& bitNot32 SUPPORTED_TOPLISTS = 0)
    (hes : e &&& bitNot32 SUPPORTED_STATISTICS = 0) :
    ∃ p1, XLALWeaveStatisticsParamsSetDependencyMap fuel (some p) t e = some (.ok p1) ∧
      p1.toplist_statistics = t ∧
      p1.toplist_statistics &&& p1.mainloop_statistics = p1.toplist_statistics ∧
      p1.mainloop_statistics &&& p1.statistics_to_compute = p1.mainloop_statistics ∧
      p1.mainloop_statistics &&& p1.completionloop_statistics = 0 ∧
      p1.mainloop_statistics ||| p1.completionloop_statistics = p1.statistics_to_compute :=
  supported_request_run
    (fun t _ p1 =>
      p1.toplist_statistics = t ∧
      p1.toplist_statistics &&& p1.mainloop_statistics = p1.toplist_statistics ∧
      p1.mainloop_statistics &&& p1.statistics_to_compute = p1.mainloop_statistics ∧
      p1.mainloop_statistics &&& p1.completionloop_statistics = 0 ∧
      p1.mainloop_statistics ||| p1.completionloop_statistics = p1.statistics_to_compute)
    (by decide!) fuel p t e hfuel ht he hts hes

/-- Witness of C39: the toplist `mean2F` with the extra statistic `B_S/GL`. -/
theorem C39_main_and_completion_loop_partition_witness :
    ∃ p1, XLALWeaveStatisticsParamsSetDependencyMap 3 (some ⟨0, 0, 0, 0, 0, 0⟩)
        WEAVE_STATISTIC_MEAN2F WEAVE_STATISTIC_BSGL = some (.ok p1) ∧
      p1.toplist_statistics = WEAVE_STATISTIC_MEAN2F ∧
      p1.toplist_statistics &&& p1.mainloop_statistics = p1.toplist_statistics ∧
      p1.mainloop_statistics &&& p1.statistics_to_compute = p1.mainloop_statistics ∧
      p1.mainloop_statistics &&& p1.completionloop_statistics = 0 ∧
      p1.mainloop_statistics ||| p1.completionloop_statistics = p1.statistics_to_compute :=
  C39_main_and_completion_loop_partition 3 ⟨0, 0, 0, 0, 0, 0⟩ WEAVE_STATISTIC_MEAN2F
    WEAVE_STATISTIC_BSGL (by decide) (by decide) (by decide) (by decide!) (by decide!)

end Weave

/-! ## The final mass and spin estimate (C26, C27) -/

namespace PSpin

open TransientCW

/-- C26 (failing input): when the estimated final mass `1 + energy` is negative,
`XLALPSpinFinalMassSpin` returns `XLAL_ERANGE` from inside the `XLAL_ERROR` macro; the
assignment `*finalMass = 1.;` that follows the macro is never reached, so `*finalMass`
holds the negative estimate `1 + energy`, not the value 1, and `*finalSpin` is not
written. -/
theorem C26_negative_final_mass_is_not_clamped {K : Type} [LinearOrderedField K]
    (sqrt : K → K) (finalSpin : K) (params : InspiralTemplate K) (energy LNhx LNhy LNhz : K)
    (h : 1 + energy < 0) :
    XLALPSpinFinalMassSpin sqrt finalSpin params energy LNhx LNhy LNhz
      = (.fail .XLAL_ERANGE, 1 + energy, finalSpin) ∧
    (XLALPSpinFinalMassSpin sqrt finalSpin params energy LNhx LNhy LNhz).2.1 < 0 ∧
    (XLALPSpinFinalMassSpin sqrt finalSpin params energy LNhx LNhy LNhz).2.1 ≠ 1 := by
  have hrun : XLALPSpinFinalMassSpin sqrt finalSpin params energy LNhx LNhy LNhz
      = (.fail .XLAL_ERANGE, 1 + energy, finalSpin) := by
    simp only [XLALPSpinFinalMassSpin, h, if_true]
  rw [hrun]
  refine ⟨rfl, h, ?_⟩
  show 1 + energy ≠ 1
  intro h1
  rw [h1] at h
  exact absurd h (by norm_num)

/-- Witness of C26: `energy = -2` with equal masses; `*finalMass` is `-1` after the
call. -/
theorem C26_negative_final_mass_is_not_clamped_witness :
    XLALPSpinFinalMassSpin ratSqrt 7 equalMasses (-2) 0 0 1
      = (.fail .XLAL_ERANGE, 1 + (-2), 7) ∧
    (XLALPSpinFinalMassSpin ratSqrt 7 equalMasses (-2) 0 0 1).2.1 < 0 ∧
    (XLALPSpinFinalMassSpin ratSqrt 7 equalMasses (-2) 0 0 1).2.1 ≠ 1 :=
  C26_negative_final_mass_is_not_clamped ratSqrt 7 equalMasses (-2) 0 0 1 (by decide!)

/-- The value that the code computes for `*finalSpin` is the estimate
`sqrt (a12 + 2 ll qq a12l + ll^2 qq^2) / (1 + qq)^2` of the formula. -/
theorem finalSpinEstimate_eq_formula {K : Type} [LinearOrderedField K] (sqrt : K → K)
    (params : InspiralTemplate K) (LNhx LNhy LNhz : K) :
    finalSpinEstimate sqrt params LNhx LNhy LNhz
      = sqrt (spinSquareSum sqrt params
            + 2 * orbitalTerm sqrt params LNhx LNhy LNhz * massRatio params
                * spinAlongOrbit sqrt params LNhx LNhy LNhz
            + orbitalTerm sqrt params LNhx LNhy LNhz ^ 2 * massRatio params ^ 2)
          / (1 + massRatio params) ^ 2 := by
  have hn : ∀ s : Fin 3 → K, spinNorm sqrt s = sqrt (s 0 * s 0 + s 1 * s 1 + s 2 * s 2) := by
    intro s
    simp only [spinNorm, sq]
  simp only [finalSpinEstimate, spinSquareSum, spinAlongOrbit, orbitalTerm, massRatio, hn]
  generalize sqrt (params.spin1 0 * params.spin1 0 + params.spin1 1 * params.spin1 1
    + params.spin1 2 * params.spin1 2) = ma1
  generalize sqrt (params.spin2 0 * params.spin2 0 + params.spin2 1 * params.spin2 1
    + params.spin2 2 * params.spin2 2) = ma2
  generalize params.mass2 / params.mass1 = qq
  generalize params.spin1 0 * params.spin2 0 + params.spin1 1 * params.spin2 1
    + params.spin1 2 * params.spin2 2 = d12
  generalize params.spin1 0 * LNhx + params.spin1 1 * LNhy + params.spin1 2 * LNhz = d1
  generalize params.spin2 0 * LNhx + params.spin2 1 * LNhy + params.spin2 2 * LNhz = d2
  have hc12 : (if 0 < ma1 ∧ 0 < ma2 then d12 / ma1 / ma2 else 0)
      = (if 0 < ma1 ∧ 0 < ma2 then d12 / (ma1 * ma2) else 0) := by
    rw [div_div]
  have hc1 : (if 0 < ma1 ∧ 0 < ma2 then (if 0 < ma1 then d1 / ma1 else 1) else 0)
      = (if 0 < ma1 ∧ 0 < ma2 then d1 / ma1 else 0) := by
    by_cases h : 0 < ma1 ∧ 0 < ma2
    · rw [if_pos h, if_pos h, if_pos h.1]
    · rw [if_neg h, if_neg h]
  have hc2 : (if 0 < ma1 ∧ 0 < ma2 then (if 0 < ma2 then d2 / ma2 else 1) else 0)
      = (if 0 < ma1 ∧ 0 < ma2 then d2 / ma2 else 0) := by
    by_cases h : 0 < ma1 ∧ 0 < ma2
    · rw [if_pos h, if_pos h, if_pos h.2]
    · rw [if_neg h, if_neg h]
  rw [hc12, hc1, hc2]
  generalize (if 0 < ma1 ∧ 0 < ma2 then d12 / (ma1 * ma2) else 0) = c12
  generalize (if 0 < ma1 ∧ 0 < ma2 then d1 / ma1 else 0) = c1
  generalize (if 0 < ma1 ∧ 0 < ma2 then d2 / ma2 else 0) = c2
  generalize sqrt 3 = r3
  generalize params.eta = eta
  have ha12 : ma1 * ma1 + ma2 * ma2 * qq * qq * qq * qq + 2 * ma1 * ma2 * qq * qq * c12
      = ma1 ^ 2 + ma2 ^ 2 * qq ^ 4 + 2 * ma1 * ma2 * qq ^ 2 * c12 := by ring
  have ha12l : ma1 * c1 + ma2 * c2 * qq * qq = ma1 * c1 + ma2 * qq ^ 2 * c2 := by ring
  rw [ha12, ha12l]
  generalize ma1 ^ 2 + ma2 ^ 2 * qq ^ 4 + 2 * ma1 * ma2 * qq ^ 2 * c12 = a12
  generalize ma1 * c1 + ma2 * qq ^ 2 * c2 = a12l
  have hll : 2 * r3 + 16 * (6865 / 10000 - 26 / 10 / 64 - r3 / 2) * eta + 26 / 10 * eta * eta
        + -(123 / 1000) * a12 / (1 + qq * qq) / (1 + qq * qq)
        + (45 / 100 * eta + -(29 / 10) + 2) / (1 + qq * qq) * a12l
      = 2 * r3 + 16 * (6865 / 10000 - 26 / 10 / 64 - r3 / 2) * eta + 26 / 10 * eta ^ 2
        + -(123 / 1000) * a12 / (1 + qq ^ 2) ^ 2
        + (45 / 100 * eta + -(29 / 10) + 2) / (1 + qq ^ 2) * a12l := by
    have e1 : qq * qq = qq ^ 2 := (sq qq).symm
    have e2 : (26 : K) / 10 * eta * eta = 26 / 10 * eta ^ 2 := by rw [mul_assoc, ← sq]
    rw [e1, e2, div_div (-(123 / 1000) * a12), ← sq]
  rw [hll]
  generalize 2 * r3 + 16 * (6865 / 10000 - 26 / 10 / 64 - r3 / 2) * eta + 26 / 10 * eta ^ 2
        + -(123 / 1000) * a12 / (1 + qq ^ 2) ^ 2
        + (45 / 100 * eta + -(29 / 10) + 2) / (1 + qq ^ 2) * a12l = ll
  have hden : (1 + qq) * (1 + qq) = (1 + qq) ^ 2 := by ring
  have hnum : a12 + 2 * ll * qq * a12l + ll * ll * qq * qq
      = a12 + 2 * ll * qq * a12l + ll ^ 2 * qq ^ 2 := by ring
  rw [div_div, hden, hnum]

/-- C27: for `1 + energy ≥ 0`, `XLALPSpinFinalMassSpin` stores `1 + energy` in `*finalMass`.
Let `est` be the estimate `sqrt (a12 + 2 ll qq a12l + ll^2 qq^2) / (1 + qq)^2` of the final
spin.  When `est` is greater than 1 or less than 0 the function stores 0 in `*finalSpin` and
returns `XLAL_ERANGE`; when `est` lies in `[0, 1]` it returns `XLAL_SUCCESS` with `est` in
`*finalSpin`. -/
theorem C27_final_spin_range_check {K : Type} [LinearOrderedField K]
    (sqrt : K → K) (finalSpin : K) (params : InspiralTemplate K) (energy LNhx LNhy LNhz : K)
    (h : 0 ≤ 1 + energy) (est : K)
    (hest : est = sqrt (spinSquareSum sqrt params
            + 2 * orbitalTerm sqrt params LNhx LNhy LNhz * massRatio params
                * spinAlongOrbit sqrt params LNhx LNhy LNhz
            + orbitalTerm sqrt params LNhx LNhy LNhz ^ 2 * massRatio params ^ 2)
          / (1 + massRatio params) ^ 2) :
    ((est > 1 ∨ est < 0) →
      XLALPSpinFinalMassSpin sqrt finalSpin params energy LNhx LNhy LNhz
        = (.fail .XLAL_ERANGE, 1 + energy, 0)) ∧
    ((0 ≤ est ∧ est ≤ 1) →
      XLALPSpinFinalMassSpin sqrt finalSpin params energy LNhx LNhy LNhz
        = (.ok (), 1 + energy, est)) := by
  have hm : ¬ (1 + energy < 0) := not_lt.mpr h
  have hcode : finalSpinEstimate sqrt params LNhx LNhy LNhz = est := by
    rw [hest, finalSpinEstimate_eq_formula]
  constructor
  · intro hs
    simp only [XLALPSpinFinalMassSpin, hm, if_false, hcode, hs, if_true]
  · intro hs
    have hno : ¬ (est > 1 ∨ est < 0) := by
      intro hc
      rcases hc with hc | hc
      · exact absurd hs.2 (not_le.mpr hc)
      · exact absurd hs.1 (not_le.mpr hc)
    simp only [XLALPSpinFinalMassSpin, hm, if_false, hcode, hno]

/-- With the real square root, equal masses and no spins, the estimate of the final spin
is `0.6865`. -/
theorem finalSpinEstimate_equalMasses :
    finalSpinEstimate Real.sqrt (equalMasses : InspiralTemplate ℝ) 0 0 1 = 6865 / 10000 := by
  have h0 : Real.sqrt (0 * 0 + 0 * 0 + 0 * 0) = 0 := by simp
  have hll : (2 * Real.sqrt 3 + 16 * (6865 / 10000 - 26 / 10 / 64 - Real.sqrt 3 / 2) * (1 / 4)
      + 26 / 10 * (1 / 4) * (1 / 4) : ℝ) = 2746 / 1000 := by ring
  simp only [finalSpinEstimate, equalMasses, h0, Real.sqrt_zero, lt_self_iff_false, and_self,
    if_false, mul_zero, zero_mul, add_zero, zero_add, zero_div, div_one, mul_one, hll]
  rw [Real.sqrt_mul_self (by norm_num)]
  norm_num

/-- With the real square root, the estimate of the final spin for `spinningPrimary` is 2. -/
theorem finalSpinEstimate_spinningPrimary :
    finalSpinEstimate Real.sqrt (spinningPrimary : InspiralTemplate ℝ) 0 0 1 = 2 := by
  have h0 : Real.sqrt (0 * 0 + 0 * 0 + 0 * 0) = 0 := by simp
  have h2 : Real.sqrt (0 * 0 + 0 * 0 + 2 * 2) = 2 := by
    have e : (0 * 0 + 0 * 0 + 2 * 2 : ℝ) = 2 * 2 := by norm_num
    rw [e, Real.sqrt_mul_self (by norm_num)]
  have e0 : ((0 : Fin 3) = 2) = False := by decide
  have e1 : ((1 : Fin 3) = 2) = False := by decide
  simp only [finalSpinEstimate, spinningPrimary, e0, e1, if_true, if_false, h0, h2,
    Real.sqrt_zero, lt_self_iff_false, and_false, mul_zero, zero_mul, add_zero, zero_add,
    zero_div, div_one]
  rw [Real.sqrt_mul_self (Real.sqrt_nonneg _), Real.sqrt_mul_self (by norm_num)]

/-- Witness of C27, with the real square root and `energy = -1/20`: for equal masses without
spins the estimate is `0.6865` and the call succeeds with this value in `*finalSpin`; for
`spinningPrimary` the estimate is 2 and the call fails with `*finalSpin = 0`. -/
theorem C27_final_spin_range_check_witness :
    XLALPSpinFinalMassSpin Real.sqrt 7 (equalMasses : InspiralTemplate ℝ) (-(1 / 20)) 0 0 1
      = (.ok (), 1 + (-(1 / 20)), 6865 / 10000) ∧
    XLALPSpinFinalMassSpin Real.sqrt 7 (spinningPrimary : InspiralTemplate ℝ) (-(1 / 20)) 0 0 1
      = (.fail .XLAL_ERANGE, 1 + (-(1 / 20)), 0) :=
  ⟨(C27_final_spin_range_check Real.sqrt 7 equalMasses (-(1 / 20)) 0 0 1 (by norm_num)
      (6865 / 10000)
      (by rw [← finalSpinEstimate_eq_formula, finalSpinEstimate_equalMasses])).2
      ⟨by norm_num, by norm_num⟩,
    (C27_final_spin_range_check Real.sqrt 7 spinningPrimary (-(1 / 20)) 0 0 1 (by norm_num) 2
      (by rw [← finalSpinEstimate_eq_formula, finalSpinEstimate_spinningPrimary])).1
      (Or.inl (by norm_num))⟩

/-! ## Ringdown attachment and mode frequencies (C35, C40) -/

/-- The indices of the patch loop when `2 * atpos` does not wrap: they are
`2 * (atpos - Npatch + j)` and the next index; all of them are inside a vector of length
`len` when `2 * atpos ≤ len`, and the last one is outside when `len < 2 * atpos`. -/
theorem readIndex_bound (atpos len j : Nat) (h1 : Npatch ≤ atpos)
    (h3 : 2 * atpos < 4294967296) (hj : j < Npatch) :
    readIndex atpos j = 2 * (atpos - Npatch + j) ∧
    (2 * atpos ≤ len → readIndex atpos j + 1 < len) ∧
    (len < 2 * atpos → len ≤ readIndex atpos (Npatch - 1) + 1) := by
  have e : ∀ i, i < Npatch → readIndex atpos i = 2 * (atpos - Npatch + i) := by
    intro i hi
    unfold readIndex
    rw [u32sub_eq, u32_eq, u32_eq]
    simp only [Npatch] at *
    omega
  refine ⟨e j hj, ?_, ?_⟩
  · intro h
    rw [e j hj]
    simp only [Npatch] at *
    omega
  · intro h
    rw [e (Npatch - 1) (by decide)]
    simp only [Npatch] at *
    omega

/-- The indices of the stitching loop when `j + 2 * atpos` does not wrap: they are
`j + 2 * atpos - 2`; all of them are inside a vector of length `len` when
`2 * Nrdwave + 2 * atpos - 2 ≤ len`, and the last one is outside otherwise. -/
theorem writeIndex_bound (atpos len Nrdwave j : Nat) (h1 : Npatch ≤ atpos)
    (h3 : 2 * Nrdwave + 2 * atpos < 4294967296) (hj : j < 2 * Nrdwave) :
    writeIndex atpos j = j + 2 * atpos - 2 ∧
    (2 * Nrdwave + 2 * atpos - 2 ≤ len → writeIndex atpos j < len) ∧
    (len < 2 * Nrdwave + 2 * atpos - 2 → len ≤ writeIndex atpos (2 * Nrdwave - 1)) := by
  have h11 : 11 ≤ atpos := h1
  have e : ∀ i, i < 2 * Nrdwave → writeIndex atpos i = i + 2 * atpos - 2 := by
    intro i hi
    unfold writeIndex
    rw [u32sub_eq, u32_eq, u32_eq]
    omega
  refine ⟨e j hj, ?_, ?_⟩
  · intro h
    rw [e j hj]
    omega
  · intro h
    rw [e (2 * Nrdwave - 1) (by omega)]
    omega

set_option maxRecDepth 100000 in
/-- C35 (failing input): the check `atpos < Npatch || atpos + Npatch >= sigl->length` of
`XLALPSpinInspiralAttachRingdownWave` does not keep the later accesses inside `sigl`.  The
patch loop reads up to the index `2 * atpos - 1` and the stitching loop writes up to the
index `2 * Nrdwave + 2 * atpos - 3`; they stay inside a vector of length `len` exactly when
`2 * atpos ≤ len`, respectively `2 * Nrdwave + 2 * atpos - 2 ≤ len`, which the check does
not imply.  In the evaluation environment, with `atpos = 80`, one mode `l = m = 2` and the
ringdown length `Nrdwave = 28`: for a signal of length 100 the check passes and the first
read, at index 138, is outside the signal; for length 200 all reads are inside, the write
of `j = 42` is at index 200, outside the signal; for length 220 the call succeeds. -/
theorem C35_attach_check_does_not_bound_indices :
    (∀ atpos len j, Npatch ≤ atpos → 2 * atpos < 4294967296 → j < Npatch →
      readIndex atpos j = 2 * (atpos - Npatch + j) ∧
      (2 * atpos ≤ len → readIndex atpos j + 1 < len) ∧
      (len < 2 * atpos → len ≤ readIndex atpos (Npatch - 1) + 1)) ∧
    (∀ atpos len Nrdwave j, Npatch ≤ atpos → 2 * Nrdwave + 2 * atpos < 4294967296 →
      j < 2 * Nrdwave →
      writeIndex atpos j = j + 2 * atpos - 2 ∧
      (2 * Nrdwave + 2 * atpos - 2 ≤ len → writeIndex atpos j < len) ∧
      (len < 2 * Nrdwave + 2 * atpos - 2 → len ≤ writeIndex atpos (2 * Nrdwave - 1))) ∧
    (XLALPSpinGenerateQNMFreq ratRingdownEnv [⟨0, 0⟩] unequalMasses 0 2 2 1 0 0 1
        = .ok [⟨3683 / 10000, 3683 / 42374⟩] ∧
      truncToUINT4 ((10 : ℚ) / (3683 / 42374) / (1 / (1 / 4))) = .ok 28) ∧
    (¬ (80 < Npatch ∨ u32 (80 + Npatch) ≥ (List.replicate 100 (5 : ℚ)).length) ∧
      readIndex 80 0 = 138 ∧
      XLALPSpinInspiralAttachRingdownWave ratRingdownEnv (List.replicate 100 5) unequalMasses 0
        80 1 2 2 0 0 1 = .undefined) ∧
    (¬ (80 < Npatch ∨ u32 (80 + Npatch) ≥ (List.replicate 200 (5 : ℚ)).length) ∧
      (∀ j ∈ List.range Npatch, readIndex 80 j + 1 < 200) ∧
      42 < 2 * 28 ∧ writeIndex 80 42 = 200 ∧
      XLALPSpinInspiralAttachRingdownWave ratRingdownEnv (List.replicate 200 5) unequalMasses 0
        80 1 2 2 0 0 1 = .undefined) ∧
    (XLALPSpinInspiralAttachRingdownWave ratRingdownEnv (List.replicate 220 5) unequalMasses 0
        80 1 2 2 0 0 1
      = .ok (List.replicate 158 5 ++ List.replicate 56 1 ++ List.replicate 6 5, 108)) := by
  refine ⟨fun atpos len j h1 h3 hj => readIndex_bound atpos len j h1 h3 hj,
    fun atpos len Nrdwave j h1 h3 hj => writeIndex_bound atpos len Nrdwave j h1 h3 hj,
    ⟨by decide!, by decide!⟩, ⟨by decide!, by decide!, by decide!⟩,
    ⟨by decide!, by decide!, by decide, by decide!, by decide!⟩, by decide!⟩

/-- C40: when the final mass and spin estimate succeeds, `XLALPSpinGenerateQNMFreq` returns
`XLAL_SUCCESS` for every `l ≠ 2`, whatever `m` and `nmodes` are, and leaves all entries of
`modefreqs` as they were; for `l = 2` and `m` outside `{-2, -1, 0, 1, 2}` it returns the
domain error `XLAL_EDOM`.  When the estimate fails, the function fails with `XLAL_EFUNC` for
every `l` and `m`. -/
theorem C40_unsupported_multipole {K : Type} [LinearOrderedField K] (env : RingdownEnv K)
    (modefreqs : List (COMPLEX8 K)) (params : InspiralTemplate K) (energy : K) (l : Nat)
    (m : Int) (nmodes : Nat) (LNhx LNhy LNhz : K) :
    ((XLALPSpinFinalMassSpin env.sqrt 0 params energy LNhx LNhy LNhz).1 = .ok () →
      (l ≠ 2 →
        XLALPSpinGenerateQNMFreq env modefreqs params energy l m nmodes LNhx LNhy LNhz
          = .ok modefreqs) ∧
      (l = 2 → m ≠ 2 → m ≠ -2 → m ≠ 0 → m ≠ 1 → m ≠ -1 →
        XLALPSpinGenerateQNMFreq env modefreqs params energy l m nmodes LNhx LNhy LNhz
          = .fail .XLAL_EDOM)) ∧
    (∀ e, (XLALPSpinFinalMassSpin env.sqrt 0 params energy LNhx LNhy LNhz).1 = .fail e →
      XLALPSpinGenerateQNMFreq env modefreqs params energy l m nmodes LNhx LNhy LNhz
        = .fail .XLAL_EFUNC) := by
  unfold XLALPSpinGenerateQNMFreq
  rcases hfin : XLALPSpinFinalMassSpin env.sqrt 0 params energy LNhx LNhy LNhz with
    ⟨st, finalMass, finalSpin⟩
  constructor
  · intro hst
    simp only at hst
    subst hst
    constructor
    · intro hl
      simp only [hl, ne_eq, not_false_eq_true, if_true]
    · intro hl h1 h2 h3 h4 h5
      simp only [hl, ne_eq, not_true_eq_false, if_false, h1, h2, h3, h4, h5]
  · intro e hst
    simp only at hst
    subst hst
    rfl

/-- Witness of C40, in the evaluation environment with `unequalMasses`, for which the
estimate succeeds: `l = 3` returns the vector unchanged, `l = 2` with `m = 3` fails with
`XLAL_EDOM`. -/
theorem C40_unsupported_multipole_witness :
    (XLALPSpinFinalMassSpin ratRingdownEnv.sqrt 0 unequalMasses 0 0 0 1).1 = .ok () ∧
    XLALPSpinGenerateQNMFreq ratRingdownEnv [⟨7, 8⟩, ⟨9, 10⟩] unequalMasses 0 3 2 2 0 0 1
      = .ok [⟨7, 8⟩, ⟨9, 10⟩] ∧
    XLALPSpinGenerateQNMFreq ratRingdownEnv [⟨7, 8⟩, ⟨9, 10⟩] unequalMasses 0 2 3 2 0 0 1
      = .fail .XLAL_EDOM :=
  ⟨by decide!,
    ((C40_unsupported_multipole ratRingdownEnv [⟨7, 8⟩, ⟨9, 10⟩] unequalMasses 0 3 2 2 0 0 1).1
      (by decide!)).1 (by decide),
    ((C40_unsupported_multipole ratRingdownEnv [⟨7, 8⟩, ⟨9, 10⟩] unequalMasses 0 2 3 2 0 0 1).1
      (by decide!)).2 rfl (by decide) (by decide) (by decide) (by decide) (by decide)⟩

end PSpin
